import Mathlib

/-!
# DSR routing engine (`dsr-routing.cc`): acknowledgment tiers, retries, source routes

A shallow embedding of `DsrRouting`
(`src/SDSR (with blackholes)/model/dsr-routing.cc`): the acknowledgment/retry
engine and the route helpers it uses, route discovery and route replies, the
blackhole bookkeeping, the network queues with their dispatcher, and the source
route option as the receivers read it; followed by theorems about them.

Conventions of the embedding.

* An `Ipv4Address` is the 32-bit value of the address; `"0.0.0.0"` is `0`.
* A `std::vector` is a `List`; a `std::map` is a function from keys to `Option`
  (lookup), with `operator[]` inserting a default value when the key is absent.
* Undefined behaviour of the C++ code (e.g. `vec.back ()` on an empty vector,
  dereferencing `end ()`) is the result `none`.
* Machine integers whose width is visible in the source (`uint8_t` segments-left,
  `uint16_t` acknowledgment ids) are natural numbers reduced with an explicit
  `% 2 ^ w` wherever the source narrows a value.
-/

namespace Dsr

/-- An IPv4 address, as its 32-bit value. -/
abbrev Ipv4Address := Nat

/-- The address `"0.0.0.0"`, used by the route helpers as "no next hop". -/
def noAddress : Ipv4Address := 0

/-! ## `DsrRouting::SearchNextHop` (dsr-routing.cc:850-880) -/

/-- The `for` loop of `SearchNextHop` (lines 868-875):
`for (i = vec.begin (); i != vec.end (); ++i) if (ipv4Address == *i) return *(++i);`.
Falling out of the loop reaches the `return none` of line 879 (`"0.0.0.0"`);
a match on the last element would dereference `vec.end ()`, which is undefined. -/
def SearchNextHop.loop (ipv4Address : Ipv4Address) : List Ipv4Address → Option Ipv4Address
  | [] => some noAddress
  | x :: rest =>
    if ipv4Address = x then
      match rest with
      | [] => none
      | y :: _ => some y
    else SearchNextHop.loop ipv4Address rest

/-- `DsrRouting::SearchNextHop (ipv4Address, vec)`. -/
def SearchNextHop (ipv4Address : Ipv4Address) (vec : List Ipv4Address) : Option Ipv4Address :=
  if vec.length = 2 then
    -- "The two nodes are neighbors": nextHop = vec[1]
    vec[1]?
  else
    match vec.getLast? with
    | none => none                       -- `vec.back ()` of an empty vector
    | some back =>
      if ipv4Address = back then some ipv4Address
      else SearchNextHop.loop ipv4Address vec

/-! ## Data model -/

/-- A duration or instant (`ns3::Time`), in ticks. -/
abbrev Time := Nat

/-- The fields of `DsrOptionSRHeader` the routing engine reads and writes:
the node list, segments-left (`uint8_t`), salvage (`uint8_t`) and the
acknowledgment flag (`uint16_t`).  The send count and the time stamp are
statistics carried along unchanged and are left out. -/
structure DsrOptionSRHeader where
  nodesAddress : List Ipv4Address
  segmentsLeft : Nat
  salvage : Nat
  ackFlag : Nat
  deriving DecidableEq, Repr

/-- A packet: its uid (kept by `Copy ()`) and the source route option it carries. -/
structure Packet where
  uid : Nat
  sourceRoute : DsrOptionSRHeader
  deriving DecidableEq, Repr

/-- `DsrMaintainBuffEntry`, in the order of the constructor arguments used in
dsr-routing.cc (packet, ourAddress, nextHop, source, destination, ackId,
SegsLeft, expire time). -/
structure DsrMaintainBuffEntry where
  packet : Packet
  ourAdd : Ipv4Address
  nextHop : Ipv4Address
  src : Ipv4Address
  dst : Ipv4Address
  ackId : Nat
  segsLeft : Nat
  expireTime : Time
  deriving DecidableEq, Repr

/-- `NetworkKey{ackId, ourAdd, nextHop, source, destination}`. -/
structure NetworkKey where
  m_ackId : Nat
  m_ourAdd : Ipv4Address
  m_nextHop : Ipv4Address
  m_source : Ipv4Address
  m_destination : Ipv4Address
  deriving DecidableEq, Repr

/-- `PassiveKey{ackId, source, destination, segsLeft}`. -/
structure PassiveKey where
  m_ackId : Nat
  m_source : Ipv4Address
  m_destination : Ipv4Address
  m_segsLeft : Nat
  deriving DecidableEq, Repr

/-- `LinkKey{source, destination, ourAdd, nextHop}`. -/
structure LinkKey where
  m_source : Ipv4Address
  m_destination : Ipv4Address
  m_ourAdd : Ipv4Address
  m_nextHop : Ipv4Address
  deriving DecidableEq, Repr

/-- The network key every site builds from a maintenance entry
(`networkKey.m_ackId = mb.GetAckId (); ...`). -/
def DsrMaintainBuffEntry.networkKey (mb : DsrMaintainBuffEntry) : NetworkKey :=
  { m_ackId := mb.ackId, m_ourAdd := mb.ourAdd, m_nextHop := mb.nextHop,
    m_source := mb.src, m_destination := mb.dst }

/-- The passive key every site builds from a maintenance entry
(`passiveKey.m_ackId = 0; passiveKey.m_source = mb.GetSrc (); ...`). -/
def DsrMaintainBuffEntry.passiveKey (mb : DsrMaintainBuffEntry) : PassiveKey :=
  { m_ackId := 0, m_source := mb.src, m_destination := mb.dst, m_segsLeft := mb.segsLeft }

/-- The link key every site builds from a maintenance entry
(`linkKey.m_source = mb.GetSrc (); ...`). -/
def DsrMaintainBuffEntry.linkKey (mb : DsrMaintainBuffEntry) : LinkKey :=
  { m_source := mb.src, m_destination := mb.dst, m_ourAdd := mb.ourAdd,
    m_nextHop := mb.nextHop }

/-- An `ns3::Timer` stored in one of the three timer maps: the arguments given
to `SetArguments (mb, protocol)` and the delay given to `Schedule`. -/
structure Timer where
  mb : DsrMaintainBuffEntry
  protocol : Nat
  delay : Time
  deriving DecidableEq, Repr

/-- Calls observed during a handler, in the order they are made.  The three
`Schedule*PacketRetry` events record the entry of the operation of that name;
the others record calls into collaborators that are outside the retry state
(egress queue, route cache, error and salvage processing, the simulator). -/
inductive Event where
  | SendPacket (packet : Packet) (source nextHop : Ipv4Address) (protocol : Nat)
  | ScheduleLinkPacketRetry (mb : DsrMaintainBuffEntry)
  | SchedulePassivePacketRetry (mb : DsrMaintainBuffEntry)
  | ScheduleNetworkPacketRetry (mb : DsrMaintainBuffEntry) (isFirst : Bool)
  | DeleteAllRoutesIncludeLink (errorSrc unreachNode node : Ipv4Address)
  | CancelPacketTimerNextHop (nextHop : Ipv4Address)
  | SendUnreachError (unreachNode : Ipv4Address) (errorDst : Option Ipv4Address)
      (originalDst : Ipv4Address) (salvage : Nat) (protocol : Nat)
  | SalvagePacket (packet : Packet) (source dst : Ipv4Address) (protocol : Nat)
  | ScheduleCancelPacketTimerNextHop (nextHop : Ipv4Address) (protocol : Nat)
  | SendBufferEnqueue (uid : Nat) (destination : Ipv4Address)
  | UseExtends (nodeList : List Ipv4Address)
  | ScheduleSendPacketFromBuffer (sourceRoute : DsrOptionSRHeader) (nextHop : Ipv4Address)
      (protocol : Nat)
  | ScheduleSendBuffTimerExpire
  | EnqueueFailed (mb : DsrMaintainBuffEntry)
  deriving DecidableEq, Repr

/-- The attributes of `DsrRouting` the retry engine reads (dsr-routing.cc:107-353)
and the node's own address.  `maintainAdmits` is the admission rule of the
maintenance buffer (see `DsrMaintainBuffer.Enqueue`). -/
structure Config where
  m_mainAddress : Ipv4Address
  m_linkAck : Bool
  m_tryLinkAcks : Nat
  m_tryPassiveAcks : Nat
  m_maxMaintRexmt : Nat
  m_nodeTraversalTime : Time
  m_linkAckTimeout : Time
  m_passiveAckTimeout : Time
  m_maxMaintainTime : Time
  isLinkCache : Bool
  maintainAdmits : List DsrMaintainBuffEntry → DsrMaintainBuffEntry → Bool

/-- The retry state of one `DsrRouting` instance: the maintenance buffer, the
three retry-counter maps, the three timer maps, the scratch members
`m_sendRetries`, `m_passiveRetries`, `m_linkRetries`, the member `m_ackId`, and
the calls made so far. -/
structure State where
  m_maintainBuffer : List DsrMaintainBuffEntry
  m_addressForwardCnt : NetworkKey → Option Nat
  m_passiveCnt : PassiveKey → Option Nat
  m_linkCnt : LinkKey → Option Nat
  m_addressForwardTimer : NetworkKey → Option Timer
  m_passiveAckTimer : PassiveKey → Option Timer
  m_linkAckTimer : LinkKey → Option Timer
  m_sendRetries : Nat
  m_passiveRetries : Nat
  m_linkRetries : Nat
  m_ackId : Nat
  trace : List Event

/-- The state of a freshly constructed `DsrRouting`: empty buffer and maps. -/
def State.init : State :=
  { m_maintainBuffer := [], m_addressForwardCnt := fun _ => none,
    m_passiveCnt := fun _ => none, m_linkCnt := fun _ => none,
    m_addressForwardTimer := fun _ => none, m_passiveAckTimer := fun _ => none,
    m_linkAckTimer := fun _ => none, m_sendRetries := 0, m_passiveRetries := 0,
    m_linkRetries := 0, m_ackId := 0, trace := [] }

/-- Record a call. -/
def State.emit (s : State) (e : Event) : State :=
  { s with trace := s.trace ++ [e] }

/-! ### `std::map` operations -/

/-- `m[k] = v`. -/
def mapSet {K V : Type} [DecidableEq K] (m : K → Option V) (k : K) (v : V) : K → Option V :=
  fun j => if j = k then some v else m j

/-- `m.erase (k)`. -/
def mapErase {K V : Type} [DecidableEq K] (m : K → Option V) (k : K) : K → Option V :=
  fun j => if j = k then none else m j

/-- The map after reading `m[k]`: `operator[]` inserts the value-initialised
element (`0` for a counter) when `k` is absent. -/
def mapTouch {K V : Type} [DecidableEq K] (m : K → Option V) (k : K) (dflt : V) :
    K → Option V :=
  fun j => if j = k then some ((m k).getD dflt) else m j

/-! ### The maintenance buffer (`DsrMaintainBuffer`)

`dsr-maintain-buff.cc` is not among the sources.  Its operations are modelled
from what dsr-routing.cc says about them where it calls them. -/

/-- Modelled from the spec: `DsrMaintainBuffer::Enqueue` (not in the sources).
The spec (4.3) gives each buffer a bounded admission ("max entry count (drop
newest on overflow)"); dsr-routing.cc uses the returned flag as "the entry was
stored".  The admission rule itself is the parameter `Config.maintainAdmits`;
an admitted entry is appended (`push_back`). -/
def DsrMaintainBuffer.Enqueue (cfg : Config) (buf : List DsrMaintainBuffEntry)
    (entry : DsrMaintainBuffEntry) : Bool × List DsrMaintainBuffEntry :=
  if cfg.maintainAdmits buf entry then (true, buf ++ [entry]) else (false, buf)

/-- The admission rule "at most `maxLen` entries, drop the newest" of spec 4.3. -/
def tailDrop (maxLen : Nat) : List DsrMaintainBuffEntry → DsrMaintainBuffEntry → Bool :=
  fun buf _ => decide (buf.length < maxLen)

/-- The fields compared by `AllEqual`: "find the exact entry". -/
def DsrMaintainBuffer.allEqualTo (entry i : DsrMaintainBuffEntry) : Bool :=
  decide (i.ourAdd = entry.ourAdd ∧ i.nextHop = entry.nextHop ∧ i.src = entry.src ∧
    i.dst = entry.dst ∧ i.ackId = entry.ackId ∧ i.segsLeft = entry.segsLeft)

/-- Modelled from the spec: `DsrMaintainBuffer::AllEqual` (not in the sources).
dsr-routing.cc:2669: "The function AllEqual will find the exact entry and
delete it if found". -/
def DsrMaintainBuffer.AllEqual (buf : List DsrMaintainBuffEntry)
    (entry : DsrMaintainBuffEntry) : Bool × List DsrMaintainBuffEntry :=
  (buf.any (DsrMaintainBuffer.allEqualTo entry), buf.eraseP (DsrMaintainBuffer.allEqualTo entry))

/-- The fields compared by `NetworkEqual`: those of the network key
(dsr-routing.cc:2317-2318: "this does not check the segments left value"). -/
def DsrMaintainBuffer.networkEqualTo (entry i : DsrMaintainBuffEntry) : Bool :=
  decide (i.ourAdd = entry.ourAdd ∧ i.nextHop = entry.nextHop ∧ i.src = entry.src ∧
    i.dst = entry.dst ∧ i.ackId = entry.ackId)

/-- Modelled from the spec: `DsrMaintainBuffer::NetworkEqual` (not in the sources).
dsr-routing.cc:2317-2321: "Erase the maintenance entry, yet this does not check
the segments left value here"; "Remove same maintenance buffer entry based on
network acknowledgment".  Like `AllEqual` it finds an entry and deletes it. -/
def DsrMaintainBuffer.NetworkEqual (buf : List DsrMaintainBuffEntry)
    (entry : DsrMaintainBuffEntry) : Bool × List DsrMaintainBuffEntry :=
  (buf.any (DsrMaintainBuffer.networkEqualTo entry),
    buf.eraseP (DsrMaintainBuffer.networkEqualTo entry))

/-- The fields compared by `LinkEqual`: those of the link key. -/
def DsrMaintainBuffer.linkEqualTo (entry i : DsrMaintainBuffEntry) : Bool :=
  decide (i.src = entry.src ∧ i.dst = entry.dst ∧ i.ourAdd = entry.ourAdd ∧
    i.nextHop = entry.nextHop)

/-- Modelled from the spec: `DsrMaintainBuffer::LinkEqual` (not in the sources).
dsr-routing.cc:2266-2271: "Erase the maintenance entry"; "Link acknowledgment
received, remove same maintenance buffer entry". -/
def DsrMaintainBuffer.LinkEqual (buf : List DsrMaintainBuffEntry)
    (entry : DsrMaintainBuffEntry) : Bool × List DsrMaintainBuffEntry :=
  (buf.any (DsrMaintainBuffer.linkEqualTo entry),
    buf.eraseP (DsrMaintainBuffer.linkEqualTo entry))

/-- The fields compared by `PromiscEqual` (dsr-routing.cc:2191-2192: "It only
compares the source and destination address, ackId, and the segments left
value"). -/
def DsrMaintainBuffer.promiscEqualTo (entry i : DsrMaintainBuffEntry) : Bool :=
  decide (i.src = entry.src ∧ i.dst = entry.dst ∧ i.segsLeft = entry.segsLeft ∧
    i.ackId = entry.ackId)

/-- Modelled from the spec: `DsrMaintainBuffer::PromiscEqual` (not in the sources).
dsr-routing.cc:2191: "The PromiscEqual function will remove the maintain buffer
entry if equal value found". -/
def DsrMaintainBuffer.PromiscEqual (buf : List DsrMaintainBuffEntry)
    (entry : DsrMaintainBuffEntry) : Bool × List DsrMaintainBuffEntry :=
  (buf.any (DsrMaintainBuffer.promiscEqualTo entry),
    buf.eraseP (DsrMaintainBuffer.promiscEqualTo entry))

/-- Modelled from the spec: `DsrMaintainBuffer::Dequeue (nextHop, entry)` (not in
the sources): spec 4.3 "a find/dequeue-by-destination or by-next-hop
operation".  It returns the first entry whose next hop is `nextHop`, removed
from the buffer. -/
def DsrMaintainBuffer.Dequeue (buf : List DsrMaintainBuffEntry) (nextHop : Ipv4Address) :
    Option (DsrMaintainBuffEntry × List DsrMaintainBuffEntry) :=
  match buf.find? (fun i => decide (i.nextHop = nextHop)) with
  | none => none
  | some entry => some (entry, buf.eraseP (fun i => decide (i.nextHop = nextHop)))

/-- Modelled from the spec: `DsrMaintainBuffer::Find (nextHop)` (not in the
sources): whether some entry has this next hop. -/
def DsrMaintainBuffer.Find (buf : List DsrMaintainBuffEntry) (nextHop : Ipv4Address) : Bool :=
  buf.any (fun i => decide (i.nextHop = nextHop))

/-! ### Sending and the three `Schedule*PacketRetry` operations -/

/-- `DsrRouting::SendPacket` (dsr-routing.cc:1765-1792): the packet is handed to
the data priority queue; the retry state is not touched. -/
def SendPacket (packet : Packet) (source nextHop : Ipv4Address) (protocol : Nat)
    (s : State) : State :=
  s.emit (Event.SendPacket packet source nextHop protocol)

/-- The packet `sendp` rebuilt at dsr-routing.cc:2552-2589 and 2714-2752: the source
route of the buffered packet with the acknowledgment flag set to 2. -/
def withAckFlag2 (p : Packet) : Packet :=
  { uid := p.uid,
    sourceRoute :=
      { nodesAddress := p.sourceRoute.nodesAddress,
        segmentsLeft := p.sourceRoute.segmentsLeft,
        salvage := p.sourceRoute.salvage,
        ackFlag := 2 } }

/-- `DsrRouting::ScheduleLinkPacketRetry` (dsr-routing.cc:2535-2609). -/
def ScheduleLinkPacketRetry (cfg : Config) (mb : DsrMaintainBuffEntry) (protocol : Nat)
    (s : State) : State :=
  let s0 := s.emit (Event.ScheduleLinkPacketRetry mb)
  -- Send the data packet out before schedule the next packet transmission
  let s1 := SendPacket (withAckFlag2 mb.packet) mb.src mb.nextHop protocol s0
  -- m_linkAckTimer[linkKey]: SetFunction, Remove, SetArguments, Schedule
  let timer : Timer := { mb := mb, protocol := protocol, delay := cfg.m_linkAckTimeout }
  { s1 with m_linkAckTimer := mapSet s1.m_linkAckTimer mb.linkKey timer }

/-- `DsrRouting::SchedulePassivePacketRetry` (dsr-routing.cc:2611-2640). -/
def SchedulePassivePacketRetry (cfg : Config) (mb : DsrMaintainBuffEntry) (protocol : Nat)
    (s : State) : State :=
  let s0 := s.emit (Event.SchedulePassivePacketRetry mb)
  let s1 := SendPacket mb.packet mb.src mb.nextHop protocol s0
  let timer : Timer := { mb := mb, protocol := protocol, delay := cfg.m_passiveAckTimeout }
  { s1 with m_passiveAckTimer := mapSet s1.m_passiveAckTimer mb.passiveKey timer }

/-- The entry `newEntry` of the first network retry (dsr-routing.cc:2658-2673):
a copy of `mb` with the packet just sent, the acknowledgment id
`(uint16_t) p->GetUid ()` and the expire time `m_maxMaintainTime`. -/
def networkEntry (cfg : Config) (mb : DsrMaintainBuffEntry) : DsrMaintainBuffEntry :=
  { mb with packet := mb.packet, ackId := mb.packet.uid % 2 ^ 16,
            expireTime := cfg.m_maxMaintainTime }

/-- `DsrRouting::ScheduleNetworkPacketRetry` (dsr-routing.cc:2642-2804). -/
def ScheduleNetworkPacketRetry (cfg : Config) (mb : DsrMaintainBuffEntry) (isFirst : Bool)
    (protocol : Nat) (s : State) : State :=
  let s0 := s.emit (Event.ScheduleNetworkPacketRetry mb isFirst)
  if isFirst then
    -- This is the very first network packet retry
    let p := mb.packet
    let s1 := SendPacket p mb.src mb.nextHop protocol s0
    -- The function AllEqual will find the exact entry and delete it if found
    let buf1 := (DsrMaintainBuffer.AllEqual s1.m_maintainBuffer mb).2
    let newEntry := networkEntry cfg mb
    let networkKey := newEntry.networkKey
    let cnt := mapSet s1.m_addressForwardCnt networkKey 0
    let r := DsrMaintainBuffer.Enqueue cfg buf1 newEntry
    let s2 : State :=
      { s1 with m_maintainBuffer := r.2, m_addressForwardCnt := cnt }
    let s3 := if r.1 then s2 else s2.emit (Event.EnqueueFailed newEntry)
    -- Back-off mechanism
    let timer : Timer :=
      { mb := newEntry, protocol := protocol, delay := 2 * cfg.m_nodeTraversalTime }
    { s3 with m_addressForwardTimer := mapSet s3.m_addressForwardTimer networkKey timer }
  else
    let sendp := withAckFlag2 mb.packet
    let networkKey := mb.networkKey
    -- m_sendRetries = m_addressForwardCnt[networkKey]
    let sendRetries := (s0.m_addressForwardCnt networkKey).getD 0
    let s1 : State :=
      { s0 with m_addressForwardCnt := mapTouch s0.m_addressForwardCnt networkKey 0,
                m_sendRetries := sendRetries }
    let s2 := SendPacket sendp mb.src mb.nextHop protocol s1
    -- Back-off mechanism
    let timer : Timer :=
      { mb := mb, protocol := protocol,
        delay := 2 * s2.m_sendRetries * cfg.m_nodeTraversalTime }
    { s2 with m_addressForwardTimer := mapSet s2.m_addressForwardTimer networkKey timer }

/-! ### Cancel operations -/

/-- `DsrRouting::CancelLinkPacketTimer` (dsr-routing.cc:2225-2273). -/
def CancelLinkPacketTimer (mb : DsrMaintainBuffEntry) (s : State) : State :=
  let linkKey := mb.linkKey
  -- m_linkCnt[linkKey] = 0; m_linkCnt.erase (linkKey);
  let cnt := mapErase (mapSet s.m_linkCnt linkKey 0) linkKey
  -- find the timer; if found: Cancel, Remove, erase
  let timers :=
    if (s.m_linkAckTimer linkKey).isNone then s.m_linkAckTimer
    else mapErase s.m_linkAckTimer linkKey
  -- if (m_maintainBuffer.LinkEqual (mb)) ...
  let buf := (DsrMaintainBuffer.LinkEqual s.m_maintainBuffer mb).2
  { s with m_linkCnt := cnt, m_linkAckTimer := timers, m_maintainBuffer := buf }

/-- `DsrRouting::CancelNetworkPacketTimer` (dsr-routing.cc:2275-2323). -/
def CancelNetworkPacketTimer (mb : DsrMaintainBuffEntry) (s : State) : State :=
  let networkKey := mb.networkKey
  -- m_addressForwardCnt[networkKey] = 0; m_addressForwardCnt.erase (networkKey);
  let cnt := mapErase (mapSet s.m_addressForwardCnt networkKey 0) networkKey
  -- find the timer; if found: Cancel, Remove, erase
  let timers :=
    if (s.m_addressForwardTimer networkKey).isNone then s.m_addressForwardTimer
    else mapErase s.m_addressForwardTimer networkKey
  -- if (m_maintainBuffer.NetworkEqual (mb)) ...
  let buf := (DsrMaintainBuffer.NetworkEqual s.m_maintainBuffer mb).2
  { s with m_addressForwardCnt := cnt, m_addressForwardTimer := timers,
           m_maintainBuffer := buf }

/-- `DsrRouting::CancelPassivePacketTimer` (dsr-routing.cc:2325-2359). -/
def CancelPassivePacketTimer (mb : DsrMaintainBuffEntry) (s : State) : State :=
  let passiveKey := mb.passiveKey
  -- m_passiveCnt[passiveKey] = 0; m_passiveCnt.erase (passiveKey);
  let cnt := mapErase (mapSet s.m_passiveCnt passiveKey 0) passiveKey
  let timers :=
    if (s.m_passiveAckTimer passiveKey).isNone then s.m_passiveAckTimer
    else mapErase s.m_passiveAckTimer passiveKey
  { s with m_passiveCnt := cnt, m_passiveAckTimer := timers }

/-- `DsrRouting::CancelPacketAllTimer` (dsr-routing.cc:2216-2223). -/
def CancelPacketAllTimer (mb : DsrMaintainBuffEntry) (s : State) : State :=
  CancelPassivePacketTimer mb (CancelNetworkPacketTimer mb (CancelLinkPacketTimer mb s))

/-- The entry `CallCancelPacketTimer` builds from an acknowledgment: `sender` is
the destination and `receiver` the source of the IPv4 header that carried it.
Its packet is a fresh empty one that is never sent. -/
def ackEntry (ackId : Nat) (sender receiver realSrc realDst : Ipv4Address) (now : Time) :
    DsrMaintainBuffEntry :=
  { packet := { uid := 0, sourceRoute :=
      { nodesAddress := [], segmentsLeft := 0, salvage := 0, ackFlag := 0 } },
    ourAdd := sender, nextHop := receiver, src := realSrc, dst := realDst,
    ackId := ackId, segsLeft := 0, expireTime := now }

/-- `DsrRouting::CallCancelPacketTimer` (dsr-routing.cc:2199-2214): "Only need to
cancel network packet timer". -/
def CallCancelPacketTimer (ackId : Nat) (ipv4Destination ipv4Source : Ipv4Address)
    (realSrc realDst : Ipv4Address) (now : Time) (s : State) : State :=
  CancelNetworkPacketTimer (ackEntry ackId ipv4Destination ipv4Source realSrc realDst now) s

/-- The entry `CancelPassiveTimer` builds from an overheard packet
(dsr-routing.cc:2182-2187): acknowledgment id 0 and segments-left one more than
overheard (`uint8_t`). -/
def passiveEntry (packet : Packet) (source destination : Ipv4Address) (segsLeft : Nat) :
    DsrMaintainBuffEntry :=
  { packet := packet, ourAdd := 0, nextHop := 0, src := source, dst := destination,
    ackId := 0, segsLeft := (segsLeft + 1) % 2 ^ 8, expireTime := 0 }

/-- `DsrRouting::CancelPassiveTimer` (dsr-routing.cc:2172-2197). -/
def CancelPassiveTimer (packet : Packet) (source destination : Ipv4Address) (segsLeft : Nat)
    (s : State) : Bool × State :=
  let newEntry := passiveEntry packet source destination segsLeft
  let r := DsrMaintainBuffer.PromiscEqual s.m_maintainBuffer newEntry
  if r.1 then
    (true, CancelPassivePacketTimer newEntry { s with m_maintainBuffer := r.2 })
  else (false, s)

/-- The destination of the route error sent by `CancelPacketTimerNextHop`
(dsr-routing.cc:2390-2406).  `Ipv4Address address1 = nodeList[1];` is read
first, whatever the salvage count; then the error destination is `address1` when
the salvage count of the buffered packet is not zero, and the packet's source
otherwise.  `none` stands for the access outside the vector. -/
def CancelPacketTimerNextHop.errorDst (entry : DsrMaintainBuffEntry) : Option Ipv4Address :=
  match entry.packet.sourceRoute.nodesAddress[1]? with
  | none => none
  | some address1 =>
    if entry.packet.sourceRoute.salvage ≠ 0 then some address1
    else some entry.src

/-- The block of `DsrRouting::CancelPacketTimerNextHop` that handles the entry
taken from the maintenance buffer (dsr-routing.cc:2370-2427).
`SendUnreachError` and `SalvagePacket` work on the route cache, the error buffer
and the egress queue; they are recorded as calls. -/
def CancelPacketTimerNextHop.withEntry (nextHop : Ipv4Address) (protocol : Nat)
    (entry : DsrMaintainBuffEntry) (s1 : State) : State :=
  let source := entry.src
  let destination := entry.dst
  let salvage := entry.packet.sourceRoute.salvage
  let errorDst := CancelPacketTimerNextHop.errorDst entry
  -- previousErrorDst is empty here: the error is always sent
  let s2 := s1.emit (Event.SendUnreachError nextHop errorDst destination salvage protocol)
  -- Cancel the packet timer and then salvage the data packet
  let s3 := CancelPacketAllTimer entry s2
  let s4 := s3.emit (Event.SalvagePacket entry.packet source destination protocol)
  if s4.m_maintainBuffer.length ≠ 0 ∧ DsrMaintainBuffer.Find s4.m_maintainBuffer nextHop = true then
    s4.emit (Event.ScheduleCancelPacketTimerNextHop nextHop protocol)
  else s4

/-- `DsrRouting::CancelPacketTimerNextHop` (dsr-routing.cc:2361-2434). -/
def CancelPacketTimerNextHop (nextHop : Ipv4Address) (protocol : Nat) (s : State) : State :=
  let s0 := s.emit (Event.CancelPacketTimerNextHop nextHop)
  match DsrMaintainBuffer.Dequeue s0.m_maintainBuffer nextHop with
  | some (entry, buf) =>
    CancelPacketTimerNextHop.withEntry nextHop protocol entry { s0 with m_maintainBuffer := buf }
  | none =>
    -- Maintenance buffer entry not found
    s0

/-! ### Timer expiry handlers -/

/-- `DsrRouting::LinkScheduleTimerExpire` (dsr-routing.cc:2806-2851). -/
def LinkScheduleTimerExpire (cfg : Config) (mb : DsrMaintainBuffEntry) (protocol : Nat)
    (s : State) : State :=
  let nextHop := mb.nextHop
  let lk := mb.linkKey
  -- m_linkAckTimer[lk].Cancel (); .Remove (); m_linkAckTimer.erase (lk);
  let s1 : State := { s with m_linkAckTimer := mapErase s.m_linkAckTimer lk }
  -- m_linkRetries = m_linkCnt[lk];
  let linkRetries := (s1.m_linkCnt lk).getD 0
  let s2 : State :=
    { s1 with m_linkCnt := mapTouch s1.m_linkCnt lk 0, m_linkRetries := linkRetries }
  if s2.m_linkRetries < cfg.m_tryLinkAcks then
    -- m_linkCnt[lk] = ++m_linkRetries;
    let s3 : State :=
      { s2 with m_linkRetries := s2.m_linkRetries + 1,
                m_linkCnt := mapSet s2.m_linkCnt lk (s2.m_linkRetries + 1) }
    ScheduleLinkPacketRetry cfg mb protocol s3
  else
    -- Delete all the routes including the links
    let s3 := s2.emit (Event.DeleteAllRoutesIncludeLink cfg.m_mainAddress nextHop cfg.m_mainAddress)
    CancelPacketTimerNextHop nextHop protocol s3

/-- `DsrRouting::PassiveScheduleTimerExpire` (dsr-routing.cc:2853-2893). -/
def PassiveScheduleTimerExpire (cfg : Config) (mb : DsrMaintainBuffEntry) (protocol : Nat)
    (s : State) : State :=
  let pk := mb.passiveKey
  -- m_passiveAckTimer[pk].Cancel (); .Remove (); m_passiveAckTimer.erase (pk);
  let s1 : State := { s with m_passiveAckTimer := mapErase s.m_passiveAckTimer pk }
  -- m_passiveRetries = m_passiveCnt[pk];
  let passiveRetries := (s1.m_passiveCnt pk).getD 0
  let s2 : State :=
    { s1 with m_passiveCnt := mapTouch s1.m_passiveCnt pk 0, m_passiveRetries := passiveRetries }
  if s2.m_passiveRetries < cfg.m_tryPassiveAcks then
    -- m_passiveCnt[pk] = ++m_passiveRetries;
    let s3 : State :=
      { s2 with m_passiveRetries := s2.m_passiveRetries + 1,
                m_passiveCnt := mapSet s2.m_passiveCnt pk (s2.m_passiveRetries + 1) }
    SchedulePassivePacketRetry cfg mb protocol s3
  else
    -- This is the first network acknowledgement retry
    let s3 := CancelPassivePacketTimer mb s2
    ScheduleNetworkPacketRetry cfg mb true protocol s3

/-- `DsrRouting::NetworkScheduleTimerExpire` (dsr-routing.cc:2903-2937). -/
def NetworkScheduleTimerExpire (cfg : Config) (mb : DsrMaintainBuffEntry) (protocol : Nat)
    (s : State) : State :=
  let nextHop := mb.nextHop
  let networkKey := mb.networkKey
  -- m_sendRetries = m_addressForwardCnt[networkKey];
  let sendRetries := (s.m_addressForwardCnt networkKey).getD 0
  let s1 : State :=
    { s with m_addressForwardCnt := mapTouch s.m_addressForwardCnt networkKey 0,
             m_sendRetries := sendRetries }
  if s1.m_sendRetries ≥ cfg.m_maxMaintRexmt then
    -- Delete all the routes including the links
    let s2 := s1.emit (Event.DeleteAllRoutesIncludeLink cfg.m_mainAddress nextHop cfg.m_mainAddress)
    CancelPacketTimerNextHop nextHop protocol s2
  else
    -- m_addressForwardCnt[networkKey] = ++m_sendRetries;
    let s2 : State :=
      { s1 with m_sendRetries := s1.m_sendRetries + 1,
                m_addressForwardCnt := mapSet s1.m_addressForwardCnt networkKey (s1.m_sendRetries + 1) }
    ScheduleNetworkPacketRetry cfg mb false protocol s2

/-! ### The sites that dispatch a data packet -/

/-- The value stored by `SetSegmentsLeft (nodeList.size () - 2)` and by the
`SegsLeft` argument `nodeList.size () - 2` of a maintenance entry: the
subtraction is done in `size_t` and narrowed to `uint8_t`. -/
def segsLeftOfSize (size : Nat) : Nat :=
  ((size + 2 ^ 64 - 2) % 2 ^ 64) % 2 ^ 8

/-- The source route header written by `Send`, `PacketNewRoute` and
`CheckSendBuffer` for a packet sent along `nodeList`:
`SetNodesAddress (nodeList)`, `SetSegmentsLeft (nodeList.size () - 2)`,
`SetSalvage (0)`, `SetAckFlag (3)`. -/
def freshSourceRoute (nodeList : List Ipv4Address) : DsrOptionSRHeader :=
  { nodesAddress := nodeList, segmentsLeft := segsLeftOfSize nodeList.length,
    salvage := 0, ackFlag := 3 }

/-- The maintenance entry built by `Send` (lines 1662-1664), `PacketNewRoute`
(lines 1346-1348) and `CheckSendBuffer` (lines 1103-1105):
`DsrMaintainBuffEntry newEntry (mtP, m_mainAddress, nextHop, source,
destination, 0, nodeList.size () - 2, m_maxMaintainTime)`. -/
def sourceEntry (cfg : Config) (packet : Nat) (nodeList : List Ipv4Address)
    (nextHop source destination : Ipv4Address) : DsrMaintainBuffEntry :=
  { packet := { uid := packet, sourceRoute := freshSourceRoute nodeList },
    ourAdd := cfg.m_mainAddress, nextHop := nextHop, src := source,
    dst := destination, ackId := 0, segsLeft := segsLeftOfSize nodeList.length,
    expireTime := cfg.m_maxMaintainTime }

/-- The maintenance entry built by `SendPacketFromBuffer` (lines 1960-1962) for
the packet taken from the send buffer, with the header it was given. -/
def bufferedEntry (cfg : Config) (packet : Nat) (sourceRoute : DsrOptionSRHeader)
    (nextHop source destination : Ipv4Address) : DsrMaintainBuffEntry :=
  { packet := { uid := packet, sourceRoute := sourceRoute },
    ourAdd := cfg.m_mainAddress, nextHop := nextHop, src := source,
    dst := destination, ackId := 0,
    segsLeft := segsLeftOfSize sourceRoute.nodesAddress.length,
    expireTime := cfg.m_maxMaintainTime }

/-- The maintenance entry built by `ForwardPacket` (lines 2967-2969):
acknowledgment id `m_ackId`, segments-left as in the forwarded header. -/
def forwardEntry (cfg : Config) (m_ackId : Nat) (packet : Nat)
    (sourceRoute : DsrOptionSRHeader) (source nextHop targetAddress : Ipv4Address) :
    DsrMaintainBuffEntry :=
  { packet := { uid := packet, sourceRoute := sourceRoute },
    ourAdd := cfg.m_mainAddress, nextHop := nextHop, src := source,
    dst := targetAddress, ackId := m_ackId, segsLeft := sourceRoute.segmentsLeft,
    expireTime := cfg.m_maxMaintainTime }

/-- `DsrRouting::PacketNewRoute` (dsr-routing.cc:1275-1395).  `toDst` is the
result of `m_routeCache->LookupRoute (destination, toDst)`; the nested call of
line 1324 looks the same destination up again in the unchanged cache.  `fuel`
bounds the depth of that self-call; `none` is a call that does not return. -/
def PacketNewRoute (cfg : Config) (toDst : Option (List Ipv4Address)) :
    Nat → Nat → Ipv4Address → Ipv4Address → Nat → State → Option State
  | 0, _, _, _, _, _ => none
  | fuel + 1, packet, source, destination, protocol, s =>
    match toDst with
    | none =>
      -- there is no route for this packet, queue the packet
      some (s.emit (Event.SendBufferEnqueue packet destination))
    | some nodeList =>
      match SearchNextHop cfg.m_mainAddress nodeList with
      | none => none
      | some nextHop =>
        if nextHop = noAddress then
          PacketNewRoute cfg toDst fuel packet source destination protocol s
        else
          let s0 := if cfg.isLinkCache then s.emit (Event.UseExtends nodeList) else s
          let newEntry := sourceEntry cfg packet nodeList nextHop source destination
          let r := DsrMaintainBuffer.Enqueue cfg s0.m_maintainBuffer newEntry
          if r.1 then
            let s1 : State :=
              { s0 with m_maintainBuffer := r.2,
                        m_addressForwardCnt := mapSet s0.m_addressForwardCnt newEntry.networkKey 0,
                        m_passiveCnt := mapSet s0.m_passiveCnt newEntry.passiveKey 0,
                        m_linkCnt := mapSet s0.m_linkCnt newEntry.linkKey 0 }
            if cfg.m_linkAck then
              some (ScheduleLinkPacketRetry cfg newEntry protocol s1)
            else if nextHop ≠ destination then
              some (SchedulePassivePacketRetry cfg newEntry protocol s1)
            else
              -- This is the first network retry
              some (ScheduleNetworkPacketRetry cfg newEntry true protocol s1)
          else some s0

/-- `DsrRouting::Send` (dsr-routing.cc:1557-1721).  `toDst` is the result of
`m_routeCache->LookupRoute (destination, toDst)`; `sendBufferPending` is the
value of `m_sendBuffer.GetSize () != 0 && m_sendBuffer.Find (destination)` at
line 1712.  The statistics counters and the black-list bookkeeping of lines
1633-1642 do not enter the header fields modelled or the retry state. -/
def Send (cfg : Config) (toDst : Option (List Ipv4Address)) (sendBufferPending : Bool)
    (fuel : Nat) (packet : Nat) (source destination : Ipv4Address) (protocol : Nat)
    (s : State) : Option State :=
  if protocol = 1 then
    -- Drop packet. Not handling ICMP packet for now
    some s
  else
    match toDst with
    | none =>
      -- there is no route for this packet, queue the packet
      some (s.emit (Event.SendBufferEnqueue packet destination))
    | some nodeList =>
      match SearchNextHop cfg.m_mainAddress nodeList with
      | none => none
      | some nextHop =>
        if nextHop = noAddress then
          PacketNewRoute cfg toDst fuel packet source destination protocol s
        else
          let s0 := if cfg.isLinkCache then s.emit (Event.UseExtends nodeList) else s
          let sourceRoute := freshSourceRoute nodeList
          let newEntry := sourceEntry cfg packet nodeList nextHop source destination
          let r := DsrMaintainBuffer.Enqueue cfg s0.m_maintainBuffer newEntry
          let s2 : State :=
            if r.1 then
              let s1 : State :=
                { s0 with m_maintainBuffer := r.2,
                          m_addressForwardCnt := mapSet s0.m_addressForwardCnt newEntry.networkKey 0,
                          m_passiveCnt := mapSet s0.m_passiveCnt newEntry.passiveKey 0,
                          m_linkCnt := mapSet s0.m_linkCnt newEntry.linkKey 0 }
              if cfg.m_linkAck then
                ScheduleLinkPacketRetry cfg newEntry protocol s1
              else if nextHop ≠ destination then
                SchedulePassivePacketRetry cfg newEntry protocol s1
              else
                -- This is the first network retry
                ScheduleNetworkPacketRetry cfg newEntry true protocol s1
            else s0
          if sendBufferPending then
            some (s2.emit (Event.ScheduleSendPacketFromBuffer sourceRoute nextHop protocol))
          else some s2

/-- The body of the loop of `DsrRouting::CheckSendBuffer` for a send-buffer
entry that holds a data packet (option type other than 3) and for which
`LookupRoute` found the route `nodeList` (dsr-routing.cc:1069-1158). -/
def CheckSendBuffer.sendData (cfg : Config) (nodeList : List Ipv4Address) (fuel : Nat)
    (packet : Nat) (destination : Ipv4Address) (protocol : Nat) (s : State) : Option State :=
  match SearchNextHop cfg.m_mainAddress nodeList with
  | none => none
  | some nextHop =>
    if nextHop = noAddress then
      PacketNewRoute cfg (some nodeList) fuel packet cfg.m_mainAddress destination protocol s
    else
      let s0 := if cfg.isLinkCache then s.emit (Event.UseExtends nodeList) else s
      let newEntry := sourceEntry cfg packet nodeList nextHop cfg.m_mainAddress destination
      let r := DsrMaintainBuffer.Enqueue cfg s0.m_maintainBuffer newEntry
      let s2 : State :=
        if r.1 then
          let s1 : State :=
            { s0 with m_maintainBuffer := r.2,
                      m_addressForwardCnt := mapSet s0.m_addressForwardCnt newEntry.networkKey 0,
                      m_passiveCnt := mapSet s0.m_passiveCnt newEntry.passiveKey 0,
                      m_linkCnt := mapSet s0.m_linkCnt newEntry.linkKey 0 }
          if cfg.m_linkAck then
            ScheduleLinkPacketRetry cfg newEntry protocol s1
          else if nextHop ≠ destination then
            SchedulePassivePacketRetry cfg newEntry protocol s1
          else
            -- This is the first network retry
            ScheduleNetworkPacketRetry cfg newEntry true protocol s1
        else s0
      some (s2.emit Event.ScheduleSendBuffTimerExpire)

/-- The branch of `DsrRouting::SendPacketFromBuffer` that takes a data packet
from the send buffer (dsr-routing.cc:1910-2021).  `found` is
`m_sendBuffer.Find (destination)`, `dequeued` the packet returned by
`m_sendBuffer.Dequeue (destination, entry)` (if any) and `morePending` the
test of line 2010.  When `found` is false the function turns to the error
buffer, which does not involve the retry state. -/
def SendPacketFromBuffer (cfg : Config) (found : Bool) (dequeued : Option Nat)
    (morePending : Bool) (sourceRoute : DsrOptionSRHeader) (nextHop : Ipv4Address)
    (protocol : Nat) (s : State) : Option State :=
  -- sourceRoute.SetSendCout (0); sourceRoute.SetAckFlag (3);
  let sourceRoute : DsrOptionSRHeader := { sourceRoute with ackFlag := 3 }
  let nodeList := sourceRoute.nodesAddress
  match nodeList.getLast?, nodeList.head? with
  | some destination, some source =>
    if found then
      let s0 := if cfg.isLinkCache then s.emit (Event.UseExtends nodeList) else s
      match dequeued with
      | some packet =>
        let newEntry := bufferedEntry cfg packet sourceRoute nextHop source destination
        let r := DsrMaintainBuffer.Enqueue cfg s0.m_maintainBuffer newEntry
        let s2 : State :=
          if r.1 then
            let s1 : State :=
              { s0 with m_maintainBuffer := r.2,
                        m_addressForwardCnt := mapSet s0.m_addressForwardCnt newEntry.networkKey 0,
                        m_passiveCnt := mapSet s0.m_passiveCnt newEntry.passiveKey 0,
                        m_linkCnt := mapSet s0.m_linkCnt newEntry.linkKey 0 }
            if cfg.m_linkAck then
              ScheduleLinkPacketRetry cfg newEntry protocol s1
            else if nextHop ≠ destination then
              SchedulePassivePacketRetry cfg newEntry protocol s1
            else
              -- This is the first network retry
              ScheduleNetworkPacketRetry cfg newEntry true protocol s1
          else s0
        if morePending then
          some (s2.emit (Event.ScheduleSendPacketFromBuffer sourceRoute nextHop protocol))
        else some s2
      | none =>
        -- All queued packets are out-dated for the destination in send buffer
        some s0
    else some s
  | _, _ => none        -- `nodeList.back ()` / `nodeList.front ()` of an empty vector

/-- `DsrRouting::ForwardPacket` (dsr-routing.cc:2939-3015).  `packet` is the uid
of the packet being forwarded; the entry takes its acknowledgment id from the
member `m_ackId`. -/
def ForwardPacket (cfg : Config) (packet : Nat) (sourceRoute : DsrOptionSRHeader)
    (source nextHop targetAddress : Ipv4Address) (protocol : Nat) (s : State) : State :=
  let newEntry := forwardEntry cfg s.m_ackId packet sourceRoute source nextHop targetAddress
  let r := DsrMaintainBuffer.Enqueue cfg s.m_maintainBuffer newEntry
  if r.1 then
    let s1 : State :=
      { s with m_maintainBuffer := r.2,
               m_addressForwardCnt := mapSet s.m_addressForwardCnt newEntry.networkKey 0,
               m_passiveCnt := mapSet s.m_passiveCnt newEntry.passiveKey 0,
               m_linkCnt := mapSet s.m_linkCnt newEntry.linkKey 0 }
    if cfg.m_linkAck then
      ScheduleLinkPacketRetry cfg newEntry protocol s1
    else if nextHop ≠ targetAddress then
      SchedulePassivePacketRetry cfg newEntry protocol s1
    else
      -- This is the first network retry
      ScheduleNetworkPacketRetry cfg newEntry true protocol s1
  else s

/-! ### Receiving a source-routed packet: `processSr` -/

/-- `DsrRouting::ReverseSearchNextHop` (dsr-routing.cc:4031-4055): the element
before the last occurrence of the address; the reverse loop has the shape of
the loop of `SearchNextHop` run on the reversed vector. -/
def ReverseSearchNextHop (ipv4Address : Ipv4Address) (vec : List Ipv4Address) :
    Option Ipv4Address :=
  if vec.length = 2 then vec[0]?
  else SearchNextHop.loop ipv4Address vec.reverse

/-- The reverse loop of `ReverseSearchNextTwoHop`: on a match `*(ri + 2)`;
falling out of the loop is `NS_FATAL_ERROR`. -/
def ReverseSearchNextTwoHop.loop (ipv4Address : Ipv4Address) :
    List Ipv4Address → Option Ipv4Address
  | [] => none
  | x :: rest =>
    if ipv4Address = x then rest[1]?
    else ReverseSearchNextTwoHop.loop ipv4Address rest

/-- `DsrRouting::ReverseSearchNextTwoHop` (dsr-routing.cc:4057-4074), with its
`NS_ASSERT (vec.size () > 2)`. -/
def ReverseSearchNextTwoHop (ipv4Address : Ipv4Address) (vec : List Ipv4Address) :
    Option Ipv4Address :=
  if vec.length > 2 then ReverseSearchNextTwoHop.loop ipv4Address vec.reverse else none

/-- `Ipv4Address::IsMulticast`: the address lies in 224.0.0.0/4. -/
def IsMulticast (a : Ipv4Address) : Bool :=
  decide (0xe0000000 ≤ a ∧ a ≤ 0xefffffff)

/-- What `processSr` reads from the packet it is given: the fields of the
source route option (`segsLeft`, `salvage` are `uint8_t`), the address count
`numberAddress = (buf[1] - 2) / 4` computed from the option's length byte, the
value of `sourceRoute.GetLength ()`, and the type byte of the option that
follows the source route (160 for an acknowledgment request). -/
structure SrReceived where
  nodeList : List Ipv4Address
  segsLeft : Nat
  salvage : Nat
  ackFlag : Nat
  numberAddress : Nat
  length : Nat
  optionType : Nat
  deriving DecidableEq, Repr

/-- How a call of `processSr` ends. -/
inductive SrOutcome where
  /-- A promiscuously received packet: "Safely terminate". -/
  | promiscuous
  /-- A black-hole node discards the data packet (line 4193). -/
  | blackHoleDiscard
  /-- "Malformed header. Drop!" -/
  | malformedDrop
  /-- Segments-left is 0: "This is the final destination". -/
  | localDeliver
  /-- No next hop in the route: `PacketNewRoute (dsrP, realSource, targetAddress, protocol)`. -/
  | PacketNewRoute (realSource targetAddress : Ipv4Address)
  /-- `ipv4Address == nextHop`: "We have reached the destination". -/
  | reachedDestination
  /-- The next address or the IPv4 destination is multicast: dropped. -/
  | multicastDrop
  /-- `ForwardPacket (dsrP, newSourceRoute, ipv4Header, realSource, nextAddress,
  targetAddress, protocol, m_ipv4Route)`. -/
  | ForwardPacket (newSourceRoute : DsrOptionSRHeader)
      (realSource nextAddress targetAddress : Ipv4Address)
  deriving DecidableEq, Repr

/-- The last part of `processSr` (dsr-routing.cc:4333-4376), reached with
segments-left neither 0 nor larger than the address count: the new source route
header is built with `SetSegmentsLeft (segsLeft - 1)` (`uint8_t`), the next
address is read at index `numberAddress - segsLeft` (`GetNodeAddress`), and the
packet is rerouted, delivered, dropped or forwarded. -/
def processSr.forward (rx : SrReceived) (ipv4Address destAddress realSrc targetAddress : Ipv4Address) :
    Option SrOutcome :=
  let newSourceRoute : DsrOptionSRHeader :=
    { nodesAddress := rx.nodeList,
      segmentsLeft := (rx.segsLeft + 2 ^ 8 - 1) % 2 ^ 8,
      salvage := rx.salvage, ackFlag := rx.ackFlag }
  let nextAddressIndex := (rx.numberAddress - rx.segsLeft) % 2 ^ 8
  match rx.nodeList[nextAddressIndex]? with
  | none => none
  | some nextAddress =>
    match SearchNextHop ipv4Address rx.nodeList with
    | none => none
    | some nextHop =>
      if nextHop = noAddress then
        some (SrOutcome.PacketNewRoute realSrc targetAddress)
      else if ipv4Address = nextHop then some SrOutcome.reachedDestination
      else if IsMulticast nextAddress ∨ IsMulticast destAddress then
        some SrOutcome.multicastDrop
      else
        some (SrOutcome.ForwardPacket newSourceRoute realSrc nextAddress targetAddress)

/-- `DsrRouting::processSr` (dsr-routing.cc:4086-4379): how the call ends, as a
function of what is read from the packet, of this node's address
`ipv4Address`, of the IPv4 destination `destAddress`, of `isPromisc` and of
the global `blackHole`.  `none` is undefined behaviour or a fatal error in one
of the vector accesses.  The acknowledgments sent on the way (`SendAck`) are
not part of the outcome. -/
def processSr (blackHole : Bool) (rx : SrReceived) (ipv4Address destAddress : Ipv4Address)
    (isPromisc : Bool) : Option SrOutcome :=
  match rx.nodeList.getLast?, rx.nodeList.head? with
  | some targetAddress, some realSrc =>
    if isPromisc then some SrOutcome.promiscuous
    else
      match ReverseSearchNextHop ipv4Address rx.nodeList with
      | none => none
      | some ackAddress =>
        if blackHole then
          if ackAddress = realSrc then some SrOutcome.blackHoleDiscard
          else (ReverseSearchNextTwoHop ipv4Address rx.nodeList).map
            (fun _ => SrOutcome.blackHoleDiscard)
        else if rx.ackFlag = 2 ∧ rx.nodeList.length ≠ 2 ∧
            ReverseSearchNextTwoHop ipv4Address rx.nodeList = none then none
        else if rx.optionType = 160 ∧ rx.segsLeft > rx.numberAddress then
          some SrOutcome.malformedDrop
        else if rx.optionType = 160 ∧ rx.numberAddress - rx.segsLeft < 2 then
          some SrOutcome.malformedDrop
        else if rx.optionType = 160 ∧
            rx.nodeList[rx.numberAddress - rx.segsLeft - 2]? = none then none
        else if rx.segsLeft = 0 then some SrOutcome.localDeliver
        else if rx.length % 2 ≠ 0 then some SrOutcome.malformedDrop
        else if rx.segsLeft > rx.numberAddress then some SrOutcome.malformedDrop
        else
          processSr.forward rx ipv4Address destAddress realSrc targetAddress
  | _, _ => none

/-! ## Route discovery, route replies and the blackhole guard

The part of `DsrRouting` outside the acknowledgment tiers: the send buffer, the
route-request timers and the request table, the received-request table, and the
blackhole bookkeeping (`blackHole`, `blackattack`, `control`, `rrepid`,
`m_blackList`, `m_ackPair`, `blacktries`).  The route cache, the network queue
and the acknowledgment engine are collaborators here: what the code asks of them
is recorded as a `Call`, and what they answer (`LookupRoute`, `AddRoute`,
`CheckUniqueRreqId`) is a parameter of the operation. -/

/-- A `DsrSendBuffEntry (p, destination, m_sendBufferTimeout, protocol)`. -/
structure DsrSendBuffEntry where
  packet : Nat
  destination : Ipv4Address
  expireTime : Time
  protocol : Nat
  deriving DecidableEq, Repr

/-- The arguments a request timer was given with `SetArguments (packet, address,
requestId, protocol)` and the delay of its `Schedule`. -/
structure RreqTimer where
  address : List Ipv4Address
  requestId : Nat
  protocol : Nat
  delay : Time
  deriving DecidableEq, Repr

/-- The fields of a `DsrOptionRerrUnreachHeader`. -/
structure RerrUnreach where
  errorSrc : Ipv4Address
  unreachNode : Ipv4Address
  errorDst : Ipv4Address
  originalDst : Ipv4Address
  salvage : Nat
  deriving DecidableEq, Repr

/-- A call to a collaborator, or the entry into an operation that the
properties count. -/
inductive Call where
  | SendInitialRequest (source destination : Ipv4Address) (protocol : Nat)
  | SendRequest (source target : Ipv4Address) (requestId ttl : Nat)
  | UseExtends (route : List Ipv4Address)
  | PacketNewRoute (source destination : Ipv4Address) (protocol : Nat)
  | SetRoute (nextHop source : Ipv4Address)
  | SendPacketFromBuffer (sourceRoute : DsrOptionSRHeader) (nextHop : Ipv4Address) (protocol : Nat)
  | Drop
  | ScheduleInitialReply (route : List Ipv4Address) (ack : Option Nat) (nextHop : Ipv4Address)
  | ScheduleCachedReply (route : List Ipv4Address) (nextHop : Ipv4Address) (hops : Nat)
  | ScheduleInterRequest (nodeList : List Ipv4Address) (target : Ipv4Address)
      (requestId ttl : Nat) (rerr : Option (Ipv4Address × Ipv4Address × Ipv4Address × Nat))
  | AddRoute (route : List Ipv4Address)
  | AddRoute_Link (route : List Ipv4Address) (node : Ipv4Address)
  | DeleteAllRoutesIncludeLink (errorSrc unreachNode node : Ipv4Address)
  | ProcessRrep (nodeList : List Ipv4Address)
  | SendReply (nodeList : List Ipv4Address) (nextHop : Ipv4Address)
  | UpdateRouteEntry (dst : Ipv4Address)
  | CallCancelPacketTimer (ackId : Nat) (realSrc realDst : Ipv4Address)
  | SendAck (ackId : Nat) (destination realSrc realDst : Ipv4Address)
      (nodeList : List Ipv4Address) (flag : Nat) (targetDst realSender : Ipv4Address)
  deriving DecidableEq, Repr

/-- The attributes of `DsrRouting` read by route discovery
(dsr-routing.cc:107-353) and what the node asks of its collaborators:
`IsLinkCache ()` and the admission rule of `m_sendBuffer.Enqueue`. -/
structure RreqConfig where
  m_mainAddress : Ipv4Address
  m_rreqRetries : Nat
  m_requestPeriod : Time
  m_maxRequestPeriod : Time
  m_nonpropRequestTimeout : Time
  m_discoveryHopLimit : Nat
  m_sendBufferTimeout : Time
  isLinkCache : Bool
  sendBufferAdmits : List DsrSendBuffEntry → DsrSendBuffEntry → Bool

/-- The state of a node outside the acknowledgment tiers.  `m_rreqDstMap` is the
request table's count per destination, `m_sourceRreqMap` its record of the
requests received.  `trace` lists the calls made, oldest first. -/
structure Node where
  m_sendBuffer : List DsrSendBuffEntry
  m_rreqDstMap : Ipv4Address → Option Nat
  m_sourceRreqMap : List (Ipv4Address × Ipv4Address × Nat)
  m_nonPropReqTimer : Ipv4Address → Option RreqTimer
  m_addressReqTimer : Ipv4Address → Option RreqTimer
  m_requestId : Nat
  m_finalRoute : List Ipv4Address
  blackHole : Bool
  blackattack : Bool
  control : Bool
  rrepid : Nat
  m_blackList : List Ipv4Address
  m_ackPair : List Ipv4Address
  blacktries : Nat
  dsrcount : Nat
  blackfindcount : Nat
  realreceivefake : Nat
  fakerrep : Nat
  fakeRrepCount : Nat
  trace : List Call

/-- A node right after construction: empty buffers, maps and lists, all flags
and counters zero. -/
def Node.init : Node :=
  { m_sendBuffer := [], m_rreqDstMap := fun _ => none, m_sourceRreqMap := [],
    m_nonPropReqTimer := fun _ => none, m_addressReqTimer := fun _ => none,
    m_requestId := 0, m_finalRoute := [], blackHole := false, blackattack := false,
    control := false, rrepid := 0, m_blackList := [], m_ackPair := [], blacktries := 0,
    dsrcount := 0, blackfindcount := 0, realreceivefake := 0, fakerrep := 0,
    fakeRrepCount := 0, trace := [] }

/-- Record a call. -/
def Node.call (n : Node) (c : Call) : Node :=
  { n with trace := n.trace ++ [c] }

/-! ### The request table and the send buffer -/

/-- Modelled from the spec: `DsrRreqTable::GetRreqCnt` (the request table is not
in the sources); "tracks retry counts", 0 for a destination without entry. -/
def DsrRreqTable.GetRreqCnt (m : Ipv4Address → Option Nat) (dst : Ipv4Address) : Nat :=
  (m dst).getD 0

/-- Modelled from the spec: `DsrRreqTable::FindAndUpdate` (not in the sources).
dsr-routing.cc:3062 and 3366: "Increase the request count". -/
def DsrRreqTable.FindAndUpdate (m : Ipv4Address → Option Nat) (dst : Ipv4Address) :
    Ipv4Address → Option Nat :=
  mapSet m dst (DsrRreqTable.GetRreqCnt m dst + 1)

/-- Modelled from the spec: `DsrRreqTable::RemoveRreqEntry` (not in the sources).
dsr-routing.cc:3221: "remove the route request entry from route request table". -/
def DsrRreqTable.RemoveRreqEntry (m : Ipv4Address → Option Nat) (dst : Ipv4Address) :
    Ipv4Address → Option Nat :=
  mapErase m dst

/-- Modelled from the spec: `DsrRreqTable::FindSourceEntry` (not in the sources).
dsr-routing.cc:4495-4496: "check whether we have received this request or not,
if not, it will save the request in the table for later use, if not found,
return false, and push the newly received source request entry in the cache". -/
def DsrRreqTable.FindSourceEntry (tbl : List (Ipv4Address × Ipv4Address × Nat))
    (src dst : Ipv4Address) (id : Nat) : Bool × List (Ipv4Address × Ipv4Address × Nat) :=
  if (src, dst, id) ∈ tbl then (true, tbl) else (false, tbl ++ [(src, dst, id)])

/-- `m_sendBuffer.Enqueue (entry)`: as for the maintenance buffer, the admission
rule (the send buffer is not in the sources) is a parameter. -/
def DsrSendBuffer.Enqueue (cfg : RreqConfig) (buf : List DsrSendBuffEntry)
    (entry : DsrSendBuffEntry) : Bool × List DsrSendBuffEntry :=
  if cfg.sendBufferAdmits buf entry then (true, buf ++ [entry]) else (false, buf)

/-- Modelled from the spec: `DsrSendBuffer::DropPacketWithDst` (not in the
sources); "all buffered packets for that destination are dropped". -/
def DsrSendBuffer.DropPacketWithDst (buf : List DsrSendBuffEntry) (dst : Ipv4Address) :
    List DsrSendBuffEntry :=
  buf.filter (fun e => decide (e.destination ≠ dst))

/-- Modelled from the spec: `DsrSendBuffer::Find` (not in the sources); the
"find-by-destination" operation of the buffers. -/
def DsrSendBuffer.Find (buf : List DsrSendBuffEntry) (dst : Ipv4Address) : Bool :=
  buf.any (fun e => decide (e.destination = dst))

/-- The admission rule "at most `maxLen` entries, drop the newest" for the send
buffer. -/
def sendTailDrop (maxLen : Nat) : List DsrSendBuffEntry → DsrSendBuffEntry → Bool :=
  fun buf _ => decide (buf.length < maxLen)

/-! ### Route requests of the originator -/

/-- `DsrRouting::SendRequest` (dsr-routing.cc:3377-3406): the request is handed
to the control-priority network queue.  The request built by the callers has
the node list `[m_mainAddress]`, the target and the request id; `ttl` is the
value of its `SocketIpTtlTag`. -/
def SendRequest (source target : Ipv4Address) (requestId ttl : Nat) (n : Node) : Node :=
  n.call (Call.SendRequest source target requestId ttl)

/-- The delay of the propagating request timer (dsr-routing.cc:3270-3294):
`pow (GetRreqCnt (dst), 2.0) * m_requestPeriod` when the request count is not 0,
`m_requestPeriod` for "the first route request retry", and `m_maxRequestPeriod`
when that is larger than `m_maxRequestPeriod`. -/
def ScheduleRreqRetry.delay (cfg : RreqConfig) (rreqCnt : Nat) : Time :=
  let rreqDelay := if rreqCnt ≠ 0 then rreqCnt ^ 2 * cfg.m_requestPeriod else cfg.m_requestPeriod
  if rreqDelay > cfg.m_maxRequestPeriod then cfg.m_maxRequestPeriod else rreqDelay

/-- `DsrRouting::ScheduleRreqRetry` (dsr-routing.cc:3226-3296).  `none` stands for
`address[0]` or `address[1]` outside the vector. -/
def ScheduleRreqRetry (cfg : RreqConfig) (address : List Ipv4Address) (nonProp : Bool)
    (requestId protocol : Nat) (n : Node) : Option Node :=
  match address[0]?, address[1]? with
  | some source, some dst =>
    if nonProp then
      -- The nonProp route request is only sent out only and is already used
      let timer : RreqTimer :=
        { address := [source, dst], requestId := requestId, protocol := protocol,
          delay := cfg.m_nonpropRequestTimeout }
      some { n with m_nonPropReqTimer := mapSet n.m_nonPropReqTimer dst timer }
    else
      -- Cancel the non propagation request timer if found
      let nonPropTimers := mapErase n.m_nonPropReqTimer dst
      -- back off mechanism for sending route requests
      let timer : RreqTimer :=
        { address := [source, dst], requestId := requestId, protocol := protocol,
          delay := ScheduleRreqRetry.delay cfg (DsrRreqTable.GetRreqCnt n.m_rreqDstMap dst) }
      some { n with m_nonPropReqTimer := nonPropTimers,
                    m_addressReqTimer := mapSet n.m_addressReqTimer dst timer }
  | _, _ => none

/-- `DsrRouting::CancelRreqTimer` (dsr-routing.cc:3177-3224). -/
def CancelRreqTimer (dst : Ipv4Address) (isRemove : Bool) (n : Node) : Node :=
  -- m_nonPropReqTimer[dst].Cancel (); .Remove (); m_nonPropReqTimer.erase (dst);
  -- m_addressReqTimer[dst].Cancel (); .Remove (); m_addressReqTimer.erase (dst);
  let n1 : Node :=
    { n with m_nonPropReqTimer := mapErase n.m_nonPropReqTimer dst,
             m_addressReqTimer := mapErase n.m_addressReqTimer dst }
  if isRemove then
    -- remove the route request entry from route request table
    { n1 with m_rreqDstMap := DsrRreqTable.RemoveRreqEntry n1.m_rreqDstMap dst }
  else n1

/-- `DsrRouting::SendInitialRequest` (dsr-routing.cc:3017-3067).  `requestId` is
the answer of `m_rreqTable->CheckUniqueRreqId (destination)`. -/
def SendInitialRequest (cfg : RreqConfig) (requestId : Nat) (source destination : Ipv4Address)
    (protocol : Nat) (n : Node) : Option Node :=
  let n0 := n.call (Call.SendInitialRequest source destination protocol)
  let n1 : Node := { n0 with m_requestId := requestId }
  -- Increase the request count
  let n2 : Node :=
    { n1 with m_rreqDstMap := DsrRreqTable.FindAndUpdate n1.m_rreqDstMap destination }
  -- tag.SetTtl (0)
  let n3 := SendRequest source destination n2.m_requestId 0 n2
  -- Schedule the next route request, with non-propagation set true
  ScheduleRreqRetry cfg [source, destination] true n3.m_requestId protocol n3

/-- `DsrRouting::RouteRequestTimerExpire` (dsr-routing.cc:3298-3375).  `toDst` is
the result of `m_routeCache->LookupRoute (dst, toDst)`. -/
def RouteRequestTimerExpire (cfg : RreqConfig) (toDst : Option (List Ipv4Address))
    (address : List Ipv4Address) (requestId protocol : Nat) (n : Node) : Option Node :=
  match address[0]?, address[1]? with
  | some source, some dst =>
    match toDst with
    | some ip =>
      -- Found a route the dst, construct the source route option header
      let n0 := if cfg.isLinkCache then n.call (Call.UseExtends ip) else n
      let sourceRoute : DsrOptionSRHeader :=
        { nodesAddress := ip, segmentsLeft := segsLeftOfSize ip.length, salvage := 0,
          ackFlag := 3 }
      match SearchNextHop cfg.m_mainAddress ip with
      | none => none
      | some nextHop =>
        if nextHop = noAddress then
          some (n0.call (Call.PacketNewRoute source dst protocol))
        else
          let n1 := n0.call (Call.SetRoute nextHop cfg.m_mainAddress)
          let n2 := CancelRreqTimer dst true n1
          -- Try to send out data packet from the send buffer if found
          if n2.m_sendBuffer.length ≠ 0 ∧ DsrSendBuffer.Find n2.m_sendBuffer dst = true then
            some (n2.call (Call.SendPacketFromBuffer sourceRoute nextHop protocol))
          else some n2
    | none =>
      if DsrRreqTable.GetRreqCnt n.m_rreqDstMap dst ≥ cfg.m_rreqRetries then
        -- Route discovery has been attempted m_rreqRetries times
        let n1 := CancelRreqTimer dst true n
        -- Route not found. Drop packet with dst
        some { n1 with m_sendBuffer := DsrSendBuffer.DropPacketWithDst n1.m_sendBuffer dst }
      else
        -- Increase the request count
        let n1 : Node := { n with m_rreqDstMap := DsrRreqTable.FindAndUpdate n.m_rreqDstMap dst }
        -- tag.SetTtl ((uint8_t)m_discoveryHopLimit)
        let n2 := SendRequest source dst requestId (cfg.m_discoveryHopLimit % 2 ^ 8) n1
        ScheduleRreqRetry cfg address false requestId protocol n2
  | _, _ => none

/-- `DsrRouting::SendErrorRequest` (dsr-routing.cc:3069-3175).  `toDst` is the
result of `LookupRoute (dst, toDst)`, `requestId` the answer of
`CheckUniqueRreqId (originalDst)`. -/
def SendErrorRequest (cfg : RreqConfig) (toDst : Option (List Ipv4Address)) (requestId : Nat)
    (rerr : RerrUnreach) (protocol : Nat) (n : Node) : Option Node :=
  let dst := rerr.originalDst
  match toDst with
  | some ip =>
    let n0 := if cfg.isLinkCache then n.call (Call.UseExtends ip) else n
    let sourceRoute : DsrOptionSRHeader :=
      { nodesAddress := ip, segmentsLeft := segsLeftOfSize ip.length, salvage := rerr.salvage,
        ackFlag := 3 }
    match SearchNextHop cfg.m_mainAddress ip with
    | none => none
    | some nextHop =>
      if nextHop = noAddress then
        some (n0.call (Call.PacketNewRoute cfg.m_mainAddress dst protocol))
      else
        let n1 := n0.call (Call.SetRoute nextHop cfg.m_mainAddress)
        let n2 := CancelRreqTimer dst true n1
        if n2.m_sendBuffer.length ≠ 0 ∧ DsrSendBuffer.Find n2.m_sendBuffer dst = true then
          some (n2.call (Call.SendPacketFromBuffer sourceRoute nextHop protocol))
        else some n2
  | none =>
    -- No route found, initiate route error request
    let originalDst := rerr.originalDst
    let n1 : Node := { n with m_requestId := requestId }
    let address := [cfg.m_mainAddress, originalDst]
    if (n1.m_addressReqTimer originalDst).isNone ∧ (n1.m_nonPropReqTimer originalDst).isNone then
      -- Only when there is no existing route request time
      let n2 := SendRequest cfg.m_mainAddress originalDst n1.m_requestId
        (cfg.m_discoveryHopLimit % 2 ^ 8) n1
      ScheduleRreqRetry cfg address false n2.m_requestId protocol n2
    else
      -- There is existing route request, we do not want to remove the route request entry
      let n2 := CancelRreqTimer originalDst false n1
      ScheduleRreqRetry cfg address false n2.m_requestId protocol n2

/-- The branch `!findRoute` of `DsrRouting::Send` (dsr-routing.cc:1578-1609), on
the node state; in `Send` above this branch is the call `SendBufferEnqueue`.
`requestId` is the answer of `CheckUniqueRreqId` should `SendInitialRequest` be
reached. -/
def Send.cacheMiss (cfg : RreqConfig) (requestId : Nat) (packet : Nat)
    (source destination : Ipv4Address) (protocol : Nat) (n : Node) : Option Node :=
  -- control = true; ++dsrcount;
  let n0 : Node := { n with control := true, dsrcount := n.dsrcount + 1 }
  let newEntry : DsrSendBuffEntry :=
    { packet := packet, destination := destination, expireTime := cfg.m_sendBufferTimeout,
      protocol := protocol }
  let r := DsrSendBuffer.Enqueue cfg n0.m_sendBuffer newEntry
  let n1 : Node := { n0 with m_sendBuffer := r.2 }
  if r.1 then
    -- Only when there is no existing route request timer when new route request is scheduled
    if (n1.m_addressReqTimer destination).isNone ∧ (n1.m_nonPropReqTimer destination).isNone then
      SendInitialRequest cfg requestId source destination protocol n1
    else some n1
  else some n1

/-! ### Receiving a route request: `processRreq` -/

/-- `DsrRouting::IfDuplicates` (dsr-routing.cc:4921-4939): do the two vectors
share an element? -/
def IfDuplicates (vec vec2 : List Ipv4Address) : Bool :=
  vec.any (fun i => vec2.any (fun j => decide (i = j)))

/-- `DsrRouting::CheckDuplicates` (dsr-routing.cc:4941-4956): is the address in
the vector? -/
def CheckDuplicates (ipv4Address : Ipv4Address) (vec : List Ipv4Address) : Bool :=
  vec.any (fun i => decide (i = ipv4Address))

/-- `DsrRouting::ReverseRoutes` (dsr-routing.cc:4958-4974): the reversed vector
and the result of the check `vec.size () == vec2.size () && vec.front () ==
vec2.back ()`; `none` stands for `front ()` of an empty vector. -/
def ReverseRoutes (vec : List Ipv4Address) : Option (Bool × List Ipv4Address) :=
  match vec.reverse.head?, vec.getLast? with
  | some front, some back =>
    some (decide (vec.reverse.length = vec.length ∧ front = back), vec.reverse)
  | _, _ => none

/-- What `processRreq` reads of a received route request: the option's node
list, target and identification, the number of addresses peeked from the option
length (`uint8_t`), the option length, its serialized size, the TTL and the
source of the IP header, and the route error option that may follow the
request. -/
structure RreqReceived where
  nodeList : List Ipv4Address
  target : Ipv4Address
  requestId : Nat
  numberAddress : Nat
  length : Nat
  serializedSize : Nat
  ttl : Nat
  srcAddress : Ipv4Address
  rerr : Option RerrUnreach
  deriving DecidableEq, Repr

/-- What the route cache answers during `processRreq` and `ProcessRrep`:
`IsLinkCache ()`, `LookupRoute (targetAddress, toPrev)` with the vector of
`toPrev` (the empty vector when nothing is found), and the result of `AddRoute`
or `AddRoute_Link`. -/
structure CacheAnswers where
  isLinkCache : Bool
  toPrev : Option (List Ipv4Address)
  addRoute : Bool

/-- The route-cache insertion of `processRreq` and `ProcessRrep`:
`AddRoute_Link (route, ipv4Address)` in link-cache mode, `AddRoute (entry)` with
the entry's vector `pathRoute` otherwise. -/
def addToCache (cache : CacheAnswers) (linkRoute pathRoute : List Ipv4Address)
    (ipv4Address : Ipv4Address) (n : Node) : Node :=
  if cache.isLinkCache then n.call (Call.AddRoute_Link linkRoute ipv4Address)
  else n.call (Call.AddRoute pathRoute)

/-- After a route to the originator was added by `processRreq`
(dsr-routing.cc:4661-4697 and 4763-4797): the data packets waiting for `dst` are
sent along `route`.  The Boolean tells whether `processRreq` goes on (`false`:
it returned 0 after `PacketNewRoute`). -/
def processRreq.useRoute (ipv4Address : Ipv4Address) (route : List Ipv4Address)
    (dst : Ipv4Address) (protocol : Nat) (n : Node) : Option (Bool × Node) :=
  let sourceRoute : DsrOptionSRHeader :=
    { nodesAddress := route, segmentsLeft := segsLeftOfSize route.length, salvage := 0,
      ackFlag := 3 }
  match SearchNextHop ipv4Address route with
  | none => none
  | some nextHop =>
    if nextHop = noAddress then
      some (false, n.call (Call.PacketNewRoute ipv4Address dst protocol))
    else
      let n1 := n.call (Call.SetRoute nextHop ipv4Address)
      let n2 := n1.call (Call.SendPacketFromBuffer sourceRoute nextHop protocol)
      -- Cancel the route request timer for destination after sending the data packet
      some (true, CancelRreqTimer dst true n2)

/-- The attacker branch of `processRreq` (dsr-routing.cc:4545-4584): a reply
with the route "path so far, this node, target" and `SetAck (1)`. -/
def processRreq.fabricate (mainAddress : Ipv4Address) (rx : RreqReceived)
    (ipv4Address : Ipv4Address) (n : Node) : Option (Nat × Node) :=
  let finalRoute := rx.nodeList ++ [mainAddress, rx.target]
  let n1 : Node := { n with m_finalRoute := finalRoute }
  match ReverseSearchNextHop ipv4Address finalRoute with
  | none => none
  | some nextHop =>
    let n2 := n1.call (Call.SetRoute nextHop ipv4Address)
    let n3 : Node := { n2 with fakeRrepCount := n2.fakeRrepCount + 1 }
    some (0, n3.call (Call.ScheduleInitialReply finalRoute (some 1) nextHop))

/-- The branch `targetAddress == ipv4Address` of `processRreq`
(dsr-routing.cc:4588-4711). -/
def processRreq.target (cache : CacheAnswers) (rx : RreqReceived)
    (ipv4Address source : Ipv4Address) (protocol : Nat) (n : Node) : Option (Nat × Node) :=
  let reply : Option (List Ipv4Address × Ipv4Address) :=
    if rx.nodeList.length = 1 then
      -- These two nodes are neighbors
      some ([source, ipv4Address], rx.srcAddress)
    else
      let finalRoute := rx.nodeList ++ [ipv4Address]
      (ReverseSearchNextHop ipv4Address finalRoute).map (fun nextHop => (finalRoute, nextHop))
  match reply with
  | none => none
  | some (finalRoute, nextHop) =>
    let n1 : Node := { n with m_finalRoute := finalRoute }
    let n2 := n1.call (Call.SetRoute nextHop ipv4Address)
    let n3 := n2.call (Call.ScheduleInitialReply finalRoute none nextHop)
    -- Create the route entry to the rreq originator and save it to route cache
    match ReverseRoutes finalRoute, finalRoute.reverse.getLast? with
    | some (true, reversed), some dst =>
      let n4 : Node := { n3 with m_finalRoute := reversed }
      if rx.numberAddress > 0 then
        let n5 := addToCache cache reversed reversed ipv4Address n4
        if cache.addRoute then
          match processRreq.useRoute ipv4Address reversed dst protocol n5 with
          | none => none
          | some (true, n6) => some (rx.serializedSize, n6)
          | some (false, n6) => some (0, n6)
        else
          -- The route is failed to add in cache
          some (0, n5)
      else
        -- Abnormal RouteRequest
        some (0, n4)
    | some (false, reversed), _ =>
      -- Unable to reverse route
      some (0, { n3 with m_finalRoute := reversed })
    | _, _ => none

/-- The branch `isRouteInCache && !areThereDuplicates` of `processRreq`
(dsr-routing.cc:4720-4845): the reply from the route cache, with the route
"path so far" followed by the cached route `ip`. -/
def processRreq.cached (cache : CacheAnswers) (rx : RreqReceived) (ip : List Ipv4Address)
    (ipv4Address : Ipv4Address) (protocol : Nat) (n : Node) : Option (Nat × Node) :=
  let saveRoute := rx.nodeList
  let finalRoute := saveRoute ++ ip
  let n1 : Node := { n with m_finalRoute := finalRoute }
  match ReverseRoutes finalRoute with
  | none => none
  | some (false, _) =>
    -- Unable to reverse the route
    some (0, n1)
  | some (true, _) =>
    match ReverseRoutes (saveRoute ++ [ipv4Address]) with
    | none => none
    | some (_, saved) =>
      match saved.getLast? with
      | none => none
      | some dst =>
        -- Add the route entry in the route cache
        let n2 := addToCache cache saved saved ipv4Address n1
        if cache.addRoute then
          match processRreq.useRoute ipv4Address saved dst protocol n2 with
          | none => none
          | some (false, n3) => some (0, n3)
          | some (true, n3) =>
            -- Need to first pin down the next hop address before removing duplicates
            match ReverseSearchNextHop ipv4Address finalRoute with
            | none => none
            | some nextHop =>
              let n4 := n3.call (Call.SetRoute nextHop ipv4Address)
              let hops := finalRoute.length % 2 ^ 16
              some (rx.serializedSize,
                n4.call (Call.ScheduleCachedReply finalRoute nextHop hops))
        else
          -- The route is failed to add in cache
          some (0, n2)

/-- The branch "no route in any type has been found" of `processRreq`
(dsr-routing.cc:4849-4917): the request is forwarded with this node appended
and the TTL lowered by one, unless the TTL is 0.  A route error option that came
with the request is forwarded too (error source, unreachable node, error
destination, salvage), unless it reports the link from the sender to this
node.  `none` stands for the failed `NS_ASSERT (mainVector.front () == source)`
of line 4852. -/
def processRreq.forward (rx : RreqReceived) (ipv4Address source : Ipv4Address) (n : Node) :
    Option (Nat × Node) :=
  let mainVector := rx.nodeList ++ [ipv4Address]
  -- NS_ASSERT (mainVector.front () == source)
  if mainVector.head? ≠ some source then none
  else
    let step : Node × Option (Ipv4Address × Ipv4Address × Ipv4Address × Nat) :=
      match rx.rerr with
      | some rerr =>
        if rerr.errorSrc = rx.srcAddress ∧ rerr.unreachNode = ipv4Address then
          -- The error link back to work again
          (n, none)
        else
          (n.call (Call.DeleteAllRoutesIncludeLink rerr.errorSrc rerr.unreachNode ipv4Address),
            some (rerr.errorSrc, rerr.unreachNode, rerr.errorDst, rerr.salvage))
      | none => (n, none)
    if rx.ttl ≠ 0 then
      some (rx.serializedSize,
        step.1.call (Call.ScheduleInterRequest mainVector rx.target rx.requestId (rx.ttl - 1)
          step.2))
    else some (rx.serializedSize, step.1)

/-- `DsrRouting::processRreq` (dsr-routing.cc:4421-4920).  `source` is the
address of the source id of the DSR header, `ipv4Address` this node's address
as passed by `Receive`.  The result is the value returned (0: "discard") and the
node state; `none` stands for `nodeList.front ()` of an empty vector and for
what the helpers leave undefined. -/
def processRreq (mainAddress : Ipv4Address) (cache : CacheAnswers) (rx : RreqReceived)
    (ipv4Address source : Ipv4Address) (protocol : Nat) (n : Node) : Option (Nat × Node) :=
  if source = ipv4Address then
    -- Discard the packet since it was originated from same source address
    some (0, n.call Call.Drop)
  else if rx.numberAddress ≥ 255 then
    some (0, n.call Call.Drop)
  else if rx.length % 2 ≠ 0 then
    -- Malformed header. Drop!
    some (0, n.call Call.Drop)
  else
    match rx.nodeList.head? with
    | none => none
    | some sourceAddress =>
      -- if the ttl value is not 0, then this request will be forwarded, then we need to
      -- save it in the source entry
      let found :=
        if rx.ttl ≠ 0 then
          DsrRreqTable.FindSourceEntry n.m_sourceRreqMap sourceAddress rx.target rx.requestId
        else (false, n.m_sourceRreqMap)
      let n1 : Node := { n with m_sourceRreqMap := found.2 }
      if found.1 then
        -- Duplicate request. Drop!
        some (0, n1.call Call.Drop)
      else if CheckDuplicates ipv4Address rx.nodeList then
        -- Our node address is already seen in the route, drop the request
        some (0, n1.call Call.Drop)
      else
        let ip := cache.toPrev.getD []
        let areThereDuplicates := IfDuplicates ip rx.nodeList
        if n1.blackHole then
          processRreq.fabricate mainAddress rx ipv4Address n1
        else if rx.target = ipv4Address then
          processRreq.target cache rx ipv4Address source protocol n1
        else if cache.toPrev.isSome ∧ areThereDuplicates = false then
          processRreq.cached cache rx ip ipv4Address protocol n1
        else
          processRreq.forward rx ipv4Address source n1

/-! ### `Start`: the blackhole option -/

/-- The `switch (count)` of `DsrRouting::Start` (dsr-routing.cc:452-472) for a
node with id `nodeId`: "1 = 1 blackhole, 2 = 2 blackholes 3 = no blackhole";
`none` is the `NS_FATAL_ERROR` of the default case. -/
def Start.blackholeOption (count : Nat) (nodeId : Nat) (n : Node) : Option Node :=
  match count with
  | 1 =>
    let n1 : Node := if nodeId = 12 then { n with blackHole := true } else n
    some { n1 with blackattack := true }
  | 2 =>
    let n1 : Node := if nodeId = 12 ∨ nodeId = 18 then { n with blackHole := true } else n
    some { n1 with blackattack := true }
  | 3 => some { n with blackHole := false, blackattack := false }
  | _ => none

/-- What `DsrRouting::Start` (dsr-routing.cc:425-531) does to the blackhole
flags: `uint16_t count = 2;` followed by the switch.  `Start` takes no argument
and reads no attribute here; the queues, tables and buffers it sets up are not
part of the node state modelled. -/
def Start (nodeId : Nat) (n : Node) : Option Node :=
  let count := 2
  Start.blackholeOption count nodeId n

/-! ### Route replies: `RemoveDuplicates`, `CutRoute`, `ProcessRrep` -/

/-- The inner loop of `RemoveDuplicates` (dsr-routing.cc:4991-5013) for one
address `i` of the copy: on the first `j` with `*i == *j` the vector is cut
after `j` ("Automatic shorten the route"); when no element matches, or the
vector is empty, `i` is pushed at the back. -/
def RemoveDuplicates.loop (i : Ipv4Address) : List Ipv4Address → List Ipv4Address
  | [] => [i]
  | j :: rest => if i = j then [j] else j :: RemoveDuplicates.loop i rest

/-- `DsrRouting::RemoveDuplicates` (dsr-routing.cc:4975-5017): the vector is
rebuilt from its copy, address by address. -/
def RemoveDuplicates (vec : List Ipv4Address) : List Ipv4Address :=
  vec.foldl (fun acc i => RemoveDuplicates.loop i acc) []

/-- `DsrRouting::CutRoute` (dsr-routing.cc:5187-5198): the part of the node list
from the first occurrence of the address on; empty when it does not occur. -/
def CutRoute (ipv4Address : Ipv4Address) : List Ipv4Address → List Ipv4Address
  | [] => []
  | x :: rest => if x = ipv4Address then x :: rest else CutRoute ipv4Address rest

/-- What `Receive` and `ProcessRrep` read of a received route reply: the
option's node list, its length field, its serialized size, the value of
`GetAck ()`, and the uid of the packet. -/
structure RrepReceived where
  nodeList : List Ipv4Address
  length : Nat
  serializedSize : Nat
  ack : Nat
  uid : Nat
  deriving DecidableEq, Repr

/-- The branch `targetAddress == ipv4Address` of `ProcessRrep`
(dsr-routing.cc:5038-5098): the reply has reached the node that asked. -/
def ProcessRrep.arrived (cache : CacheAnswers) (rx : RrepReceived)
    (ipv4Address : Ipv4Address) (protocol : Nat) (n : Node) : Option (Nat × Node) :=
  -- This is for the route reply from intermediate node since we didn't remove
  -- duplicate there
  let nodeList := RemoveDuplicates rx.nodeList
  if nodeList.length = 0 then
    -- The route we have contains 0 entries
    some (0, n)
  else
    match nodeList.getLast?, nodeList.head? with
    | some dst, some front =>
      -- NS_ASSERT (nodeList.front () == ipv4Address)
      if front ≠ ipv4Address then none
      else
        let n1 := addToCache cache nodeList nodeList ipv4Address n
        if cache.addRoute then
          let sourceRoute := freshSourceRoute nodeList
          match SearchNextHop ipv4Address nodeList with
          | none => none
          | some nextHop =>
            if nextHop = noAddress then
              some (0, n1.call (Call.PacketNewRoute ipv4Address dst protocol))
            else
              let n2 := n1.call (Call.SetRoute nextHop ipv4Address)
              -- Cancel the route request timer for destination
              let n3 := CancelRreqTimer dst true n2
              some (rx.serializedSize % 256,
                n3.call (Call.SendPacketFromBuffer sourceRoute nextHop protocol))
        else
          -- Failed to add the route
          some (0, n1)
    | _, _ => none

/-- The `else` branch of `ProcessRrep` (dsr-routing.cc:5100-5183): this node is
only an intermediate node of the reply.  The length is `uint8_t length =
rrep.GetLength () - 2`; `source` is the source of the DSR header.  The
protocol number only enters the header of the reply sent on. -/
def ProcessRrep.relay (cache : CacheAnswers) (rx : RrepReceived)
    (ipv4Address source : Ipv4Address) (n : Node) : Option (Nat × Node) :=
  if (rx.length + 254) % 256 % 2 ≠ 0 then
    -- Malformed header. Drop!
    some (0, n.call Call.Drop)
  else
    let routeCopy := rx.nodeList
    let cutRoute := CutRoute ipv4Address rx.nodeList
    let n1 : Node :=
      if cutRoute.length ≥ 2 then
        match cutRoute.getLast? with
        | none => n
        | some dst =>
          let n0 := addToCache cache rx.nodeList cutRoute ipv4Address n
          if cache.addRoute then CancelRreqTimer dst true n0 else n0
      else
        -- The route is corrupted
        n
    -- Reverse search the vector for next hop address
    match ReverseSearchNextHop ipv4Address routeCopy, routeCopy.getLast? with
    | some nextHop, some back =>
      -- NS_ASSERT (routeCopy.back () == source)
      if back ≠ source then none
      else
        let n2 := n1.call (Call.SetRoute nextHop ipv4Address)
        some (rx.serializedSize % 256, n2.call (Call.SendReply rx.nodeList nextHop))
    | _, _ => none

/-- `DsrRouting::ProcessRrep` (dsr-routing.cc:5018-5186); the value returned is
a `uint8_t`.  `none` stands for `front ()` of an empty node list, a failed
assertion, or a next-hop search that runs past the end of the vector. -/
def ProcessRrep (cache : CacheAnswers) (rx : RrepReceived) (ipv4Address source : Ipv4Address)
    (protocol : Nat) (n : Node) : Option (Nat × Node) :=
  match rx.nodeList.head? with
  | none => none
  | some targetAddress =>
    -- If the RREP option has reached to the destination
    if targetAddress = ipv4Address then ProcessRrep.arrived cache rx ipv4Address protocol n
    else ProcessRrep.relay cache rx ipv4Address source n

/-! ### The black list -/

/-- `DsrRouting::checkBlackList (blacklist, nodeList)` (dsr-routing.cc:4408-4420):
`false` when an address of the node list is found in `m_blackList`.  The body
searches the member `m_blackList`, not its first argument. -/
def checkBlackList (n : Node) (_blacklist nodeList : List Ipv4Address) : Bool :=
  !(nodeList.any (fun address => decide (address ∈ n.m_blackList)))

/-- `DsrRouting::checkRrepDst` (dsr-routing.cc:4075-4085): is the address in the
vector? -/
def checkRrepDst (ipv4Address : Ipv4Address) (vec : List Ipv4Address) : Bool :=
  vec.reverse.any (fun ri => decide (ipv4Address = ri))

/-- `DsrRouting::handleBlackList (ackPair, nodeList)` (dsr-routing.cc:4394-4406).
`none` stands for `back ()` or `front ()` of an empty vector. -/
def handleBlackList (ackPair nodeList : List Ipv4Address) (n : Node) : Option Node :=
  match nodeList.getLast? with
  | none => none
  | some dst =>
    let result := checkRrepDst dst ackPair
    if result = false then
      match ackPair.head? with
      | none => none
      | some front =>
        let n1 : Node :=
          if front ∈ n.m_blackList then n
          else { n with m_blackList := n.m_blackList ++ [front] }
        some { n1 with m_ackPair := [] }
    else some { n with m_ackPair := [] }

/-- The black-list bookkeeping of `Send` when a route was found
(dsr-routing.cc:1619 and 1632-1642): `++dsrcount`, then the check of the route
against the black list, which changes two counters and nothing else. -/
def Send.blackListCheck (nodeList : List Ipv4Address) (n : Node) : Node :=
  let n1 : Node := { n with dsrcount := n.dsrcount + 1 }
  let results :=
    if n1.blackattack = true ∧ n1.m_blackList.isEmpty = false then
      checkBlackList n1 n1.m_blackList nodeList
    else true
  if results = false then
    { n1 with blackfindcount := n1.blackfindcount + 1, dsrcount := n1.dsrcount - 1 }
  else n1

/-- The check of a route reply in `Receive` (dsr-routing.cc:3691-3719) when the
node list starts with this node: the value left in `optionLength` and the node
state.  `optionLength` enters with the value 0. -/
def Receive.checkRrep (rx : RrepReceived) (n : Node) : Nat × Node :=
  let nodeList := RemoveDuplicates rx.nodeList
  if nodeList.length = 0 then
    -- The route we have contains 0 entries
    (0, n)
  else
    let n1 : Node :=
      if rx.ack = 1 then { n with realreceivefake := n.realreceivefake + 1 } else n
    let results :=
      if n1.blackattack = true ∧ n1.m_blackList.isEmpty = false then
        checkBlackList n1 n1.m_blackList nodeList
      else true
    if results = false ∧ n1.control = true ∧ rx.uid ≠ n1.rrepid then
      (1, { n1 with rrepid := rx.uid })
    else (0, n1)

/-- The end of the reply branch of `Receive` (dsr-routing.cc:3725-3734): what is
done with the value of `optionLength`. -/
def Receive.discard (optionLength : Nat) (n : Node) : Node :=
  let n1 : Node :=
    if optionLength = 1 then
      -- Discard this packet
      ({ n with fakerrep := n.fakerrep + 1 }).call Call.Drop
    else n
  if optionLength = 0 then n1.call Call.Drop else n1

/-- The branch `optionType == 2` of `DsrRouting::Receive`
(dsr-routing.cc:3673-3735): a route reply is delivered to the node
`mainAddress`; `source` is the source of the DSR header. -/
def Receive.rrep (cache : CacheAnswers) (rx : RrepReceived) (mainAddress source : Ipv4Address)
    (protocol : Nat) (n : Node) : Option Node :=
  match rx.nodeList.head? with
  | none => none
  | some targetAddress =>
    -- If the RREP option has rached to the destination
    let checked : Nat × Node :=
      if targetAddress = mainAddress then Receive.checkRrep rx n else (0, n)
    let processed : Option (Nat × Node) :=
      if checked.1 ≠ 1 then ProcessRrep cache rx mainAddress source protocol checked.2
      else some checked
    match processed with
    | none => none
    | some r => some (Receive.discard r.1 r.2)

/-! ### Acknowledgments: `processAck` -/

/-- What `processAck` reads of a received acknowledgment option. -/
structure AckReceived where
  nodeList : List Ipv4Address
  realSrc : Ipv4Address
  realDst : Ipv4Address
  originalSender : Ipv4Address
  targetDst : Ipv4Address
  ackId : Nat
  ackFlag : Nat
  serializedSize : Nat
  deriving DecidableEq, Repr

/-- The flag-2 acknowledgment at the source of the path
(dsr-routing.cc:3936-3966): `targetDst == ipv4Address` and
`realSrc == ipv4Address`.  `count` is the `uint16_t` value of
`nodeList.size () - 2`; the counter `blacktries` is a natural number (its
declaration is not in the sources). -/
def processAck.atSource (rx : AckReceived) (n : Node) : Option (Nat × Node) :=
  let n1 : Node := { n with blacktries := n.blacktries + 1 }
  let count := (rx.nodeList.length + 2 ^ 16 - 2) % 2 ^ 16
  let n2 : Node :=
    if rx.originalSender ∈ n1.m_ackPair then n1
    else { n1 with m_ackPair := n1.m_ackPair ++ [rx.originalSender] }
  let n3 : Node := if count = 0 then { n2 with m_ackPair := [] } else n2
  match rx.nodeList.getLast? with
  | none => none
  | some back =>
    let n4 : Node := if rx.originalSender = back then { n3 with m_ackPair := [] } else n3
    if n4.blacktries = count then
      if rx.originalSender ≠ back then
        match handleBlackList n4.m_ackPair rx.nodeList n4 with
        | none => none
        | some n5 => some (rx.serializedSize % 256, { n5 with blacktries := 0 })
      else
        let n5 : Node := { n4 with m_ackPair := [], blacktries := 0 }
        let n6 := n5.call (Call.UpdateRouteEntry rx.realDst)
        some (rx.serializedSize % 256,
          n6.call (Call.CallCancelPacketTimer rx.ackId rx.realSrc rx.realDst))
    else some (rx.serializedSize % 256, n4)

/-- The flag-2 acknowledgment at the node it was addressed to, other than the
source (dsr-routing.cc:3971-3990): it is passed one tier back. -/
def processAck.atTarget (rx : AckReceived) (ipv4Address : Ipv4Address) (n : Node) :
    Option Node :=
  let newTargetDst :=
    if rx.nodeList.length = 2 then ReverseSearchNextHop ipv4Address rx.nodeList
    else ReverseSearchNextTwoHop ipv4Address rx.nodeList
  match ReverseSearchNextHop ipv4Address rx.nodeList, newTargetDst with
  | some nexthop, some newTarget =>
    if nexthop = noAddress then
      let n1 := n.call (Call.UpdateRouteEntry rx.realDst)
      some (n1.call (Call.CallCancelPacketTimer rx.ackId rx.realSrc rx.realDst))
    else if newTarget ≠ noAddress then
      let n1 := n.call (Call.SetRoute nexthop ipv4Address)
      some (n1.call (Call.SendAck rx.ackId nexthop rx.realSrc rx.realDst rx.nodeList
        rx.ackFlag newTarget rx.originalSender))
    else
      let n1 := n.call (Call.SetRoute nexthop ipv4Address)
      some (n1.call (Call.SendAck rx.ackId nexthop rx.realSrc rx.realDst rx.nodeList
        rx.ackFlag nexthop rx.originalSender))
  | _, _ => none

/-- An acknowledgment passed on unchanged towards `targetDst`
(dsr-routing.cc:3993-3999 and 4019-4025). -/
def processAck.pass (rx : AckReceived) (ipv4Address : Ipv4Address) (n : Node) : Option Node :=
  match ReverseSearchNextHop ipv4Address rx.nodeList with
  | none => none
  | some nexthop =>
    let n1 := n.call (Call.SetRoute nexthop ipv4Address)
    some (n1.call (Call.SendAck rx.ackId nexthop rx.realSrc rx.realDst rx.nodeList
      rx.ackFlag rx.targetDst rx.originalSender))

/-- `DsrRouting::processAck` (dsr-routing.cc:3895-4030); the value returned is a
`uint8_t`. -/
def processAck (rx : AckReceived) (ipv4Address : Ipv4Address) (n : Node) :
    Option (Nat × Node) :=
  let n1 : Node :=
    if rx.ackFlag = 1 then
      (n.call (Call.UpdateRouteEntry rx.realDst)).call
        (Call.CallCancelPacketTimer rx.ackId rx.realSrc rx.realDst)
    else n
  if rx.ackFlag = 2 then
    if rx.targetDst = ipv4Address then
      if rx.realSrc = ipv4Address then processAck.atSource rx n1
      else (processAck.atTarget rx ipv4Address n1).map (fun n2 => (rx.serializedSize % 256, n2))
    else (processAck.pass rx ipv4Address n1).map (fun n2 => (rx.serializedSize % 256, n2))
  else if rx.ackFlag = 3 then
    if rx.targetDst = ipv4Address then
      let n2 := n1.call (Call.UpdateRouteEntry rx.realDst)
      some (rx.serializedSize % 256,
        n2.call (Call.CallCancelPacketTimer rx.ackId rx.realSrc rx.realDst))
    else (processAck.pass rx ipv4Address n1).map (fun n2 => (rx.serializedSize % 256, n2))
  else some (rx.serializedSize % 256, n1)

/-! ## The network queues and the dispatcher

`m_priorityQueue` is filled by `Start` with one queue for each key `0 …
m_numPriorityQueues - 1` (dsr-routing.cc:429-436) and never changed after; it
is the list of the queues, the key being the index.  `DsrNetworkQueue` is not
in the sources; a queue is the list of its entries, oldest first. -/

/-- A `DsrNetworkQueueEntry (packet, source, nextHop, Simulator::Now (),
m_ipv4Route)`: the uid of the packet, the source and the next hop. -/
structure DsrNetworkQueueEntry where
  packet : Nat
  source : Ipv4Address
  nextHop : Ipv4Address
  deriving DecidableEq, Repr

/-- The kind of message a queue is chosen for. -/
inductive DsrMessageType where
  | DSR_CONTROL_PACKET
  | DSR_DATA_PACKET
  deriving DecidableEq, Repr

/-- `DsrRouting::GetPriority` (dsr-routing.cc:932-943). -/
def GetPriority (messageType : DsrMessageType) : Nat :=
  if messageType = DsrMessageType.DSR_CONTROL_PACKET then 0 else 1

/-- What one call of the dispatcher does, in order: the lookups
`m_priorityQueue.find (i)` of its loop, the calls of `IncreaseRetransTimer`,
the entries taken from a queue, the entries handed to `SendRealDown`, and the
calls of itself that it schedules. -/
inductive Dispatch where
  | find (i : Nat)
  | IncreaseRetransTimer
  | Dequeue (i : Nat) (entry : DsrNetworkQueueEntry)
  | SendRealDown (entry : DsrNetworkQueueEntry)
  | SchedulePriorityScheduler (i : Nat) (continueWithFirst : Bool)
  deriving DecidableEq, Repr

/-- The attributes read by the dispatcher: `NumPriorityQueues`, `RetransIncr`,
and what `ns3::Timer::GetDelayLeft ()` answers for the timer registered under a
key of `m_addressForwardTimer` (the time until the timer fires, which
`SetDelay` does not change). -/
structure EgressConfig where
  m_numPriorityQueues : Nat
  m_retransIncr : Time
  delayLeft : NetworkKey → Time

/-- The state the dispatcher works on: the priority queues, the timer map of
the network tier, and what it has done so far. -/
structure Egress where
  m_priorityQueue : List (List DsrNetworkQueueEntry)
  m_addressForwardTimer : NetworkKey → Option Timer
  trace : List Dispatch

/-- Record what the dispatcher does. -/
def Egress.emit (e : Egress) (d : Dispatch) : Egress :=
  { e with trace := e.trace ++ [d] }

/-- The queues as `Start` creates them (dsr-routing.cc:429-436). -/
def Start.priorityQueues (m_numPriorityQueues : Nat) : List (List DsrNetworkQueueEntry) :=
  List.replicate m_numPriorityQueues []

/-- Modelled from the spec: `DsrNetworkQueue::Dequeue` (the network queue is not
in the sources); each queue is a "FIFO": the oldest entry is taken. -/
def DsrNetworkQueue.Dequeue (queue : List DsrNetworkQueueEntry) :
    Option (DsrNetworkQueueEntry × List DsrNetworkQueueEntry) :=
  match queue with
  | [] => none
  | entry :: rest => some (entry, rest)

/-- The inner loop of `IncreaseRetransTimer` for one queued entry
(dsr-routing.cc:1886-1893): every timer whose key has the next hop of the entry
gets the delay `GetDelayLeft () + m_retransIncr`. -/
def IncreaseRetransTimer.forEntry (cfg : EgressConfig)
    (timers : NetworkKey → Option Timer) (entry : DsrNetworkQueueEntry) :
    NetworkKey → Option Timer :=
  fun j =>
    (timers j).map (fun t =>
      if entry.nextHop = j.m_nextHop then
        { t with delay := cfg.delayLeft j + cfg.m_retransIncr }
      else t)

/-- `DsrRouting::IncreaseRetransTimer` (dsr-routing.cc:1874-1896): the queue
walked is the one of the data packets; `none` stands for the use of `i->second`
when there is no queue with that key. -/
def IncreaseRetransTimer (cfg : EgressConfig) (e : Egress) : Option Egress :=
  let priority := GetPriority DsrMessageType.DSR_DATA_PACKET
  match e.m_priorityQueue[priority]? with
  | none => none
  | some newNetworkQueue =>
    some { e with
      m_addressForwardTimer :=
        newNetworkQueue.foldl (IncreaseRetransTimer.forEntry cfg) e.m_addressForwardTimer }

/-- The sum of the sizes of all queues (dsr-routing.cc:1833-1839). -/
def totalQueueSize (e : Egress) : Nat :=
  (e.m_priorityQueue.map List.length).sum

/-- The step `i` makes at the end of an iteration of the loop of
`PriorityScheduler` (dsr-routing.cc:1822-1829 and 1862-1869). -/
def PriorityScheduler.next (cfg : EgressConfig) (continueWithFirst : Bool) (i : Nat) : Nat :=
  if i = cfg.m_numPriorityQueues - 1 ∧ continueWithFirst = true then 0 else i + 1

/-- One iteration of the loop of `PriorityScheduler` (dsr-routing.cc:1817-1861)
for the queue `i`.  `SendRealDown` returns `true` always (line 1906), so the
dispatcher is scheduled again "after some time".  `none` stands for the use of
`q->second` when there is no queue with the key `i`. -/
def PriorityScheduler.body (cfg : EgressConfig) (i : Nat) (e : Egress) : Option Egress :=
  let e0 := e.emit (Dispatch.find i)
  match e0.m_priorityQueue[i]? with
  | none => none
  | some dsrNetworkQueue =>
    match DsrNetworkQueue.Dequeue dsrNetworkQueue with
    | none =>
      -- queueSize == 0
      some e0
    | some (newEntry, rest) =>
      let increased : Option Egress :=
        if totalQueueSize e0 > 5 then
          -- Here the queue size is larger than 5, we need to increase the retransmission
          -- timer for each packet in the network queue
          IncreaseRetransTimer cfg (e0.emit Dispatch.IncreaseRetransTimer)
        else some e0
      match increased with
      | none => none
      | some e1 =>
        let e2 : Egress :=
          { e1 with m_priorityQueue := e1.m_priorityQueue.set i rest }
        let e3 := e2.emit (Dispatch.Dequeue i newEntry)
        let e4 := e3.emit (Dispatch.SendRealDown newEntry)
        some (e4.emit (Dispatch.SchedulePriorityScheduler i false))

/-- The loop of `PriorityScheduler` (dsr-routing.cc:1815-1871) with `remaining`
iterations to go: `m_numPriorityQueues - numPriorities`, since `numPriorities`
goes up by one in every iteration and nothing leaves the loop early. -/
def PriorityScheduler.loop (cfg : EgressConfig) (continueWithFirst : Bool) :
    Nat → Nat → Egress → Option Egress
  | 0, _, e => some e
  | remaining + 1, i, e =>
    match PriorityScheduler.body cfg i e with
    | none => none
    | some e1 =>
      PriorityScheduler.loop cfg continueWithFirst remaining
        (PriorityScheduler.next cfg continueWithFirst i) e1

/-- `DsrRouting::PriorityScheduler (priority, continueWithFirst)`
(dsr-routing.cc:1801-1872). -/
def PriorityScheduler (cfg : EgressConfig) (priority : Nat) (continueWithFirst : Bool)
    (e : Egress) : Option Egress :=
  let numPriorities := if continueWithFirst then 0 else priority
  PriorityScheduler.loop cfg continueWithFirst (cfg.m_numPriorityQueues - numPriorities)
    priority e

/-- `DsrRouting::Scheduler (priority)` (dsr-routing.cc:1794-1799). -/
def Scheduler (cfg : EgressConfig) (priority : Nat) (e : Egress) : Option Egress :=
  PriorityScheduler cfg priority true e

/-- Modelled from the spec: `DsrNetworkQueue::Enqueue` (the network queue is not
in the sources); each queue has "a capacity", and a queue at capacity drops the
newest packet: the answer says whether the entry was admitted, and an admitted
entry is the youngest of its queue.  The capacity is the attribute
`MaxNetworkQueueSize` that `Start` hands to every queue (dsr-routing.cc:433). -/
def DsrNetworkQueue.Enqueue (m_maxNetworkSize : Nat) (queue : List DsrNetworkQueueEntry)
    (entry : DsrNetworkQueueEntry) : Bool × List DsrNetworkQueueEntry :=
  if queue.length < m_maxNetworkSize then (true, queue ++ [entry]) else (false, queue)

/-- The lines that close each of the nine places where a packet is queued:
`CheckSendBuffer` (dsr-routing.cc:1049-1066), `SendUnreachError` (1491-1508),
`ForwardErrPacket` (1537-1554), `SendPacketFromBuffer` (2093-2110),
`SendRequest` (3389-3405), `SendReply` (3499-3515) and `SendAck` (3585-3602)
for a control packet, `SendPacket` (1774-1790) and `SalvagePacket` (2504-2521)
for a data packet.  The queue of the message type is looked up, the entry is
enqueued, and when the queue admitted it `Scheduler (priority)` runs at once.
`none` stands for the use of `i->second` when there is no queue with that
key. -/
def queueAndSchedule (cfg : EgressConfig) (m_maxNetworkSize : Nat)
    (messageType : DsrMessageType) (newEntry : DsrNetworkQueueEntry) (e : Egress) :
    Option Egress :=
  let priority := GetPriority messageType
  match e.m_priorityQueue[priority]? with
  | none => none
  | some dsrNetworkQueue =>
    let r := DsrNetworkQueue.Enqueue m_maxNetworkSize dsrNetworkQueue newEntry
    if r.1 then
      Scheduler cfg priority { e with m_priorityQueue := e.m_priorityQueue.set priority r.2 }
    else
      -- Packet dropped as dsr network queue is full
      some e

/-! ## Overheard packets: the gratuitous reply -/

/-- `DsrRouting::ContainAddressAfter` (dsr-routing.cc:4380-4393): does
`ipv4Address` occur in the node list at or after the first occurrence of
`destAddress`, without being the last address of the list?  The loop runs over
the part of the list that `CutRoute destAddress` collects. -/
def ContainAddressAfter (ipv4Address destAddress : Ipv4Address)
    (nodeList : List Ipv4Address) : Bool :=
  match nodeList.getLast? with
  | none => false
  | some back =>
    (CutRoute destAddress nodeList).any (fun i => decide (ipv4Address = i ∧ i ≠ back))

/-- The first loop of `SendGratuitousReply` (dsr-routing.cc:3438-3442): the
addresses before the first occurrence of `srcAddress`; the whole list when it
does not occur. -/
def SendGratuitousReply.before (srcAddress : Ipv4Address) :
    List Ipv4Address → List Ipv4Address
  | [] => []
  | x :: rest => if x = srcAddress then [] else x :: SendGratuitousReply.before srcAddress rest

/-- The route `SendGratuitousReply` places in the reply ("Automatic route
shortening", dsr-routing.cc:3434-3448): the addresses before `srcAddress`, then
`srcAddress`, then the addresses from this node on. -/
def SendGratuitousReply.route (mainAddress srcAddress : Ipv4Address)
    (nodeList : List Ipv4Address) : List Ipv4Address :=
  SendGratuitousReply.before srcAddress nodeList ++ [srcAddress] ++
    CutRoute mainAddress nodeList

/-- `DsrRouting::SendGratuitousReply (source, srcAddress, nodeList, protocol)`
(dsr-routing.cc:3422-3482).  `findAndUpdate` is the answer of
`m_graReply.FindAndUpdate (source, srcAddress, m_gratReplyHoldoff)`; the table
of gratuitous replies is not part of the node state. -/
def SendGratuitousReply (mainAddress : Ipv4Address) (findAndUpdate : Bool)
    (srcAddress : Ipv4Address) (nodeList : List Ipv4Address) (n : Node) : Node :=
  if findAndUpdate = false then
    let n1 : Node :=
      { n with m_finalRoute := SendGratuitousReply.route mainAddress srcAddress nodeList }
    -- Set the route and use it in send back route reply
    let n2 := n1.call (Call.SetRoute srcAddress mainAddress)
    -- Send gratuitous reply
    n2.call (Call.SendReply n1.m_finalRoute srcAddress)
  else
    -- The same gratuitous route reply has already sent
    n

/-- The first step of `processSr` for a promiscuously received packet
(dsr-routing.cc:4116-4123): `srcAddress` and `destAddress` are the source and
the destination of the IP header. -/
def processSr.shorten (mainAddress : Ipv4Address) (findAndUpdate : Bool)
    (nodeList : List Ipv4Address) (ipv4Address srcAddress destAddress : Ipv4Address)
    (n : Node) : Node :=
  if ContainAddressAfter ipv4Address destAddress nodeList then
    -- Send back the gratuitous reply
    SendGratuitousReply mainAddress findAndUpdate srcAddress nodeList n
  else n

/-! ## The acknowledgments `processSr` sends for a received data packet -/

/-- The acknowledgments of `processSr` for a packet received non-promiscuously
(dsr-routing.cc:4170-4236), sent before the option is inspected any further.
`uid` is `p->GetUid ()`, the acknowledgment id its `uint16_t` value.  The
Boolean tells whether `processSr` goes on (`false`: the black hole has returned
0).  `none` stands for `front ()` or `back ()` of an empty node list, for a
next-hop search that runs past the end of the vector, and for a two-hop search
that reads before its start or ends in `NS_FATAL_ERROR`.  The statistics
`attackCount` and `ApacketId` of the black hole are left out. -/
def processSr.acknowledge (blackHole : Bool) (mainAddress : Ipv4Address) (uid : Nat)
    (rx : SrReceived) (ipv4Address : Ipv4Address) (n : Node) : Option (Bool × Node) :=
  let ackId := uid % 2 ^ 16
  let realSender := mainAddress
  match rx.nodeList.head?, rx.nodeList.getLast?,
      ReverseSearchNextHop ipv4Address rx.nodeList with
  | some realSrc, some realDestination, some ackAddress =>
    let n1 := n.call (Call.SetRoute ackAddress ipv4Address)
    if blackHole then
      -- when blackhole receives the datapacket->discard it!
      let ackTargetAddress :=
        if ackAddress = realSrc then some ackAddress
        else ReverseSearchNextTwoHop ipv4Address rx.nodeList
      match ackTargetAddress with
      | none => none
      | some target =>
        some (false, n1.call (Call.SendAck ackId realSrc realSrc realDestination rx.nodeList 2
          target realSender))
    else
      let n2 := n1.call (Call.SendAck ackId ackAddress realSrc realDestination rx.nodeList 1
        ackAddress realSender)
      -- test the two hops ack
      let n3 : Option Node :=
        if rx.ackFlag = 2 then
          let ackTargetAddress :=
            if rx.nodeList.length = 2 then ReverseSearchNextHop ipv4Address rx.nodeList
            else ReverseSearchNextTwoHop ipv4Address rx.nodeList
          match ackTargetAddress with
          | none => none
          | some target =>
            if target ≠ noAddress then
              let n21 := n2.call (Call.SetRoute ackAddress ipv4Address)
              some (n21.call (Call.SendAck ackId ackAddress realSrc realDestination rx.nodeList
                rx.ackFlag target mainAddress))
            else some n2
        else some n2
      match n3 with
      | none => none
      | some n4 =>
        -- send ack end to end!
        if rx.ackFlag = 3 ∧ ipv4Address = realDestination then
          let n5 := n4.call (Call.SetRoute ackAddress ipv4Address)
          some (true, n5.call (Call.SendAck ackId ackAddress realSrc realDestination rx.nodeList
            rx.ackFlag realSrc ipv4Address))
        else some (true, n4)
  | _, _, _ => none

/-! ## The source route option on the wire -/

/-- A source route option as the header object holds it: next to the fields of
`DsrOptionSRHeader` above, the send count and the time stamp. -/
structure SrOption where
  nodesAddress : List Ipv4Address
  segmentsLeft : Nat
  salvage : Nat
  ackFlag : Nat
  sendCount : Nat
  time : Nat
  deriving DecidableEq, Repr

/-- Modelled from the spec: the SourceRoute option on the wire (the option
headers are not in the sources), spec 6: "Options, each with a 1-byte type and
1-byte length: … SourceRoute (node-address list, segments-left, salvage count,
ack-flag, send-count, timestamp)". -/
structure SrWire where
  type : Nat
  length : Nat
  segmentsLeft : Nat
  salvage : Nat
  ackFlag : Nat
  sendCount : Nat
  time : Nat
  addresses : List Ipv4Address
  deriving DecidableEq, Repr

/-- Modelled from the spec: `DsrOptionSRHeader::Serialize` (not in the sources).
The type is 96 (the value `PromiscReceive` tests for); the length byte is the
one the receivers in dsr-routing.cc invert with `(buf[1] - 2) / 4`, that is 2
plus 4 for each address, in one byte; segments-left and salvage are `uint8_t`,
the acknowledgment flag a `uint16_t`, the time stamp a `uint64_t`, as
dsr-routing.cc reads them. -/
def DsrOptionSRHeader.Serialize (h : SrOption) : SrWire :=
  { type := 96,
    length := (2 + 4 * h.nodesAddress.length) % 2 ^ 8,
    segmentsLeft := h.segmentsLeft % 2 ^ 8,
    salvage := h.salvage % 2 ^ 8,
    ackFlag := h.ackFlag % 2 ^ 16,
    sendCount := h.sendCount,
    time := h.time % 2 ^ 64,
    addresses := h.nodesAddress }

/-- Modelled from the spec: `DsrOptionSRHeader::Deserialize` (not in the
sources) after `SetNumberAddress (numberAddress)`: the fields, and as many
addresses as the receiver reserved.  `none` stands for reading past the end of
the option. -/
def DsrOptionSRHeader.Deserialize (numberAddress : Nat) (w : SrWire) : Option SrOption :=
  if w.addresses.length < numberAddress then none
  else
    some { nodesAddress := w.addresses.take numberAddress,
           segmentsLeft := w.segmentsLeft, salvage := w.salvage, ackFlag := w.ackFlag,
           sendCount := w.sendCount, time := w.time }

/-- The address count every receiver in dsr-routing.cc computes from the length
byte of the option before it removes the header (`processSr`, lines 4090-4093;
`SalvagePacket`, lines 2450-2453): `uint8_t numberAddress = (buf[1] - 2) / 4`.
The byte is promoted to `int`; for the bytes 0 and 1 the quotient is 0. -/
def numberAddressOf (lengthByte : Nat) : Nat :=
  (lengthByte - 2) / 4

/-- How the receivers read a source route option (dsr-routing.cc:4089-4096):
`sourceRoute.SetNumberAddress (numberAddress); p->RemoveHeader (sourceRoute);`. -/
def processSr.removeHeader (w : SrWire) : Option SrOption :=
  DsrOptionSRHeader.Deserialize (numberAddressOf w.length) w

/-! ## Vocabulary of the properties -/

/-- The three acknowledgment tiers; the network tier carries `isFirst`. -/
inductive Tier where
  | link
  | passive
  | network (isFirst : Bool)
  deriving DecidableEq, Repr

/-- The selection policy in the words of the spec (4.4): the link tier if link
acknowledgment is enabled; otherwise the passive tier if the next hop is not the
final destination; otherwise the network tier, first retry. -/
def selectTier (linkAck : Bool) (nextHop destination : Ipv4Address) : Tier :=
  if linkAck then Tier.link
  else if nextHop ≠ destination then Tier.passive
  else Tier.network true

/-- The tier of a `Schedule*PacketRetry` call; `none` for any other call. -/
def Event.tier : Event → Option Tier
  | Event.ScheduleLinkPacketRetry _ => some Tier.link
  | Event.SchedulePassivePacketRetry _ => some Tier.passive
  | Event.ScheduleNetworkPacketRetry _ isFirst => some (Tier.network isFirst)
  | _ => none

/-- The `Schedule*PacketRetry` operations invoked in a trace, in order. -/
def scheduled (trace : List Event) : List Tier :=
  trace.filterMap Event.tier

/-- Is the call a `SendPacket`? -/
def Event.isSendPacket : Event → Bool
  | Event.SendPacket _ _ _ _ => true
  | _ => false

/-- The number of times a packet was handed to `SendPacket`. -/
def sendCount (trace : List Event) : Nat :=
  trace.countP Event.isSendPacket

/-- Is the call a route invalidation (`DeleteAllRoutesIncludeLink`)? -/
def Event.isInvalidation : Event → Bool
  | Event.DeleteAllRoutesIncludeLink _ _ _ => true
  | _ => false

/-- Is the call part of the error and salvage processing started by
`CancelPacketTimerNextHop`? -/
def Event.isErrorProcessing : Event → Bool
  | Event.SendUnreachError _ _ _ _ _ => true
  | Event.SalvagePacket _ _ _ _ => true
  | Event.ScheduleCancelPacketTimerNextHop _ _ => true
  | _ => false

/-- The state right after a site stored `newEntry` in the maintenance buffer
and reset the three retry counters of its keys
(`m_addressForwardCnt[networkKey] = 0; m_passiveCnt[passiveKey] = 0;
m_linkCnt[linkKey] = 0;`). -/
def afterEnqueue (s : State) (newEntry : DsrMaintainBuffEntry) : State :=
  { s with m_maintainBuffer := s.m_maintainBuffer ++ [newEntry],
           m_addressForwardCnt := mapSet s.m_addressForwardCnt newEntry.networkKey 0,
           m_passiveCnt := mapSet s.m_passiveCnt newEntry.passiveKey 0,
           m_linkCnt := mapSet s.m_linkCnt newEntry.linkKey 0 }

/-- The `Schedule*PacketRetry` operation of a tier. -/
def scheduleTier (cfg : Config) (t : Tier) (mb : DsrMaintainBuffEntry) (protocol : Nat)
    (s : State) : State :=
  match t with
  | Tier.link => ScheduleLinkPacketRetry cfg mb protocol s
  | Tier.passive => SchedulePassivePacketRetry cfg mb protocol s
  | Tier.network isFirst => ScheduleNetworkPacketRetry cfg mb isFirst protocol s

/-- The state in which a site looks at the maintenance buffer: the route-cache
call `UseExtends` has been made in link-cache mode. -/
def afterUseExtends (cfg : Config) (nodeList : List Ipv4Address) (s : State) : State :=
  if cfg.isLinkCache then s.emit (Event.UseExtends nodeList) else s

/-- A call that may or may not be made, depending on a flag. -/
def emitIf (flag : Bool) (e : Event) (s : State) : State :=
  if flag then s.emit e else s

/-- The number of invocations of the `Schedule*PacketRetry` operation of tier
`t` in a trace. -/
def countTier (t : Tier) (trace : List Event) : Nat :=
  (scheduled trace).count t

/-- The number of route invalidations in a trace. -/
def invalidations (trace : List Event) : Nat :=
  trace.countP Event.isInvalidation

/-- A place in one of the three timer maps. -/
inductive TimerRef where
  | link (k : LinkKey)
  | passive (k : PassiveKey)
  | network (k : NetworkKey)
  deriving DecidableEq, Repr

/-- Whether a timer is registered at that place. -/
def State.holds (s : State) : TimerRef → Bool
  | TimerRef.link k => (s.m_linkAckTimer k).isSome
  | TimerRef.passive k => (s.m_passiveAckTimer k).isSome
  | TimerRef.network k => (s.m_addressForwardTimer k).isSome

/-- For a maintenance entry, the number of timer maps that hold a timer under
the entry's key (link map under its `LinkKey`, passive map under its
`PassiveKey`, network map under its `NetworkKey`). -/
def tiersHolding (s : State) (e : DsrMaintainBuffEntry) : Nat :=
  (if (s.m_linkAckTimer e.linkKey).isSome then 1 else 0) +
  (if (s.m_passiveAckTimer e.passiveKey).isSome then 1 else 0) +
  (if (s.m_addressForwardTimer e.networkKey).isSome then 1 else 0)

/-- The single-timer invariant of the spec: for every entry of the maintenance
buffer at most one of the three timer maps holds a timer for the entry's key. -/
def SingleTimer (s : State) : Prop :=
  ∀ e, e ∈ s.m_maintainBuffer → tiersHolding s e ≤ 1

/-- No timer is registered in any of the three maps. -/
def NoTimers (s : State) : Prop :=
  ∀ a : TimerRef, s.holds a = false

/-- At most one timer is registered across the three maps. -/
def AtMostOneTimer (s : State) : Prop :=
  ∀ a b : TimerRef, s.holds a = true → s.holds b = true → a = b

/-- A registered timer expires: the handler of its map runs with the arguments
the timer was given. -/
inductive Fires (cfg : Config) : State → State → Prop where
  | link (s : State) (k : LinkKey) (t : Timer) (h : s.m_linkAckTimer k = some t) :
      Fires cfg s (LinkScheduleTimerExpire cfg t.mb t.protocol s)
  | passive (s : State) (k : PassiveKey) (t : Timer) (h : s.m_passiveAckTimer k = some t) :
      Fires cfg s (PassiveScheduleTimerExpire cfg t.mb t.protocol s)
  | network (s : State) (k : NetworkKey) (t : Timer) (h : s.m_addressForwardTimer k = some t) :
      Fires cfg s (NetworkScheduleTimerExpire cfg t.mb t.protocol s)

/-- An acknowledgment is processed: one of the cancel operations runs, for
any entry. -/
inductive Cancels : State → State → Prop where
  | link (s : State) (mb : DsrMaintainBuffEntry) : Cancels s (CancelLinkPacketTimer mb s)
  | network (s : State) (mb : DsrMaintainBuffEntry) : Cancels s (CancelNetworkPacketTimer mb s)
  | passive (s : State) (mb : DsrMaintainBuffEntry) : Cancels s (CancelPassivePacketTimer mb s)
  | all (s : State) (mb : DsrMaintainBuffEntry) : Cancels s (CancelPacketAllTimer mb s)
  | overheard (s : State) (packet : Packet) (source destination : Ipv4Address) (segsLeft : Nat) :
      Cancels s (CancelPassiveTimer packet source destination segsLeft s).2
  | nextHop (s : State) (nextHop : Ipv4Address) (protocol : Nat) :
      Cancels s (CancelPacketTimerNextHop nextHop protocol s)

/-- A data packet is dispatched by `Send` or by `ForwardPacket`. -/
inductive Dispatches (cfg : Config) : State → State → Prop where
  | send (s s1 : State) (toDst : Option (List Ipv4Address)) (sendBufferPending : Bool)
      (fuel packet : Nat) (source destination : Ipv4Address) (protocol : Nat)
      (h : Send cfg toDst sendBufferPending fuel packet source destination protocol s = some s1) :
      Dispatches cfg s s1
  | forward (s : State) (packet : Nat) (sourceRoute : DsrOptionSRHeader)
      (source nextHop targetAddress : Ipv4Address) (protocol : Nat) :
      Dispatches cfg s (ForwardPacket cfg packet sourceRoute source nextHop targetAddress protocol s)

/-- One handler runs: a dispatch, a timer expiry or a cancel operation. -/
def Step (cfg : Config) (s s1 : State) : Prop :=
  Dispatches cfg s s1 ∨ Fires cfg s s1 ∨ Cancels s s1

/-- One handler other than a dispatch runs. -/
def Quiet (cfg : Config) (s s1 : State) : Prop :=
  Fires cfg s s1 ∨ Cancels s s1

/-- The states reachable from the initial state through the handlers. -/
def Reachable (cfg : Config) (s : State) : Prop :=
  Relation.ReflTransGen (Step cfg) State.init s

/-- The retry state (buffer, counters, timers) of `s1` is that of `s`, and no
packet was handed to `SendPacket` in between. -/
def SameRetryState (s s1 : State) : Prop :=
  s1.m_maintainBuffer = s.m_maintainBuffer ∧
  s1.m_addressForwardCnt = s.m_addressForwardCnt ∧ s1.m_passiveCnt = s.m_passiveCnt ∧
  s1.m_linkCnt = s.m_linkCnt ∧ s1.m_addressForwardTimer = s.m_addressForwardTimer ∧
  s1.m_passiveAckTimer = s.m_passiveAckTimer ∧ s1.m_linkAckTimer = s.m_linkAckTimer ∧
  s1.m_ackId = s.m_ackId ∧ sendCount s1.trace = sendCount s.trace ∧
  scheduled s1.trace = scheduled s.trace

/-- The bound of the spec on the number of times one packet is handed to
`SendPacket`: `1 + tryLinkAcks` with link acknowledgment,
`(1 + tryPassiveAcks) + (1 + maxMaintRexmt)` without. -/
def sendBound (cfg : Config) : Nat :=
  if cfg.m_linkAck then 1 + cfg.m_tryLinkAcks
  else (1 + cfg.m_tryPassiveAcks) + (1 + cfg.m_maxMaintRexmt)

/-- Every stored retry counter is within the configured bound of its tier. -/
def CountersBounded (cfg : Config) (s : State) : Prop :=
  (∀ k v, s.m_linkCnt k = some v → v ≤ cfg.m_tryLinkAcks) ∧
  (∀ k v, s.m_passiveCnt k = some v → v ≤ cfg.m_tryPassiveAcks) ∧
  (∀ k v, s.m_addressForwardCnt k = some v → v ≤ cfg.m_maxMaintRexmt)

/-- The sends still possible from a registered timer fit in the bound: a timer
at `r` is stored under the key of its own arguments, and the sends made so far
plus the retries its counter still allows (plus, for the passive tier, the
whole network tier) do not exceed `sendBound`. -/
def Budget (cfg : Config) (s : State) : TimerRef → Prop
  | TimerRef.link k => ∀ t, s.m_linkAckTimer k = some t →
      t.mb.linkKey = k ∧
      sendCount s.trace + (cfg.m_tryLinkAcks - (s.m_linkCnt k).getD 0) ≤ sendBound cfg
  | TimerRef.passive k => ∀ t, s.m_passiveAckTimer k = some t →
      t.mb.passiveKey = k ∧
      sendCount s.trace + (cfg.m_tryPassiveAcks - (s.m_passiveCnt k).getD 0) + 1 +
        cfg.m_maxMaintRexmt ≤ sendBound cfg
  | TimerRef.network k => ∀ t, s.m_addressForwardTimer k = some t →
      t.mb.networkKey = k ∧
      sendCount s.trace + (cfg.m_maxMaintRexmt - (s.m_addressForwardCnt k).getD 0) ≤
        sendBound cfg

/-- The invariant of a single packet in flight: counters within their bounds,
sends within the bound, at most one place `r` holding a timer, and the budget
of that timer. -/
def RetryInv (cfg : Config) (s : State) : Prop :=
  CountersBounded cfg s ∧ sendCount s.trace ≤ sendBound cfg ∧
  ∃ r : TimerRef, (∀ a, s.holds a = true → a = r) ∧ Budget cfg s r

/-- Every registered timer is stored under the key of the entry it was given
(`SetArguments (mb, protocol)` on the timer stored under the key built from
`mb`). -/
def KeysConsistent (s : State) : Prop :=
  (∀ k t, s.m_linkAckTimer k = some t → t.mb.linkKey = k) ∧
  (∀ k t, s.m_passiveAckTimer k = some t → t.mb.passiveKey = k) ∧
  (∀ k t, s.m_addressForwardTimer k = some t → t.mb.networkKey = k)

/-- Every timer registered in `s1` is registered in `s` with the same
arguments. -/
def TimersWithin (s1 s : State) : Prop :=
  (∀ k t, s1.m_linkAckTimer k = some t → s.m_linkAckTimer k = some t) ∧
  (∀ k t, s1.m_passiveAckTimer k = some t → s.m_passiveAckTimer k = some t) ∧
  (∀ k t, s1.m_addressForwardTimer k = some t → s.m_addressForwardTimer k = some t)

/-- No passive timer and no network timer is registered. -/
def OnlyLinkTimers (s : State) : Prop :=
  (∀ k, s.m_passiveAckTimer k = none) ∧ (∀ k, s.m_addressForwardTimer k = none)

/-- Is the call a RouteRequest handed to the network queue for target `X`? -/
def Call.isRequestFor (X : Ipv4Address) : Call → Bool
  | Call.SendRequest _ target _ _ => decide (target = X)
  | _ => false

/-- The number of RouteRequests sent for target `X`. -/
def requestsSent (X : Ipv4Address) (trace : List Call) : Nat :=
  trace.countP (Call.isRequestFor X)

/-- Is the call an invocation of `SendInitialRequest` for destination `X`? -/
def Call.isInitialRequestFor (X : Ipv4Address) : Call → Bool
  | Call.SendInitialRequest _ destination _ => decide (destination = X)
  | _ => false

/-- The number of invocations of `SendInitialRequest` for destination `X`. -/
def initialRequests (X : Ipv4Address) (trace : List Call) : Nat :=
  trace.countP (Call.isInitialRequestFor X)

/-- A request timer registered for `X` expires while the route cache has no
route to `X`: `RouteRequestTimerExpire` runs with the arguments the timer was
given. -/
inductive RreqFires (cfg : RreqConfig) (X : Ipv4Address) : Node → Node → Prop where
  | nonProp (n n1 : Node) (t : RreqTimer) (h : n.m_nonPropReqTimer X = some t)
      (hr : RouteRequestTimerExpire cfg none t.address t.requestId t.protocol n = some n1) :
      RreqFires cfg X n n1
  | prop (n n1 : Node) (t : RreqTimer) (h : n.m_addressReqTimer X = some t)
      (hr : RouteRequestTimerExpire cfg none t.address t.requestId t.protocol n = some n1) :
      RreqFires cfg X n n1

/-- The discovery for `X` has ended without a route: no request timer and no
request entry for `X`, and no packet for `X` in the send buffer. -/
def DiscoveryEnded (X : Ipv4Address) (n : Node) : Prop :=
  n.m_nonPropReqTimer X = none ∧ n.m_addressReqTimer X = none ∧ n.m_rreqDstMap X = none ∧
  ∀ e, e ∈ n.m_sendBuffer → e.destination ≠ X

/-- The request timers registered for `X` carry the address pair of a request
for `X`. -/
def RreqTimersFor (X : Ipv4Address) (n : Node) : Prop :=
  (∀ t, n.m_nonPropReqTimer X = some t → ∃ src, t.address = [src, X]) ∧
  (∀ t, n.m_addressReqTimer X = some t → ∃ src, t.address = [src, X])

/-- Is the call a route reply or a forwarded route request handed out by
`processRreq`? -/
def Call.isAnswer : Call → Bool
  | Call.ScheduleInitialReply _ _ _ => true
  | Call.ScheduleCachedReply _ _ _ => true
  | Call.ScheduleInterRequest _ _ _ _ _ => true
  | _ => false

/-- The number of route replies and forwarded requests in a list of calls. -/
def answers (l : List Call) : Nat :=
  l.countP Call.isAnswer

/-- Is the call a forwarded route request? -/
def Call.isForward : Call → Bool
  | Call.ScheduleInterRequest _ _ _ _ _ => true
  | _ => false

/-- The calls made between two states of a node. -/
def Node.since (n n1 : Node) : List Call :=
  n1.trace.drop n.trace.length

/-- No call of the list is a reply or a forwarded request. -/
def Quietly (l : List Call) : Prop :=
  ∀ c, c ∈ l → c.isAnswer = false

/-- The calls one run of `processRreq` can make, by the branch taken: a drop;
the fabricated reply of an attacker; the reply of the target; the reply from the
route cache (or its preparation, when the route to the originator could not be
added); the forwarded request (or nothing more, with TTL 0). -/
inductive RreqCalls (mainAddress : Ipv4Address) (cache : CacheAnswers) (rx : RreqReceived)
    (ipv4Address : Ipv4Address) (blackHole : Bool) : List Call → Prop where
  | drop : RreqCalls mainAddress cache rx ipv4Address blackHole [Call.Drop]
  | fabricated (nextHop : Ipv4Address) (hb : blackHole = true) :
      RreqCalls mainAddress cache rx ipv4Address blackHole
        [Call.SetRoute nextHop ipv4Address,
          Call.ScheduleInitialReply (rx.nodeList ++ [mainAddress, rx.target]) (some 1) nextHop]
  | target (route : List Ipv4Address) (nextHop : Ipv4Address) (l : List Call)
      (hb : blackHole = false) (ht : rx.target = ipv4Address) (hq : Quietly l) :
      RreqCalls mainAddress cache rx ipv4Address blackHole
        ([Call.SetRoute nextHop ipv4Address, Call.ScheduleInitialReply route none nextHop] ++ l)
  | cachedFailed (C : List Ipv4Address) (l : List Call) (hb : blackHole = false)
      (hc : cache.toPrev = some C) (hd : IfDuplicates C rx.nodeList = false) (hq : Quietly l) :
      RreqCalls mainAddress cache rx ipv4Address blackHole l
  | cached (C : List Ipv4Address) (l : List Call) (nextHop : Ipv4Address) (hops : Nat)
      (hb : blackHole = false) (hc : cache.toPrev = some C)
      (hd : IfDuplicates C rx.nodeList = false) (hq : Quietly l) :
      RreqCalls mainAddress cache rx ipv4Address blackHole
        (l ++ [Call.SetRoute nextHop ipv4Address,
          Call.ScheduleCachedReply (rx.nodeList ++ C) nextHop hops])
  | notForwarded (l : List Call) (hb : blackHole = false) (ht : rx.ttl = 0) (hq : Quietly l) :
      RreqCalls mainAddress cache rx ipv4Address blackHole l
  | forwarded (l : List Call) (e : Option (Ipv4Address × Ipv4Address × Ipv4Address × Nat))
      (hb : blackHole = false) (ht : rx.ttl ≠ 0) (hq : Quietly l) :
      RreqCalls mainAddress cache rx ipv4Address blackHole
        (l ++ [Call.ScheduleInterRequest (rx.nodeList ++ [ipv4Address]) rx.target rx.requestId
          (rx.ttl - 1) e])

/-- Is the acknowledgment one that `processAck` handles as the source of the
path: flag 2, addressed to this node, for a packet this node sent? -/
def AckReceived.atSource (rx : AckReceived) (ipv4Address : Ipv4Address) : Bool :=
  decide (rx.ackFlag = 2 ∧ rx.targetDst = ipv4Address ∧ rx.realSrc = ipv4Address)

/-- The list `m_ackPair` once the original sender of the acknowledgment has
been recorded in it (dsr-routing.cc:3938-3940). -/
def recorded (rx : AckReceived) (n : Node) : List Ipv4Address :=
  if rx.originalSender ∈ n.m_ackPair then n.m_ackPair else n.m_ackPair ++ [rx.originalSender]

/-- `processAck` run on a sequence of acknowledgments, oldest first.  Next to
the node state the run keeps the acknowledgments handled as the source since
the suspect state (`m_ackPair`) was last reset: one more after each such
acknowledgment, none once `m_ackPair` was cleared. -/
def processAcks (ipv4Address : Ipv4Address) :
    List AckReceived → List AckReceived × Node → Option (List AckReceived × Node)
  | [], st => some st
  | rx :: rest, st =>
    match processAck rx ipv4Address st.2 with
    | none => none
    | some r =>
      let pending :=
        if rx.atSource ipv4Address then
          if r.2.m_ackPair.isEmpty then [] else st.1 ++ [rx]
        else st.1
      processAcks ipv4Address rest (pending, r.2)

/-- The suspect state agrees with the acknowledgments since its last reset: it
holds their original senders, the sender of the oldest one first. -/
def SuspectsOf (pending : List AckReceived) (n : Node) : Prop :=
  (∀ a, a ∈ n.m_ackPair ↔ ∃ x, x ∈ pending ∧ x.originalSender = a) ∧
  n.m_ackPair.head? = pending.head?.map AckReceived.originalSender

/-- The queue indices the loop of the dispatcher looked up, in order. -/
def lookups (l : List Dispatch) : List Nat :=
  l.filterMap (fun d => match d with
    | Dispatch.find i => some i
    | _ => none)

/-- The queue indices an entry was taken from, in order. -/
def dequeued (l : List Dispatch) : List Nat :=
  l.filterMap (fun d => match d with
    | Dispatch.Dequeue i _ => some i
    | _ => none)

/-- The entries handed to the send primitive `SendRealDown`, in order. -/
def sentDown (l : List Dispatch) : List DsrNetworkQueueEntry :=
  l.filterMap (fun d => match d with
    | Dispatch.SendRealDown entry => some entry
    | _ => none)

/-- What the dispatcher did between the states `e` and `e1`. -/
def Egress.since (e e1 : Egress) : List Dispatch :=
  e1.trace.drop e.trace.length

/-- The queues the loop visits: `remaining` indices from `i` on, each the
`PriorityScheduler.next` of the one before. -/
def PriorityScheduler.visits (cfg : EgressConfig) (continueWithFirst : Bool) :
    Nat → Nat → List Nat
  | 0, _ => []
  | remaining + 1, i =>
    i :: PriorityScheduler.visits cfg continueWithFirst remaining
      (PriorityScheduler.next cfg continueWithFirst i)

/-- Is the call a `SendUnreachError`? -/
def Event.isSendUnreachError : Event → Bool
  | Event.SendUnreachError _ _ _ _ _ => true
  | _ => false

/-- The route errors issued, in order. -/
def routeErrors (l : List Event) : List Event :=
  l.filter Event.isSendUnreachError

/-- The states of the queues and network timers between two events of a run.
`Start` creates the queues empty; the queues change only in the nine places
that queue a packet and call `Scheduler` in the same breath, and in the calls
`PriorityScheduler (i, false)` that the dispatcher schedules for itself; the
timer map is changed by the acknowledgment engine, in any way. -/
inductive Idle (cfg : EgressConfig) (m_maxNetworkSize : Nat) : Egress → Prop
  | start (timers : NetworkKey → Option Timer) :
      Idle cfg m_maxNetworkSize
        (Egress.mk (Start.priorityQueues cfg.m_numPriorityQueues) timers [])
  | queued (e e1 : Egress) (messageType : DsrMessageType) (newEntry : DsrNetworkQueueEntry) :
      Idle cfg m_maxNetworkSize e →
      queueAndSchedule cfg m_maxNetworkSize messageType newEntry e = some e1 →
      Idle cfg m_maxNetworkSize e1
  | scheduled (e e1 : Egress) (i : Nat) :
      Idle cfg m_maxNetworkSize e →
      PriorityScheduler cfg i false e = some e1 →
      Idle cfg m_maxNetworkSize e1
  | timers (e : Egress) (timers : NetworkKey → Option Timer) :
      Idle cfg m_maxNetworkSize e →
      Idle cfg m_maxNetworkSize (Egress.mk e.m_priorityQueue timers e.trace)

/-- The states in which `PriorityScheduler` is called in a run: by `Scheduler`,
right after a queue admitted an entry (the state `queueAndSchedule` hands to
it), or as the event an earlier call scheduled, between two other events. -/
inductive Called (cfg : EgressConfig) (m_maxNetworkSize : Nat) : Egress → Prop
  | admitted (e : Egress) (messageType : DsrMessageType) (newEntry : DsrNetworkQueueEntry)
      (dsrNetworkQueue : List DsrNetworkQueueEntry) :
      Idle cfg m_maxNetworkSize e →
      e.m_priorityQueue[GetPriority messageType]? = some dsrNetworkQueue →
      (DsrNetworkQueue.Enqueue m_maxNetworkSize dsrNetworkQueue newEntry).1 = true →
      Called cfg m_maxNetworkSize
        (Egress.mk
          (e.m_priorityQueue.set (GetPriority messageType)
            (DsrNetworkQueue.Enqueue m_maxNetworkSize dsrNetworkQueue newEntry).2)
          e.m_addressForwardTimer e.trace)
  | scheduled (e : Egress) : Idle cfg m_maxNetworkSize e → Called cfg m_maxNetworkSize e

/-! ## An example configuration

The defaults of dsr-routing.cc:107-353 (one link and one passive retry, two
network retries, node traversal time 40 ms, acknowledgment timeouts 100 ms,
maintenance time 30 s, times in milliseconds) with link acknowledgment switched
off, for node `1`; and the same with link acknowledgment on.  Node `1` is `S`,
node `2` is `I`, node `3` is `D` of Scenario A. -/

/-- Node `S` without link acknowledgment. -/
def exampleConfig : Config :=
  { m_mainAddress := 1, m_linkAck := false, m_tryLinkAcks := 1, m_tryPassiveAcks := 1,
    m_maxMaintRexmt := 2, m_nodeTraversalTime := 40, m_linkAckTimeout := 100,
    m_passiveAckTimeout := 100, m_maxMaintainTime := 30000, isLinkCache := true,
    maintainAdmits := tailDrop 50 }

/-- Node `S` with link acknowledgment (the default of the attribute). -/
def exampleLinkConfig : Config :=
  { exampleConfig with m_linkAck := true }

/-- The maintenance entry of packet 7 sent by `S` to `D` along `[S, I, D]`. -/
def exampleEntry : DsrMaintainBuffEntry :=
  sourceEntry exampleConfig 7 [1, 2, 3] 2 1 3

/-- A state in which the passive counter of the example entry has reached 1. -/
def examplePassiveExhausted : State :=
  { State.init with
    m_passiveCnt := (mapSet State.init.m_passiveCnt exampleEntry.passiveKey 1) }

/-- Two packets of the flow `S → D` buffered at `S` with the same next hop and
acknowledgment id, sent along routes of different length (segments-left 2 and
1). -/
def exampleTwoEntries : State :=
  { State.init with
    m_maintainBuffer :=
      [sourceEntry exampleConfig 7 [1, 2, 4, 3] 2 1 3, sourceEntry exampleConfig 8 [1, 2, 3] 2 1 3] }

/-- The entry `CallCancelPacketTimer` builds at `S` for an acknowledgment with
id 0 received from `I` for the flow `S → D`. -/
def exampleAck : DsrMaintainBuffEntry :=
  ackEntry 0 1 2 1 3 0

/-- Scenario A at `I`: the source route option of the packet sent by `S` along
`[S, I, D]` (segments-left 1, acknowledgment flag 3, three addresses, option
length 14, no acknowledgment request following). -/
def exampleAtI : SrReceived :=
  { nodeList := [1, 2, 3], segsLeft := 1, salvage := 0, ackFlag := 3, numberAddress := 3,
    length := 14, optionType := 0 }

/-- Scenario A at `D`: the option as forwarded by `I` (segments-left 0). -/
def exampleAtD : SrReceived :=
  { nodeList := [1, 2, 3], segsLeft := 0, salvage := 0, ackFlag := 3, numberAddress := 3,
    length := 14, optionType := 0 }

/-- The state of `S` after `Send` dispatched packet 7 along `[S, I, D]`: the
entry is buffered and the passive timer runs. -/
def exampleSent : State :=
  SchedulePassivePacketRetry exampleConfig exampleEntry 17
    (afterEnqueue (afterUseExtends exampleConfig [1, 2, 3] State.init) exampleEntry)

/-- The passive timer of packet 7 expired twice without an acknowledgment: one
passive resend, then the first network-tier transmission. -/
def exampleEscalated : State :=
  PassiveScheduleTimerExpire exampleConfig exampleEntry 17
    (PassiveScheduleTimerExpire exampleConfig exampleEntry 17 exampleSent)

/-- The network timer of packet 7 expired twice more: two network resends. -/
def exampleRun : State :=
  NetworkScheduleTimerExpire exampleConfig (networkEntry exampleConfig exampleEntry) 17
    (NetworkScheduleTimerExpire exampleConfig (networkEntry exampleConfig exampleEntry) 17
      exampleEscalated)

/-- The maintenance entry of packet 8, the next packet of the flow `S → D`,
sent along the same route. -/
def exampleSecondEntry : DsrMaintainBuffEntry :=
  sourceEntry exampleConfig 8 [1, 2, 3] 2 1 3

/-- Packet 8 is dispatched by `Send` while packet 7 waits for its network
acknowledgment. -/
def exampleTwoInFlight : State :=
  SchedulePassivePacketRetry exampleConfig exampleSecondEntry 17
    (afterEnqueue (afterUseExtends exampleConfig [1, 2, 3] exampleEscalated) exampleSecondEntry)

/-- The default attributes of route discovery at node `S = 1`, with two
request attempts instead of 16 (`RequestPeriod` 500 ms, `MaxRequestPeriod` 10 s,
`NonPropRequestTimeout` 30 ms, `DiscoveryHopLimit` 255, `MaxSendBuffLen` 64). -/
def exampleRreqConfig : RreqConfig :=
  { m_mainAddress := 1, m_rreqRetries := 2, m_requestPeriod := 500,
    m_maxRequestPeriod := 10000, m_nonpropRequestTimeout := 30, m_discoveryHopLimit := 255,
    m_sendBufferTimeout := 30000, isLinkCache := true, sendBufferAdmits := sendTailDrop 64 }

/-- Node `S` after `Send` found no route to `X = 9` and queued packet 7, before
it calls `SendInitialRequest`. -/
def exampleQueued : Node :=
  { Node.init with
    control := true
    dsrcount := 1
    m_sendBuffer := [DsrSendBuffEntry.mk 7 9 30000 17] }

/-- After `SendInitialRequest` (request id 5): the non-propagating request is
out, the request count of `X` is 1. -/
def exampleRequested : Node :=
  (SendInitialRequest exampleRreqConfig 5 1 9 17 exampleQueued).getD exampleQueued

/-- After the non-propagating timer expired: one propagating request, count 2. -/
def exampleRetried : Node :=
  (RouteRequestTimerExpire exampleRreqConfig none [1, 9] 5 17 exampleRequested).getD
    exampleRequested

/-- After the propagating timer expired with the count at `rreqRetries = 2`. -/
def exampleGaveUp : Node :=
  (RouteRequestTimerExpire exampleRreqConfig none [1, 9] 5 17 exampleRetried).getD exampleRetried

/-- What the route cache of the target `D = 3` answers: link cache, no route to
itself, additions succeed. -/
def exampleCacheAtD : CacheAnswers :=
  { isLinkCache := true, toPrev := none, addRoute := true }

/-- The non-propagating request (TTL 0, request id 5) of `S = 1` for the target
`D = 3`, as received by a neighbour. -/
def exampleRreqZeroTtl : RreqReceived :=
  { nodeList := [1], target := 3, requestId := 5, numberAddress := 1, length := 10,
    serializedSize := 12, ttl := 0, srcAddress := 1, rerr := none }

/-- The propagating request (TTL 255) of `S = 1` for the target `D = 3`. -/
def exampleRreq : RreqReceived :=
  { nodeList := [1], target := 3, requestId := 5, numberAddress := 1, length := 10,
    serializedSize := 12, ttl := 255, srcAddress := 1, rerr := none }

/-- What the route cache of `I = 2` answers when it holds the route `[I, D]`. -/
def exampleCacheAtI : CacheAnswers :=
  { isLinkCache := true, toPrev := some [2, 3], addRoute := true }

/-- Node 12 after `Start`: an attacker. -/
def exampleAttacker : Node :=
  (Start 12 Node.init).getD Node.init

/-- A route reply with the node list `[S, I, S]` for `S = 1`. -/
def exampleRrepLoop : RrepReceived :=
  { nodeList := [1, 2, 1], length := 14, serializedSize := 16, ack := 0, uid := 7 }

/-- A route reply with the node list `[1, 2, 3, 2, 4]`, in which `2` occurs
twice, on its way from `4` to `1`. -/
def exampleRrepTwice : RrepReceived :=
  { nodeList := [1, 2, 3, 2, 4], length := 22, serializedSize := 24, ack := 0, uid := 8 }

/-- A path cache whose additions succeed. -/
def examplePathCache : CacheAnswers :=
  { isLinkCache := false, toPrev := none, addRoute := true }

/-- The route reply `[S, I, D]` with packet uid 7, as delivered to `S = 1`. -/
def exampleRrep : RrepReceived :=
  { nodeList := [1, 2, 3], length := 14, serializedSize := 16, ack := 0, uid := 7 }

/-- Node `S` with detection enabled and `I = 2` in its black list; it has not
had a cache miss in `Send`. -/
def exampleBlackListed : Node :=
  { Node.init with blackattack := true, m_blackList := [2] }

/-- The same node after a cache miss in `Send`. -/
def exampleBlackListedMiss : Node :=
  { exampleBlackListed with control := true }

/-- The flag-2 acknowledgment for the path `[1, 2, 3, 4]` whose original sender
is `3`, as received by the source `1`. -/
def exampleAckFrom3 : AckReceived :=
  { nodeList := [1, 2, 3, 4], realSrc := 1, realDst := 4, originalSender := 3, targetDst := 1,
    ackId := 0, ackFlag := 2, serializedSize := 30 }

/-- The flag-2 acknowledgment for the same path whose original sender is the
first hop `2`. -/
def exampleAckFrom2 : AckReceived :=
  { exampleAckFrom3 with originalSender := 2 }

/-- Two queues (the default), increment 20 ms; every running timer has 70 ms
left. -/
def exampleEgressConfig : EgressConfig :=
  { m_numPriorityQueues := 2, m_retransIncr := 20, delayLeft := fun _ => 70 }

/-- A control packet for the next hop 2. -/
def exampleControl : DsrNetworkQueueEntry :=
  { packet := 100, source := 1, nextHop := 2 }

/-- A data packet for the next hop 2. -/
def exampleData : DsrNetworkQueueEntry :=
  { packet := 7, source := 1, nextHop := 2 }

/-- Both queues hold one packet. -/
def exampleBothQueued : Egress :=
  { m_priorityQueue := [[exampleControl], [exampleData]],
    m_addressForwardTimer := fun _ => none, trace := [] }

/-- A single queue, as `NumPriorityQueues = 1` gives. -/
def exampleOneQueueConfig : EgressConfig :=
  { exampleEgressConfig with m_numPriorityQueues := 1 }

/-- A malformed source route option received by `I = 2`: three addresses, but
segments-left 5. -/
def exampleMalformed : SrReceived :=
  { exampleAtI with segsLeft := 5 }

/-- The data packet of scenario A at `I = 2` after a retransmission: its
acknowledgment flag is 2. -/
def exampleRetransmitted : SrReceived :=
  { exampleAtI with ackFlag := 2 }

/-- The flag-2 acknowledgment that the destination `4` of the path
`[1, 2, 3, 4]` addresses to the node two hops back, `2`. -/
def exampleAckFrom4 : AckReceived :=
  { nodeList := [1, 2, 3, 4], realSrc := 1, realDst := 4, originalSender := 4, targetDst := 2,
    ackId := 0, ackFlag := 2, serializedSize := 30 }

/-- A source route option carrying 64 addresses. -/
def exampleLongOption : SrOption :=
  { nodesAddress := List.range' 1 64, segmentsLeft := 62, salvage := 0, ackFlag := 3,
    sendCount := 1, time := 1000 }

/-- The option of scenario A, with its send count and time stamp. -/
def exampleOption : SrOption :=
  { nodesAddress := [1, 2, 3], segmentsLeft := 1, salvage := 0, ackFlag := 3,
    sendCount := 1, time := 1000 }

/-- The only queue of `exampleOneQueueConfig` right after it admitted the
control packet: the state `Scheduler (0)` is called in. -/
def exampleControlAdmitted : Egress :=
  { m_priorityQueue := [[exampleControl]], m_addressForwardTimer := fun _ => none, trace := [] }

/-- Node `5`, a forwarding node, with the attributes of `exampleConfig`. -/
def exampleConfigAt5 : Config :=
  { exampleConfig with m_mainAddress := 5 }

/-- A data packet of the flow `1 → 7` that node `4` salvaged once along its own
route `[4, 5, 6, 7]`, as node `5` receives it from `4`: `SalvagePacket` wrote
the route, the salvage count 1, the acknowledgment flag 3 and segments-left
`nodeList.size () - 2 = 2` (four addresses, option length 18). -/
def exampleSalvagedAt5 : SrReceived :=
  { nodeList := [4, 5, 6, 7], segsLeft := 2, salvage := 1, ackFlag := 3, numberAddress := 4,
    length := 18, optionType := 0 }

/-- The source route header with which `processSr` at node `5` forwards the
salvaged packet. -/
def exampleSalvagedRoute : DsrOptionSRHeader :=
  { nodesAddress := [4, 5, 6, 7], segmentsLeft := 1, salvage := 1, ackFlag := 3 }

/-- Node `5` after `processSr` handed the salvaged packet (uid 9) to
`ForwardPacket` with `realSource = nodeList.front () = 4`, the next address `6`
and the target `7`. -/
def exampleSalvagedForwarded : State :=
  ForwardPacket exampleConfigAt5 9 exampleSalvagedRoute 4 6 7 17 State.init

/-- The entry node `5` buffers for the salvaged packet. -/
def exampleSalvagedEntry : DsrMaintainBuffEntry :=
  forwardEntry exampleConfigAt5 0 9 exampleSalvagedRoute 4 6 7

/-- Node `5` hears nothing from `6`: the passive timer of the salvaged packet
expires twice, then the network timer three times; the last expiry gives the
link to `6` up and calls `CancelPacketTimerNextHop (6)`. -/
def exampleSalvagedRun : State :=
  NetworkScheduleTimerExpire exampleConfigAt5 (networkEntry exampleConfigAt5 exampleSalvagedEntry) 17
    (NetworkScheduleTimerExpire exampleConfigAt5
      (networkEntry exampleConfigAt5 exampleSalvagedEntry) 17
      (NetworkScheduleTimerExpire exampleConfigAt5
        (networkEntry exampleConfigAt5 exampleSalvagedEntry) 17
        (PassiveScheduleTimerExpire exampleConfigAt5 exampleSalvagedEntry 17
          (PassiveScheduleTimerExpire exampleConfigAt5 exampleSalvagedEntry 17
            exampleSalvagedForwarded))))

/-! ## Theorems -/

/-! ### `std::map` lemmas -/

theorem mapErase_self {K V : Type} [DecidableEq K] (m : K → Option V) (k : K) :
    mapErase m k k = none := by
  simp [mapErase]

theorem mapErase_other {K V : Type} [DecidableEq K] (m : K → Option V) (k j : K) (h : j ≠ k) :
    mapErase m k j = m j := by
  simp [mapErase, h]

theorem mapSet_self {K V : Type} [DecidableEq K] (m : K → Option V) (k : K) (v : V) :
    mapSet m k v k = some v := by
  simp [mapSet]

theorem mapSet_other {K V : Type} [DecidableEq K] (m : K → Option V) (k j : K) (v : V)
    (h : j ≠ k) : mapSet m k v j = m j := by
  simp [mapSet, h]

theorem mapErase_of_none {K V : Type} [DecidableEq K] (m : K → Option V) (k : K)
    (h : m k = none) : mapErase m k = m := by
  funext j
  by_cases hj : j = k
  · subst hj
    simp [mapErase, h]
  · simp [mapErase, hj]

theorem mapErase_mapSet {K V : Type} [DecidableEq K] (m : K → Option V) (k : K) (v : V) :
    mapErase (mapSet m k v) k = mapErase m k := by
  funext j
  by_cases hj : j = k <;> simp [mapErase, mapSet, hj]

theorem mapErase_mapErase {K V : Type} [DecidableEq K] (m : K → Option V) (k : K) :
    mapErase (mapErase m k) k = mapErase m k := by
  funext j
  by_cases hj : j = k <;> simp [mapErase, hj]

theorem mapErase_some {K V : Type} [DecidableEq K] (m : K → Option V) (k j : K) (v : V)
    (h : mapErase m k j = some v) : m j = some v ∧ j ≠ k := by
  by_cases hj : j = k
  · simp [mapErase, hj] at h
  · simpa [mapErase, hj] using h

/-! ### Lemmas about `SearchNextHop` -/

theorem SearchNextHop.loop_absent (a : Ipv4Address) (vec : List Ipv4Address)
    (h : a ∉ vec) : SearchNextHop.loop a vec = some noAddress := by
  induction vec with
  | nil => rfl
  | cons x rest ih =>
    have hx : a ≠ x := fun e => h (by simp [e])
    have hr : a ∉ rest := fun m => h (List.mem_cons_of_mem _ m)
    simp [SearchNextHop.loop, hx, ih hr]

theorem SearchNextHop.loop_succ (vec : List Ipv4Address) (hnd : vec.Nodup) (i : Nat)
    (a : Ipv4Address) (hi : vec[i]? = some a) (hlt : i + 1 < vec.length) :
    SearchNextHop.loop a vec = vec[i + 1]? := by
  induction vec generalizing i with
  | nil => simp at hlt
  | cons x rest ih =>
    rw [List.nodup_cons] at hnd
    cases i with
    | zero =>
      simp at hi
      subst hi
      cases rest with
      | nil => simp at hlt
      | cons y tl => simp [SearchNextHop.loop]
    | succ j =>
      simp at hi
      have hmem : a ∈ rest := List.getElem?_mem hi
      have hx : a ≠ x := fun e => hnd.1 (e ▸ hmem)
      have hlt2 : j + 1 < rest.length := by simpa using hlt
      simp [SearchNextHop.loop, hx, ih hnd.2 j hi hlt2]

theorem SearchNextHop_of_nodup (R : List Ipv4Address) (i : Nat) (a : Ipv4Address)
    (hlen : 2 ≤ R.length) (hnd : R.Nodup) (hi : R[i]? = some a)
    (hlt : i + 1 < R.length) :
    SearchNextHop a R = R[i + 1]? := by
  unfold SearchNextHop
  by_cases h2 : R.length = 2
  · have hi0 : i = 0 := by omega
    subst hi0
    simp [h2]
  · rw [if_neg h2]
    have hne : R ≠ [] := by
      intro e
      simp [e] at hlen
    rw [List.getLast?_eq_getLast _ hne]
    have hback : a ≠ R.getLast hne := by
      intro e
      have h1 : R[R.length - 1]? = some a := by
        rw [e, List.getLast_eq_getElem]
        exact List.getElem?_eq_getElem _
      have hij : i = R.length - 1 :=
        List.getElem?_inj (by omega) hnd (hi.trans h1.symm)
      omega
    simp [hback, SearchNextHop.loop_succ R hnd i a hi hlt]

/-- C9. `SearchNextHop` returns the successor: for every valid route `R`
(length at least 2, no address repeated) and every index `i` with
`0 ≤ i < len(R) - 1`, `SearchNextHop (R[i], R)` returns `R[i+1]`. -/
theorem searchNextHop_successor (R : List Ipv4Address) (i : Nat)
    (hlen : 2 ≤ R.length) (hnd : R.Nodup) (hlt : i + 1 < R.length) :
    SearchNextHop (R.get ⟨i, Nat.lt_of_succ_lt hlt⟩) R = some (R.get ⟨i + 1, hlt⟩) := by
  have hi : R[i]? = some (R.get ⟨i, Nat.lt_of_succ_lt hlt⟩) := by
    rw [List.get_eq_getElem]
    exact List.getElem?_eq_getElem _
  rw [SearchNextHop_of_nodup R i _ hlen hnd hi hlt, List.get_eq_getElem]
  exact List.getElem?_eq_getElem hlt

/-- Witness of C9: in the route `[S, I, D] = [1, 2, 3]` the next hop of `I` is `D`. -/
theorem searchNextHop_successor_witness :
    SearchNextHop ([1, 2, 3].get ⟨1, by decide⟩) [1, 2, 3] = some ([1, 2, 3].get ⟨2, by decide⟩) :=
  searchNextHop_successor [1, 2, 3] 1 (by decide) (by decide) (by decide)

/-- C10, as stated, fails: on the two-node route `[1, 2]` the absent address `3`
gets the next hop `2` ("The two nodes are neighbors"), not `0.0.0.0`. -/
theorem searchNextHop_absent_two_nodes :
    ¬ (∀ (R : List Ipv4Address) (a : Ipv4Address), 2 ≤ R.length → R.Nodup → a ∉ R →
        SearchNextHop a R = some noAddress) := by
  intro h
  have h2 := h [1, 2] 3 (by decide) (by decide) (by decide)
  revert h2
  decide

/-- C10, amended. For every route `R` of length at least 2 (valid routes among
them) and every address `a` that does not occur in `R`: when `R` has more than
two nodes `SearchNextHop (a, R)` is the "no next hop" value `0.0.0.0`; when `R`
has exactly two nodes it is `R[1]`, whatever `a` is. -/
theorem searchNextHop_absent (R : List Ipv4Address) (a : Ipv4Address)
    (hlen : 2 ≤ R.length) (ha : a ∉ R) :
    SearchNextHop a R = if R.length = 2 then R[1]? else some noAddress := by
  unfold SearchNextHop
  by_cases h2 : R.length = 2
  · simp [h2]
  · rw [if_neg h2, if_neg h2]
    have hne : R ≠ [] := by
      intro e
      simp [e] at hlen
    rw [List.getLast?_eq_getLast _ hne]
    have hback : a ≠ R.getLast hne := fun e => ha (e ▸ List.getLast_mem hne)
    simp [hback, SearchNextHop.loop_absent a R ha]

/-- Witness of C10 amended: the address `9` is absent from `[1, 2, 3]`. -/
theorem searchNextHop_absent_witness :
    SearchNextHop 9 [1, 2, 3] = if [1, 2, 3].length = 2 then [1, 2, 3][1]? else some noAddress :=
  searchNextHop_absent [1, 2, 3] 9 (by decide) (by decide)

/-! ### Traces of the scheduling operations -/

theorem scheduled_append (a b : List Event) : scheduled (a ++ b) = scheduled a ++ scheduled b := by
  simp [scheduled, List.filterMap_append]

theorem sendCount_append (a b : List Event) : sendCount (a ++ b) = sendCount a + sendCount b := by
  simp [sendCount, List.countP_append]

theorem ScheduleLinkPacketRetry_trace (cfg : Config) (mb : DsrMaintainBuffEntry) (protocol : Nat)
    (s : State) :
    (ScheduleLinkPacketRetry cfg mb protocol s).trace =
      s.trace ++ [Event.ScheduleLinkPacketRetry mb,
        Event.SendPacket (withAckFlag2 mb.packet) mb.src mb.nextHop protocol] := by
  simp [ScheduleLinkPacketRetry, SendPacket, State.emit]

theorem SchedulePassivePacketRetry_trace (cfg : Config) (mb : DsrMaintainBuffEntry)
    (protocol : Nat) (s : State) :
    (SchedulePassivePacketRetry cfg mb protocol s).trace =
      s.trace ++ [Event.SchedulePassivePacketRetry mb,
        Event.SendPacket mb.packet mb.src mb.nextHop protocol] := by
  simp [SchedulePassivePacketRetry, SendPacket, State.emit]

theorem ScheduleNetworkPacketRetry_first_trace (cfg : Config) (mb : DsrMaintainBuffEntry)
    (protocol : Nat) (s : State) :
    ∃ l, (ScheduleNetworkPacketRetry cfg mb true protocol s).trace =
      s.trace ++ ([Event.ScheduleNetworkPacketRetry mb true,
        Event.SendPacket mb.packet mb.src mb.nextHop protocol] ++ l) ∧
      ∀ e, e ∈ l → ∃ x, e = Event.EnqueueFailed x := by
  by_cases h : (DsrMaintainBuffer.Enqueue cfg
      (DsrMaintainBuffer.AllEqual s.m_maintainBuffer mb).2 (networkEntry cfg mb)).1 = true
  · refine ⟨[], ?_, by simp⟩
    simp [ScheduleNetworkPacketRetry, SendPacket, State.emit, h]
  · refine ⟨[Event.EnqueueFailed (networkEntry cfg mb)], ?_, by simp⟩
    simp [ScheduleNetworkPacketRetry, SendPacket, State.emit, h]

theorem ScheduleNetworkPacketRetry_next_trace (cfg : Config) (mb : DsrMaintainBuffEntry)
    (protocol : Nat) (s : State) :
    (ScheduleNetworkPacketRetry cfg mb false protocol s).trace =
      s.trace ++ [Event.ScheduleNetworkPacketRetry mb false,
        Event.SendPacket (withAckFlag2 mb.packet) mb.src mb.nextHop protocol] := by
  simp [ScheduleNetworkPacketRetry, SendPacket, State.emit]

theorem scheduled_first (cfg : Config) (mb : DsrMaintainBuffEntry) (protocol : Nat) (s : State) :
    scheduled (ScheduleNetworkPacketRetry cfg mb true protocol s).trace =
      scheduled s.trace ++ [Tier.network true] := by
  obtain ⟨l, hl, hall⟩ := ScheduleNetworkPacketRetry_first_trace cfg mb protocol s
  have hnil : scheduled l = [] := by
    simp only [scheduled, List.filterMap_eq_nil_iff]
    intro e he
    obtain ⟨x, rfl⟩ := hall e he
    rfl
  rw [hl, scheduled_append, scheduled_append, hnil]
  simp [scheduled, Event.tier]

/-! ### Tier selection at the dispatch sites -/

theorem scheduleTier_select (cfg : Config) (e : DsrMaintainBuffEntry) (protocol : Nat)
    (nextHop destination : Ipv4Address) (s1 : State) :
    (if cfg.m_linkAck = true then ScheduleLinkPacketRetry cfg e protocol s1
      else if nextHop ≠ destination then SchedulePassivePacketRetry cfg e protocol s1
      else ScheduleNetworkPacketRetry cfg e true protocol s1) =
    scheduleTier cfg (selectTier cfg.m_linkAck nextHop destination) e protocol s1 := by
  by_cases hl : cfg.m_linkAck = true
  · simp [hl, selectTier, scheduleTier]
  · by_cases hd : nextHop = destination
    · simp [hl, hd, selectTier, scheduleTier]
    · simp [hl, hd, selectTier, scheduleTier]

theorem Send_eq (cfg : Config) (nodeList : List Ipv4Address) (pend : Bool)
    (fuel packet : Nat) (source destination : Ipv4Address) (protocol : Nat) (s : State)
    (nextHop : Ipv4Address) (hproto : protocol ≠ 1)
    (hnh : SearchNextHop cfg.m_mainAddress nodeList = some nextHop) (hne : nextHop ≠ noAddress)
    (hadm : cfg.maintainAdmits s.m_maintainBuffer
      (sourceEntry cfg packet nodeList nextHop source destination) = true) :
    Send cfg (some nodeList) pend fuel packet source destination protocol s =
      some (emitIf pend
        (Event.ScheduleSendPacketFromBuffer (freshSourceRoute nodeList) nextHop protocol)
        (scheduleTier cfg (selectTier cfg.m_linkAck nextHop destination)
          (sourceEntry cfg packet nodeList nextHop source destination) protocol
          (afterEnqueue (afterUseExtends cfg nodeList s)
            (sourceEntry cfg packet nodeList nextHop source destination)))) := by
  have hb : (afterUseExtends cfg nodeList s).m_maintainBuffer = s.m_maintainBuffer := by
    unfold afterUseExtends
    split <;> rfl
  unfold Send
  rw [if_neg hproto]
  simp only [hnh]
  rw [if_neg hne]
  have hadm2 : (DsrMaintainBuffer.Enqueue cfg (afterUseExtends cfg nodeList s).m_maintainBuffer
      (sourceEntry cfg packet nodeList nextHop source destination)) =
      (true, (afterUseExtends cfg nodeList s).m_maintainBuffer ++
        [sourceEntry cfg packet nodeList nextHop source destination]) := by
    unfold DsrMaintainBuffer.Enqueue
    rw [hb, if_pos hadm]
  have h0 : (if cfg.isLinkCache = true then s.emit (Event.UseExtends nodeList) else s) =
      afterUseExtends cfg nodeList s := rfl
  simp only [h0, hadm2, if_true]
  rw [scheduleTier_select]
  cases pend <;> rfl

theorem PacketNewRoute_eq (cfg : Config) (nodeList : List Ipv4Address)
    (fuel packet : Nat) (source destination : Ipv4Address) (protocol : Nat) (s : State)
    (nextHop : Ipv4Address)
    (hnh : SearchNextHop cfg.m_mainAddress nodeList = some nextHop) (hne : nextHop ≠ noAddress)
    (hadm : cfg.maintainAdmits s.m_maintainBuffer
      (sourceEntry cfg packet nodeList nextHop source destination) = true) :
    PacketNewRoute cfg (some nodeList) (fuel + 1) packet source destination protocol s =
      some (scheduleTier cfg (selectTier cfg.m_linkAck nextHop destination)
          (sourceEntry cfg packet nodeList nextHop source destination) protocol
          (afterEnqueue (afterUseExtends cfg nodeList s)
            (sourceEntry cfg packet nodeList nextHop source destination))) := by
  have hb : (afterUseExtends cfg nodeList s).m_maintainBuffer = s.m_maintainBuffer := by
    unfold afterUseExtends
    split <;> rfl
  have hadm2 : (DsrMaintainBuffer.Enqueue cfg (afterUseExtends cfg nodeList s).m_maintainBuffer
      (sourceEntry cfg packet nodeList nextHop source destination)) =
      (true, (afterUseExtends cfg nodeList s).m_maintainBuffer ++
        [sourceEntry cfg packet nodeList nextHop source destination]) := by
    unfold DsrMaintainBuffer.Enqueue
    rw [hb, if_pos hadm]
  have h0 : (if cfg.isLinkCache = true then s.emit (Event.UseExtends nodeList) else s) =
      afterUseExtends cfg nodeList s := rfl
  unfold PacketNewRoute
  simp only [hnh]
  rw [if_neg hne]
  simp only [h0, hadm2, if_true]
  by_cases hl : cfg.m_linkAck = true
  · simp only [hl, if_true, selectTier, scheduleTier]
    rfl
  · by_cases hd : nextHop = destination
    · subst hd
      simp only [hl, ne_eq, not_true_eq_false, if_false, selectTier, scheduleTier]
      rfl
    · simp only [hl, hd, ne_eq, not_false_eq_true, if_true, if_false, selectTier, scheduleTier]
      rfl

theorem CheckSendBuffer_sendData_eq (cfg : Config) (nodeList : List Ipv4Address)
    (fuel packet : Nat) (destination : Ipv4Address) (protocol : Nat) (s : State)
    (nextHop : Ipv4Address)
    (hnh : SearchNextHop cfg.m_mainAddress nodeList = some nextHop) (hne : nextHop ≠ noAddress)
    (hadm : cfg.maintainAdmits s.m_maintainBuffer
      (sourceEntry cfg packet nodeList nextHop cfg.m_mainAddress destination) = true) :
    CheckSendBuffer.sendData cfg nodeList fuel packet destination protocol s =
      some ((scheduleTier cfg (selectTier cfg.m_linkAck nextHop destination)
          (sourceEntry cfg packet nodeList nextHop cfg.m_mainAddress destination) protocol
          (afterEnqueue (afterUseExtends cfg nodeList s)
            (sourceEntry cfg packet nodeList nextHop cfg.m_mainAddress destination))).emit
        Event.ScheduleSendBuffTimerExpire) := by
  have hb : (afterUseExtends cfg nodeList s).m_maintainBuffer = s.m_maintainBuffer := by
    unfold afterUseExtends
    split <;> rfl
  have hadm2 : (DsrMaintainBuffer.Enqueue cfg (afterUseExtends cfg nodeList s).m_maintainBuffer
      (sourceEntry cfg packet nodeList nextHop cfg.m_mainAddress destination)) =
      (true, (afterUseExtends cfg nodeList s).m_maintainBuffer ++
        [sourceEntry cfg packet nodeList nextHop cfg.m_mainAddress destination]) := by
    unfold DsrMaintainBuffer.Enqueue
    rw [hb, if_pos hadm]
  have h0 : (if cfg.isLinkCache = true then s.emit (Event.UseExtends nodeList) else s) =
      afterUseExtends cfg nodeList s := rfl
  unfold CheckSendBuffer.sendData
  simp only [hnh]
  rw [if_neg hne]
  simp only [h0, hadm2, if_true]
  rw [scheduleTier_select]
  rfl

theorem SendPacketFromBuffer_eq (cfg : Config) (packet : Nat) (morePending : Bool)
    (sourceRoute : DsrOptionSRHeader) (nextHop : Ipv4Address) (protocol : Nat) (s : State)
    (source destination : Ipv4Address)
    (hback : sourceRoute.nodesAddress.getLast? = some destination)
    (hfront : sourceRoute.nodesAddress.head? = some source)
    (hadm : cfg.maintainAdmits s.m_maintainBuffer
      (bufferedEntry cfg packet { sourceRoute with ackFlag := 3 } nextHop source destination)
        = true) :
    SendPacketFromBuffer cfg true (some packet) morePending sourceRoute nextHop protocol s =
      some (emitIf morePending
        (Event.ScheduleSendPacketFromBuffer { sourceRoute with ackFlag := 3 } nextHop protocol)
        (scheduleTier cfg (selectTier cfg.m_linkAck nextHop destination)
          (bufferedEntry cfg packet { sourceRoute with ackFlag := 3 } nextHop source destination)
          protocol
          (afterEnqueue (afterUseExtends cfg sourceRoute.nodesAddress s)
            (bufferedEntry cfg packet { sourceRoute with ackFlag := 3 } nextHop source
              destination)))) := by
  have hb : (afterUseExtends cfg sourceRoute.nodesAddress s).m_maintainBuffer =
      s.m_maintainBuffer := by
    unfold afterUseExtends
    split <;> rfl
  have hadm2 : (DsrMaintainBuffer.Enqueue cfg
      (afterUseExtends cfg sourceRoute.nodesAddress s).m_maintainBuffer
      (bufferedEntry cfg packet { sourceRoute with ackFlag := 3 } nextHop source destination)) =
      (true, (afterUseExtends cfg sourceRoute.nodesAddress s).m_maintainBuffer ++
        [bufferedEntry cfg packet { sourceRoute with ackFlag := 3 } nextHop source destination])
        := by
    unfold DsrMaintainBuffer.Enqueue
    rw [hb, if_pos hadm]
  have h0 : (if cfg.isLinkCache = true then s.emit (Event.UseExtends sourceRoute.nodesAddress)
      else s) = afterUseExtends cfg sourceRoute.nodesAddress s := rfl
  unfold SendPacketFromBuffer
  simp only [hback, hfront, if_true]
  simp only [h0, hadm2, if_true]
  rw [scheduleTier_select]
  cases morePending <;> rfl

theorem ForwardPacket_eq (cfg : Config) (packet : Nat) (sourceRoute : DsrOptionSRHeader)
    (source nextHop targetAddress : Ipv4Address) (protocol : Nat) (s : State)
    (hadm : cfg.maintainAdmits s.m_maintainBuffer
      (forwardEntry cfg s.m_ackId packet sourceRoute source nextHop targetAddress) = true) :
    ForwardPacket cfg packet sourceRoute source nextHop targetAddress protocol s =
      scheduleTier cfg (selectTier cfg.m_linkAck nextHop targetAddress)
        (forwardEntry cfg s.m_ackId packet sourceRoute source nextHop targetAddress) protocol
        (afterEnqueue s
          (forwardEntry cfg s.m_ackId packet sourceRoute source nextHop targetAddress)) := by
  have hadm2 : (DsrMaintainBuffer.Enqueue cfg s.m_maintainBuffer
      (forwardEntry cfg s.m_ackId packet sourceRoute source nextHop targetAddress)) =
      (true, s.m_maintainBuffer ++
        [forwardEntry cfg s.m_ackId packet sourceRoute source nextHop targetAddress]) := by
    unfold DsrMaintainBuffer.Enqueue
    rw [if_pos hadm]
  unfold ForwardPacket
  simp only [hadm2, if_true]
  rw [scheduleTier_select]
  rfl

/-! ### Single steps of the timer-expiry handlers -/

theorem CancelLinkPacketTimer_trace (mb : DsrMaintainBuffEntry) (s : State) :
    (CancelLinkPacketTimer mb s).trace = s.trace := rfl

theorem CancelNetworkPacketTimer_trace (mb : DsrMaintainBuffEntry) (s : State) :
    (CancelNetworkPacketTimer mb s).trace = s.trace := rfl

theorem CancelPassivePacketTimer_trace (mb : DsrMaintainBuffEntry) (s : State) :
    (CancelPassivePacketTimer mb s).trace = s.trace := rfl

theorem CancelPacketAllTimer_trace (mb : DsrMaintainBuffEntry) (s : State) :
    (CancelPacketAllTimer mb s).trace = s.trace := rfl

theorem CancelPacketTimerNextHop_withEntry_trace (nextHop : Ipv4Address) (protocol : Nat)
    (entry : DsrMaintainBuffEntry) (s : State) :
    ∃ l, (CancelPacketTimerNextHop.withEntry nextHop protocol entry s).trace = s.trace ++ l ∧
      ∀ e, e ∈ l → e.isErrorProcessing = true := by
  unfold CancelPacketTimerNextHop.withEntry
  simp only []
  split
  · refine ⟨[Event.SendUnreachError nextHop (CancelPacketTimerNextHop.errorDst entry) entry.dst
        entry.packet.sourceRoute.salvage protocol,
        Event.SalvagePacket entry.packet entry.src entry.dst protocol,
        Event.ScheduleCancelPacketTimerNextHop nextHop protocol], ?_, ?_⟩
    · simp only [State.emit, CancelPacketAllTimer_trace, List.append_assoc, List.singleton_append,
        List.cons_append, List.nil_append]
    · intro e he
      simp only [List.mem_cons, List.mem_singleton, List.not_mem_nil, or_false] at he
      rcases he with rfl | rfl | rfl <;> rfl
  · refine ⟨[Event.SendUnreachError nextHop (CancelPacketTimerNextHop.errorDst entry) entry.dst
        entry.packet.sourceRoute.salvage protocol,
        Event.SalvagePacket entry.packet entry.src entry.dst protocol], ?_, ?_⟩
    · simp only [State.emit, CancelPacketAllTimer_trace, List.append_assoc, List.singleton_append,
        List.cons_append, List.nil_append]
    · intro e he
      simp only [List.mem_cons, List.mem_singleton, List.not_mem_nil, or_false] at he
      rcases he with rfl | rfl <;> rfl

theorem CancelPacketTimerNextHop_trace (nextHop : Ipv4Address) (protocol : Nat) (s : State) :
    ∃ l, (CancelPacketTimerNextHop nextHop protocol s).trace =
        s.trace ++ Event.CancelPacketTimerNextHop nextHop :: l ∧
      ∀ e, e ∈ l → e.isErrorProcessing = true := by
  unfold CancelPacketTimerNextHop
  simp only []
  split
  · rename_i entry buf _
    obtain ⟨l, hl, hall⟩ := CancelPacketTimerNextHop_withEntry_trace nextHop protocol entry
      { s.emit (Event.CancelPacketTimerNextHop nextHop) with m_maintainBuffer := buf }
    refine ⟨l, ?_, hall⟩
    rw [hl]
    simp [State.emit]
  · exact ⟨[], by simp [State.emit], by simp⟩

theorem LinkScheduleTimerExpire_resend (cfg : Config) (mb : DsrMaintainBuffEntry)
    (protocol : Nat) (s : State)
    (hc : (s.m_linkCnt mb.linkKey).getD 0 < cfg.m_tryLinkAcks) :
    (LinkScheduleTimerExpire cfg mb protocol s).m_linkCnt mb.linkKey =
        some ((s.m_linkCnt mb.linkKey).getD 0 + 1) ∧
    (LinkScheduleTimerExpire cfg mb protocol s).trace =
        s.trace ++ [Event.ScheduleLinkPacketRetry mb,
          Event.SendPacket (withAckFlag2 mb.packet) mb.src mb.nextHop protocol] ∧
    (LinkScheduleTimerExpire cfg mb protocol s).m_linkAckTimer mb.linkKey =
        some { mb := mb, protocol := protocol, delay := cfg.m_linkAckTimeout } := by
  simp [LinkScheduleTimerExpire, hc, ScheduleLinkPacketRetry, SendPacket, State.emit, mapSet,
    mapTouch, mapErase]

theorem LinkScheduleTimerExpire_escalate (cfg : Config) (mb : DsrMaintainBuffEntry)
    (protocol : Nat) (s : State)
    (hc : cfg.m_tryLinkAcks ≤ (s.m_linkCnt mb.linkKey).getD 0) :
    LinkScheduleTimerExpire cfg mb protocol s =
      CancelPacketTimerNextHop mb.nextHop protocol
        ({ s with m_linkAckTimer := mapErase s.m_linkAckTimer mb.linkKey,
                  m_linkCnt := mapTouch s.m_linkCnt mb.linkKey 0,
                  m_linkRetries := (s.m_linkCnt mb.linkKey).getD 0 }.emit
          (Event.DeleteAllRoutesIncludeLink cfg.m_mainAddress mb.nextHop cfg.m_mainAddress)) := by
  have h : ¬ (s.m_linkCnt mb.linkKey).getD 0 < cfg.m_tryLinkAcks := by omega
  simp [LinkScheduleTimerExpire, h, mapErase]

theorem PassiveScheduleTimerExpire_resend (cfg : Config) (mb : DsrMaintainBuffEntry)
    (protocol : Nat) (s : State)
    (hc : (s.m_passiveCnt mb.passiveKey).getD 0 < cfg.m_tryPassiveAcks) :
    (PassiveScheduleTimerExpire cfg mb protocol s).m_passiveCnt mb.passiveKey =
        some ((s.m_passiveCnt mb.passiveKey).getD 0 + 1) ∧
    (PassiveScheduleTimerExpire cfg mb protocol s).trace =
        s.trace ++ [Event.SchedulePassivePacketRetry mb,
          Event.SendPacket mb.packet mb.src mb.nextHop protocol] ∧
    (PassiveScheduleTimerExpire cfg mb protocol s).m_passiveAckTimer mb.passiveKey =
        some { mb := mb, protocol := protocol, delay := cfg.m_passiveAckTimeout } := by
  simp [PassiveScheduleTimerExpire, hc, SchedulePassivePacketRetry, SendPacket, State.emit,
    mapSet, mapTouch, mapErase]

theorem PassiveScheduleTimerExpire_escalate (cfg : Config) (mb : DsrMaintainBuffEntry)
    (protocol : Nat) (s : State)
    (hc : cfg.m_tryPassiveAcks ≤ (s.m_passiveCnt mb.passiveKey).getD 0) :
    PassiveScheduleTimerExpire cfg mb protocol s =
      ScheduleNetworkPacketRetry cfg mb true protocol
        (CancelPassivePacketTimer mb
          { s with m_passiveAckTimer := mapErase s.m_passiveAckTimer mb.passiveKey,
                   m_passiveCnt := mapTouch s.m_passiveCnt mb.passiveKey 0,
                   m_passiveRetries := (s.m_passiveCnt mb.passiveKey).getD 0 }) := by
  have h : ¬ (s.m_passiveCnt mb.passiveKey).getD 0 < cfg.m_tryPassiveAcks := by omega
  simp [PassiveScheduleTimerExpire, h, mapErase]

theorem NetworkScheduleTimerExpire_resend (cfg : Config) (mb : DsrMaintainBuffEntry)
    (protocol : Nat) (s : State)
    (hc : (s.m_addressForwardCnt mb.networkKey).getD 0 < cfg.m_maxMaintRexmt) :
    (NetworkScheduleTimerExpire cfg mb protocol s).m_addressForwardCnt mb.networkKey =
        some ((s.m_addressForwardCnt mb.networkKey).getD 0 + 1) ∧
    (NetworkScheduleTimerExpire cfg mb protocol s).trace =
        s.trace ++ [Event.ScheduleNetworkPacketRetry mb false,
          Event.SendPacket (withAckFlag2 mb.packet) mb.src mb.nextHop protocol] ∧
    (NetworkScheduleTimerExpire cfg mb protocol s).m_addressForwardTimer mb.networkKey =
        some { mb := mb, protocol := protocol,
               delay := 2 * ((s.m_addressForwardCnt mb.networkKey).getD 0 + 1) *
                 cfg.m_nodeTraversalTime } ∧
    (NetworkScheduleTimerExpire cfg mb protocol s).m_sendRetries =
        (s.m_addressForwardCnt mb.networkKey).getD 0 + 1 := by
  have h : ¬ cfg.m_maxMaintRexmt ≤ (s.m_addressForwardCnt mb.networkKey).getD 0 := by omega
  simp [NetworkScheduleTimerExpire, h, ScheduleNetworkPacketRetry, SendPacket, State.emit, mapSet,
    mapTouch]

theorem NetworkScheduleTimerExpire_escalate (cfg : Config) (mb : DsrMaintainBuffEntry)
    (protocol : Nat) (s : State)
    (hc : cfg.m_maxMaintRexmt ≤ (s.m_addressForwardCnt mb.networkKey).getD 0) :
    NetworkScheduleTimerExpire cfg mb protocol s =
      CancelPacketTimerNextHop mb.nextHop protocol
        ({ s with m_addressForwardCnt := mapTouch s.m_addressForwardCnt mb.networkKey 0,
                  m_sendRetries := (s.m_addressForwardCnt mb.networkKey).getD 0 }.emit
          (Event.DeleteAllRoutesIncludeLink cfg.m_mainAddress mb.nextHop cfg.m_mainAddress)) := by
  simp [NetworkScheduleTimerExpire, hc]

/-! ### What the cancel operations leave in the maps -/

theorem CancelLinkPacketTimer_eq (mb : DsrMaintainBuffEntry) (s : State) :
    CancelLinkPacketTimer mb s =
      { s with m_linkCnt := mapErase s.m_linkCnt mb.linkKey,
               m_linkAckTimer := mapErase s.m_linkAckTimer mb.linkKey,
               m_maintainBuffer := (DsrMaintainBuffer.LinkEqual s.m_maintainBuffer mb).2 } := by
  unfold CancelLinkPacketTimer
  cases h : s.m_linkAckTimer mb.linkKey with
  | none => simp [mapErase_mapSet, mapErase_of_none _ _ h, h]
  | some t => simp [mapErase_mapSet, h]

theorem CancelNetworkPacketTimer_eq (mb : DsrMaintainBuffEntry) (s : State) :
    CancelNetworkPacketTimer mb s =
      { s with m_addressForwardCnt := mapErase s.m_addressForwardCnt mb.networkKey,
               m_addressForwardTimer := mapErase s.m_addressForwardTimer mb.networkKey,
               m_maintainBuffer := (DsrMaintainBuffer.NetworkEqual s.m_maintainBuffer mb).2 } := by
  unfold CancelNetworkPacketTimer
  cases h : s.m_addressForwardTimer mb.networkKey with
  | none => simp [mapErase_mapSet, mapErase_of_none _ _ h, h]
  | some t => simp [mapErase_mapSet, h]

theorem CancelPassivePacketTimer_eq (mb : DsrMaintainBuffEntry) (s : State) :
    CancelPassivePacketTimer mb s =
      { s with m_passiveCnt := mapErase s.m_passiveCnt mb.passiveKey,
               m_passiveAckTimer := mapErase s.m_passiveAckTimer mb.passiveKey } := by
  unfold CancelPassivePacketTimer
  cases h : s.m_passiveAckTimer mb.passiveKey with
  | none => simp [mapErase_mapSet, mapErase_of_none _ _ h, h]
  | some t => simp [mapErase_mapSet, h]

theorem CancelPacketAllTimer_eq (mb : DsrMaintainBuffEntry) (s : State) :
    CancelPacketAllTimer mb s =
      { s with m_linkCnt := mapErase s.m_linkCnt mb.linkKey,
               m_linkAckTimer := mapErase s.m_linkAckTimer mb.linkKey,
               m_addressForwardCnt := mapErase s.m_addressForwardCnt mb.networkKey,
               m_addressForwardTimer := mapErase s.m_addressForwardTimer mb.networkKey,
               m_passiveCnt := mapErase s.m_passiveCnt mb.passiveKey,
               m_passiveAckTimer := mapErase s.m_passiveAckTimer mb.passiveKey,
               m_maintainBuffer :=
                 (DsrMaintainBuffer.NetworkEqual
                   (DsrMaintainBuffer.LinkEqual s.m_maintainBuffer mb).2 mb).2 } := by
  unfold CancelPacketAllTimer
  rw [CancelPassivePacketTimer_eq, CancelNetworkPacketTimer_eq, CancelLinkPacketTimer_eq]

/-! ### Timers after the cancel operations -/

theorem mapErase_isSome {K V : Type} [DecidableEq K] (m : K → Option V) (k j : K)
    (h : (mapErase m k j).isSome = true) : (m j).isSome = true := by
  by_cases hj : j = k
  · simp [mapErase, hj] at h
  · simpa [mapErase, hj] using h

theorem emit_holds (s : State) (e : Event) (a : TimerRef) : (s.emit e).holds a = s.holds a := by
  cases a <;> rfl

theorem CancelLinkPacketTimer_holds (mb : DsrMaintainBuffEntry) (s : State) (a : TimerRef)
    (h : (CancelLinkPacketTimer mb s).holds a = true) : s.holds a = true := by
  rw [CancelLinkPacketTimer_eq] at h
  cases a with
  | link k => exact mapErase_isSome _ _ _ h
  | passive k => exact h
  | network k => exact h

theorem CancelNetworkPacketTimer_holds (mb : DsrMaintainBuffEntry) (s : State) (a : TimerRef)
    (h : (CancelNetworkPacketTimer mb s).holds a = true) : s.holds a = true := by
  rw [CancelNetworkPacketTimer_eq] at h
  cases a with
  | link k => exact h
  | passive k => exact h
  | network k => exact mapErase_isSome _ _ _ h

theorem CancelPassivePacketTimer_holds (mb : DsrMaintainBuffEntry) (s : State) (a : TimerRef)
    (h : (CancelPassivePacketTimer mb s).holds a = true) : s.holds a = true := by
  rw [CancelPassivePacketTimer_eq] at h
  cases a with
  | link k => exact h
  | passive k => exact mapErase_isSome _ _ _ h
  | network k => exact h

theorem CancelPacketAllTimer_holds (mb : DsrMaintainBuffEntry) (s : State) (a : TimerRef)
    (h : (CancelPacketAllTimer mb s).holds a = true) : s.holds a = true :=
  CancelLinkPacketTimer_holds mb s a
    (CancelNetworkPacketTimer_holds mb _ a (CancelPassivePacketTimer_holds mb _ a h))

theorem CancelPacketTimerNextHop_withEntry_holds (nextHop : Ipv4Address) (protocol : Nat)
    (entry : DsrMaintainBuffEntry) (s : State) (a : TimerRef)
    (h : (CancelPacketTimerNextHop.withEntry nextHop protocol entry s).holds a = true) :
    s.holds a = true := by
  unfold CancelPacketTimerNextHop.withEntry at h
  simp only [] at h
  split at h
  · rw [emit_holds, emit_holds] at h
    have h2 := CancelPacketAllTimer_holds _ _ _ h
    rwa [emit_holds] at h2
  · rw [emit_holds] at h
    have h2 := CancelPacketAllTimer_holds _ _ _ h
    rwa [emit_holds] at h2

theorem CancelPacketTimerNextHop_holds (nextHop : Ipv4Address) (protocol : Nat) (s : State)
    (a : TimerRef) (h : (CancelPacketTimerNextHop nextHop protocol s).holds a = true) :
    s.holds a = true := by
  unfold CancelPacketTimerNextHop at h
  simp only [] at h
  split at h
  · have h2 := CancelPacketTimerNextHop_withEntry_holds _ _ _ _ _ h
    cases a <;> exact h2
  · rwa [emit_holds] at h

theorem CancelPassiveTimer_holds (packet : Packet) (source destination : Ipv4Address)
    (segsLeft : Nat) (s : State) (a : TimerRef)
    (h : (CancelPassiveTimer packet source destination segsLeft s).2.holds a = true) :
    s.holds a = true := by
  unfold CancelPassiveTimer at h
  simp only [] at h
  split at h
  · have h2 := CancelPassivePacketTimer_holds _ _ _ h
    cases a <;> exact h2
  · exact h

/-- Calls of the error and salvage processing are neither retries, nor sends,
nor route invalidations. -/
theorem errorProcessing_counts (l : List Event) (h : ∀ e, e ∈ l → e.isErrorProcessing = true) :
    scheduled l = [] ∧ sendCount l = 0 ∧ invalidations l = 0 := by
  refine ⟨?_, ?_, ?_⟩
  · simp only [scheduled, List.filterMap_eq_nil_iff]
    intro e he
    have := h e he
    cases e <;> simp_all [Event.isErrorProcessing, Event.tier]
  · simp only [sendCount, List.countP_eq_zero]
    intro e he
    have := h e he
    cases e <;> simp_all [Event.isErrorProcessing, Event.isSendPacket]
  · simp only [invalidations, List.countP_eq_zero]
    intro e he
    have := h e he
    cases e <;> simp_all [Event.isErrorProcessing, Event.isInvalidation]

/-! ### C1: tier selection -/

theorem scheduled_emit_none (s : State) (e : Event) (h : e.tier = none) :
    scheduled (s.emit e).trace = scheduled s.trace := by
  simp [State.emit, scheduled, List.filterMap_append, h]

theorem scheduled_emitIf_none (flag : Bool) (s : State) (e : Event) (h : e.tier = none) :
    scheduled (emitIf flag e s).trace = scheduled s.trace := by
  cases flag
  · rfl
  · exact scheduled_emit_none s e h

theorem scheduled_afterUseExtends (cfg : Config) (nodeList : List Ipv4Address) (s : State) :
    scheduled (afterUseExtends cfg nodeList s).trace = scheduled s.trace := by
  unfold afterUseExtends
  split
  · exact scheduled_emit_none s _ rfl
  · rfl

theorem scheduled_scheduleTier (cfg : Config) (t : Tier) (mb : DsrMaintainBuffEntry)
    (protocol : Nat) (s : State) :
    scheduled (scheduleTier cfg t mb protocol s).trace = scheduled s.trace ++ [t] := by
  cases t with
  | link =>
    simp [scheduleTier, ScheduleLinkPacketRetry_trace, scheduled_append, scheduled, Event.tier]
  | passive =>
    simp [scheduleTier, SchedulePassivePacketRetry_trace, scheduled_append, scheduled, Event.tier]
  | network isFirst =>
    cases isFirst
    · simp [scheduleTier, ScheduleNetworkPacketRetry_next_trace, scheduled_append, scheduled,
        Event.tier]
    · exact scheduled_first cfg mb protocol s

theorem scheduled_dispatch (cfg : Config) (t : Tier) (mb : DsrMaintainBuffEntry)
    (protocol : Nat) (nodeList : List Ipv4Address) (s : State) :
    scheduled (scheduleTier cfg t mb protocol
      (afterEnqueue (afterUseExtends cfg nodeList s) mb)).trace = scheduled s.trace ++ [t] := by
  rw [scheduled_scheduleTier]
  show scheduled (afterUseExtends cfg nodeList s).trace ++ [t] = _
  rw [scheduled_afterUseExtends]

/-- C1. Acknowledgment-tier selection: at each of the five sites that dispatch
a data packet (`Send`, `PacketNewRoute`, `CheckSendBuffer`,
`SendPacketFromBuffer`, `ForwardPacket`), once the maintenance-buffer entry was
enqueued, the `Schedule*PacketRetry` operations invoked by the site are exactly
one: the one `selectTier (linkAck, nextHop, destination)` names (link if link
acknowledgment is enabled, else passive if the next hop differs from the final
destination, else network with `isFirst = true`). -/
theorem tier_selection_at_every_site (cfg : Config) :
    (∀ (nodeList : List Ipv4Address) (pend : Bool) (fuel packet : Nat)
        (source destination : Ipv4Address) (protocol : Nat) (s : State) (nextHop : Ipv4Address),
      protocol ≠ 1 → SearchNextHop cfg.m_mainAddress nodeList = some nextHop →
      nextHop ≠ noAddress →
      cfg.maintainAdmits s.m_maintainBuffer
        (sourceEntry cfg packet nodeList nextHop source destination) = true →
      ∃ s1, Send cfg (some nodeList) pend fuel packet source destination protocol s = some s1 ∧
        scheduled s1.trace =
          scheduled s.trace ++ [selectTier cfg.m_linkAck nextHop destination]) ∧
    (∀ (nodeList : List Ipv4Address) (fuel packet : Nat)
        (source destination : Ipv4Address) (protocol : Nat) (s : State) (nextHop : Ipv4Address),
      SearchNextHop cfg.m_mainAddress nodeList = some nextHop → nextHop ≠ noAddress →
      cfg.maintainAdmits s.m_maintainBuffer
        (sourceEntry cfg packet nodeList nextHop source destination) = true →
      ∃ s1, PacketNewRoute cfg (some nodeList) (fuel + 1) packet source destination protocol s
          = some s1 ∧
        scheduled s1.trace =
          scheduled s.trace ++ [selectTier cfg.m_linkAck nextHop destination]) ∧
    (∀ (nodeList : List Ipv4Address) (fuel packet : Nat)
        (destination : Ipv4Address) (protocol : Nat) (s : State) (nextHop : Ipv4Address),
      SearchNextHop cfg.m_mainAddress nodeList = some nextHop → nextHop ≠ noAddress →
      cfg.maintainAdmits s.m_maintainBuffer
        (sourceEntry cfg packet nodeList nextHop cfg.m_mainAddress destination) = true →
      ∃ s1, CheckSendBuffer.sendData cfg nodeList fuel packet destination protocol s = some s1 ∧
        scheduled s1.trace =
          scheduled s.trace ++ [selectTier cfg.m_linkAck nextHop destination]) ∧
    (∀ (packet : Nat) (morePending : Bool) (sourceRoute : DsrOptionSRHeader)
        (nextHop : Ipv4Address) (protocol : Nat) (s : State) (source destination : Ipv4Address),
      sourceRoute.nodesAddress.getLast? = some destination →
      sourceRoute.nodesAddress.head? = some source →
      cfg.maintainAdmits s.m_maintainBuffer
        (bufferedEntry cfg packet { sourceRoute with ackFlag := 3 } nextHop source destination)
          = true →
      ∃ s1, SendPacketFromBuffer cfg true (some packet) morePending sourceRoute nextHop protocol s
          = some s1 ∧
        scheduled s1.trace =
          scheduled s.trace ++ [selectTier cfg.m_linkAck nextHop destination]) ∧
    (∀ (packet : Nat) (sourceRoute : DsrOptionSRHeader)
        (source nextHop targetAddress : Ipv4Address) (protocol : Nat) (s : State),
      cfg.maintainAdmits s.m_maintainBuffer
        (forwardEntry cfg s.m_ackId packet sourceRoute source nextHop targetAddress) = true →
      scheduled (ForwardPacket cfg packet sourceRoute source nextHop targetAddress protocol s).trace
        = scheduled s.trace ++ [selectTier cfg.m_linkAck nextHop targetAddress]) := by
  refine ⟨?_, ?_, ?_, ?_, ?_⟩
  · intro nodeList pend fuel packet source destination protocol s nextHop hproto hnh hne hadm
    refine ⟨_, Send_eq cfg nodeList pend fuel packet source destination protocol s nextHop
      hproto hnh hne hadm, ?_⟩
    rw [scheduled_emitIf_none, scheduled_dispatch]
    rfl
  · intro nodeList fuel packet source destination protocol s nextHop hnh hne hadm
    refine ⟨_, PacketNewRoute_eq cfg nodeList fuel packet source destination protocol s nextHop
      hnh hne hadm, ?_⟩
    rw [scheduled_dispatch]
  · intro nodeList fuel packet destination protocol s nextHop hnh hne hadm
    refine ⟨_, CheckSendBuffer_sendData_eq cfg nodeList fuel packet destination protocol s
      nextHop hnh hne hadm, ?_⟩
    rw [scheduled_emit_none, scheduled_dispatch]
    rfl
  · intro packet morePending sourceRoute nextHop protocol s source destination hback hfront hadm
    refine ⟨_, SendPacketFromBuffer_eq cfg packet morePending sourceRoute nextHop protocol s
      source destination hback hfront hadm, ?_⟩
    rw [scheduled_emitIf_none, scheduled_dispatch]
    rfl
  · intro packet sourceRoute source nextHop targetAddress protocol s hadm
    rw [ForwardPacket_eq cfg packet sourceRoute source nextHop targetAddress protocol s hadm,
      scheduled_scheduleTier]
    rfl

/-- Witness of C1: node `S` (no link acknowledgment) sends packet 7 to `D` along
`[S, I, D]`; the next hop `I` is not the destination and the passive tier is
the one operation scheduled. -/
theorem tier_selection_at_every_site_witness :
    ∃ s1, Send exampleConfig (some [1, 2, 3]) false 1 7 1 3 17 State.init = some s1 ∧
      scheduled s1.trace = scheduled State.init.trace ++ [selectTier false 2 3] :=
  (tier_selection_at_every_site exampleConfig).1 [1, 2, 3] false 1 7 1 3 17 State.init 2
    (by decide) (by decide) (by decide) (by decide)

/-! ### C2: the link and passive tiers resend exactly the configured number of times -/

theorem countTier_append (t : Tier) (a b : List Event) :
    countTier t (a ++ b) = countTier t a + countTier t b := by
  simp [countTier, scheduled_append, List.count_append]

theorem invalidations_append (a b : List Event) :
    invalidations (a ++ b) = invalidations a + invalidations b := by
  simp [invalidations, List.countP_append]

theorem link_iterate (cfg : Config) (mb : DsrMaintainBuffEntry) (protocol : Nat) (s : State)
    (h0 : (s.m_linkCnt mb.linkKey).getD 0 = 0) (k : Nat) (hk : k ≤ cfg.m_tryLinkAcks) :
    (((LinkScheduleTimerExpire cfg mb protocol)^[k] s).m_linkCnt mb.linkKey).getD 0 = k ∧
    countTier Tier.link ((LinkScheduleTimerExpire cfg mb protocol)^[k] s).trace =
      countTier Tier.link s.trace + k ∧
    invalidations ((LinkScheduleTimerExpire cfg mb protocol)^[k] s).trace =
      invalidations s.trace ∧
    (1 ≤ k → ((LinkScheduleTimerExpire cfg mb protocol)^[k] s).m_linkAckTimer mb.linkKey =
      some { mb := mb, protocol := protocol, delay := cfg.m_linkAckTimeout }) := by
  induction k with
  | zero => simp [h0]
  | succ n ih =>
    obtain ⟨hc, ht, hi, _⟩ := ih (by omega)
    rw [Function.iterate_succ_apply']
    have hlt : (((LinkScheduleTimerExpire cfg mb protocol)^[n] s).m_linkCnt mb.linkKey).getD 0
        < cfg.m_tryLinkAcks := by omega
    obtain ⟨r1, r2, r3⟩ := LinkScheduleTimerExpire_resend cfg mb protocol _ hlt
    refine ⟨?_, ?_, ?_, fun _ => r3⟩
    · rw [r1, hc]
      rfl
    · rw [r2, countTier_append, ht]
      simp [countTier, scheduled, Event.tier]
      omega
    · rw [r2, invalidations_append, hi]
      simp [invalidations, Event.isInvalidation]

theorem passive_iterate (cfg : Config) (mb : DsrMaintainBuffEntry) (protocol : Nat) (s : State)
    (h0 : (s.m_passiveCnt mb.passiveKey).getD 0 = 0) (k : Nat) (hk : k ≤ cfg.m_tryPassiveAcks) :
    (((PassiveScheduleTimerExpire cfg mb protocol)^[k] s).m_passiveCnt mb.passiveKey).getD 0
      = k ∧
    countTier Tier.passive ((PassiveScheduleTimerExpire cfg mb protocol)^[k] s).trace =
      countTier Tier.passive s.trace + k ∧
    countTier (Tier.network true) ((PassiveScheduleTimerExpire cfg mb protocol)^[k] s).trace =
      countTier (Tier.network true) s.trace ∧
    (1 ≤ k → ((PassiveScheduleTimerExpire cfg mb protocol)^[k] s).m_passiveAckTimer mb.passiveKey =
      some { mb := mb, protocol := protocol, delay := cfg.m_passiveAckTimeout }) := by
  induction k with
  | zero => simp [h0]
  | succ n ih =>
    obtain ⟨hc, ht, hi, _⟩ := ih (by omega)
    rw [Function.iterate_succ_apply']
    have hlt : (((PassiveScheduleTimerExpire cfg mb protocol)^[n] s).m_passiveCnt
        mb.passiveKey).getD 0 < cfg.m_tryPassiveAcks := by omega
    obtain ⟨r1, r2, r3⟩ := PassiveScheduleTimerExpire_resend cfg mb protocol _ hlt
    refine ⟨?_, ?_, ?_, fun _ => r3⟩
    · rw [r1, hc]
      rfl
    · rw [r2, countTier_append, ht]
      simp [countTier, scheduled, Event.tier]
      omega
    · rw [r2, countTier_append, hi]
      simp [countTier, scheduled, Event.tier]

theorem link_escalate_counts (cfg : Config) (mb : DsrMaintainBuffEntry) (protocol : Nat)
    (s : State) (hc : cfg.m_tryLinkAcks ≤ (s.m_linkCnt mb.linkKey).getD 0) :
    scheduled (LinkScheduleTimerExpire cfg mb protocol s).trace = scheduled s.trace ∧
    sendCount (LinkScheduleTimerExpire cfg mb protocol s).trace = sendCount s.trace ∧
    invalidations (LinkScheduleTimerExpire cfg mb protocol s).trace =
      invalidations s.trace + 1 := by
  rw [LinkScheduleTimerExpire_escalate cfg mb protocol s hc]
  obtain ⟨l, hl, hall⟩ := CancelPacketTimerNextHop_trace mb.nextHop protocol
    ({ s with m_linkAckTimer := mapErase s.m_linkAckTimer mb.linkKey,
              m_linkCnt := mapTouch s.m_linkCnt mb.linkKey 0,
              m_linkRetries := (s.m_linkCnt mb.linkKey).getD 0 }.emit
      (Event.DeleteAllRoutesIncludeLink cfg.m_mainAddress mb.nextHop cfg.m_mainAddress))
  obtain ⟨e1, e2, e3⟩ := errorProcessing_counts l hall
  rw [hl]
  refine ⟨?_, ?_, ?_⟩
  · rw [show ∀ x (xs : List Event), x :: xs = [x] ++ xs from fun _ _ => rfl, scheduled_append,
      scheduled_append, e1]
    simp [State.emit, scheduled, Event.tier]
  · rw [show ∀ x (xs : List Event), x :: xs = [x] ++ xs from fun _ _ => rfl, sendCount_append,
      sendCount_append, e2]
    simp [State.emit, sendCount, Event.isSendPacket]
  · rw [show ∀ x (xs : List Event), x :: xs = [x] ++ xs from fun _ _ => rfl,
      invalidations_append, invalidations_append, e3]
    simp [State.emit, invalidations, Event.isInvalidation]

theorem ScheduleNetworkPacketRetry_first_maps (cfg : Config) (mb : DsrMaintainBuffEntry)
    (protocol : Nat) (s : State) :
    (ScheduleNetworkPacketRetry cfg mb true protocol s).m_addressForwardTimer =
      mapSet s.m_addressForwardTimer (networkEntry cfg mb).networkKey
        { mb := networkEntry cfg mb, protocol := protocol,
          delay := 2 * cfg.m_nodeTraversalTime } ∧
    (ScheduleNetworkPacketRetry cfg mb true protocol s).m_addressForwardCnt =
      mapSet s.m_addressForwardCnt (networkEntry cfg mb).networkKey 0 ∧
    (ScheduleNetworkPacketRetry cfg mb true protocol s).m_passiveAckTimer = s.m_passiveAckTimer ∧
    (ScheduleNetworkPacketRetry cfg mb true protocol s).m_passiveCnt = s.m_passiveCnt ∧
    (ScheduleNetworkPacketRetry cfg mb true protocol s).m_linkAckTimer = s.m_linkAckTimer ∧
    (ScheduleNetworkPacketRetry cfg mb true protocol s).m_linkCnt = s.m_linkCnt := by
  by_cases h : (DsrMaintainBuffer.Enqueue cfg
      (DsrMaintainBuffer.AllEqual s.m_maintainBuffer mb).2 (networkEntry cfg mb)).1 = true
  · simp [ScheduleNetworkPacketRetry, SendPacket, State.emit, h]
  · simp [ScheduleNetworkPacketRetry, SendPacket, State.emit, h]

theorem passive_escalate_facts (cfg : Config) (mb : DsrMaintainBuffEntry) (protocol : Nat)
    (s : State) (hc : cfg.m_tryPassiveAcks ≤ (s.m_passiveCnt mb.passiveKey).getD 0) :
    scheduled (PassiveScheduleTimerExpire cfg mb protocol s).trace =
      scheduled s.trace ++ [Tier.network true] ∧
    sendCount (PassiveScheduleTimerExpire cfg mb protocol s).trace = sendCount s.trace + 1 ∧
    invalidations (PassiveScheduleTimerExpire cfg mb protocol s).trace = invalidations s.trace ∧
    (PassiveScheduleTimerExpire cfg mb protocol s).m_passiveCnt mb.passiveKey = none ∧
    (PassiveScheduleTimerExpire cfg mb protocol s).m_passiveAckTimer mb.passiveKey = none ∧
    (PassiveScheduleTimerExpire cfg mb protocol s).m_addressForwardTimer
        (networkEntry cfg mb).networkKey =
      some { mb := networkEntry cfg mb, protocol := protocol,
             delay := 2 * cfg.m_nodeTraversalTime } ∧
    (PassiveScheduleTimerExpire cfg mb protocol s).m_addressForwardCnt
        (networkEntry cfg mb).networkKey = some 0 := by
  rw [PassiveScheduleTimerExpire_escalate cfg mb protocol s hc]
  obtain ⟨m1, m2, m3, m4, _, _⟩ := ScheduleNetworkPacketRetry_first_maps cfg mb protocol
    (CancelPassivePacketTimer mb
      { s with m_passiveAckTimer := mapErase s.m_passiveAckTimer mb.passiveKey,
               m_passiveCnt := mapTouch s.m_passiveCnt mb.passiveKey 0,
               m_passiveRetries := (s.m_passiveCnt mb.passiveKey).getD 0 })
  obtain ⟨l, hl, hall⟩ := ScheduleNetworkPacketRetry_first_trace cfg mb protocol
    (CancelPassivePacketTimer mb
      { s with m_passiveAckTimer := mapErase s.m_passiveAckTimer mb.passiveKey,
               m_passiveCnt := mapTouch s.m_passiveCnt mb.passiveKey 0,
               m_passiveRetries := (s.m_passiveCnt mb.passiveKey).getD 0 })
  have hs : sendCount l = 0 := by
    simp only [sendCount, List.countP_eq_zero]
    intro e he
    obtain ⟨x, rfl⟩ := hall e he
    simp [Event.isSendPacket]
  have hi : invalidations l = 0 := by
    simp only [invalidations, List.countP_eq_zero]
    intro e he
    obtain ⟨x, rfl⟩ := hall e he
    simp [Event.isInvalidation]
  refine ⟨?_, ?_, ?_, ?_, ?_, ?_, ?_⟩
  · rw [scheduled_first]
    rfl
  · rw [hl, sendCount_append, sendCount_append, hs]
    simp [CancelPassivePacketTimer_trace, sendCount, Event.isSendPacket]
  · rw [hl, invalidations_append, invalidations_append, hi]
    simp [CancelPassivePacketTimer_trace, invalidations, Event.isInvalidation]
  · rw [m4, CancelPassivePacketTimer_eq]
    exact mapErase_self _ _
  · rw [m3, CancelPassivePacketTimer_eq]
    exact mapErase_self _ _
  · rw [m1]
    exact mapSet_self _ _ _
  · rw [m2]
    exact mapSet_self _ _ _

theorem network_escalate_trace (cfg : Config) (mb : DsrMaintainBuffEntry) (protocol : Nat)
    (s : State) (hc : cfg.m_maxMaintRexmt ≤ (s.m_addressForwardCnt mb.networkKey).getD 0) :
    ∃ l, (NetworkScheduleTimerExpire cfg mb protocol s).trace =
      s.trace ++ Event.DeleteAllRoutesIncludeLink cfg.m_mainAddress mb.nextHop cfg.m_mainAddress ::
        Event.CancelPacketTimerNextHop mb.nextHop :: l ∧
      ∀ e, e ∈ l → e.isErrorProcessing = true := by
  rw [NetworkScheduleTimerExpire_escalate cfg mb protocol s hc]
  obtain ⟨l, hl, hall⟩ := CancelPacketTimerNextHop_trace mb.nextHop protocol
    ({ s with m_addressForwardCnt := mapTouch s.m_addressForwardCnt mb.networkKey 0,
              m_sendRetries := (s.m_addressForwardCnt mb.networkKey).getD 0 }.emit
      (Event.DeleteAllRoutesIncludeLink cfg.m_mainAddress mb.nextHop cfg.m_mainAddress))
  refine ⟨l, ?_, hall⟩
  rw [hl]
  simp [State.emit]

theorem link_escalate_trace (cfg : Config) (mb : DsrMaintainBuffEntry) (protocol : Nat)
    (s : State) (hc : cfg.m_tryLinkAcks ≤ (s.m_linkCnt mb.linkKey).getD 0) :
    ∃ l, (LinkScheduleTimerExpire cfg mb protocol s).trace =
      s.trace ++ Event.DeleteAllRoutesIncludeLink cfg.m_mainAddress mb.nextHop cfg.m_mainAddress ::
        Event.CancelPacketTimerNextHop mb.nextHop :: l ∧
      ∀ e, e ∈ l → e.isErrorProcessing = true := by
  rw [LinkScheduleTimerExpire_escalate cfg mb protocol s hc]
  obtain ⟨l, hl, hall⟩ := CancelPacketTimerNextHop_trace mb.nextHop protocol
    ({ s with m_linkAckTimer := mapErase s.m_linkAckTimer mb.linkKey,
              m_linkCnt := mapTouch s.m_linkCnt mb.linkKey 0,
              m_linkRetries := (s.m_linkCnt mb.linkKey).getD 0 }.emit
      (Event.DeleteAllRoutesIncludeLink cfg.m_mainAddress mb.nextHop cfg.m_mainAddress))
  refine ⟨l, ?_, hall⟩
  rw [hl]
  simp [State.emit]

theorem link_escalate_holds (cfg : Config) (mb : DsrMaintainBuffEntry) (protocol : Nat)
    (s : State) (hc : cfg.m_tryLinkAcks ≤ (s.m_linkCnt mb.linkKey).getD 0) (a : TimerRef)
    (h : (LinkScheduleTimerExpire cfg mb protocol s).holds a = true) :
    s.holds a = true ∧ a ≠ TimerRef.link mb.linkKey := by
  rw [LinkScheduleTimerExpire_escalate cfg mb protocol s hc] at h
  have h2 := CancelPacketTimerNextHop_holds _ _ _ _ h
  rw [emit_holds] at h2
  cases a with
  | link k =>
    have h3 : (mapErase s.m_linkAckTimer mb.linkKey k).isSome = true := h2
    refine ⟨mapErase_isSome _ _ _ h3, ?_⟩
    intro e
    injection e with e
    subst e
    simp [mapErase] at h3
  | passive k => exact ⟨h2, by simp⟩
  | network k => exact ⟨h2, by simp⟩

/-- C2. Link and passive tiers issue exactly the configured number of resends.
Starting from a retry counter of 0 for the packet's key and with no
acknowledgment arriving, the first `k ≤ tryLinkAcks` firings of
`LinkScheduleTimerExpire` each resend the packet (`k` invocations of
`ScheduleLinkPacketRetry`, no route invalidation, the timer registered again),
and firing number `tryLinkAcks + 1` resends nothing and escalates (one route
invalidation, the link timer gone).  Likewise the first `k ≤ tryPassiveAcks`
firings of `PassiveScheduleTimerExpire` each resend, and firing number
`tryPassiveAcks + 1` resends nothing on the passive tier and escalates to the
first network retry.  This holds for every value of `tryLinkAcks` and
`tryPassiveAcks`, zero included. -/
theorem resends_exactly_configured (cfg : Config) (mb : DsrMaintainBuffEntry) (protocol : Nat)
    (s : State) :
    ((s.m_linkCnt mb.linkKey).getD 0 = 0 →
      (∀ k, k ≤ cfg.m_tryLinkAcks →
        countTier Tier.link ((LinkScheduleTimerExpire cfg mb protocol)^[k] s).trace =
          countTier Tier.link s.trace + k ∧
        invalidations ((LinkScheduleTimerExpire cfg mb protocol)^[k] s).trace =
          invalidations s.trace ∧
        (1 ≤ k → ((LinkScheduleTimerExpire cfg mb protocol)^[k] s).m_linkAckTimer mb.linkKey =
          some { mb := mb, protocol := protocol, delay := cfg.m_linkAckTimeout })) ∧
      countTier Tier.link
          ((LinkScheduleTimerExpire cfg mb protocol)^[cfg.m_tryLinkAcks + 1] s).trace =
        countTier Tier.link s.trace + cfg.m_tryLinkAcks ∧
      invalidations ((LinkScheduleTimerExpire cfg mb protocol)^[cfg.m_tryLinkAcks + 1] s).trace =
        invalidations s.trace + 1 ∧
      ((LinkScheduleTimerExpire cfg mb protocol)^[cfg.m_tryLinkAcks + 1] s).m_linkAckTimer
        mb.linkKey = none) ∧
    ((s.m_passiveCnt mb.passiveKey).getD 0 = 0 →
      (∀ k, k ≤ cfg.m_tryPassiveAcks →
        countTier Tier.passive ((PassiveScheduleTimerExpire cfg mb protocol)^[k] s).trace =
          countTier Tier.passive s.trace + k ∧
        countTier (Tier.network true) ((PassiveScheduleTimerExpire cfg mb protocol)^[k] s).trace =
          countTier (Tier.network true) s.trace ∧
        (1 ≤ k →
          ((PassiveScheduleTimerExpire cfg mb protocol)^[k] s).m_passiveAckTimer mb.passiveKey =
            some { mb := mb, protocol := protocol, delay := cfg.m_passiveAckTimeout })) ∧
      countTier Tier.passive
          ((PassiveScheduleTimerExpire cfg mb protocol)^[cfg.m_tryPassiveAcks + 1] s).trace =
        countTier Tier.passive s.trace + cfg.m_tryPassiveAcks ∧
      countTier (Tier.network true)
          ((PassiveScheduleTimerExpire cfg mb protocol)^[cfg.m_tryPassiveAcks + 1] s).trace =
        countTier (Tier.network true) s.trace + 1 ∧
      ((PassiveScheduleTimerExpire cfg mb protocol)^[cfg.m_tryPassiveAcks + 1] s).m_passiveAckTimer
        mb.passiveKey = none) := by
  constructor
  · intro h0
    refine ⟨fun k hk => ?_, ?_⟩
    · obtain ⟨_, a, b, c⟩ := link_iterate cfg mb protocol s h0 k hk
      exact ⟨a, b, c⟩
    · obtain ⟨hc, a, b, _⟩ := link_iterate cfg mb protocol s h0 cfg.m_tryLinkAcks (le_refl _)
      rw [Function.iterate_succ_apply']
      have hge : cfg.m_tryLinkAcks ≤
          (((LinkScheduleTimerExpire cfg mb protocol)^[cfg.m_tryLinkAcks] s).m_linkCnt
            mb.linkKey).getD 0 := by omega
      obtain ⟨e1, _, e3⟩ := link_escalate_counts cfg mb protocol _ hge
      refine ⟨?_, ?_, ?_⟩
      · rw [countTier, e1]
        exact a
      · rw [e3, b]
      · cases hx : (LinkScheduleTimerExpire cfg mb protocol
            ((LinkScheduleTimerExpire cfg mb protocol)^[cfg.m_tryLinkAcks] s)).m_linkAckTimer
            mb.linkKey with
        | none => rfl
        | some t =>
          exact absurd rfl (link_escalate_holds cfg mb protocol _ hge (TimerRef.link mb.linkKey)
            (by simp [State.holds, hx])).2
  · intro h0
    refine ⟨fun k hk => ?_, ?_⟩
    · obtain ⟨_, a, b, c⟩ := passive_iterate cfg mb protocol s h0 k hk
      exact ⟨a, b, c⟩
    · obtain ⟨hc, a, b, _⟩ :=
        passive_iterate cfg mb protocol s h0 cfg.m_tryPassiveAcks (le_refl _)
      rw [Function.iterate_succ_apply']
      have hge : cfg.m_tryPassiveAcks ≤
          (((PassiveScheduleTimerExpire cfg mb protocol)^[cfg.m_tryPassiveAcks] s).m_passiveCnt
            mb.passiveKey).getD 0 := by omega
      obtain ⟨e1, _, _, _, e5, _, _⟩ := passive_escalate_facts cfg mb protocol _ hge
      refine ⟨?_, ?_, e5⟩
      · rw [countTier, e1]
        simp only [List.count_append]
        rw [← countTier, a]
        simp
      · rw [countTier, e1]
        simp only [List.count_append]
        rw [← countTier, b]
        simp

/-- Witness of C2: for the example entry in the initial state (no counter
stored, which reads as 0) the link part applies. -/
theorem resends_exactly_configured_witness :
    (∀ k, k ≤ exampleLinkConfig.m_tryLinkAcks →
      countTier Tier.link
          ((LinkScheduleTimerExpire exampleLinkConfig exampleEntry 17)^[k] State.init).trace =
        countTier Tier.link State.init.trace + k ∧
      invalidations
          ((LinkScheduleTimerExpire exampleLinkConfig exampleEntry 17)^[k] State.init).trace =
        invalidations State.init.trace ∧
      (1 ≤ k →
        ((LinkScheduleTimerExpire exampleLinkConfig exampleEntry 17)^[k] State.init).m_linkAckTimer
            exampleEntry.linkKey =
          some { mb := exampleEntry, protocol := 17,
                 delay := exampleLinkConfig.m_linkAckTimeout })) ∧
    countTier Tier.link ((LinkScheduleTimerExpire exampleLinkConfig exampleEntry 17)^[
        exampleLinkConfig.m_tryLinkAcks + 1] State.init).trace =
      countTier Tier.link State.init.trace + exampleLinkConfig.m_tryLinkAcks ∧
    invalidations ((LinkScheduleTimerExpire exampleLinkConfig exampleEntry 17)^[
        exampleLinkConfig.m_tryLinkAcks + 1] State.init).trace =
      invalidations State.init.trace + 1 ∧
    ((LinkScheduleTimerExpire exampleLinkConfig exampleEntry 17)^[
        exampleLinkConfig.m_tryLinkAcks + 1] State.init).m_linkAckTimer exampleEntry.linkKey =
      none :=
  (resends_exactly_configured exampleLinkConfig exampleEntry 17 State.init).1 rfl

/-! ### C3: exhaustion escalates exactly one level -/

theorem network_escalate_holds (cfg : Config) (mb : DsrMaintainBuffEntry) (protocol : Nat)
    (s : State) (hc : cfg.m_maxMaintRexmt ≤ (s.m_addressForwardCnt mb.networkKey).getD 0)
    (a : TimerRef) (h : (NetworkScheduleTimerExpire cfg mb protocol s).holds a = true) :
    s.holds a = true := by
  rw [NetworkScheduleTimerExpire_escalate cfg mb protocol s hc] at h
  have h2 := CancelPacketTimerNextHop_holds _ _ _ _ h
  rw [emit_holds] at h2
  cases a <;> exact h2

theorem escalate_scheduled (tr l : List Event) (x y : Event) (hx : x.tier = none)
    (hy : y.tier = none) (hall : ∀ e, e ∈ l → e.isErrorProcessing = true) :
    scheduled (tr ++ x :: y :: l) = scheduled tr := by
  obtain ⟨e1, _, _⟩ := errorProcessing_counts l hall
  rw [show x :: y :: l = [x, y] ++ l from rfl, scheduled_append, scheduled_append, e1]
  simp [scheduled, hx, hy]

/-- C3. Exhaustion escalates exactly one level and never from link to passive.
When the link tier is exhausted `LinkScheduleTimerExpire` first invalidates the
cached routes over (this node, next hop) and then starts the error and salvage
processing for that next hop (`CancelPacketTimerNextHop`); it schedules no
retry of any tier and registers no timer.  When the passive tier is exhausted
`PassiveScheduleTimerExpire` removes the passive key's counter and timer and
starts the network tier with `isFirst = true` (its timer registered with delay
`2 × nodeTraversalTime`), without invalidating any route.  When the network
tier is exhausted `NetworkScheduleTimerExpire` invalidates the cached routes
over (this node, next hop) before `CancelPacketTimerNextHop` and all error and
salvage processing, and schedules no retry. -/
theorem exhaustion_escalates_one_level (cfg : Config) (mb : DsrMaintainBuffEntry)
    (protocol : Nat) (s : State) :
    (cfg.m_tryLinkAcks ≤ (s.m_linkCnt mb.linkKey).getD 0 →
      (∃ l, (LinkScheduleTimerExpire cfg mb protocol s).trace =
          s.trace ++
            Event.DeleteAllRoutesIncludeLink cfg.m_mainAddress mb.nextHop cfg.m_mainAddress ::
            Event.CancelPacketTimerNextHop mb.nextHop :: l ∧
          ∀ e, e ∈ l → e.isErrorProcessing = true) ∧
      scheduled (LinkScheduleTimerExpire cfg mb protocol s).trace = scheduled s.trace ∧
      ∀ a, (LinkScheduleTimerExpire cfg mb protocol s).holds a = true → s.holds a = true) ∧
    (cfg.m_tryPassiveAcks ≤ (s.m_passiveCnt mb.passiveKey).getD 0 →
      (PassiveScheduleTimerExpire cfg mb protocol s).m_passiveCnt mb.passiveKey = none ∧
      (PassiveScheduleTimerExpire cfg mb protocol s).m_passiveAckTimer mb.passiveKey = none ∧
      scheduled (PassiveScheduleTimerExpire cfg mb protocol s).trace =
        scheduled s.trace ++ [Tier.network true] ∧
      (PassiveScheduleTimerExpire cfg mb protocol s).m_addressForwardTimer
          (networkEntry cfg mb).networkKey =
        some { mb := networkEntry cfg mb, protocol := protocol,
               delay := 2 * cfg.m_nodeTraversalTime } ∧
      invalidations (PassiveScheduleTimerExpire cfg mb protocol s).trace =
        invalidations s.trace) ∧
    (cfg.m_maxMaintRexmt ≤ (s.m_addressForwardCnt mb.networkKey).getD 0 →
      (∃ l, (NetworkScheduleTimerExpire cfg mb protocol s).trace =
          s.trace ++
            Event.DeleteAllRoutesIncludeLink cfg.m_mainAddress mb.nextHop cfg.m_mainAddress ::
            Event.CancelPacketTimerNextHop mb.nextHop :: l ∧
          ∀ e, e ∈ l → e.isErrorProcessing = true) ∧
      scheduled (NetworkScheduleTimerExpire cfg mb protocol s).trace = scheduled s.trace ∧
      ∀ a, (NetworkScheduleTimerExpire cfg mb protocol s).holds a = true → s.holds a = true) := by
  refine ⟨fun hc => ⟨link_escalate_trace cfg mb protocol s hc, ?_, ?_⟩, fun hc => ?_,
    fun hc => ⟨network_escalate_trace cfg mb protocol s hc, ?_, ?_⟩⟩
  · obtain ⟨l, hl, hall⟩ := link_escalate_trace cfg mb protocol s hc
    rw [hl]
    exact escalate_scheduled _ _ _ _ rfl rfl hall
  · intro a h
    exact (link_escalate_holds cfg mb protocol s hc a h).1
  · obtain ⟨e1, _, e3, e4, e5, e6, _⟩ := passive_escalate_facts cfg mb protocol s hc
    exact ⟨e4, e5, e1, e6, e3⟩
  · obtain ⟨l, hl, hall⟩ := network_escalate_trace cfg mb protocol s hc
    rw [hl]
    exact escalate_scheduled _ _ _ _ rfl rfl hall
  · intro a h
    exact network_escalate_holds cfg mb protocol s hc a h

/-- Witness of C3: with `tryPassiveAcks = 1`, a passive counter that has
reached 1 is exhausted. -/
theorem exhaustion_escalates_one_level_witness :
    (PassiveScheduleTimerExpire exampleConfig exampleEntry 17
        examplePassiveExhausted).m_passiveCnt exampleEntry.passiveKey = none ∧
    (PassiveScheduleTimerExpire exampleConfig exampleEntry 17
        examplePassiveExhausted).m_passiveAckTimer exampleEntry.passiveKey = none ∧
    scheduled (PassiveScheduleTimerExpire exampleConfig exampleEntry 17
        examplePassiveExhausted).trace =
      scheduled State.init.trace ++ [Tier.network true] ∧
    (PassiveScheduleTimerExpire exampleConfig exampleEntry 17
        examplePassiveExhausted).m_addressForwardTimer
          (networkEntry exampleConfig exampleEntry).networkKey =
      some { mb := networkEntry exampleConfig exampleEntry, protocol := 17,
             delay := 2 * exampleConfig.m_nodeTraversalTime } ∧
    invalidations (PassiveScheduleTimerExpire exampleConfig exampleEntry 17
        examplePassiveExhausted).trace = invalidations State.init.trace :=
  (exhaustion_escalates_one_level exampleConfig exampleEntry 17
    examplePassiveExhausted).2.1 (by simp [examplePassiveExhausted, mapSet, exampleConfig])

/-! ### C4: network-tier backoff -/

/-- C4. Network-tier backoff.  The timer started with the first network-tier
transmission (`isFirst = true`) has delay `2 × nodeTraversalTime`.  Whenever
the expiry handler finds the retry counter `c` of the key below
`maxMaintRexmt`, it raises the counter to `n = c + 1 ≥ 1` and the timer started
with that `n`-th resend has delay exactly `2 × n × nodeTraversalTime`; so a
non-first network retry is never scheduled with retry counter 0, and its delay
is not 0 unless `nodeTraversalTime` is.  (The retry counter is a natural
number here: the declaration of `m_sendRetries` is not in the sources.) -/
theorem network_backoff (cfg : Config) (mb : DsrMaintainBuffEntry) (protocol : Nat) (s : State) :
    (ScheduleNetworkPacketRetry cfg mb true protocol s).m_addressForwardTimer
        (networkEntry cfg mb).networkKey =
      some { mb := networkEntry cfg mb, protocol := protocol,
             delay := 2 * cfg.m_nodeTraversalTime } ∧
    (∀ n, 1 ≤ n → (s.m_addressForwardCnt mb.networkKey).getD 0 + 1 = n →
      n ≤ cfg.m_maxMaintRexmt →
      (NetworkScheduleTimerExpire cfg mb protocol s).m_addressForwardCnt mb.networkKey = some n ∧
      (NetworkScheduleTimerExpire cfg mb protocol s).m_addressForwardTimer mb.networkKey =
        some { mb := mb, protocol := protocol, delay := 2 * n * cfg.m_nodeTraversalTime }) ∧
    (∀ mb2 isFirst, Event.ScheduleNetworkPacketRetry mb2 isFirst ∈
        ((NetworkScheduleTimerExpire cfg mb protocol s).trace.drop s.trace.length) →
      mb2 = mb ∧ isFirst = false ∧
      1 ≤ (NetworkScheduleTimerExpire cfg mb protocol s).m_sendRetries ∧
      (NetworkScheduleTimerExpire cfg mb protocol s).m_addressForwardTimer mb.networkKey =
        some { mb := mb, protocol := protocol,
               delay := 2 * (NetworkScheduleTimerExpire cfg mb protocol s).m_sendRetries *
                 cfg.m_nodeTraversalTime } ∧
      (cfg.m_nodeTraversalTime ≠ 0 →
        2 * (NetworkScheduleTimerExpire cfg mb protocol s).m_sendRetries *
          cfg.m_nodeTraversalTime ≠ 0)) := by
  refine ⟨?_, ?_, ?_⟩
  · rw [(ScheduleNetworkPacketRetry_first_maps cfg mb protocol s).1]
    exact mapSet_self _ _ _
  · intro n _ hn hle
    have hlt : (s.m_addressForwardCnt mb.networkKey).getD 0 < cfg.m_maxMaintRexmt := by omega
    obtain ⟨r1, _, r3, _⟩ := NetworkScheduleTimerExpire_resend cfg mb protocol s hlt
    rw [r1, r3, hn]
    exact ⟨rfl, rfl⟩
  · intro mb2 isFirst hmem
    by_cases hlt : (s.m_addressForwardCnt mb.networkKey).getD 0 < cfg.m_maxMaintRexmt
    · obtain ⟨_, r2, r3, r4⟩ := NetworkScheduleTimerExpire_resend cfg mb protocol s hlt
      rw [r2, List.drop_left] at hmem
      simp only [List.mem_cons, List.mem_singleton, List.not_mem_nil, or_false,
        Event.ScheduleNetworkPacketRetry.injEq, reduceCtorEq] at hmem
      obtain ⟨h1, h2⟩ := hmem
      refine ⟨h1, h2, ?_, ?_, ?_⟩
      · rw [r4]
        omega
      · rw [r3, r4]
      · intro hntt
        rw [r4]
        exact Nat.mul_ne_zero (by omega) hntt
    · obtain ⟨l, hl, hall⟩ := network_escalate_trace cfg mb protocol s (by omega)
      rw [hl, List.drop_left] at hmem
      simp only [List.mem_cons, reduceCtorEq, false_or] at hmem
      have := hall _ hmem
      simp [Event.isErrorProcessing] at this

/-- Witness of C4: the first resend (`n = 1`) of the example entry. -/
theorem network_backoff_witness :
    (NetworkScheduleTimerExpire exampleConfig (networkEntry exampleConfig exampleEntry) 17
        State.init).m_addressForwardCnt (networkEntry exampleConfig exampleEntry).networkKey
      = some 1 ∧
    (NetworkScheduleTimerExpire exampleConfig (networkEntry exampleConfig exampleEntry) 17
        State.init).m_addressForwardTimer (networkEntry exampleConfig exampleEntry).networkKey =
      some { mb := networkEntry exampleConfig exampleEntry, protocol := 17,
             delay := 2 * 1 * exampleConfig.m_nodeTraversalTime } :=
  (network_backoff exampleConfig (networkEntry exampleConfig exampleEntry) 17 State.init).2.1 1
    (le_refl 1) rfl (by decide)

/-! ### C7: cancelling the network timer twice -/

theorem eraseP_of_countP_zero {α : Type} (p : α → Bool) (l : List α) (h : l.countP p = 0) :
    l.eraseP p = l := by
  induction l with
  | nil => rfl
  | cons x xs ih =>
    by_cases hx : p x = true
    · simp [List.countP_cons, hx] at h
    · have hx2 : p x = false := by simpa using hx
      rw [List.countP_cons_of_neg _ _ hx] at h
      simp [List.eraseP_cons, hx2, ih h]

theorem eraseP_twice {α : Type} (p : α → Bool) (l : List α) (h : l.countP p ≤ 1) :
    (l.eraseP p).eraseP p = l.eraseP p := by
  induction l with
  | nil => rfl
  | cons x xs ih =>
    by_cases hx : p x = true
    · rw [List.countP_cons_of_pos _ _ hx] at h
      simp only [List.eraseP_cons, hx, cond_true]
      exact eraseP_of_countP_zero p xs (by omega)
    · have hx2 : p x = false := by simpa using hx
      rw [List.countP_cons_of_neg _ _ hx] at h
      simp [List.eraseP_cons, hx2, ih h]

/-- C7, as stated, fails: with two buffered entries that agree on the fields of
the network key (and differ in segments-left), the second
`CancelNetworkPacketTimer` for the same acknowledgment removes a second entry:
the buffer after two calls differs from the buffer after one. -/
theorem cancel_network_twice_removes_another :
    (CancelNetworkPacketTimer exampleAck
        (CancelNetworkPacketTimer exampleAck exampleTwoEntries)).m_maintainBuffer ≠
      (CancelNetworkPacketTimer exampleAck exampleTwoEntries).m_maintainBuffer := by
  decide

/-- C7, amended. For every maintenance entry `mb` and every state, applying
`CancelNetworkPacketTimer (mb)` twice yields the same retry-counter map and the
same network-timer map as applying it once, and the same maintenance buffer
whenever at most one buffered entry matches `mb` on the fields of the network
key; the first call leaves the counters and timers stored under keys other
than `mb`'s `NetworkKey`, the link and passive maps and the trace unchanged. -/
theorem cancel_network_idempotent (mb : DsrMaintainBuffEntry) (s : State) :
    (CancelNetworkPacketTimer mb (CancelNetworkPacketTimer mb s)).m_addressForwardCnt =
      (CancelNetworkPacketTimer mb s).m_addressForwardCnt ∧
    (CancelNetworkPacketTimer mb (CancelNetworkPacketTimer mb s)).m_addressForwardTimer =
      (CancelNetworkPacketTimer mb s).m_addressForwardTimer ∧
    (s.m_maintainBuffer.countP (DsrMaintainBuffer.networkEqualTo mb) ≤ 1 →
      (CancelNetworkPacketTimer mb (CancelNetworkPacketTimer mb s)).m_maintainBuffer =
        (CancelNetworkPacketTimer mb s).m_maintainBuffer) ∧
    (∀ k, k ≠ mb.networkKey →
      (CancelNetworkPacketTimer mb s).m_addressForwardCnt k = s.m_addressForwardCnt k ∧
      (CancelNetworkPacketTimer mb s).m_addressForwardTimer k = s.m_addressForwardTimer k) ∧
    (CancelNetworkPacketTimer mb s).m_passiveCnt = s.m_passiveCnt ∧
    (CancelNetworkPacketTimer mb s).m_passiveAckTimer = s.m_passiveAckTimer ∧
    (CancelNetworkPacketTimer mb s).m_linkCnt = s.m_linkCnt ∧
    (CancelNetworkPacketTimer mb s).m_linkAckTimer = s.m_linkAckTimer ∧
    (CancelNetworkPacketTimer mb s).trace = s.trace := by
  rw [CancelNetworkPacketTimer_eq mb (CancelNetworkPacketTimer mb s),
    CancelNetworkPacketTimer_eq mb s]
  refine ⟨mapErase_mapErase _ _, mapErase_mapErase _ _, ?_, ?_, rfl, rfl, rfl, rfl, rfl⟩
  · intro h
    exact eraseP_twice _ _ h
  · intro k hk
    exact ⟨mapErase_other _ _ _ hk, mapErase_other _ _ _ hk⟩

/-- Witness of C7 amended: one buffered entry matches the acknowledgment. -/
theorem cancel_network_idempotent_witness :
    (CancelNetworkPacketTimer exampleAck
        (CancelNetworkPacketTimer exampleAck
          (afterEnqueue State.init exampleEntry))).m_maintainBuffer =
      (CancelNetworkPacketTimer exampleAck (afterEnqueue State.init exampleEntry)).m_maintainBuffer :=
  (cancel_network_idempotent exampleAck (afterEnqueue State.init exampleEntry)).2.2.1 (by decide)

/-! ### C8: segments-left goes down by exactly one per forwarding hop -/

theorem processSr_forward_part (rx : SrReceived)
    (ipv4Address destAddress realSrc target : Ipv4Address)
    (hdr : DsrOptionSRHeader) (realSource nextAddress targetAddress : Ipv4Address)
    (h : processSr.forward rx ipv4Address destAddress realSrc target =
      some (SrOutcome.ForwardPacket hdr realSource nextAddress targetAddress)) :
    hdr = { nodesAddress := rx.nodeList, segmentsLeft := (rx.segsLeft + 2 ^ 8 - 1) % 2 ^ 8,
            salvage := rx.salvage, ackFlag := rx.ackFlag } := by
  unfold processSr.forward at h
  simp only [] at h
  split at h
  · exact absurd h (by simp)
  · split at h
    · exact absurd h (by simp)
    · split_ifs at h
      · exact absurd h (by simp)
      · exact absurd h (by simp)
      · exact absurd h (by simp)
      · simp only [Option.some.injEq, SrOutcome.ForwardPacket.injEq] at h
        exact h.1.symm

theorem processSr_forward (blackHole : Bool) (rx : SrReceived)
    (ipv4Address destAddress : Ipv4Address) (isPromisc : Bool)
    (hdr : DsrOptionSRHeader) (realSource nextAddress targetAddress : Ipv4Address)
    (h : processSr blackHole rx ipv4Address destAddress isPromisc =
      some (SrOutcome.ForwardPacket hdr realSource nextAddress targetAddress)) :
    isPromisc = false ∧ rx.segsLeft ≠ 0 ∧
      ∃ realSrc target, processSr.forward rx ipv4Address destAddress realSrc target =
        some (SrOutcome.ForwardPacket hdr realSource nextAddress targetAddress) := by
  unfold processSr at h
  split at h
  · rename_i target realSrc _ _
    by_cases hp : isPromisc = true
    · rw [if_pos hp] at h
      exact absurd h (by simp)
    · rw [if_neg hp] at h
      cases hr : ReverseSearchNextHop ipv4Address rx.nodeList with
      | none =>
        rw [hr] at h
        exact absurd h (by simp)
      | some ackAddress =>
        rw [hr] at h
        simp only [] at h
        split_ifs at h
        all_goals try (exact absurd h (by simp))
        exact ⟨by simpa using hp, by assumption, realSrc, target, h⟩
  · exact absurd h (by simp)

theorem Send_example :
    Send exampleConfig (some [1, 2, 3]) false 1 7 1 3 17 State.init =
      some (SchedulePassivePacketRetry exampleConfig exampleEntry 17
        (afterEnqueue (afterUseExtends exampleConfig [1, 2, 3] State.init) exampleEntry)) :=
  Send_eq exampleConfig [1, 2, 3] false 1 7 1 3 17 State.init 2 (by decide) (by decide)
    (by decide) (by decide)

/-- C8. Monotone hop count.  Whenever `processSr` forwards a received data
packet (it calls `ForwardPacket`, which happens for non-promiscuous receipt
only), the received segments-left value (a `uint8_t`) is not 0 and the source
route header it forwards carries segments-left exactly one less, with the same
node list; so a packet received with segments-left 0 is never forwarded and
segments-left never wraps below 0.  Scenario A: for the route `[S, I, D]`
`Send` at `S` hands a packet with segments-left 1 to `SendPacket`, `I`
forwards it to `D` with segments-left 0, and `D`, receiving segments-left 0,
delivers locally. -/
theorem segments_left_decreases_by_one :
    (∀ (blackHole : Bool) (rx : SrReceived) (ipv4Address destAddress : Ipv4Address)
        (isPromisc : Bool) (hdr : DsrOptionSRHeader)
        (realSource nextAddress targetAddress : Ipv4Address),
      rx.segsLeft < 2 ^ 8 →
      processSr blackHole rx ipv4Address destAddress isPromisc =
        some (SrOutcome.ForwardPacket hdr realSource nextAddress targetAddress) →
      isPromisc = false ∧ rx.segsLeft ≠ 0 ∧ hdr.segmentsLeft + 1 = rx.segsLeft ∧
        hdr.nodesAddress = rx.nodeList) ∧
    (∃ s1, Send exampleConfig (some [1, 2, 3]) false 1 7 1 3 17 State.init = some s1 ∧
      s1.trace.filter Event.isSendPacket =
        [Event.SendPacket
          { uid := 7, sourceRoute :=
            { nodesAddress := [1, 2, 3], segmentsLeft := 1, salvage := 0, ackFlag := 3 } }
          1 2 17]) ∧
    processSr false exampleAtI 2 2 false =
      some (SrOutcome.ForwardPacket
        { nodesAddress := [1, 2, 3], segmentsLeft := 0, salvage := 0, ackFlag := 3 } 1 3 3) ∧
    processSr false exampleAtD 3 3 false = some SrOutcome.localDeliver := by
  refine ⟨?_, ⟨_, Send_example, by decide⟩, by decide, by decide⟩
  intro blackHole rx ipv4Address destAddress isPromisc hdr realSource nextAddress targetAddress
    hseg h
  obtain ⟨h1, h2, realSrc, target, h3⟩ := processSr_forward blackHole rx ipv4Address destAddress
    isPromisc hdr realSource nextAddress targetAddress h
  have h4 := processSr_forward_part rx ipv4Address destAddress realSrc target hdr realSource
    nextAddress targetAddress h3
  subst h4
  refine ⟨h1, h2, ?_, rfl⟩
  show (rx.segsLeft + 2 ^ 8 - 1) % 2 ^ 8 + 1 = rx.segsLeft
  omega

/-- Witness of C8: the general statement applied to Scenario A at `I`. -/
theorem segments_left_decreases_by_one_witness :
    false = false ∧ exampleAtI.segsLeft ≠ 0 ∧
      (DsrOptionSRHeader.mk [1, 2, 3] 0 0 3).segmentsLeft + 1 = exampleAtI.segsLeft ∧
      (DsrOptionSRHeader.mk [1, 2, 3] 0 0 3).nodesAddress = exampleAtI.nodeList :=
  segments_left_decreases_by_one.1 false exampleAtI 2 2 false
    (DsrOptionSRHeader.mk [1, 2, 3] 0 0 3) 1 3 3 (by decide) (by decide)

/-! ### The outcomes of `Send` -/

theorem PacketNewRoute_noNextHop (cfg : Config) (nodeList : List Ipv4Address)
    (h : SearchNextHop cfg.m_mainAddress nodeList = some noAddress) (fuel packet : Nat)
    (source destination : Ipv4Address) (protocol : Nat) (s : State) :
    PacketNewRoute cfg (some nodeList) fuel packet source destination protocol s = none := by
  induction fuel with
  | zero => rfl
  | succ n ih =>
    unfold PacketNewRoute
    simp only [h, if_true]
    exact ih

theorem Send_refused (cfg : Config) (nodeList : List Ipv4Address) (pend : Bool)
    (fuel packet : Nat) (source destination : Ipv4Address) (protocol : Nat) (s : State)
    (nextHop : Ipv4Address) (hproto : protocol ≠ 1)
    (hnh : SearchNextHop cfg.m_mainAddress nodeList = some nextHop) (hne : nextHop ≠ noAddress)
    (hadm : cfg.maintainAdmits s.m_maintainBuffer
      (sourceEntry cfg packet nodeList nextHop source destination) = false) :
    Send cfg (some nodeList) pend fuel packet source destination protocol s =
      some (emitIf pend
        (Event.ScheduleSendPacketFromBuffer (freshSourceRoute nodeList) nextHop protocol)
        (afterUseExtends cfg nodeList s)) := by
  have hb : (afterUseExtends cfg nodeList s).m_maintainBuffer = s.m_maintainBuffer := by
    unfold afterUseExtends
    split <;> rfl
  unfold Send
  rw [if_neg hproto]
  simp only [hnh]
  rw [if_neg hne]
  have hadm2 : (DsrMaintainBuffer.Enqueue cfg (afterUseExtends cfg nodeList s).m_maintainBuffer
      (sourceEntry cfg packet nodeList nextHop source destination)) =
      (false, (afterUseExtends cfg nodeList s).m_maintainBuffer) := by
    unfold DsrMaintainBuffer.Enqueue
    rw [hb, hadm]
    rfl
  have h0 : (if cfg.isLinkCache = true then s.emit (Event.UseExtends nodeList) else s) =
      afterUseExtends cfg nodeList s := rfl
  simp only [h0, hadm2]
  cases pend <;> rfl

theorem SameRetryState.refl (s : State) : SameRetryState s s :=
  ⟨rfl, rfl, rfl, rfl, rfl, rfl, rfl, rfl, rfl, rfl⟩

theorem SameRetryState.trans {a b c : State} (h1 : SameRetryState a b)
    (h2 : SameRetryState b c) : SameRetryState a c := by
  obtain ⟨a1, a2, a3, a4, a5, a6, a7, a8, a9, a10⟩ := h1
  obtain ⟨b1, b2, b3, b4, b5, b6, b7, b8, b9, b10⟩ := h2
  exact ⟨b1.trans a1, b2.trans a2, b3.trans a3, b4.trans a4, b5.trans a5, b6.trans a6,
    b7.trans a7, b8.trans a8, b9.trans a9, b10.trans a10⟩

theorem SameRetryState_emit (s : State) (e : Event) (h1 : e.isSendPacket = false)
    (h2 : e.tier = none) : SameRetryState s (s.emit e) := by
  refine ⟨rfl, rfl, rfl, rfl, rfl, rfl, rfl, rfl, ?_, scheduled_emit_none s e h2⟩
  simp [State.emit, sendCount, List.countP_append, h1]

theorem SameRetryState_emitIf (flag : Bool) (s : State) (e : Event)
    (h1 : e.isSendPacket = false) (h2 : e.tier = none) : SameRetryState s (emitIf flag e s) := by
  cases flag
  · exact SameRetryState.refl s
  · exact SameRetryState_emit s e h1 h2

theorem SameRetryState_afterUseExtends (cfg : Config) (nodeList : List Ipv4Address) (s : State) :
    SameRetryState s (afterUseExtends cfg nodeList s) := by
  unfold afterUseExtends
  split
  · exact SameRetryState_emit s _ rfl rfl
  · exact SameRetryState.refl s

/-- `Send` either leaves the retry state alone (ICMP, no route, entry refused) or
dispatches: the entry is stored, its three counters are reset and the
operation of the selected tier runs. -/
theorem Send_cases (cfg : Config) (toDst : Option (List Ipv4Address)) (pend : Bool)
    (fuel packet : Nat) (source destination : Ipv4Address) (protocol : Nat) (s s1 : State)
    (h : Send cfg toDst pend fuel packet source destination protocol s = some s1) :
    SameRetryState s s1 ∨
    ∃ (e : DsrMaintainBuffEntry) (nextHop : Ipv4Address) (sa sb : State),
      SameRetryState s sa ∧
      sb = scheduleTier cfg (selectTier cfg.m_linkAck nextHop destination) e protocol
        (afterEnqueue sa e) ∧
      SameRetryState sb s1 := by
  by_cases hproto : protocol = 1
  · left
    simp only [Send, hproto, if_true, Option.some.injEq] at h
    subst h
    exact SameRetryState.refl s
  · cases toDst with
    | none =>
      left
      simp only [Send, hproto, if_false, Option.some.injEq] at h
      subst h
      exact SameRetryState_emit s _ rfl rfl
    | some nodeList =>
      cases hnh : SearchNextHop cfg.m_mainAddress nodeList with
      | none => simp [Send, hproto, hnh] at h
      | some nextHop =>
        by_cases hne : nextHop = noAddress
        · subst hne
          simp only [Send, hproto, hnh, if_false, if_true] at h
          rw [PacketNewRoute_noNextHop cfg nodeList hnh] at h
          exact absurd h (by simp)
        · cases hadm : cfg.maintainAdmits s.m_maintainBuffer
              (sourceEntry cfg packet nodeList nextHop source destination) with
          | false =>
            left
            rw [Send_refused cfg nodeList pend fuel packet source destination protocol s nextHop
              hproto hnh hne hadm] at h
            simp only [Option.some.injEq] at h
            subst h
            exact (SameRetryState_afterUseExtends cfg nodeList s).trans
              (SameRetryState_emitIf pend _ _ rfl rfl)
          | true =>
            right
            rw [Send_eq cfg nodeList pend fuel packet source destination protocol s nextHop
              hproto hnh hne hadm] at h
            simp only [Option.some.injEq] at h
            subst h
            exact ⟨_, nextHop, _, _, SameRetryState_afterUseExtends cfg nodeList s, rfl,
              SameRetryState_emitIf pend _ _ rfl rfl⟩

/-! ### The maps after a timer expiry -/

theorem LinkScheduleTimerExpire_resend_maps (cfg : Config) (mb : DsrMaintainBuffEntry)
    (protocol : Nat) (s : State)
    (hc : (s.m_linkCnt mb.linkKey).getD 0 < cfg.m_tryLinkAcks) :
    (LinkScheduleTimerExpire cfg mb protocol s).m_linkAckTimer =
      mapSet (mapErase s.m_linkAckTimer mb.linkKey) mb.linkKey
        { mb := mb, protocol := protocol, delay := cfg.m_linkAckTimeout } ∧
    (LinkScheduleTimerExpire cfg mb protocol s).m_linkCnt =
      mapSet (mapTouch s.m_linkCnt mb.linkKey 0) mb.linkKey
        ((s.m_linkCnt mb.linkKey).getD 0 + 1) ∧
    (LinkScheduleTimerExpire cfg mb protocol s).m_passiveAckTimer = s.m_passiveAckTimer ∧
    (LinkScheduleTimerExpire cfg mb protocol s).m_addressForwardTimer = s.m_addressForwardTimer ∧
    (LinkScheduleTimerExpire cfg mb protocol s).m_passiveCnt = s.m_passiveCnt ∧
    (LinkScheduleTimerExpire cfg mb protocol s).m_addressForwardCnt = s.m_addressForwardCnt := by
  simp [LinkScheduleTimerExpire, hc, ScheduleLinkPacketRetry, SendPacket, State.emit, mapTouch]

theorem PassiveScheduleTimerExpire_resend_maps (cfg : Config) (mb : DsrMaintainBuffEntry)
    (protocol : Nat) (s : State)
    (hc : (s.m_passiveCnt mb.passiveKey).getD 0 < cfg.m_tryPassiveAcks) :
    (PassiveScheduleTimerExpire cfg mb protocol s).m_passiveAckTimer =
      mapSet (mapErase s.m_passiveAckTimer mb.passiveKey) mb.passiveKey
        { mb := mb, protocol := protocol, delay := cfg.m_passiveAckTimeout } ∧
    (PassiveScheduleTimerExpire cfg mb protocol s).m_passiveCnt =
      mapSet (mapTouch s.m_passiveCnt mb.passiveKey 0) mb.passiveKey
        ((s.m_passiveCnt mb.passiveKey).getD 0 + 1) ∧
    (PassiveScheduleTimerExpire cfg mb protocol s).m_linkAckTimer = s.m_linkAckTimer ∧
    (PassiveScheduleTimerExpire cfg mb protocol s).m_addressForwardTimer =
      s.m_addressForwardTimer ∧
    (PassiveScheduleTimerExpire cfg mb protocol s).m_linkCnt = s.m_linkCnt ∧
    (PassiveScheduleTimerExpire cfg mb protocol s).m_addressForwardCnt =
      s.m_addressForwardCnt := by
  simp [PassiveScheduleTimerExpire, hc, SchedulePassivePacketRetry, SendPacket, State.emit,
    mapTouch]

theorem NetworkScheduleTimerExpire_resend_maps (cfg : Config) (mb : DsrMaintainBuffEntry)
    (protocol : Nat) (s : State)
    (hc : (s.m_addressForwardCnt mb.networkKey).getD 0 < cfg.m_maxMaintRexmt) :
    (NetworkScheduleTimerExpire cfg mb protocol s).m_addressForwardTimer =
      mapSet s.m_addressForwardTimer mb.networkKey
        { mb := mb, protocol := protocol,
          delay := 2 * ((s.m_addressForwardCnt mb.networkKey).getD 0 + 1) *
            cfg.m_nodeTraversalTime } ∧
    (∀ k v, (NetworkScheduleTimerExpire cfg mb protocol s).m_addressForwardCnt k = some v →
      (k = mb.networkKey ∧ v = (s.m_addressForwardCnt mb.networkKey).getD 0 + 1) ∨
      s.m_addressForwardCnt k = some v) ∧
    (NetworkScheduleTimerExpire cfg mb protocol s).m_linkAckTimer = s.m_linkAckTimer ∧
    (NetworkScheduleTimerExpire cfg mb protocol s).m_passiveAckTimer = s.m_passiveAckTimer ∧
    (NetworkScheduleTimerExpire cfg mb protocol s).m_linkCnt = s.m_linkCnt ∧
    (NetworkScheduleTimerExpire cfg mb protocol s).m_passiveCnt = s.m_passiveCnt := by
  have h : ¬ cfg.m_maxMaintRexmt ≤ (s.m_addressForwardCnt mb.networkKey).getD 0 := by omega
  refine ⟨?_, ?_, ?_, ?_, ?_, ?_⟩
  · simp [NetworkScheduleTimerExpire, h, ScheduleNetworkPacketRetry, SendPacket, State.emit,
      mapTouch, mapSet_self]
  · intro k v hv
    by_cases hk : k = mb.networkKey
    · left
      subst hk
      have := (NetworkScheduleTimerExpire_resend cfg mb protocol s hc).1
      rw [this] at hv
      exact ⟨rfl, (Option.some.inj hv).symm⟩
    · right
      simpa [NetworkScheduleTimerExpire, h, ScheduleNetworkPacketRetry, SendPacket, State.emit,
        mapTouch, mapSet, hk] using hv
  · simp [NetworkScheduleTimerExpire, h, ScheduleNetworkPacketRetry, SendPacket, State.emit]
  · simp [NetworkScheduleTimerExpire, h, ScheduleNetworkPacketRetry, SendPacket, State.emit]
  · simp [NetworkScheduleTimerExpire, h, ScheduleNetworkPacketRetry, SendPacket, State.emit]
  · simp [NetworkScheduleTimerExpire, h, ScheduleNetworkPacketRetry, SendPacket, State.emit]

/-- `CancelPacketAllTimer` only removes: whatever is stored afterwards was
stored before, and a network timer that stays keeps its counter. -/
theorem CancelPacketAllTimer_sub (entry : DsrMaintainBuffEntry) (s : State) :
    (∀ k v, (CancelPacketAllTimer entry s).m_linkCnt k = some v → s.m_linkCnt k = some v) ∧
    (∀ k v, (CancelPacketAllTimer entry s).m_passiveCnt k = some v →
      s.m_passiveCnt k = some v) ∧
    (∀ k v, (CancelPacketAllTimer entry s).m_addressForwardCnt k = some v →
      s.m_addressForwardCnt k = some v) ∧
    (∀ k t, (CancelPacketAllTimer entry s).m_addressForwardTimer k = some t →
      s.m_addressForwardTimer k = some t ∧
      (CancelPacketAllTimer entry s).m_addressForwardCnt k = s.m_addressForwardCnt k) := by
  rw [CancelPacketAllTimer_eq]
  refine ⟨fun k v h => (mapErase_some _ _ _ _ h).1, fun k v h => (mapErase_some _ _ _ _ h).1,
    fun k v h => (mapErase_some _ _ _ _ h).1, fun k t h => ?_⟩
  obtain ⟨h1, h2⟩ := mapErase_some _ _ _ _ h
  exact ⟨h1, mapErase_other _ _ _ h2⟩

theorem CancelPacketTimerNextHop_withEntry_sub (nextHop : Ipv4Address) (protocol : Nat)
    (entry : DsrMaintainBuffEntry) (s : State) :
    (∀ k v, (CancelPacketTimerNextHop.withEntry nextHop protocol entry s).m_linkCnt k = some v →
      s.m_linkCnt k = some v) ∧
    (∀ k v, (CancelPacketTimerNextHop.withEntry nextHop protocol entry s).m_passiveCnt k = some v →
      s.m_passiveCnt k = some v) ∧
    (∀ k v, (CancelPacketTimerNextHop.withEntry nextHop protocol entry s).m_addressForwardCnt k
        = some v → s.m_addressForwardCnt k = some v) ∧
    (∀ k t, (CancelPacketTimerNextHop.withEntry nextHop protocol entry s).m_addressForwardTimer k
        = some t →
      s.m_addressForwardTimer k = some t ∧
      (CancelPacketTimerNextHop.withEntry nextHop protocol entry s).m_addressForwardCnt k =
        s.m_addressForwardCnt k) := by
  unfold CancelPacketTimerNextHop.withEntry
  simp only []
  split
  · exact CancelPacketAllTimer_sub entry
      (s.emit (Event.SendUnreachError nextHop (CancelPacketTimerNextHop.errorDst entry)
        entry.dst entry.packet.sourceRoute.salvage protocol))
  · exact CancelPacketAllTimer_sub entry
      (s.emit (Event.SendUnreachError nextHop (CancelPacketTimerNextHop.errorDst entry)
        entry.dst entry.packet.sourceRoute.salvage protocol))

theorem CancelPacketTimerNextHop_sub (nextHop : Ipv4Address) (protocol : Nat) (s : State) :
    (∀ k v, (CancelPacketTimerNextHop nextHop protocol s).m_linkCnt k = some v →
      s.m_linkCnt k = some v) ∧
    (∀ k v, (CancelPacketTimerNextHop nextHop protocol s).m_passiveCnt k = some v →
      s.m_passiveCnt k = some v) ∧
    (∀ k v, (CancelPacketTimerNextHop nextHop protocol s).m_addressForwardCnt k = some v →
      s.m_addressForwardCnt k = some v) ∧
    (∀ k t, (CancelPacketTimerNextHop nextHop protocol s).m_addressForwardTimer k = some t →
      s.m_addressForwardTimer k = some t ∧
      (CancelPacketTimerNextHop nextHop protocol s).m_addressForwardCnt k =
        s.m_addressForwardCnt k) := by
  unfold CancelPacketTimerNextHop
  simp only []
  split
  · rename_i entry buf _
    exact CancelPacketTimerNextHop_withEntry_sub nextHop protocol entry
      { s.emit (Event.CancelPacketTimerNextHop nextHop) with m_maintainBuffer := buf }
  · exact ⟨fun _ _ h => h, fun _ _ h => h, fun _ _ h => h, fun _ _ h => ⟨h, rfl⟩⟩

/-! ### C5: every retry path is bounded by a counter -/

theorem mapTouch_some {K : Type} [DecidableEq K] (m : K → Option Nat) (k j : K) (v : Nat)
    (h : mapTouch m k 0 j = some v) : (j = k ∧ v = (m k).getD 0) ∨ m j = some v := by
  by_cases hj : j = k
  · left
    subst hj
    simp [mapTouch] at h
    exact ⟨rfl, h.symm⟩
  · right
    simpa [mapTouch, hj] using h

theorem getD_le_of_bounded {K : Type} (m : K → Option Nat) (k : K) (T : Nat)
    (h : ∀ v, m k = some v → v ≤ T) : (m k).getD 0 ≤ T := by
  cases hm : m k with
  | none => simp
  | some v => simpa using h v hm

theorem sendCount_resend (tr : List Event) (x : Event) (p : Packet) (a b : Ipv4Address)
    (n : Nat) (hx : x.isSendPacket = false) :
    sendCount (tr ++ [x, Event.SendPacket p a b n]) = sendCount tr + 1 := by
  rw [sendCount_append]
  simp only [sendCount, List.countP_cons, List.countP_nil, hx]
  simp [Event.isSendPacket]

theorem RetryInv_link (cfg : Config) (s : State) (k : LinkKey) (t : Timer)
    (h : s.m_linkAckTimer k = some t) (hinv : RetryInv cfg s) :
    RetryInv cfg (LinkScheduleTimerExpire cfg t.mb t.protocol s) := by
  obtain ⟨hcb, hsend, r, honly, hbud⟩ := hinv
  have hr : TimerRef.link k = r := honly _ (by simp [State.holds, h])
  subst hr
  obtain ⟨hkey, hb⟩ := hbud t h
  by_cases hc : (s.m_linkCnt t.mb.linkKey).getD 0 < cfg.m_tryLinkAcks
  · obtain ⟨m1, m2, m3, m4, m5, m6⟩ := LinkScheduleTimerExpire_resend_maps cfg t.mb t.protocol s hc
    obtain ⟨r1, r2, r3⟩ := LinkScheduleTimerExpire_resend cfg t.mb t.protocol s hc
    refine ⟨⟨?_, ?_, ?_⟩, ?_, TimerRef.link k, ?_, ?_⟩
    · intro j v hv
      rw [m2] at hv
      by_cases hj : j = t.mb.linkKey
      · subst hj
        rw [mapSet_self] at hv
        have := Option.some.inj hv
        omega
      · rw [mapSet_other _ _ _ _ hj] at hv
        rcases mapTouch_some _ _ _ _ hv with ⟨e, _⟩ | h2
        · exact absurd e hj
        · exact hcb.1 j v h2
    · rw [m5]
      exact hcb.2.1
    · rw [m6]
      exact hcb.2.2
    · rw [r2, sendCount_resend]
      · rw [← hkey] at hb
        omega
      · rfl
    · intro a ha
      cases a with
      | link j =>
        by_cases hj : j = t.mb.linkKey
        · rw [hj, hkey]
        · have h2 : (s.m_linkAckTimer j).isSome = true := by
            have h3 : ((LinkScheduleTimerExpire cfg t.mb t.protocol s).m_linkAckTimer j).isSome
                = true := ha
            rw [m1, mapSet_other _ _ _ _ hj, mapErase_other _ _ _ hj] at h3
            exact h3
          exact honly (TimerRef.link j) h2
      | passive j =>
        have h3 : ((LinkScheduleTimerExpire cfg t.mb t.protocol s).m_passiveAckTimer j).isSome
            = true := ha
        rw [m3] at h3
        exact honly (TimerRef.passive j) h3
      | network j =>
        have h3 : ((LinkScheduleTimerExpire cfg t.mb t.protocol s).m_addressForwardTimer j).isSome
            = true := ha
        rw [m4] at h3
        exact honly (TimerRef.network j) h3
    · intro t2 ht2
      rw [← hkey] at ht2 hb ⊢
      rw [r3] at ht2
      have e := Option.some.inj ht2
      subst e
      refine ⟨rfl, ?_⟩
      rw [r1, r2, sendCount_resend]
      · simp only [Option.getD_some]
        omega
      · rfl
  · have hge : cfg.m_tryLinkAcks ≤ (s.m_linkCnt t.mb.linkKey).getD 0 := by omega
    have hnone : ∀ a, (LinkScheduleTimerExpire cfg t.mb t.protocol s).holds a = true → False := by
      intro a ha
      obtain ⟨h1, h2⟩ := link_escalate_holds cfg t.mb t.protocol s hge a ha
      exact h2 (by rw [honly a h1, hkey])
    obtain ⟨_, e2, _⟩ := link_escalate_counts cfg t.mb t.protocol s hge
    refine ⟨?_, by rw [e2]; exact hsend, TimerRef.link k, fun a ha => (hnone a ha).elim, ?_⟩
    · rw [LinkScheduleTimerExpire_escalate cfg t.mb t.protocol s hge]
      obtain ⟨c1, c2, c3, _⟩ := CancelPacketTimerNextHop_sub t.mb.nextHop t.protocol
        ({ s with m_linkAckTimer := mapErase s.m_linkAckTimer t.mb.linkKey,
                  m_linkCnt := mapTouch s.m_linkCnt t.mb.linkKey 0,
                  m_linkRetries := (s.m_linkCnt t.mb.linkKey).getD 0 }.emit
          (Event.DeleteAllRoutesIncludeLink cfg.m_mainAddress t.mb.nextHop cfg.m_mainAddress))
      refine ⟨fun j v hv => ?_, fun j v hv => hcb.2.1 j v (c2 j v hv),
        fun j v hv => hcb.2.2 j v (c3 j v hv)⟩
      have h2 : mapTouch s.m_linkCnt t.mb.linkKey 0 j = some v := c1 j v hv
      rcases mapTouch_some _ _ _ _ h2 with ⟨_, e⟩ | h3
      · rw [e]
        exact getD_le_of_bounded _ _ _ (hcb.1 _)
      · exact hcb.1 j v h3
    · intro t2 ht2
      exact (hnone (TimerRef.link k) (by simp [State.holds, ht2])).elim

theorem passive_escalate_maps (cfg : Config) (mb : DsrMaintainBuffEntry) (protocol : Nat)
    (s : State) (hc : cfg.m_tryPassiveAcks ≤ (s.m_passiveCnt mb.passiveKey).getD 0) :
    (PassiveScheduleTimerExpire cfg mb protocol s).m_addressForwardTimer =
      mapSet s.m_addressForwardTimer (networkEntry cfg mb).networkKey
        { mb := networkEntry cfg mb, protocol := protocol,
          delay := 2 * cfg.m_nodeTraversalTime } ∧
    (PassiveScheduleTimerExpire cfg mb protocol s).m_addressForwardCnt =
      mapSet s.m_addressForwardCnt (networkEntry cfg mb).networkKey 0 ∧
    (PassiveScheduleTimerExpire cfg mb protocol s).m_passiveAckTimer =
      mapErase (mapErase s.m_passiveAckTimer mb.passiveKey) mb.passiveKey ∧
    (PassiveScheduleTimerExpire cfg mb protocol s).m_passiveCnt =
      mapErase (mapTouch s.m_passiveCnt mb.passiveKey 0) mb.passiveKey ∧
    (PassiveScheduleTimerExpire cfg mb protocol s).m_linkAckTimer = s.m_linkAckTimer ∧
    (PassiveScheduleTimerExpire cfg mb protocol s).m_linkCnt = s.m_linkCnt := by
  rw [PassiveScheduleTimerExpire_escalate cfg mb protocol s hc]
  obtain ⟨h1, h2, h3, h4, h5, h6⟩ := ScheduleNetworkPacketRetry_first_maps cfg mb protocol
    (CancelPassivePacketTimer mb
      { s with m_passiveAckTimer := mapErase s.m_passiveAckTimer mb.passiveKey,
               m_passiveCnt := mapTouch s.m_passiveCnt mb.passiveKey 0,
               m_passiveRetries := (s.m_passiveCnt mb.passiveKey).getD 0 })
  rw [h1, h2, h3, h4, h5, h6, CancelPassivePacketTimer_eq]
  exact ⟨rfl, rfl, rfl, rfl, rfl, rfl⟩

theorem RetryInv_passive (cfg : Config) (s : State) (k : PassiveKey) (t : Timer)
    (h : s.m_passiveAckTimer k = some t) (hinv : RetryInv cfg s) :
    RetryInv cfg (PassiveScheduleTimerExpire cfg t.mb t.protocol s) := by
  obtain ⟨hcb, hsend, r, honly, hbud⟩ := hinv
  have hr : TimerRef.passive k = r := honly _ (by simp [State.holds, h])
  subst hr
  obtain ⟨hkey, hb⟩ := hbud t h
  by_cases hc : (s.m_passiveCnt t.mb.passiveKey).getD 0 < cfg.m_tryPassiveAcks
  · obtain ⟨m1, m2, m3, m4, m5, m6⟩ :=
      PassiveScheduleTimerExpire_resend_maps cfg t.mb t.protocol s hc
    obtain ⟨r1, r2, r3⟩ := PassiveScheduleTimerExpire_resend cfg t.mb t.protocol s hc
    refine ⟨⟨?_, ?_, ?_⟩, ?_, TimerRef.passive k, ?_, ?_⟩
    · rw [m5]
      exact hcb.1
    · intro j v hv
      rw [m2] at hv
      by_cases hj : j = t.mb.passiveKey
      · subst hj
        rw [mapSet_self] at hv
        have := Option.some.inj hv
        omega
      · rw [mapSet_other _ _ _ _ hj] at hv
        rcases mapTouch_some _ _ _ _ hv with ⟨e, _⟩ | h2
        · exact absurd e hj
        · exact hcb.2.1 j v h2
    · rw [m6]
      exact hcb.2.2
    · rw [r2, sendCount_resend]
      · rw [← hkey] at hb
        omega
      · rfl
    · intro a ha
      cases a with
      | link j =>
        have h3 : ((PassiveScheduleTimerExpire cfg t.mb t.protocol s).m_linkAckTimer j).isSome
            = true := ha
        rw [m3] at h3
        exact honly (TimerRef.link j) h3
      | passive j =>
        by_cases hj : j = t.mb.passiveKey
        · rw [hj, hkey]
        · have h3 : ((PassiveScheduleTimerExpire cfg t.mb t.protocol s).m_passiveAckTimer j).isSome
              = true := ha
          rw [m1, mapSet_other _ _ _ _ hj, mapErase_other _ _ _ hj] at h3
          exact honly (TimerRef.passive j) h3
      | network j =>
        have h3 : ((PassiveScheduleTimerExpire cfg t.mb t.protocol s).m_addressForwardTimer
            j).isSome = true := ha
        rw [m4] at h3
        exact honly (TimerRef.network j) h3
    · intro t2 ht2
      rw [← hkey] at ht2 hb ⊢
      rw [r3] at ht2
      have e := Option.some.inj ht2
      subst e
      refine ⟨rfl, ?_⟩
      rw [r1, r2, sendCount_resend]
      · simp only [Option.getD_some]
        omega
      · rfl
  · have hge : cfg.m_tryPassiveAcks ≤ (s.m_passiveCnt t.mb.passiveKey).getD 0 := by omega
    obtain ⟨m1, m2, m3, m4, m5, m6⟩ := passive_escalate_maps cfg t.mb t.protocol s hge
    obtain ⟨_, f2, _, _, _, f6, f7⟩ := passive_escalate_facts cfg t.mb t.protocol s hge
    refine ⟨⟨?_, ?_, ?_⟩, ?_, TimerRef.network (networkEntry cfg t.mb).networkKey, ?_, ?_⟩
    · rw [m6]
      exact hcb.1
    · intro j v hv
      rw [m4] at hv
      rcases mapTouch_some _ _ _ _ (mapErase_some _ _ _ _ hv).1 with ⟨_, e⟩ | h3
      · rw [e]
        exact getD_le_of_bounded _ _ _ (hcb.2.1 _)
      · exact hcb.2.1 j v h3
    · intro j v hv
      rw [m2] at hv
      by_cases hj : j = (networkEntry cfg t.mb).networkKey
      · subst hj
        rw [mapSet_self] at hv
        have := Option.some.inj hv
        omega
      · rw [mapSet_other _ _ _ _ hj] at hv
        exact hcb.2.2 j v hv
    · rw [f2]
      rw [← hkey] at hb
      omega
    · intro a ha
      cases a with
      | link j =>
        have h3 : ((PassiveScheduleTimerExpire cfg t.mb t.protocol s).m_linkAckTimer j).isSome
            = true := ha
        rw [m5] at h3
        exact absurd (honly (TimerRef.link j) h3) (by simp)
      | passive j =>
        have h3 : ((PassiveScheduleTimerExpire cfg t.mb t.protocol s).m_passiveAckTimer j).isSome
            = true := ha
        rw [m3] at h3
        by_cases hj : j = t.mb.passiveKey
        · rw [hj, mapErase_self] at h3
          exact absurd h3 (by simp)
        · rw [mapErase_other _ _ _ hj, mapErase_other _ _ _ hj] at h3
          have h4 := honly (TimerRef.passive j) h3
          exact absurd (by rw [hkey]; exact TimerRef.passive.inj h4) hj
      | network j =>
        by_cases hj : j = (networkEntry cfg t.mb).networkKey
        · rw [hj]
        · have h3 : ((PassiveScheduleTimerExpire cfg t.mb t.protocol s).m_addressForwardTimer
              j).isSome = true := ha
          rw [m1, mapSet_other _ _ _ _ hj] at h3
          exact absurd (honly (TimerRef.network j) h3) (by simp)
    · intro t2 ht2
      rw [f6] at ht2
      have e := Option.some.inj ht2
      subst e
      refine ⟨rfl, ?_⟩
      rw [f7, f2]
      rw [← hkey] at hb
      simp only [Option.getD_some]
      omega

theorem RetryInv_network (cfg : Config) (s : State) (k : NetworkKey) (t : Timer)
    (h : s.m_addressForwardTimer k = some t) (hinv : RetryInv cfg s) :
    RetryInv cfg (NetworkScheduleTimerExpire cfg t.mb t.protocol s) := by
  obtain ⟨hcb, hsend, r, honly, hbud⟩ := hinv
  have hr : TimerRef.network k = r := honly _ (by simp [State.holds, h])
  subst hr
  obtain ⟨hkey, hb⟩ := hbud t h
  by_cases hc : (s.m_addressForwardCnt t.mb.networkKey).getD 0 < cfg.m_maxMaintRexmt
  · obtain ⟨m1, m2, m3, m4, m5, m6⟩ :=
      NetworkScheduleTimerExpire_resend_maps cfg t.mb t.protocol s hc
    obtain ⟨r1, r2, r3, _⟩ := NetworkScheduleTimerExpire_resend cfg t.mb t.protocol s hc
    refine ⟨⟨?_, ?_, ?_⟩, ?_, TimerRef.network k, ?_, ?_⟩
    · rw [m5]
      exact hcb.1
    · rw [m6]
      exact hcb.2.1
    · intro j v hv
      rcases m2 j v hv with ⟨_, e⟩ | h2
      · omega
      · exact hcb.2.2 j v h2
    · rw [r2, sendCount_resend]
      · rw [← hkey] at hb
        omega
      · rfl
    · intro a ha
      cases a with
      | link j =>
        have h3 : ((NetworkScheduleTimerExpire cfg t.mb t.protocol s).m_linkAckTimer j).isSome
            = true := ha
        rw [m3] at h3
        exact honly (TimerRef.link j) h3
      | passive j =>
        have h3 : ((NetworkScheduleTimerExpire cfg t.mb t.protocol s).m_passiveAckTimer j).isSome
            = true := ha
        rw [m4] at h3
        exact honly (TimerRef.passive j) h3
      | network j =>
        by_cases hj : j = t.mb.networkKey
        · rw [hj, hkey]
        · have h3 : ((NetworkScheduleTimerExpire cfg t.mb t.protocol s).m_addressForwardTimer
              j).isSome = true := ha
          rw [m1, mapSet_other _ _ _ _ hj] at h3
          exact honly (TimerRef.network j) h3
    · intro t2 ht2
      rw [← hkey] at ht2 hb ⊢
      rw [r3] at ht2
      have e := Option.some.inj ht2
      subst e
      refine ⟨rfl, ?_⟩
      rw [r1, r2, sendCount_resend]
      · simp only [Option.getD_some]
        omega
      · rfl
  · have hge : cfg.m_maxMaintRexmt ≤ (s.m_addressForwardCnt t.mb.networkKey).getD 0 := by omega
    have hs : sendCount (NetworkScheduleTimerExpire cfg t.mb t.protocol s).trace =
        sendCount s.trace := by
      obtain ⟨l, hl, hp⟩ := network_escalate_trace cfg t.mb t.protocol s hge
      rw [hl, sendCount_append]
      have e0 := (errorProcessing_counts l hp).2.1
      simp only [sendCount] at e0 ⊢
      simp [List.countP_cons, Event.isSendPacket, e0]
    have hesc := NetworkScheduleTimerExpire_escalate cfg t.mb t.protocol s hge
    obtain ⟨c1, c2, c3, c4⟩ := CancelPacketTimerNextHop_sub t.mb.nextHop t.protocol
      ({ s with m_addressForwardCnt := mapTouch s.m_addressForwardCnt t.mb.networkKey 0,
                m_sendRetries := (s.m_addressForwardCnt t.mb.networkKey).getD 0 }.emit
        (Event.DeleteAllRoutesIncludeLink cfg.m_mainAddress t.mb.nextHop cfg.m_mainAddress))
    rw [← hesc] at c1 c2 c3 c4
    refine ⟨⟨fun j v hv => hcb.1 j v (c1 j v hv), fun j v hv => hcb.2.1 j v (c2 j v hv), ?_⟩,
      by rw [hs]; exact hsend, TimerRef.network k,
      fun a ha => honly a (network_escalate_holds cfg t.mb t.protocol s hge a ha), ?_⟩
    · intro j v hv
      have h2 : mapTouch s.m_addressForwardCnt t.mb.networkKey 0 j = some v := c3 j v hv
      rcases mapTouch_some _ _ _ _ h2 with ⟨_, e⟩ | h3
      · rw [e]
        exact getD_le_of_bounded _ _ _ (hcb.2.2 _)
      · exact hcb.2.2 j v h3
    · intro t2 ht2
      obtain ⟨d1, d2⟩ := c4 k t2 ht2
      have d3 : s.m_addressForwardTimer k = some t2 := d1
      rw [h] at d3
      have e := Option.some.inj d3
      subst e
      refine ⟨hkey, ?_⟩
      have d2b : (NetworkScheduleTimerExpire cfg t.mb t.protocol s).m_addressForwardCnt k =
          mapTouch s.m_addressForwardCnt t.mb.networkKey 0 k := d2
      have d4 : (mapTouch s.m_addressForwardCnt t.mb.networkKey 0 k).getD 0 =
          (s.m_addressForwardCnt k).getD 0 := by
        rw [hkey]
        cases hk : s.m_addressForwardCnt k <;> simp [mapTouch, hk]
      rw [hs, d2b, d4]
      exact hb

/-- The invariant is kept by every timer expiry. -/
theorem RetryInv_fires (cfg : Config) (s s1 : State) (hf : Fires cfg s s1)
    (hinv : RetryInv cfg s) : RetryInv cfg s1 := by
  cases hf with
  | link k t h => exact RetryInv_link cfg s k t h hinv
  | passive k t h => exact RetryInv_passive cfg s k t h hinv
  | network k t h => exact RetryInv_network cfg s k t h hinv

theorem sendCount_first (cfg : Config) (mb : DsrMaintainBuffEntry) (protocol : Nat) (s : State) :
    sendCount (ScheduleNetworkPacketRetry cfg mb true protocol s).trace = sendCount s.trace + 1 := by
  obtain ⟨l, hl, hall⟩ := ScheduleNetworkPacketRetry_first_trace cfg mb protocol s
  have hnil : sendCount l = 0 := by
    simp only [sendCount, List.countP_eq_zero]
    intro e he
    obtain ⟨x, rfl⟩ := hall e he
    simp [Event.isSendPacket]
  rw [hl, sendCount_append, sendCount_append, hnil]
  rfl

theorem bounded_mapSet_zero {K : Type} [DecidableEq K] (m : K → Option Nat) (k : K) (T : Nat)
    (h : ∀ j v, m j = some v → v ≤ T) : ∀ j v, mapSet m k 0 j = some v → v ≤ T := by
  intro j v hv
  by_cases hj : j = k
  · subst hj
    rw [mapSet_self] at hv
    have := Option.some.inj hv
    omega
  · rw [mapSet_other _ _ _ _ hj] at hv
    exact h j v hv

theorem RetryInv_of_same (cfg : Config) {s s1 : State} (h : SameRetryState s s1)
    (hinv : RetryInv cfg s) : RetryInv cfg s1 := by
  obtain ⟨_, a2, a3, a4, a5, a6, a7, _, a9, _⟩ := h
  obtain ⟨hcb, hsend, r, honly, hbud⟩ := hinv
  have hh : ∀ a, s1.holds a = s.holds a := by
    intro a
    cases a <;> simp [State.holds, a5, a6, a7]
  refine ⟨⟨?_, ?_, ?_⟩, by rw [a9]; exact hsend, r, fun a ha => honly a (by rw [← hh]; exact ha), ?_⟩
  · rw [a4]
    exact hcb.1
  · rw [a3]
    exact hcb.2.1
  · rw [a2]
    exact hcb.2.2
  · cases r with
    | link k =>
      intro t ht
      rw [a7] at ht
      rw [a9, a4]
      exact hbud t ht
    | passive k =>
      intro t ht
      rw [a6] at ht
      rw [a9, a3]
      exact hbud t ht
    | network k =>
      intro t ht
      rw [a5] at ht
      rw [a9, a2]
      exact hbud t ht

/-- The invariant holds right after a site scheduled the first transmission in
a state without timers and without sends. -/
theorem RetryInv_schedule (cfg : Config) (s : State) (e : DsrMaintainBuffEntry)
    (nextHop destination : Ipv4Address) (protocol : Nat)
    (hT : ∀ a, s.holds a = false) (hS : sendCount s.trace = 0) (hC : CountersBounded cfg s) :
    RetryInv cfg (scheduleTier cfg (selectTier cfg.m_linkAck nextHop destination) e protocol
      (afterEnqueue s e)) := by
  have hno : ∀ a, s.holds a = true → False := fun a ha => by
    rw [hT a] at ha
    exact Bool.noConfusion ha
  have hcb0 : CountersBounded cfg (afterEnqueue s e) :=
    ⟨bounded_mapSet_zero _ _ _ hC.1, bounded_mapSet_zero _ _ _ hC.2.1,
      bounded_mapSet_zero _ _ _ hC.2.2⟩
  by_cases hl : cfg.m_linkAck = true
  · have hsel : selectTier cfg.m_linkAck nextHop destination = Tier.link := by
      simp [selectTier, hl]
    rw [hsel]
    have hsc : sendCount (scheduleTier cfg Tier.link e protocol (afterEnqueue s e)).trace = 1 := by
      show sendCount (ScheduleLinkPacketRetry cfg e protocol (afterEnqueue s e)).trace = 1
      rw [ScheduleLinkPacketRetry_trace, sendCount_resend]
      · show sendCount s.trace + 1 = 1
        omega
      · rfl
    have hb : sendBound cfg = 1 + cfg.m_tryLinkAcks := by simp [sendBound, hl]
    refine ⟨hcb0, by rw [hsc, hb]; omega, TimerRef.link e.linkKey, ?_, ?_⟩
    · intro a ha
      cases a with
      | link j =>
        by_cases hj : j = e.linkKey
        · rw [hj]
        · have h3 : (mapSet s.m_linkAckTimer e.linkKey
              { mb := e, protocol := protocol, delay := cfg.m_linkAckTimeout } j).isSome = true := ha
          rw [mapSet_other _ _ _ _ hj] at h3
          exact (hno (TimerRef.link j) h3).elim
      | passive j => exact (hno (TimerRef.passive j) ha).elim
      | network j => exact (hno (TimerRef.network j) ha).elim
    · intro t ht
      have h3 : mapSet s.m_linkAckTimer e.linkKey
          { mb := e, protocol := protocol, delay := cfg.m_linkAckTimeout } e.linkKey = some t := ht
      rw [mapSet_self] at h3
      have e3 := Option.some.inj h3
      subst e3
      refine ⟨rfl, ?_⟩
      rw [hsc, hb]
      omega
  · have hb : sendBound cfg = (1 + cfg.m_tryPassiveAcks) + (1 + cfg.m_maxMaintRexmt) := by
      simp [sendBound, hl]
    by_cases hd : nextHop = destination
    · have hsel : selectTier cfg.m_linkAck nextHop destination = Tier.network true := by
        simp [selectTier, hl, hd]
      rw [hsel]
      have hsc : sendCount (scheduleTier cfg (Tier.network true) e protocol
          (afterEnqueue s e)).trace = 1 := by
        show sendCount (ScheduleNetworkPacketRetry cfg e true protocol (afterEnqueue s e)).trace = 1
        rw [sendCount_first]
        show sendCount s.trace + 1 = 1
        omega
      obtain ⟨m1, m2, m3, m4, m5, m6⟩ :=
        ScheduleNetworkPacketRetry_first_maps cfg e protocol (afterEnqueue s e)
      refine ⟨⟨?_, ?_, ?_⟩, by rw [hsc, hb]; omega,
        TimerRef.network (networkEntry cfg e).networkKey, ?_, ?_⟩
      · show ∀ k v, (ScheduleNetworkPacketRetry cfg e true protocol (afterEnqueue s e)).m_linkCnt k
          = some v → v ≤ cfg.m_tryLinkAcks
        rw [m6]
        exact hcb0.1
      · show ∀ k v, (ScheduleNetworkPacketRetry cfg e true protocol
          (afterEnqueue s e)).m_passiveCnt k = some v → v ≤ cfg.m_tryPassiveAcks
        rw [m4]
        exact hcb0.2.1
      · show ∀ k v, (ScheduleNetworkPacketRetry cfg e true protocol
          (afterEnqueue s e)).m_addressForwardCnt k = some v → v ≤ cfg.m_maxMaintRexmt
        rw [m2]
        exact bounded_mapSet_zero _ _ _ hcb0.2.2
      · intro a ha
        cases a with
        | link j =>
          have h3 : ((ScheduleNetworkPacketRetry cfg e true protocol
              (afterEnqueue s e)).m_linkAckTimer j).isSome = true := ha
          rw [m5] at h3
          exact (hno (TimerRef.link j) h3).elim
        | passive j =>
          have h3 : ((ScheduleNetworkPacketRetry cfg e true protocol
              (afterEnqueue s e)).m_passiveAckTimer j).isSome = true := ha
          rw [m3] at h3
          exact (hno (TimerRef.passive j) h3).elim
        | network j =>
          by_cases hj : j = (networkEntry cfg e).networkKey
          · rw [hj]
          · have h3 : ((ScheduleNetworkPacketRetry cfg e true protocol
                (afterEnqueue s e)).m_addressForwardTimer j).isSome = true := ha
            rw [m1, mapSet_other _ _ _ _ hj] at h3
            exact (hno (TimerRef.network j) h3).elim
      · intro t ht
        have h3 : (ScheduleNetworkPacketRetry cfg e true protocol
            (afterEnqueue s e)).m_addressForwardTimer (networkEntry cfg e).networkKey = some t := ht
        rw [m1, mapSet_self] at h3
        have e3 := Option.some.inj h3
        subst e3
        refine ⟨rfl, ?_⟩
        have h4 : (scheduleTier cfg (Tier.network true) e protocol
            (afterEnqueue s e)).m_addressForwardCnt (networkEntry cfg e).networkKey = some 0 := by
          show (ScheduleNetworkPacketRetry cfg e true protocol
            (afterEnqueue s e)).m_addressForwardCnt (networkEntry cfg e).networkKey = some 0
          rw [m2, mapSet_self]
        rw [hsc, hb, h4]
        simp only [Option.getD_some]
        omega
    · have hsel : selectTier cfg.m_linkAck nextHop destination = Tier.passive := by
        simp [selectTier, hl, hd]
      rw [hsel]
      have hsc : sendCount (scheduleTier cfg Tier.passive e protocol
          (afterEnqueue s e)).trace = 1 := by
        show sendCount (SchedulePassivePacketRetry cfg e protocol (afterEnqueue s e)).trace = 1
        rw [SchedulePassivePacketRetry_trace, sendCount_resend]
        · show sendCount s.trace + 1 = 1
          omega
        · rfl
      refine ⟨hcb0, by rw [hsc, hb]; omega, TimerRef.passive e.passiveKey, ?_, ?_⟩
      · intro a ha
        cases a with
        | link j => exact (hno (TimerRef.link j) ha).elim
        | passive j =>
          by_cases hj : j = e.passiveKey
          · rw [hj]
          · have h3 : (mapSet s.m_passiveAckTimer e.passiveKey
                { mb := e, protocol := protocol, delay := cfg.m_passiveAckTimeout } j).isSome
                = true := ha
            rw [mapSet_other _ _ _ _ hj] at h3
            exact (hno (TimerRef.passive j) h3).elim
        | network j => exact (hno (TimerRef.network j) ha).elim
      · intro t ht
        have h3 : mapSet s.m_passiveAckTimer e.passiveKey
            { mb := e, protocol := protocol, delay := cfg.m_passiveAckTimeout } e.passiveKey
            = some t := ht
        rw [mapSet_self] at h3
        have e3 := Option.some.inj h3
        subst e3
        refine ⟨rfl, ?_⟩
        have h4 : (scheduleTier cfg Tier.passive e protocol
            (afterEnqueue s e)).m_passiveCnt e.passiveKey = some 0 := by
          show mapSet s.m_passiveCnt e.passiveKey 0 e.passiveKey = some 0
          rw [mapSet_self]
        rw [hsc, hb, h4]
        simp only [Option.getD_some]
        omega

/-- The invariant holds after `Send` dispatched one packet at a freshly
constructed node. -/
theorem RetryInv_Send (cfg : Config) (toDst : Option (List Ipv4Address)) (pend : Bool)
    (fuel packet : Nat) (source destination : Ipv4Address) (protocol : Nat) (s0 : State)
    (h : Send cfg toDst pend fuel packet source destination protocol State.init = some s0) :
    RetryInv cfg s0 := by
  have hinit : RetryInv cfg State.init := by
    refine ⟨⟨?_, ?_, ?_⟩, Nat.zero_le _, TimerRef.link ⟨0, 0, 0, 0⟩, ?_, ?_⟩
    · intro k v hv
      exact Option.noConfusion hv
    · intro k v hv
      exact Option.noConfusion hv
    · intro k v hv
      exact Option.noConfusion hv
    · intro a ha
      cases a <;> exact Bool.noConfusion ha
    · intro t ht
      exact Option.noConfusion ht
  rcases Send_cases cfg toDst pend fuel packet source destination protocol State.init s0 h with
    hs | ⟨e, nextHop, sa, sb, h1, h2, h3⟩
  · exact RetryInv_of_same cfg hs hinit
  · obtain ⟨_, a2, a3, a4, a5, a6, a7, _, a9, _⟩ := h1
    refine RetryInv_of_same cfg h3 ?_
    rw [h2]
    refine RetryInv_schedule cfg sa e nextHop destination protocol ?_ a9 ⟨?_, ?_, ?_⟩
    · intro a
      cases a <;> simp [State.holds, a5, a6, a7, State.init]
    · rw [a4]
      intro k v hv
      exact Option.noConfusion hv
    · rw [a3]
      intro k v hv
      exact Option.noConfusion hv
    · rw [a2]
      intro k v hv
      exact Option.noConfusion hv

/-- C5. Every retry path is bounded by a counter.  A single data packet is
dispatched by `Send` at a freshly constructed node and no acknowledgment ever
arrives, so that only timer expiries follow.  In every state reached, the number
of times a packet was handed to `SendPacket` is at most `1 + tryLinkAcks` with
link acknowledgment and at most `(1 + tryPassiveAcks) + (1 + maxMaintRexmt)`
without, and every stored link, passive and network retry counter is at most
`tryLinkAcks`, `tryPassiveAcks` and `maxMaintRexmt` respectively. -/
theorem retries_bounded (cfg : Config) (toDst : Option (List Ipv4Address)) (pend : Bool)
    (fuel packet : Nat) (source destination : Ipv4Address) (protocol : Nat) (s0 s : State)
    (h : Send cfg toDst pend fuel packet source destination protocol State.init = some s0)
    (hf : Relation.ReflTransGen (Fires cfg) s0 s) :
    (cfg.m_linkAck = true → sendCount s.trace ≤ 1 + cfg.m_tryLinkAcks) ∧
    (cfg.m_linkAck = false →
      sendCount s.trace ≤ (1 + cfg.m_tryPassiveAcks) + (1 + cfg.m_maxMaintRexmt)) ∧
    (∀ k v, s.m_linkCnt k = some v → v ≤ cfg.m_tryLinkAcks) ∧
    (∀ k v, s.m_passiveCnt k = some v → v ≤ cfg.m_tryPassiveAcks) ∧
    (∀ k v, s.m_addressForwardCnt k = some v → v ≤ cfg.m_maxMaintRexmt) := by
  have hinv : RetryInv cfg s := by
    induction hf with
    | refl => exact RetryInv_Send cfg toDst pend fuel packet source destination protocol s0 h
    | tail _ hstep ih => exact RetryInv_fires cfg _ _ hstep ih
  obtain ⟨hcb, hsend, _⟩ := hinv
  refine ⟨fun hl => ?_, fun hl => ?_, hcb.1, hcb.2.1, hcb.2.2⟩
  · simpa [sendBound, hl] using hsend
  · simpa [sendBound, hl] using hsend

/-- Witness of C5: packet 7 sent along `[S, I, D]`, then the passive timer
expires twice and the network timer twice. -/
theorem retries_bounded_witness :
    sendCount exampleRun.trace ≤
      (1 + exampleConfig.m_tryPassiveAcks) + (1 + exampleConfig.m_maxMaintRexmt) ∧
    (∀ k v, exampleRun.m_addressForwardCnt k = some v → v ≤ exampleConfig.m_maxMaintRexmt) :=
  have hrun := retries_bounded exampleConfig (some [1, 2, 3]) false 1 7 1 3 17 exampleSent
    exampleRun Send_example
    ((((Relation.ReflTransGen.single
      (@Fires.passive exampleConfig exampleSent exampleEntry.passiveKey
        { mb := exampleEntry, protocol := 17, delay := 100 } rfl)).tail
      (@Fires.passive exampleConfig _ exampleEntry.passiveKey
        { mb := exampleEntry, protocol := 17, delay := 100 } rfl)).tail
      (@Fires.network exampleConfig _ (networkEntry exampleConfig exampleEntry).networkKey
        { mb := networkEntry exampleConfig exampleEntry, protocol := 17, delay := 80 } rfl)).tail
      (@Fires.network exampleConfig _ (networkEntry exampleConfig exampleEntry).networkKey
        { mb := networkEntry exampleConfig exampleEntry, protocol := 17, delay := 80 } rfl))
  ⟨hrun.2.1 rfl, hrun.2.2.2.2⟩

/-- The bound of C5 is attained in the example run: five transmissions. -/
theorem exampleRun_sends : sendCount exampleRun.trace = 5 := by
  decide

/-! ### C6: the single-timer invariant -/

theorem TimersWithin_refl (s : State) : TimersWithin s s :=
  ⟨fun _ _ h => h, fun _ _ h => h, fun _ _ h => h⟩

theorem TimersWithin_trans {a b c : State} (h1 : TimersWithin a b) (h2 : TimersWithin b c) :
    TimersWithin a c :=
  ⟨fun k t h => h2.1 k t (h1.1 k t h), fun k t h => h2.2.1 k t (h1.2.1 k t h),
    fun k t h => h2.2.2 k t (h1.2.2 k t h)⟩

theorem TimersWithin_holds {s1 s : State} (h : TimersWithin s1 s) (a : TimerRef)
    (ha : s1.holds a = true) : s.holds a = true := by
  cases a with
  | link k =>
    obtain ⟨t, ht⟩ := Option.isSome_iff_exists.mp ha
    exact Option.isSome_iff_exists.mpr ⟨t, h.1 k t ht⟩
  | passive k =>
    obtain ⟨t, ht⟩ := Option.isSome_iff_exists.mp ha
    exact Option.isSome_iff_exists.mpr ⟨t, h.2.1 k t ht⟩
  | network k =>
    obtain ⟨t, ht⟩ := Option.isSome_iff_exists.mp ha
    exact Option.isSome_iff_exists.mpr ⟨t, h.2.2 k t ht⟩

theorem TimersWithin_inv {s1 s : State} (h : TimersWithin s1 s)
    (hinv : KeysConsistent s ∧ AtMostOneTimer s) : KeysConsistent s1 ∧ AtMostOneTimer s1 :=
  ⟨⟨fun k t ht => hinv.1.1 k t (h.1 k t ht), fun k t ht => hinv.1.2.1 k t (h.2.1 k t ht),
     fun k t ht => hinv.1.2.2 k t (h.2.2 k t ht)⟩,
   fun a b ha hb => hinv.2 a b (TimersWithin_holds h a ha) (TimersWithin_holds h b hb)⟩

theorem TimersWithin_onlyLink {s1 s : State} (h : TimersWithin s1 s) (ho : OnlyLinkTimers s) :
    OnlyLinkTimers s1 := by
  refine ⟨fun k => ?_, fun k => ?_⟩
  · cases hk : s1.m_passiveAckTimer k with
    | none => rfl
    | some t =>
      have h2 := h.2.1 k t hk
      rw [ho.1 k] at h2
      exact Option.noConfusion h2
  · cases hk : s1.m_addressForwardTimer k with
    | none => rfl
    | some t =>
      have h2 := h.2.2 k t hk
      rw [ho.2 k] at h2
      exact Option.noConfusion h2

theorem CancelLinkPacketTimer_within (mb : DsrMaintainBuffEntry) (s : State) :
    TimersWithin (CancelLinkPacketTimer mb s) s := by
  rw [CancelLinkPacketTimer_eq]
  exact ⟨fun k t h => (mapErase_some _ _ _ _ h).1, fun _ _ h => h, fun _ _ h => h⟩

theorem CancelNetworkPacketTimer_within (mb : DsrMaintainBuffEntry) (s : State) :
    TimersWithin (CancelNetworkPacketTimer mb s) s := by
  rw [CancelNetworkPacketTimer_eq]
  exact ⟨fun _ _ h => h, fun _ _ h => h, fun k t h => (mapErase_some _ _ _ _ h).1⟩

theorem CancelPassivePacketTimer_within (mb : DsrMaintainBuffEntry) (s : State) :
    TimersWithin (CancelPassivePacketTimer mb s) s := by
  rw [CancelPassivePacketTimer_eq]
  exact ⟨fun _ _ h => h, fun k t h => (mapErase_some _ _ _ _ h).1, fun _ _ h => h⟩

theorem CancelPacketAllTimer_within (mb : DsrMaintainBuffEntry) (s : State) :
    TimersWithin (CancelPacketAllTimer mb s) s :=
  TimersWithin_trans (CancelPassivePacketTimer_within mb _)
    (TimersWithin_trans (CancelNetworkPacketTimer_within mb _) (CancelLinkPacketTimer_within mb s))

theorem CancelPacketTimerNextHop_withEntry_within (nextHop : Ipv4Address) (protocol : Nat)
    (entry : DsrMaintainBuffEntry) (s : State) :
    TimersWithin (CancelPacketTimerNextHop.withEntry nextHop protocol entry s) s := by
  unfold CancelPacketTimerNextHop.withEntry
  simp only []
  split
  · exact CancelPacketAllTimer_within entry
      (s.emit (Event.SendUnreachError nextHop (CancelPacketTimerNextHop.errorDst entry)
        entry.dst entry.packet.sourceRoute.salvage protocol))
  · exact CancelPacketAllTimer_within entry
      (s.emit (Event.SendUnreachError nextHop (CancelPacketTimerNextHop.errorDst entry)
        entry.dst entry.packet.sourceRoute.salvage protocol))

theorem CancelPacketTimerNextHop_within (nextHop : Ipv4Address) (protocol : Nat) (s : State) :
    TimersWithin (CancelPacketTimerNextHop nextHop protocol s) s := by
  unfold CancelPacketTimerNextHop
  simp only []
  split
  · rename_i entry buf _
    exact CancelPacketTimerNextHop_withEntry_within nextHop protocol entry
      { s.emit (Event.CancelPacketTimerNextHop nextHop) with m_maintainBuffer := buf }
  · exact TimersWithin_refl s

theorem CancelPassiveTimer_within (packet : Packet) (source destination : Ipv4Address)
    (segsLeft : Nat) (s : State) :
    TimersWithin (CancelPassiveTimer packet source destination segsLeft s).2 s := by
  unfold CancelPassiveTimer
  simp only []
  split
  · exact CancelPassivePacketTimer_within _ _
  · exact TimersWithin_refl s

/-- The cancel operations only remove timers. -/
theorem Cancels_within {s s1 : State} (h : Cancels s s1) : TimersWithin s1 s := by
  cases h with
  | link mb => exact CancelLinkPacketTimer_within mb s
  | network mb => exact CancelNetworkPacketTimer_within mb s
  | passive mb => exact CancelPassivePacketTimer_within mb s
  | all mb => exact CancelPacketAllTimer_within mb s
  | overheard packet source destination segsLeft =>
    exact CancelPassiveTimer_within packet source destination segsLeft s
  | nextHop nextHop protocol => exact CancelPacketTimerNextHop_within nextHop protocol s

theorem SingleTimer_of_atMostOne (s : State) (h : AtMostOneTimer s) : SingleTimer s := by
  intro e _
  unfold tiersHolding
  by_cases h1 : (s.m_linkAckTimer e.linkKey).isSome = true
  · by_cases h2 : (s.m_passiveAckTimer e.passiveKey).isSome = true
    · exact absurd (h (TimerRef.link e.linkKey) (TimerRef.passive e.passiveKey) h1 h2) (by simp)
    · by_cases h3 : (s.m_addressForwardTimer e.networkKey).isSome = true
      · exact absurd (h (TimerRef.link e.linkKey) (TimerRef.network e.networkKey) h1 h3) (by simp)
      · simp [h1, h2, h3]
  · by_cases h2 : (s.m_passiveAckTimer e.passiveKey).isSome = true
    · by_cases h3 : (s.m_addressForwardTimer e.networkKey).isSome = true
      · exact absurd (h (TimerRef.passive e.passiveKey) (TimerRef.network e.networkKey) h2 h3)
          (by simp)
      · simp [h1, h2, h3]
    · by_cases h3 : (s.m_addressForwardTimer e.networkKey).isSome = true <;> simp [h1, h2, h3]

theorem SingleTimer_of_onlyLink (s : State) (h : OnlyLinkTimers s) : SingleTimer s := by
  intro e _
  unfold tiersHolding
  rw [h.1 e.passiveKey, h.2 e.networkKey]
  by_cases h1 : (s.m_linkAckTimer e.linkKey).isSome = true <;> simp [h1]

theorem link_escalate_within (cfg : Config) (mb : DsrMaintainBuffEntry) (protocol : Nat)
    (s : State) (hc : cfg.m_tryLinkAcks ≤ (s.m_linkCnt mb.linkKey).getD 0) :
    TimersWithin (LinkScheduleTimerExpire cfg mb protocol s) s := by
  rw [LinkScheduleTimerExpire_escalate cfg mb protocol s hc]
  exact TimersWithin_trans (CancelPacketTimerNextHop_within _ _ _)
    ⟨fun k t h => (mapErase_some _ _ _ _ h).1, fun _ _ h => h, fun _ _ h => h⟩

theorem network_escalate_within (cfg : Config) (mb : DsrMaintainBuffEntry) (protocol : Nat)
    (s : State) (hc : cfg.m_maxMaintRexmt ≤ (s.m_addressForwardCnt mb.networkKey).getD 0) :
    TimersWithin (NetworkScheduleTimerExpire cfg mb protocol s) s := by
  rw [NetworkScheduleTimerExpire_escalate cfg mb protocol s hc]
  exact TimersWithin_trans (CancelPacketTimerNextHop_within _ _ _)
    ⟨fun _ _ h => h, fun _ _ h => h, fun _ _ h => h⟩

theorem OneTimer_link (cfg : Config) (s : State) (k : LinkKey) (t : Timer)
    (h : s.m_linkAckTimer k = some t) (hinv : KeysConsistent s ∧ AtMostOneTimer s) :
    KeysConsistent (LinkScheduleTimerExpire cfg t.mb t.protocol s) ∧
      AtMostOneTimer (LinkScheduleTimerExpire cfg t.mb t.protocol s) := by
  by_cases hc : (s.m_linkCnt t.mb.linkKey).getD 0 < cfg.m_tryLinkAcks
  · obtain ⟨hk, hone⟩ := hinv
    have hkey : t.mb.linkKey = k := hk.1 k t h
    have honly : ∀ a, s.holds a = true → a = TimerRef.link k :=
      fun a ha => hone a _ ha (by simp [State.holds, h])
    obtain ⟨m1, _, m3, m4, _, _⟩ := LinkScheduleTimerExpire_resend_maps cfg t.mb t.protocol s hc
    refine ⟨⟨?_, ?_, ?_⟩, ?_⟩
    · intro j t2 ht2
      rw [m1] at ht2
      by_cases hj : j = t.mb.linkKey
      · rw [hj, mapSet_self] at ht2
        rw [← Option.some.inj ht2, hj]
      · rw [mapSet_other _ _ _ _ hj, mapErase_other _ _ _ hj] at ht2
        exact hk.1 j t2 ht2
    · rw [m3]
      exact hk.2.1
    · rw [m4]
      exact hk.2.2
    · have hr : ∀ a, (LinkScheduleTimerExpire cfg t.mb t.protocol s).holds a = true →
          a = TimerRef.link k := by
        intro a ha
        cases a with
        | link j =>
          by_cases hj : j = t.mb.linkKey
          · rw [hj, hkey]
          · have h3 : ((LinkScheduleTimerExpire cfg t.mb t.protocol s).m_linkAckTimer j).isSome
                = true := ha
            rw [m1, mapSet_other _ _ _ _ hj, mapErase_other _ _ _ hj] at h3
            exact honly (TimerRef.link j) h3
        | passive j =>
          have h3 : ((LinkScheduleTimerExpire cfg t.mb t.protocol s).m_passiveAckTimer j).isSome
              = true := ha
          rw [m3] at h3
          exact honly (TimerRef.passive j) h3
        | network j =>
          have h3 : ((LinkScheduleTimerExpire cfg t.mb t.protocol s).m_addressForwardTimer
              j).isSome = true := ha
          rw [m4] at h3
          exact honly (TimerRef.network j) h3
      exact fun a b ha hb => (hr a ha).trans (hr b hb).symm
  · exact TimersWithin_inv (link_escalate_within cfg t.mb t.protocol s (by omega)) hinv

theorem OneTimer_passive (cfg : Config) (s : State) (k : PassiveKey) (t : Timer)
    (h : s.m_passiveAckTimer k = some t) (hinv : KeysConsistent s ∧ AtMostOneTimer s) :
    KeysConsistent (PassiveScheduleTimerExpire cfg t.mb t.protocol s) ∧
      AtMostOneTimer (PassiveScheduleTimerExpire cfg t.mb t.protocol s) := by
  obtain ⟨hk, hone⟩ := hinv
  have hkey : t.mb.passiveKey = k := hk.2.1 k t h
  have honly : ∀ a, s.holds a = true → a = TimerRef.passive k :=
    fun a ha => hone a _ ha (by simp [State.holds, h])
  by_cases hc : (s.m_passiveCnt t.mb.passiveKey).getD 0 < cfg.m_tryPassiveAcks
  · obtain ⟨m1, _, m3, m4, _, _⟩ :=
      PassiveScheduleTimerExpire_resend_maps cfg t.mb t.protocol s hc
    refine ⟨⟨?_, ?_, ?_⟩, ?_⟩
    · rw [m3]
      exact hk.1
    · intro j t2 ht2
      rw [m1] at ht2
      by_cases hj : j = t.mb.passiveKey
      · rw [hj, mapSet_self] at ht2
        rw [← Option.some.inj ht2, hj]
      · rw [mapSet_other _ _ _ _ hj, mapErase_other _ _ _ hj] at ht2
        exact hk.2.1 j t2 ht2
    · rw [m4]
      exact hk.2.2
    · have hr : ∀ a, (PassiveScheduleTimerExpire cfg t.mb t.protocol s).holds a = true →
          a = TimerRef.passive k := by
        intro a ha
        cases a with
        | link j =>
          have h3 : ((PassiveScheduleTimerExpire cfg t.mb t.protocol s).m_linkAckTimer j).isSome
              = true := ha
          rw [m3] at h3
          exact honly (TimerRef.link j) h3
        | passive j =>
          by_cases hj : j = t.mb.passiveKey
          · rw [hj, hkey]
          · have h3 : ((PassiveScheduleTimerExpire cfg t.mb t.protocol s).m_passiveAckTimer
                j).isSome = true := ha
            rw [m1, mapSet_other _ _ _ _ hj, mapErase_other _ _ _ hj] at h3
            exact honly (TimerRef.passive j) h3
        | network j =>
          have h3 : ((PassiveScheduleTimerExpire cfg t.mb t.protocol s).m_addressForwardTimer
              j).isSome = true := ha
          rw [m4] at h3
          exact honly (TimerRef.network j) h3
      exact fun a b ha hb => (hr a ha).trans (hr b hb).symm
  · obtain ⟨m1, _, m3, _, m5, _⟩ := passive_escalate_maps cfg t.mb t.protocol s (by omega)
    refine ⟨⟨?_, ?_, ?_⟩, ?_⟩
    · rw [m5]
      exact hk.1
    · intro j t2 ht2
      rw [m3] at ht2
      exact hk.2.1 j t2 (mapErase_some _ _ _ _ (mapErase_some _ _ _ _ ht2).1).1
    · intro j t2 ht2
      rw [m1] at ht2
      by_cases hj : j = (networkEntry cfg t.mb).networkKey
      · rw [hj, mapSet_self] at ht2
        rw [← Option.some.inj ht2, hj]
      · rw [mapSet_other _ _ _ _ hj] at ht2
        exact hk.2.2 j t2 ht2
    · have hr : ∀ a, (PassiveScheduleTimerExpire cfg t.mb t.protocol s).holds a = true →
          a = TimerRef.network (networkEntry cfg t.mb).networkKey := by
        intro a ha
        cases a with
        | link j =>
          have h3 : ((PassiveScheduleTimerExpire cfg t.mb t.protocol s).m_linkAckTimer j).isSome
              = true := ha
          rw [m5] at h3
          exact absurd (honly (TimerRef.link j) h3) (by simp)
        | passive j =>
          have h3 : ((PassiveScheduleTimerExpire cfg t.mb t.protocol s).m_passiveAckTimer
              j).isSome = true := ha
          rw [m3] at h3
          by_cases hj : j = t.mb.passiveKey
          · rw [hj, mapErase_self] at h3
            exact absurd h3 (by simp)
          · rw [mapErase_other _ _ _ hj, mapErase_other _ _ _ hj] at h3
            have h4 := honly (TimerRef.passive j) h3
            exact absurd (by rw [hkey]; exact TimerRef.passive.inj h4) hj
        | network j =>
          by_cases hj : j = (networkEntry cfg t.mb).networkKey
          · rw [hj]
          · have h3 : ((PassiveScheduleTimerExpire cfg t.mb t.protocol s).m_addressForwardTimer
                j).isSome = true := ha
            rw [m1, mapSet_other _ _ _ _ hj] at h3
            exact absurd (honly (TimerRef.network j) h3) (by simp)
      exact fun a b ha hb => (hr a ha).trans (hr b hb).symm

theorem OneTimer_network (cfg : Config) (s : State) (k : NetworkKey) (t : Timer)
    (h : s.m_addressForwardTimer k = some t) (hinv : KeysConsistent s ∧ AtMostOneTimer s) :
    KeysConsistent (NetworkScheduleTimerExpire cfg t.mb t.protocol s) ∧
      AtMostOneTimer (NetworkScheduleTimerExpire cfg t.mb t.protocol s) := by
  by_cases hc : (s.m_addressForwardCnt t.mb.networkKey).getD 0 < cfg.m_maxMaintRexmt
  · obtain ⟨hk, hone⟩ := hinv
    have hkey : t.mb.networkKey = k := hk.2.2 k t h
    have honly : ∀ a, s.holds a = true → a = TimerRef.network k :=
      fun a ha => hone a _ ha (by simp [State.holds, h])
    obtain ⟨m1, _, m3, m4, _, _⟩ :=
      NetworkScheduleTimerExpire_resend_maps cfg t.mb t.protocol s hc
    refine ⟨⟨?_, ?_, ?_⟩, ?_⟩
    · rw [m3]
      exact hk.1
    · rw [m4]
      exact hk.2.1
    · intro j t2 ht2
      rw [m1] at ht2
      by_cases hj : j = t.mb.networkKey
      · rw [hj, mapSet_self] at ht2
        rw [← Option.some.inj ht2, hj]
      · rw [mapSet_other _ _ _ _ hj] at ht2
        exact hk.2.2 j t2 ht2
    · have hr : ∀ a, (NetworkScheduleTimerExpire cfg t.mb t.protocol s).holds a = true →
          a = TimerRef.network k := by
        intro a ha
        cases a with
        | link j =>
          have h3 : ((NetworkScheduleTimerExpire cfg t.mb t.protocol s).m_linkAckTimer j).isSome
              = true := ha
          rw [m3] at h3
          exact honly (TimerRef.link j) h3
        | passive j =>
          have h3 : ((NetworkScheduleTimerExpire cfg t.mb t.protocol s).m_passiveAckTimer
              j).isSome = true := ha
          rw [m4] at h3
          exact honly (TimerRef.passive j) h3
        | network j =>
          by_cases hj : j = t.mb.networkKey
          · rw [hj, hkey]
          · have h3 : ((NetworkScheduleTimerExpire cfg t.mb t.protocol s).m_addressForwardTimer
                j).isSome = true := ha
            rw [m1, mapSet_other _ _ _ _ hj] at h3
            exact honly (TimerRef.network j) h3
      exact fun a b ha hb => (hr a ha).trans (hr b hb).symm
  · exact TimersWithin_inv (network_escalate_within cfg t.mb t.protocol s (by omega)) hinv

/-- A timer expiry or a cancel operation keeps "keys consistent, at most one
timer". -/
theorem OneTimer_quiet (cfg : Config) (s s1 : State) (hq : Quiet cfg s s1)
    (hinv : KeysConsistent s ∧ AtMostOneTimer s) : KeysConsistent s1 ∧ AtMostOneTimer s1 := by
  rcases hq with hf | hc
  · cases hf with
    | link k t h => exact OneTimer_link cfg s k t h hinv
    | passive k t h => exact OneTimer_passive cfg s k t h hinv
    | network k t h => exact OneTimer_network cfg s k t h hinv
  · exact TimersWithin_inv (Cancels_within hc) hinv

theorem NoTimers_inv (s : State) (hT : NoTimers s) : KeysConsistent s ∧ AtMostOneTimer s := by
  have hl : ∀ k, s.m_linkAckTimer k = none := fun k => by
    have := hT (TimerRef.link k)
    simpa [State.holds] using this
  have hp : ∀ k, s.m_passiveAckTimer k = none := fun k => by
    have := hT (TimerRef.passive k)
    simpa [State.holds] using this
  have hn : ∀ k, s.m_addressForwardTimer k = none := fun k => by
    have := hT (TimerRef.network k)
    simpa [State.holds] using this
  refine ⟨⟨fun k t h => ?_, fun k t h => ?_, fun k t h => ?_⟩, fun a b ha _ => ?_⟩
  · rw [hl k] at h
    exact Option.noConfusion h
  · rw [hp k] at h
    exact Option.noConfusion h
  · rw [hn k] at h
    exact Option.noConfusion h
  · rw [hT a] at ha
    exact Bool.noConfusion ha

theorem SameRetryState_within {s s1 : State} (h : SameRetryState s s1) : TimersWithin s1 s := by
  obtain ⟨_, _, _, _, a5, a6, a7, _, _, _⟩ := h
  refine ⟨fun k t ht => ?_, fun k t ht => ?_, fun k t ht => ?_⟩
  · rwa [a7] at ht
  · rwa [a6] at ht
  · rwa [a5] at ht

theorem SameRetryState_noTimers {s s1 : State} (h : SameRetryState s s1) (hT : NoTimers s) :
    NoTimers s1 := by
  obtain ⟨_, _, _, _, a5, a6, a7, _, _, _⟩ := h
  intro a
  have := hT a
  cases a with
  | link k => simpa [State.holds, a7] using this
  | passive k => simpa [State.holds, a6] using this
  | network k => simpa [State.holds, a5] using this

theorem ForwardPacket_refused (cfg : Config) (packet : Nat) (sourceRoute : DsrOptionSRHeader)
    (source nextHop targetAddress : Ipv4Address) (protocol : Nat) (s : State)
    (hadm : cfg.maintainAdmits s.m_maintainBuffer
      (forwardEntry cfg s.m_ackId packet sourceRoute source nextHop targetAddress) = false) :
    ForwardPacket cfg packet sourceRoute source nextHop targetAddress protocol s = s := by
  unfold ForwardPacket
  simp [DsrMaintainBuffer.Enqueue, hadm]

/-- In a state without timers, scheduling the first transmission of an entry
registers exactly one timer, under a key of the entry it carries. -/
theorem OneTimer_schedule (cfg : Config) (s : State) (e : DsrMaintainBuffEntry)
    (nextHop destination : Ipv4Address) (protocol : Nat) (hT : NoTimers s) :
    KeysConsistent (scheduleTier cfg (selectTier cfg.m_linkAck nextHop destination) e protocol
      (afterEnqueue s e)) ∧
    AtMostOneTimer (scheduleTier cfg (selectTier cfg.m_linkAck nextHop destination) e protocol
      (afterEnqueue s e)) := by
  obtain ⟨hk, _⟩ := NoTimers_inv s hT
  have hno : ∀ a, s.holds a = true → False := fun a ha => by
    rw [hT a] at ha
    exact Bool.noConfusion ha
  by_cases hl : cfg.m_linkAck = true
  · have hsel : selectTier cfg.m_linkAck nextHop destination = Tier.link := by
      simp [selectTier, hl]
    rw [hsel]
    refine ⟨⟨?_, hk.2.1, hk.2.2⟩, ?_⟩
    · intro j t2 ht2
      have h3 : mapSet s.m_linkAckTimer e.linkKey
          { mb := e, protocol := protocol, delay := cfg.m_linkAckTimeout } j = some t2 := ht2
      by_cases hj : j = e.linkKey
      · rw [hj, mapSet_self] at h3
        rw [← Option.some.inj h3, hj]
      · rw [mapSet_other _ _ _ _ hj] at h3
        exact hk.1 j t2 h3
    · have hr : ∀ a, (scheduleTier cfg Tier.link e protocol (afterEnqueue s e)).holds a = true →
          a = TimerRef.link e.linkKey := by
        intro a ha
        cases a with
        | link j =>
          by_cases hj : j = e.linkKey
          · rw [hj]
          · have h3 : (mapSet s.m_linkAckTimer e.linkKey
                { mb := e, protocol := protocol, delay := cfg.m_linkAckTimeout } j).isSome
                = true := ha
            rw [mapSet_other _ _ _ _ hj] at h3
            exact (hno (TimerRef.link j) h3).elim
        | passive j => exact (hno (TimerRef.passive j) ha).elim
        | network j => exact (hno (TimerRef.network j) ha).elim
      exact fun a b ha hb => (hr a ha).trans (hr b hb).symm
  · by_cases hd : nextHop = destination
    · have hsel : selectTier cfg.m_linkAck nextHop destination = Tier.network true := by
        simp [selectTier, hl, hd]
      rw [hsel]
      obtain ⟨m1, _, m3, _, m5, _⟩ :=
        ScheduleNetworkPacketRetry_first_maps cfg e protocol (afterEnqueue s e)
      refine ⟨⟨?_, ?_, ?_⟩, ?_⟩
      · show ∀ k t, (ScheduleNetworkPacketRetry cfg e true protocol
          (afterEnqueue s e)).m_linkAckTimer k = some t → t.mb.linkKey = k
        rw [m5]
        exact hk.1
      · show ∀ k t, (ScheduleNetworkPacketRetry cfg e true protocol
          (afterEnqueue s e)).m_passiveAckTimer k = some t → t.mb.passiveKey = k
        rw [m3]
        exact hk.2.1
      · intro j t2 ht2
        have h3 : (ScheduleNetworkPacketRetry cfg e true protocol
            (afterEnqueue s e)).m_addressForwardTimer j = some t2 := ht2
        rw [m1] at h3
        by_cases hj : j = (networkEntry cfg e).networkKey
        · rw [hj, mapSet_self] at h3
          rw [← Option.some.inj h3, hj]
        · rw [mapSet_other _ _ _ _ hj] at h3
          exact hk.2.2 j t2 h3
      · have hr : ∀ a, (scheduleTier cfg (Tier.network true) e protocol
            (afterEnqueue s e)).holds a = true →
            a = TimerRef.network (networkEntry cfg e).networkKey := by
          intro a ha
          cases a with
          | link j =>
            have h3 : ((ScheduleNetworkPacketRetry cfg e true protocol
                (afterEnqueue s e)).m_linkAckTimer j).isSome = true := ha
            rw [m5] at h3
            exact (hno (TimerRef.link j) h3).elim
          | passive j =>
            have h3 : ((ScheduleNetworkPacketRetry cfg e true protocol
                (afterEnqueue s e)).m_passiveAckTimer j).isSome = true := ha
            rw [m3] at h3
            exact (hno (TimerRef.passive j) h3).elim
          | network j =>
            by_cases hj : j = (networkEntry cfg e).networkKey
            · rw [hj]
            · have h3 : ((ScheduleNetworkPacketRetry cfg e true protocol
                  (afterEnqueue s e)).m_addressForwardTimer j).isSome = true := ha
              rw [m1, mapSet_other _ _ _ _ hj] at h3
              exact (hno (TimerRef.network j) h3).elim
        exact fun a b ha hb => (hr a ha).trans (hr b hb).symm
    · have hsel : selectTier cfg.m_linkAck nextHop destination = Tier.passive := by
        simp [selectTier, hl, hd]
      rw [hsel]
      refine ⟨⟨hk.1, ?_, hk.2.2⟩, ?_⟩
      · intro j t2 ht2
        have h3 : mapSet s.m_passiveAckTimer e.passiveKey
            { mb := e, protocol := protocol, delay := cfg.m_passiveAckTimeout } j = some t2 := ht2
        by_cases hj : j = e.passiveKey
        · rw [hj, mapSet_self] at h3
          rw [← Option.some.inj h3, hj]
        · rw [mapSet_other _ _ _ _ hj] at h3
          exact hk.2.1 j t2 h3
      · have hr : ∀ a, (scheduleTier cfg Tier.passive e protocol
            (afterEnqueue s e)).holds a = true → a = TimerRef.passive e.passiveKey := by
          intro a ha
          cases a with
          | link j => exact (hno (TimerRef.link j) ha).elim
          | passive j =>
            by_cases hj : j = e.passiveKey
            · rw [hj]
            · have h3 : (mapSet s.m_passiveAckTimer e.passiveKey
                  { mb := e, protocol := protocol, delay := cfg.m_passiveAckTimeout } j).isSome
                  = true := ha
              rw [mapSet_other _ _ _ _ hj] at h3
              exact (hno (TimerRef.passive j) h3).elim
          | network j => exact (hno (TimerRef.network j) ha).elim
        exact fun a b ha hb => (hr a ha).trans (hr b hb).symm

/-- One dispatch in a state without timers. -/
theorem OneTimer_dispatch (cfg : Config) (s s1 : State) (hT : NoTimers s)
    (hd : Dispatches cfg s s1) : KeysConsistent s1 ∧ AtMostOneTimer s1 := by
  cases hd with
  | send _ toDst pend fuel packet source destination protocol h =>
    rcases Send_cases cfg toDst pend fuel packet source destination protocol s s1 h with
      hs | ⟨e, nextHop, sa, sb, h1, h2, h3⟩
    · exact TimersWithin_inv (SameRetryState_within hs) (NoTimers_inv s hT)
    · refine TimersWithin_inv (SameRetryState_within h3) ?_
      rw [h2]
      exact OneTimer_schedule cfg sa e nextHop destination protocol
        (SameRetryState_noTimers h1 hT)
  | forward packet sourceRoute source nextHop targetAddress protocol =>
    cases hadm : cfg.maintainAdmits s.m_maintainBuffer
        (forwardEntry cfg s.m_ackId packet sourceRoute source nextHop targetAddress) with
    | false =>
      rw [ForwardPacket_refused cfg packet sourceRoute source nextHop targetAddress protocol s hadm]
      exact NoTimers_inv s hT
    | true =>
      rw [ForwardPacket_eq cfg packet sourceRoute source nextHop targetAddress protocol s hadm]
      exact OneTimer_schedule cfg s _ nextHop targetAddress protocol hT

/-- With link acknowledgment, scheduling registers a link timer only. -/
theorem OnlyLink_schedule (cfg : Config) (s : State) (e : DsrMaintainBuffEntry)
    (nextHop destination : Ipv4Address) (protocol : Nat) (hl : cfg.m_linkAck = true)
    (ho : OnlyLinkTimers s) :
    OnlyLinkTimers (scheduleTier cfg (selectTier cfg.m_linkAck nextHop destination) e protocol
      (afterEnqueue s e)) := by
  have hsel : selectTier cfg.m_linkAck nextHop destination = Tier.link := by
    simp [selectTier, hl]
  rw [hsel]
  exact ⟨fun k => ho.1 k, fun k => ho.2 k⟩

/-- With link acknowledgment, every handler keeps the passive and the network
timer maps empty. -/
theorem OnlyLink_step (cfg : Config) (hl : cfg.m_linkAck = true) (s s1 : State)
    (hs : Step cfg s s1) (ho : OnlyLinkTimers s) : OnlyLinkTimers s1 := by
  rcases hs with hd | hf | hc
  · cases hd with
    | send _ toDst pend fuel packet source destination protocol h =>
      rcases Send_cases cfg toDst pend fuel packet source destination protocol s s1 h with
        hs | ⟨e, nextHop, sa, sb, h1, h2, h3⟩
      · exact TimersWithin_onlyLink (SameRetryState_within hs) ho
      · refine TimersWithin_onlyLink (SameRetryState_within h3) ?_
        rw [h2]
        exact OnlyLink_schedule cfg sa e nextHop destination protocol hl
          (TimersWithin_onlyLink (SameRetryState_within h1) ho)
    | forward packet sourceRoute source nextHop targetAddress protocol =>
      cases hadm : cfg.maintainAdmits s.m_maintainBuffer
          (forwardEntry cfg s.m_ackId packet sourceRoute source nextHop targetAddress) with
      | false =>
        rw [ForwardPacket_refused cfg packet sourceRoute source nextHop targetAddress protocol s
          hadm]
        exact ho
      | true =>
        rw [ForwardPacket_eq cfg packet sourceRoute source nextHop targetAddress protocol s hadm]
        exact OnlyLink_schedule cfg s _ nextHop targetAddress protocol hl ho
  · cases hf with
    | link k t h =>
      by_cases hc : (s.m_linkCnt t.mb.linkKey).getD 0 < cfg.m_tryLinkAcks
      · obtain ⟨_, _, m3, m4, _, _⟩ :=
          LinkScheduleTimerExpire_resend_maps cfg t.mb t.protocol s hc
        exact ⟨fun j => by rw [m3]; exact ho.1 j, fun j => by rw [m4]; exact ho.2 j⟩
      · exact TimersWithin_onlyLink (link_escalate_within cfg t.mb t.protocol s (by omega)) ho
    | passive k t h =>
      rw [ho.1 k] at h
      exact Option.noConfusion h
    | network k t h =>
      rw [ho.2 k] at h
      exact Option.noConfusion h
  · exact TimersWithin_onlyLink (Cancels_within hc) ho

/-- C6 as stated fails with two packets of one flow in flight.  At `S`, without
link acknowledgment, packet 7 is sent along `[S, I, D]`, its passive timer
expires twice (one resend, then the first network transmission, which buffers
the entry with acknowledgment id 7 and registers a network timer under that
entry's `NetworkKey`), and then packet 8 of the same flow is sent along the same
route: its passive timer is registered under `PassiveKey{0, S, D, 1}`, which is
also the `PassiveKey` of the buffered entry of packet 7 (`passiveKey.m_ackId =
0` for every entry).  In this reachable state the buffered entry of packet 7
has a timer under its key in two maps. -/
theorem single_timer_fails_two_in_flight :
    Send exampleConfig (some [1, 2, 3]) false 1 7 1 3 17 State.init = some exampleSent ∧
    Send exampleConfig (some [1, 2, 3]) false 1 8 1 3 17 exampleEscalated =
      some exampleTwoInFlight ∧
    Reachable exampleConfig exampleTwoInFlight ∧
    networkEntry exampleConfig exampleEntry ∈ exampleTwoInFlight.m_maintainBuffer ∧
    (exampleTwoInFlight.m_passiveAckTimer
      (networkEntry exampleConfig exampleEntry).passiveKey).isSome = true ∧
    (exampleTwoInFlight.m_addressForwardTimer
      (networkEntry exampleConfig exampleEntry).networkKey).isSome = true ∧
    tiersHolding exampleTwoInFlight (networkEntry exampleConfig exampleEntry) = 2 ∧
    ¬ SingleTimer exampleTwoInFlight := by
  have hsecond : Send exampleConfig (some [1, 2, 3]) false 1 8 1 3 17 exampleEscalated =
      some exampleTwoInFlight :=
    Send_eq exampleConfig [1, 2, 3] false 1 8 1 3 17 exampleEscalated 2 (by decide) (by decide)
      (by decide) (by decide)
  have hmem : networkEntry exampleConfig exampleEntry ∈ exampleTwoInFlight.m_maintainBuffer := by
    decide
  have htwo : tiersHolding exampleTwoInFlight (networkEntry exampleConfig exampleEntry) = 2 := by
    decide
  refine ⟨Send_example, hsecond, ?_, hmem, by decide, by decide, htwo, ?_⟩
  · have st1 : Step exampleConfig State.init exampleSent :=
      Or.inl (Dispatches.send State.init exampleSent (some [1, 2, 3]) false 1 7 1 3 17
        Send_example)
    have st2 : Step exampleConfig exampleSent
        (PassiveScheduleTimerExpire exampleConfig exampleEntry 17 exampleSent) :=
      Or.inr (Or.inl (@Fires.passive exampleConfig exampleSent exampleEntry.passiveKey
        { mb := exampleEntry, protocol := 17, delay := 100 } rfl))
    have st3 : Step exampleConfig
        (PassiveScheduleTimerExpire exampleConfig exampleEntry 17 exampleSent)
        exampleEscalated :=
      Or.inr (Or.inl (@Fires.passive exampleConfig
        (PassiveScheduleTimerExpire exampleConfig exampleEntry 17 exampleSent)
        exampleEntry.passiveKey { mb := exampleEntry, protocol := 17, delay := 100 } rfl))
    have st4 : Step exampleConfig exampleEscalated exampleTwoInFlight :=
      Or.inl (Dispatches.send exampleEscalated exampleTwoInFlight (some [1, 2, 3]) false 1 8 1 3
        17 hsecond)
    exact (((Relation.ReflTransGen.single st1).tail st2).tail st3).tail st4
  · intro h
    have h2 := h _ hmem
    rw [htwo] at h2
    exact absurd h2 (by decide)

/-- C6, amended.  One packet in flight: from a state with no registered timer,
one dispatch (`Send` or `ForwardPacket`) followed by any number of timer
expiries and cancel operations leads only to states in which at most one timer
is registered in the three maps together, so that for every entry of the
maintenance buffer at most one map holds a timer under the entry's key.
Several packets in flight: with link acknowledgment enabled, every reachable
state has no passive and no network timer, so the same holds for every entry
in every reachable state. -/
theorem single_timer_one_in_flight (cfg : Config) :
    (∀ s0 s1 s : State, NoTimers s0 → Dispatches cfg s0 s1 →
      Relation.ReflTransGen (Quiet cfg) s1 s → AtMostOneTimer s ∧ SingleTimer s) ∧
    (cfg.m_linkAck = true → ∀ s : State, Reachable cfg s → OnlyLinkTimers s ∧ SingleTimer s) := by
  refine ⟨fun s0 s1 s hT hd hq => ?_, fun hl s hr => ?_⟩
  · have hinv : KeysConsistent s ∧ AtMostOneTimer s := by
      induction hq with
      | refl => exact OneTimer_dispatch cfg s0 s1 hT hd
      | tail _ hstep ih => exact OneTimer_quiet cfg _ _ hstep ih
    exact ⟨hinv.2, SingleTimer_of_atMostOne s hinv.2⟩
  · have ho : OnlyLinkTimers s := by
      induction hr with
      | refl => exact ⟨fun _ => rfl, fun _ => rfl⟩
      | tail _ hstep ih => exact OnlyLink_step cfg hl _ _ hstep ih
    exact ⟨ho, SingleTimer_of_onlyLink s ho⟩

/-- Witness of C6 amended: packet 7 alone, after `Send` and two expiries of its
passive timer. -/
theorem single_timer_one_in_flight_witness :
    AtMostOneTimer exampleEscalated ∧ SingleTimer exampleEscalated :=
  have st1 : Quiet exampleConfig exampleSent
      (PassiveScheduleTimerExpire exampleConfig exampleEntry 17 exampleSent) :=
    Or.inl (@Fires.passive exampleConfig exampleSent exampleEntry.passiveKey
      { mb := exampleEntry, protocol := 17, delay := 100 } rfl)
  have st2 : Quiet exampleConfig
      (PassiveScheduleTimerExpire exampleConfig exampleEntry 17 exampleSent) exampleEscalated :=
    Or.inl (@Fires.passive exampleConfig
      (PassiveScheduleTimerExpire exampleConfig exampleEntry 17 exampleSent)
      exampleEntry.passiveKey { mb := exampleEntry, protocol := 17, delay := 100 } rfl)
  (single_timer_one_in_flight exampleConfig).1 State.init exampleSent exampleEscalated
    (fun a => by cases a <;> rfl)
    (Dispatches.send State.init exampleSent (some [1, 2, 3]) false 1 7 1 3 17 Send_example)
    ((Relation.ReflTransGen.single st1).tail st2)

/-! ### Route discovery at the originator -/

theorem requestsSent_append (X : Ipv4Address) (a b : List Call) :
    requestsSent X (a ++ b) = requestsSent X a + requestsSent X b := by
  simp [requestsSent, List.countP_append]

theorem initialRequests_append (X : Ipv4Address) (a b : List Call) :
    initialRequests X (a ++ b) = initialRequests X a + initialRequests X b := by
  simp [initialRequests, List.countP_append]

theorem ScheduleRreqRetry_nonProp (cfg : RreqConfig) (source dst : Ipv4Address)
    (requestId protocol : Nat) (n : Node) :
    ScheduleRreqRetry cfg [source, dst] true requestId protocol n =
      some { n with m_nonPropReqTimer := (mapSet n.m_nonPropReqTimer dst
        { address := [source, dst], requestId := requestId, protocol := protocol,
          delay := cfg.m_nonpropRequestTimeout }) } := by
  simp [ScheduleRreqRetry]

theorem ScheduleRreqRetry_prop (cfg : RreqConfig) (source dst : Ipv4Address)
    (requestId protocol : Nat) (n : Node) :
    ScheduleRreqRetry cfg [source, dst] false requestId protocol n =
      some { n with m_nonPropReqTimer := mapErase n.m_nonPropReqTimer dst,
                    m_addressReqTimer := (mapSet n.m_addressReqTimer dst
        { address := [source, dst], requestId := requestId, protocol := protocol,
          delay := ScheduleRreqRetry.delay cfg (DsrRreqTable.GetRreqCnt n.m_rreqDstMap dst) }) } := by
  simp [ScheduleRreqRetry]

theorem SendInitialRequest_eq (cfg : RreqConfig) (requestId : Nat)
    (source destination : Ipv4Address) (protocol : Nat) (n : Node) :
    SendInitialRequest cfg requestId source destination protocol n =
      some { n with
        m_requestId := requestId,
        m_rreqDstMap := DsrRreqTable.FindAndUpdate n.m_rreqDstMap destination,
        m_nonPropReqTimer := (mapSet n.m_nonPropReqTimer destination
          { address := [source, destination], requestId := requestId, protocol := protocol,
            delay := cfg.m_nonpropRequestTimeout }),
        trace := n.trace ++ [Call.SendInitialRequest source destination protocol,
          Call.SendRequest source destination requestId 0] } := by
  simp [SendInitialRequest, ScheduleRreqRetry, SendRequest, Node.call]

theorem RouteRequestTimerExpire_resend (cfg : RreqConfig) (source dst : Ipv4Address)
    (requestId protocol : Nat) (n : Node)
    (hc : DsrRreqTable.GetRreqCnt n.m_rreqDstMap dst < cfg.m_rreqRetries) :
    RouteRequestTimerExpire cfg none [source, dst] requestId protocol n =
      some { n with
        m_rreqDstMap := DsrRreqTable.FindAndUpdate n.m_rreqDstMap dst,
        m_nonPropReqTimer := mapErase n.m_nonPropReqTimer dst,
        m_addressReqTimer := (mapSet n.m_addressReqTimer dst
          { address := [source, dst], requestId := requestId, protocol := protocol,
            delay := ScheduleRreqRetry.delay cfg
              (DsrRreqTable.GetRreqCnt (DsrRreqTable.FindAndUpdate n.m_rreqDstMap dst) dst) }),
        trace := n.trace ++
          [Call.SendRequest source dst requestId (cfg.m_discoveryHopLimit % 2 ^ 8)] } := by
  have h : ¬ cfg.m_rreqRetries ≤ DsrRreqTable.GetRreqCnt n.m_rreqDstMap dst := by omega
  simp [RouteRequestTimerExpire, h, ScheduleRreqRetry, SendRequest, Node.call]

theorem RouteRequestTimerExpire_terminal (cfg : RreqConfig) (source dst : Ipv4Address)
    (requestId protocol : Nat) (n : Node)
    (hc : cfg.m_rreqRetries ≤ DsrRreqTable.GetRreqCnt n.m_rreqDstMap dst) :
    RouteRequestTimerExpire cfg none [source, dst] requestId protocol n =
      some { n with
        m_rreqDstMap := mapErase n.m_rreqDstMap dst,
        m_nonPropReqTimer := mapErase n.m_nonPropReqTimer dst,
        m_addressReqTimer := mapErase n.m_addressReqTimer dst,
        m_sendBuffer := DsrSendBuffer.DropPacketWithDst n.m_sendBuffer dst } := by
  simp [RouteRequestTimerExpire, hc, CancelRreqTimer, DsrRreqTable.RemoveRreqEntry]

theorem GetRreqCnt_FindAndUpdate (m : Ipv4Address → Option Nat) (dst : Ipv4Address) :
    DsrRreqTable.GetRreqCnt (DsrRreqTable.FindAndUpdate m dst) dst =
      DsrRreqTable.GetRreqCnt m dst + 1 := by
  simp [DsrRreqTable.GetRreqCnt, DsrRreqTable.FindAndUpdate, mapSet]

theorem DropPacketWithDst_none (buf : List DsrSendBuffEntry) (dst : Ipv4Address) :
    ∀ e, e ∈ DsrSendBuffer.DropPacketWithDst buf dst → e.destination ≠ dst := by
  intro e he
  simpa [DsrSendBuffer.DropPacketWithDst] using (List.mem_filter.mp he).2

theorem DiscoveryEnded_quiet (cfg : RreqConfig) (X : Ipv4Address) (n n1 : Node)
    (h : DiscoveryEnded X n) : ¬ RreqFires cfg X n n1 := by
  intro hf
  cases hf with
  | nonProp t ht _ =>
    rw [h.1] at ht
    exact Option.noConfusion ht
  | prop t ht _ =>
    rw [h.2.1] at ht
    exact Option.noConfusion ht
theorem requestsSent_one (X source : Ipv4Address) (requestId ttl : Nat) (tr : List Call) :
    requestsSent X (tr ++ [Call.SendRequest source X requestId ttl]) = requestsSent X tr + 1 := by
  simp [requestsSent, List.countP_append, Call.isRequestFor]

/-- One expiry of a request timer of `X` without a cached route. -/
theorem RreqFires_step (cfg : RreqConfig) (X : Ipv4Address) (n n2 : Node)
    (ht : RreqTimersFor X n) (hf : RreqFires cfg X n n2) :
    RreqTimersFor X n2 ∧
    (DsrRreqTable.GetRreqCnt n.m_rreqDstMap X < cfg.m_rreqRetries →
      requestsSent X n2.trace = requestsSent X n.trace + 1 ∧
      DsrRreqTable.GetRreqCnt n2.m_rreqDstMap X = DsrRreqTable.GetRreqCnt n.m_rreqDstMap X + 1 ∧
      (n2.m_addressReqTimer X).isSome = true) ∧
    (cfg.m_rreqRetries ≤ DsrRreqTable.GetRreqCnt n.m_rreqDstMap X →
      n2.trace = n.trace ∧ DiscoveryEnded X n2) := by
  have key : ∀ t : RreqTimer, (∃ src, t.address = [src, X]) →
      RouteRequestTimerExpire cfg none t.address t.requestId t.protocol n = some n2 →
      RreqTimersFor X n2 ∧
      (DsrRreqTable.GetRreqCnt n.m_rreqDstMap X < cfg.m_rreqRetries →
        requestsSent X n2.trace = requestsSent X n.trace + 1 ∧
        DsrRreqTable.GetRreqCnt n2.m_rreqDstMap X =
          DsrRreqTable.GetRreqCnt n.m_rreqDstMap X + 1 ∧
        (n2.m_addressReqTimer X).isSome = true) ∧
      (cfg.m_rreqRetries ≤ DsrRreqTable.GetRreqCnt n.m_rreqDstMap X →
        n2.trace = n.trace ∧ DiscoveryEnded X n2) := by
    intro t hsrc hr
    obtain ⟨src, ha⟩ := hsrc
    rw [ha] at hr
    by_cases hc : DsrRreqTable.GetRreqCnt n.m_rreqDstMap X < cfg.m_rreqRetries
    · rw [RouteRequestTimerExpire_resend cfg src X t.requestId t.protocol n hc] at hr
      have e := Option.some.inj hr
      subst e
      refine ⟨⟨?_, ?_⟩, fun _ => ⟨?_, ?_, ?_⟩, fun h => absurd h (by omega)⟩
      · intro t2 ht2
        have h3 : mapErase n.m_nonPropReqTimer X X = some t2 := ht2
        rw [mapErase_self] at h3
        exact Option.noConfusion h3
      · intro t2 ht2
        have h3 : mapSet n.m_addressReqTimer X
            { address := [src, X], requestId := t.requestId, protocol := t.protocol,
              delay := ScheduleRreqRetry.delay cfg
                (DsrRreqTable.GetRreqCnt (DsrRreqTable.FindAndUpdate n.m_rreqDstMap X) X) } X
            = some t2 := ht2
        rw [mapSet_self] at h3
        exact ⟨src, by rw [← Option.some.inj h3]⟩
      · exact requestsSent_one X src t.requestId _ n.trace
      · exact GetRreqCnt_FindAndUpdate n.m_rreqDstMap X
      · show (mapSet n.m_addressReqTimer X _ X).isSome = true
        rw [mapSet_self]
        rfl
    · have hge : cfg.m_rreqRetries ≤ DsrRreqTable.GetRreqCnt n.m_rreqDstMap X := by omega
      rw [RouteRequestTimerExpire_terminal cfg src X t.requestId t.protocol n hge] at hr
      have e := Option.some.inj hr
      subst e
      have hend : DiscoveryEnded X
          { n with m_rreqDstMap := mapErase n.m_rreqDstMap X,
                   m_nonPropReqTimer := mapErase n.m_nonPropReqTimer X,
                   m_addressReqTimer := mapErase n.m_addressReqTimer X,
                   m_sendBuffer := DsrSendBuffer.DropPacketWithDst n.m_sendBuffer X } :=
        ⟨mapErase_self _ _, mapErase_self _ _, mapErase_self _ _,
          DropPacketWithDst_none n.m_sendBuffer X⟩
      refine ⟨⟨?_, ?_⟩, fun h => absurd h (by omega), fun _ => ⟨rfl, hend⟩⟩
      · intro t2 ht2
        rw [hend.1] at ht2
        exact Option.noConfusion ht2
      · intro t2 ht2
        rw [hend.2.1] at ht2
        exact Option.noConfusion ht2
  cases hf with
  | nonProp t h hr => exact key t (ht.1 t h) hr
  | prop t h hr => exact key t (ht.2 t h) hr

/-- C11. Discovery exhaustion is terminal.  `SendInitialRequest` starts a
discovery for `X` in a state without propagating request timer for `X` (as when
`Send` calls it) and only expiries of the request timers of `X` follow, each
finding no route to `X` in the cache.  In every state reached: either the
discovery has ended (no request timer and no request entry for `X`, no packet
for `X` in the send buffer), or a request timer for `X` is registered and the
request count of `X` has grown by exactly the number of RouteRequests sent for
`X` since the start.  Every registered timer can expire (the handler returns).
An expiry that finds the count below `rreqRetries` sends one RouteRequest,
raises the count by one and registers the propagating timer; an expiry that
finds the count at `rreqRetries` or above makes no call at all (no RouteRequest,
no retry), ends the discovery, and no request timer of `X` can expire
afterwards. -/
theorem discovery_exhaustion_terminal (cfg : RreqConfig) (X source : Ipv4Address)
    (requestId protocol : Nat) (n0 n1 n : Node)
    (hA : n0.m_addressReqTimer X = none)
    (h0 : SendInitialRequest cfg requestId source X protocol n0 = some n1)
    (hrun : Relation.ReflTransGen (RreqFires cfg X) n1 n) :
    (DiscoveryEnded X n ∨
      (((n.m_nonPropReqTimer X).isSome = true ∨ (n.m_addressReqTimer X).isSome = true) ∧
       DsrRreqTable.GetRreqCnt n.m_rreqDstMap X + requestsSent X n0.trace =
         DsrRreqTable.GetRreqCnt n0.m_rreqDstMap X + requestsSent X n.trace)) ∧
    (∀ t, n.m_nonPropReqTimer X = some t ∨ n.m_addressReqTimer X = some t →
      ∃ n2, RouteRequestTimerExpire cfg none t.address t.requestId t.protocol n = some n2) ∧
    (∀ n2, RreqFires cfg X n n2 →
      (DsrRreqTable.GetRreqCnt n.m_rreqDstMap X < cfg.m_rreqRetries →
        requestsSent X n2.trace = requestsSent X n.trace + 1 ∧
        DsrRreqTable.GetRreqCnt n2.m_rreqDstMap X =
          DsrRreqTable.GetRreqCnt n.m_rreqDstMap X + 1 ∧
        (n2.m_addressReqTimer X).isSome = true) ∧
      (cfg.m_rreqRetries ≤ DsrRreqTable.GetRreqCnt n.m_rreqDstMap X →
        n2.trace = n.trace ∧ DiscoveryEnded X n2 ∧ ∀ n3, ¬ RreqFires cfg X n2 n3)) := by
  have hinv : RreqTimersFor X n ∧ (DiscoveryEnded X n ∨
      (((n.m_nonPropReqTimer X).isSome = true ∨ (n.m_addressReqTimer X).isSome = true) ∧
       DsrRreqTable.GetRreqCnt n.m_rreqDstMap X + requestsSent X n0.trace =
         DsrRreqTable.GetRreqCnt n0.m_rreqDstMap X + requestsSent X n.trace)) := by
    induction hrun with
    | refl =>
      rw [SendInitialRequest_eq] at h0
      have e := Option.some.inj h0
      subst e
      refine ⟨⟨?_, ?_⟩, Or.inr ⟨Or.inl ?_, ?_⟩⟩
      · intro t2 ht2
        have h3 : mapSet n0.m_nonPropReqTimer X
            { address := [source, X], requestId := requestId, protocol := protocol,
              delay := cfg.m_nonpropRequestTimeout } X = some t2 := ht2
        rw [mapSet_self] at h3
        exact ⟨source, by rw [← Option.some.inj h3]⟩
      · intro t2 ht2
        have h3 : n0.m_addressReqTimer X = some t2 := ht2
        rw [hA] at h3
        exact Option.noConfusion h3
      · show (mapSet n0.m_nonPropReqTimer X _ X).isSome = true
        rw [mapSet_self]
        rfl
      · show DsrRreqTable.GetRreqCnt (DsrRreqTable.FindAndUpdate n0.m_rreqDstMap X) X +
            requestsSent X n0.trace = DsrRreqTable.GetRreqCnt n0.m_rreqDstMap X +
            requestsSent X (n0.trace ++ [Call.SendInitialRequest source X protocol,
              Call.SendRequest source X requestId 0])
        rw [GetRreqCnt_FindAndUpdate, requestsSent_append]
        have : requestsSent X [Call.SendInitialRequest source X protocol,
            Call.SendRequest source X requestId 0] = 1 := by
          simp [requestsSent, Call.isRequestFor]
        omega
    | @tail b c _ hstep ih =>
      obtain ⟨hT, hres, hterm⟩ := RreqFires_step cfg X b c ih.1 hstep
      refine ⟨hT, ?_⟩
      rcases ih.2 with hend | ⟨_, hcount⟩
      · exact absurd hstep (DiscoveryEnded_quiet cfg X b c hend)
      · by_cases hc : DsrRreqTable.GetRreqCnt b.m_rreqDstMap X < cfg.m_rreqRetries
        · obtain ⟨e1, e2, e3⟩ := hres hc
          exact Or.inr ⟨Or.inr e3, by omega⟩
        · exact Or.inl (hterm (by omega)).2
  refine ⟨hinv.2, ?_, ?_⟩
  · intro t ht
    have hsrc : ∃ src, t.address = [src, X] := by
      rcases ht with h | h
      · exact hinv.1.1 t h
      · exact hinv.1.2 t h
    obtain ⟨src, ha⟩ := hsrc
    rw [ha]
    by_cases hc : DsrRreqTable.GetRreqCnt n.m_rreqDstMap X < cfg.m_rreqRetries
    · exact ⟨_, RouteRequestTimerExpire_resend cfg src X t.requestId t.protocol n hc⟩
    · exact ⟨_, RouteRequestTimerExpire_terminal cfg src X t.requestId t.protocol n (by omega)⟩
  · intro n2 hf
    obtain ⟨_, hres, hterm⟩ := RreqFires_step cfg X n n2 hinv.1 hf
    exact ⟨hres, fun h => ⟨(hterm h).1, (hterm h).2,
      fun n3 => DiscoveryEnded_quiet cfg X n2 n3 (hterm h).2⟩⟩
/-- Witness of C11: with `rreqRetries = 2`, the discovery for `X = 9` sends the
non-propagating and one propagating request; the second expiry ends it. -/
theorem discovery_exhaustion_terminal_witness :
    exampleGaveUp.trace = exampleRetried.trace ∧ DiscoveryEnded 9 exampleGaveUp ∧
      ∀ n3, ¬ RreqFires exampleRreqConfig 9 exampleGaveUp n3 :=
  ((discovery_exhaustion_terminal exampleRreqConfig 9 1 5 17 exampleQueued exampleRequested
    exampleRetried rfl rfl
    (Relation.ReflTransGen.single
      (RreqFires.nonProp exampleRequested exampleRetried
        { address := [1, 9], requestId := 5, protocol := 17, delay := 30 } rfl rfl))).2.2
    exampleGaveUp
    (RreqFires.prop exampleRetried exampleGaveUp
      { address := [1, 9], requestId := 5, protocol := 17, delay := 2000 } rfl rfl)).2
    (by decide)

/-! ### C12: the backoff of the propagating request timer -/

/-- C12 as stated fails at retry count 0: `ScheduleRreqRetry` called for a
destination without request entry (as `SendErrorRequest` does) schedules the
propagating timer with `requestPeriod` (500), not with `requestPeriod × 0²`. -/
theorem rreq_backoff_at_count_zero :
    DsrRreqTable.GetRreqCnt Node.init.m_rreqDstMap 9 = 0 ∧
    (SendErrorRequest exampleRreqConfig none 5 (RerrUnreach.mk 3 4 1 9 0) 17
        Node.init).bind (fun n => (n.m_addressReqTimer 9).map RreqTimer.delay) = some 500 ∧
    (ScheduleRreqRetry exampleRreqConfig [1, 9] false 5 17 Node.init).bind
        (fun n => (n.m_addressReqTimer 9).map RreqTimer.delay) = some 500 ∧
    min (exampleRreqConfig.m_requestPeriod * 0 ^ 2) exampleRreqConfig.m_maxRequestPeriod ≠ 500 := by
  decide

theorem ScheduleRreqRetry_delay_eq (cfg : RreqConfig) (c : Nat) :
    ScheduleRreqRetry.delay cfg c =
      if c = 0 then min cfg.m_requestPeriod cfg.m_maxRequestPeriod
      else min (cfg.m_requestPeriod * c ^ 2) cfg.m_maxRequestPeriod := by
  unfold ScheduleRreqRetry.delay
  by_cases hc : c = 0
  · simp only [hc, ne_eq, not_true_eq_false, if_false, if_true]
    by_cases h : cfg.m_requestPeriod > cfg.m_maxRequestPeriod
    · rw [if_pos h]
      exact (Nat.min_eq_right (Nat.le_of_lt h)).symm
    · rw [if_neg h]
      exact (Nat.min_eq_left (Nat.le_of_not_lt h)).symm
  · simp only [hc, ne_eq, not_false_eq_true, if_true, if_false]
    rw [Nat.mul_comm cfg.m_requestPeriod]
    by_cases h : c ^ 2 * cfg.m_requestPeriod > cfg.m_maxRequestPeriod
    · rw [if_pos h]
      exact (Nat.min_eq_right (Nat.le_of_lt h)).symm
    · rw [if_neg h]
      exact (Nat.min_eq_left (Nat.le_of_not_lt h)).symm

/-- C12, amended.  `ScheduleRreqRetry` schedules the propagating request timer
with the delay `min (requestPeriod × c², maxRequestPeriod)` when the request
count `c` of the destination is not 0, and with
`min (requestPeriod, maxRequestPeriod)` when it is 0 ("the first route request
retry").  On a resend by `RouteRequestTimerExpire` the count read is the one
just incremented, `c + 1 ≥ 1`, so the delay there is
`min (requestPeriod × (c + 1)², maxRequestPeriod)`. -/
theorem rreq_backoff (cfg : RreqConfig) (source dst : Ipv4Address) (requestId protocol : Nat)
    (n : Node) :
    (ScheduleRreqRetry cfg [source, dst] false requestId protocol n).bind
        (fun n1 => (n1.m_addressReqTimer dst).map RreqTimer.delay) =
      some (if DsrRreqTable.GetRreqCnt n.m_rreqDstMap dst = 0 then
          min cfg.m_requestPeriod cfg.m_maxRequestPeriod
        else min (cfg.m_requestPeriod * DsrRreqTable.GetRreqCnt n.m_rreqDstMap dst ^ 2)
          cfg.m_maxRequestPeriod) ∧
    (DsrRreqTable.GetRreqCnt n.m_rreqDstMap dst < cfg.m_rreqRetries →
      (RouteRequestTimerExpire cfg none [source, dst] requestId protocol n).bind
          (fun n1 => (n1.m_addressReqTimer dst).map RreqTimer.delay) =
        some (min (cfg.m_requestPeriod * (DsrRreqTable.GetRreqCnt n.m_rreqDstMap dst + 1) ^ 2)
          cfg.m_maxRequestPeriod)) := by
  refine ⟨?_, fun hc => ?_⟩
  · rw [ScheduleRreqRetry_prop, ← ScheduleRreqRetry_delay_eq]
    simp [mapSet_self]
  · rw [RouteRequestTimerExpire_resend cfg source dst requestId protocol n hc,
      GetRreqCnt_FindAndUpdate]
    simp [mapSet_self, ScheduleRreqRetry_delay_eq]

/-- Witness of C12 amended: the first propagating resend (count 1 to 2) waits
`500 × 2² = 2000`. -/
theorem rreq_backoff_witness :
    (RouteRequestTimerExpire exampleRreqConfig none [1, 9] 5 17 exampleRequested).bind
        (fun n1 => (n1.m_addressReqTimer 9).map RreqTimer.delay) =
      some (min (exampleRreqConfig.m_requestPeriod *
        (DsrRreqTable.GetRreqCnt exampleRequested.m_rreqDstMap 9 + 1) ^ 2)
        exampleRreqConfig.m_maxRequestPeriod) :=
  (rreq_backoff exampleRreqConfig 1 9 5 17 exampleRequested).2 (by decide)
/-! ### C13: `Send` without a cached route -/

theorem Send_cacheMiss_started (cfg : RreqConfig) (requestId packet : Nat)
    (source destination : Ipv4Address) (protocol : Nat) (n : Node)
    (hadm : cfg.sendBufferAdmits n.m_sendBuffer
      { packet := packet, destination := destination, expireTime := cfg.m_sendBufferTimeout,
        protocol := protocol } = true)
    (hA : n.m_addressReqTimer destination = none)
    (hN : n.m_nonPropReqTimer destination = none) :
    Send.cacheMiss cfg requestId packet source destination protocol n =
      SendInitialRequest cfg requestId source destination protocol
        { n with control := true, dsrcount := n.dsrcount + 1,
                 m_sendBuffer := n.m_sendBuffer ++
                   [DsrSendBuffEntry.mk packet destination cfg.m_sendBufferTimeout protocol] } := by
  simp [Send.cacheMiss, DsrSendBuffer.Enqueue, hadm, hA, hN]

theorem Send_cacheMiss_pending (cfg : RreqConfig) (requestId packet : Nat)
    (source destination : Ipv4Address) (protocol : Nat) (n : Node)
    (hp : (n.m_addressReqTimer destination).isSome = true ∨
      (n.m_nonPropReqTimer destination).isSome = true) :
    Send.cacheMiss cfg requestId packet source destination protocol n =
      some { n with control := true, dsrcount := n.dsrcount + 1,
                    m_sendBuffer := (DsrSendBuffer.Enqueue cfg n.m_sendBuffer
                      (DsrSendBuffEntry.mk packet destination cfg.m_sendBufferTimeout
                        protocol)).2 } := by
  have h : ¬ ((n.m_addressReqTimer destination).isNone = true ∧
      (n.m_nonPropReqTimer destination).isNone = true) := by
    rintro ⟨h1, h2⟩
    rcases hp with hp | hp
    · rw [Option.isNone_iff_eq_none] at h1
      rw [h1] at hp
      exact Bool.noConfusion hp
    · rw [Option.isNone_iff_eq_none] at h2
      rw [h2] at hp
      exact Bool.noConfusion hp
  unfold Send.cacheMiss
  simp only [h, if_false]
  split <;> rfl

theorem Send_cacheMiss_refused (cfg : RreqConfig) (requestId packet : Nat)
    (source destination : Ipv4Address) (protocol : Nat) (n : Node)
    (hadm : cfg.sendBufferAdmits n.m_sendBuffer
      { packet := packet, destination := destination, expireTime := cfg.m_sendBufferTimeout,
        protocol := protocol } = false) :
    Send.cacheMiss cfg requestId packet source destination protocol n =
      some { n with control := true, dsrcount := n.dsrcount + 1 } := by
  simp [Send.cacheMiss, DsrSendBuffer.Enqueue, hadm]

/-- C13. `Send` on a cache miss buffers the packet and keeps at most one
discovery per destination.  For a protocol other than 1 and a route lookup that
misses, `Send` offers the packet to the send buffer and does nothing else on the
acknowledgment state (no packet handed to `SendPacket`, no retry scheduled).  On
the node state the branch always returns; the send buffer is what
`m_sendBuffer.Enqueue` made of it; `SendInitialRequest` is invoked (once) if the
enqueue succeeded and neither request-timer map has an entry for the destination,
and then the non-propagating timer of the destination is registered; it is not
invoked, and no call at all is made, if the enqueue failed or one of the two maps
has an entry.  So while a request timer for the destination is registered a
further `Send` starts no second discovery and leaves the timer registered. -/
theorem send_miss_buffers_and_starts_one_discovery (cfg : Config) (rcfg : RreqConfig)
    (pend : Bool) (fuel requestId packet : Nat) (source destination : Ipv4Address)
    (protocol : Nat) (s : State) (n : Node) :
    (protocol ≠ 1 →
      Send cfg none pend fuel packet source destination protocol s =
        some (s.emit (Event.SendBufferEnqueue packet destination))) ∧
    (∃ n1, Send.cacheMiss rcfg requestId packet source destination protocol n = some n1 ∧
      n1.m_sendBuffer = (DsrSendBuffer.Enqueue rcfg n.m_sendBuffer
        (DsrSendBuffEntry.mk packet destination rcfg.m_sendBufferTimeout protocol)).2 ∧
      (rcfg.sendBufferAdmits n.m_sendBuffer
          (DsrSendBuffEntry.mk packet destination rcfg.m_sendBufferTimeout protocol) = true ∧
        n.m_addressReqTimer destination = none ∧ n.m_nonPropReqTimer destination = none →
        n1.trace = n.trace ++ [Call.SendInitialRequest source destination protocol,
          Call.SendRequest source destination requestId 0] ∧
        initialRequests destination n1.trace = initialRequests destination n.trace + 1 ∧
        (n1.m_nonPropReqTimer destination).isSome = true) ∧
      (¬ (rcfg.sendBufferAdmits n.m_sendBuffer
          (DsrSendBuffEntry.mk packet destination rcfg.m_sendBufferTimeout protocol) = true ∧
        n.m_addressReqTimer destination = none ∧ n.m_nonPropReqTimer destination = none) →
        n1.trace = n.trace ∧
        initialRequests destination n1.trace = initialRequests destination n.trace ∧
        n1.m_addressReqTimer = n.m_addressReqTimer ∧
        n1.m_nonPropReqTimer = n.m_nonPropReqTimer)) := by
  refine ⟨fun hp => by simp [Send, hp], ?_⟩
  cases hadm : rcfg.sendBufferAdmits n.m_sendBuffer
      (DsrSendBuffEntry.mk packet destination rcfg.m_sendBufferTimeout protocol) with
  | false =>
    refine ⟨_, Send_cacheMiss_refused rcfg requestId packet source destination protocol n hadm,
      ?_, fun h => absurd h.1 (by simp), fun _ => ⟨rfl, rfl, rfl, rfl⟩⟩
    simp [DsrSendBuffer.Enqueue, hadm]
  | true =>
    by_cases hfree : n.m_addressReqTimer destination = none ∧
        n.m_nonPropReqTimer destination = none
    · rw [Send_cacheMiss_started rcfg requestId packet source destination protocol n hadm
        hfree.1 hfree.2, SendInitialRequest_eq]
      refine ⟨_, rfl, ?_, fun _ => ⟨rfl, ?_, ?_⟩, fun h => absurd ⟨rfl, hfree⟩ h⟩
      · simp [DsrSendBuffer.Enqueue, hadm]
      · show initialRequests destination (n.trace ++ _) = _
        rw [initialRequests_append]
        simp [initialRequests, Call.isInitialRequestFor]
      · show (mapSet n.m_nonPropReqTimer destination _ destination).isSome = true
        rw [mapSet_self]
        rfl
    · have hp : (n.m_addressReqTimer destination).isSome = true ∨
          (n.m_nonPropReqTimer destination).isSome = true := by
        by_cases h1 : n.m_addressReqTimer destination = none
        · by_cases h2 : n.m_nonPropReqTimer destination = none
          · exact absurd ⟨h1, h2⟩ hfree
          · exact Or.inr (Option.isSome_iff_ne_none.mpr h2)
        · exact Or.inl (Option.isSome_iff_ne_none.mpr h1)
      rw [Send_cacheMiss_pending rcfg requestId packet source destination protocol n hp]
      exact ⟨_, rfl, rfl, fun h => absurd ⟨h.2.1, h.2.2⟩ hfree, fun _ => ⟨rfl, rfl, rfl, rfl⟩⟩

/-- Witness of C13: a `Send` of UDP (protocol 17) without a route. -/
theorem send_miss_buffers_and_starts_one_discovery_witness :
    Send exampleConfig none false 1 7 1 9 17 State.init =
      some (State.init.emit (Event.SendBufferEnqueue 7 9)) :=
  (send_miss_buffers_and_starts_one_discovery exampleConfig exampleRreqConfig false 1 5 7 1 9 17
    State.init Node.init).1 (by decide)

/-! ### The calls of `processRreq` -/

theorem since_append (n n1 : Node) (l : List Call) (h : n1.trace = n.trace ++ l) :
    n.since n1 = l := by
  simp [Node.since, h]

theorem Quietly_answers (l : List Call) (h : Quietly l) : answers l = 0 := by
  simp only [answers, List.countP_eq_zero]
  intro c hc
  simp [h c hc]

theorem Quietly_nil : Quietly [] := by
  intro c hc
  exact absurd hc (List.not_mem_nil c)

theorem Quietly_cons (c : Call) (l : List Call) (hc : c.isAnswer = false) (hl : Quietly l) :
    Quietly (c :: l) := by
  intro d hd
  rcases List.mem_cons.mp hd with rfl | h
  · exact hc
  · exact hl d h

theorem Quietly_append (a b : List Call) (ha : Quietly a) (hb : Quietly b) : Quietly (a ++ b) := by
  intro d hd
  rcases List.mem_append.mp hd with h | h
  · exact ha d h
  · exact hb d h

theorem call_trace (n : Node) (c : Call) : (n.call c).trace = n.trace ++ [c] := rfl

theorem CancelRreqTimer_trace (dst : Ipv4Address) (b : Bool) (n : Node) :
    (CancelRreqTimer dst b n).trace = n.trace := by
  cases b <;> rfl

theorem CancelRreqTimer_sourceRreqMap (dst : Ipv4Address) (b : Bool) (n : Node) :
    (CancelRreqTimer dst b n).m_sourceRreqMap = n.m_sourceRreqMap := by
  cases b <;> rfl

theorem processRreq_useRoute_calls (ipv4Address : Ipv4Address) (route : List Ipv4Address)
    (dst : Ipv4Address) (protocol : Nat) (n n1 : Node) (b : Bool)
    (h : processRreq.useRoute ipv4Address route dst protocol n = some (b, n1)) :
    ∃ l, n1.trace = n.trace ++ l ∧ Quietly l ∧ n1.m_sourceRreqMap = n.m_sourceRreqMap := by
  cases hs : SearchNextHop ipv4Address route with
  | none => simp [processRreq.useRoute, hs] at h
  | some nextHop =>
    by_cases hz : nextHop = noAddress
    · simp only [processRreq.useRoute, hs, hz, if_true, Option.some.injEq, Prod.mk.injEq] at h
      obtain ⟨_, rfl⟩ := h
      exact ⟨[Call.PacketNewRoute ipv4Address dst protocol], rfl,
        Quietly_cons _ _ rfl Quietly_nil, rfl⟩
    · simp only [processRreq.useRoute, hs, hz, if_false, Option.some.injEq, Prod.mk.injEq] at h
      obtain ⟨_, rfl⟩ := h
      refine ⟨[Call.SetRoute nextHop ipv4Address,
        Call.SendPacketFromBuffer (DsrOptionSRHeader.mk route (segsLeftOfSize route.length) 0 3)
          nextHop protocol], ?_, Quietly_cons _ _ rfl (Quietly_cons _ _ rfl Quietly_nil), ?_⟩
      · rw [CancelRreqTimer_trace, call_trace, call_trace, List.append_assoc]
        rfl
      · rw [CancelRreqTimer_sourceRreqMap]
        rfl

theorem addToCache_calls (cache : CacheAnswers) (linkRoute pathRoute : List Ipv4Address)
    (ipv4Address : Ipv4Address) (n : Node) :
    ∃ c, addToCache cache linkRoute pathRoute ipv4Address n = n.call c ∧ c.isAnswer = false := by
  unfold addToCache
  split
  · exact ⟨_, rfl, rfl⟩
  · exact ⟨_, rfl, rfl⟩

/-- The attacker branch sends exactly the fabricated reply. -/
theorem processRreq_fabricate_calls (mainAddress : Ipv4Address) (rx : RreqReceived)
    (ipv4Address : Ipv4Address) (n n1 : Node) (r : Nat)
    (h : processRreq.fabricate mainAddress rx ipv4Address n = some (r, n1)) :
    ∃ nextHop, n1.trace = n.trace ++ [Call.SetRoute nextHop ipv4Address,
        Call.ScheduleInitialReply (rx.nodeList ++ [mainAddress, rx.target]) (some 1) nextHop] ∧
      n1.m_sourceRreqMap = n.m_sourceRreqMap := by
  cases hs : ReverseSearchNextHop ipv4Address (rx.nodeList ++ [mainAddress, rx.target]) with
  | none => simp [processRreq.fabricate, hs] at h
  | some nextHop =>
    simp only [processRreq.fabricate, hs, Option.some.injEq, Prod.mk.injEq] at h
    obtain ⟨_, rfl⟩ := h
    refine ⟨nextHop, ?_, rfl⟩
    simp [Node.call]

/-- The forwarding branch forwards at most once, and not at all with TTL 0. -/
theorem processRreq_forward_calls (rx : RreqReceived) (ipv4Address source : Ipv4Address)
    (n n1 : Node) (r : Nat) (h : processRreq.forward rx ipv4Address source n = some (r, n1)) :
    ∃ l, Quietly l ∧ n1.m_sourceRreqMap = n.m_sourceRreqMap ∧
      ((rx.ttl = 0 ∧ n1.trace = n.trace ++ l) ∨
       (rx.ttl ≠ 0 ∧ ∃ e, n1.trace = n.trace ++ l ++
          [Call.ScheduleInterRequest (rx.nodeList ++ [ipv4Address]) rx.target rx.requestId
            (rx.ttl - 1) e])) := by
  unfold processRreq.forward at h
  simp only [] at h
  by_cases hassert : (rx.nodeList ++ [ipv4Address]).head? ≠ some source
  · rw [if_pos hassert] at h
    exact absurd h (by simp)
  rw [if_neg hassert] at h
  have key : ∀ (m : Node) (e : Option (Ipv4Address × Ipv4Address × Ipv4Address × Nat))
      (l : List Call), m.trace = n.trace ++ l → Quietly l → m.m_sourceRreqMap = n.m_sourceRreqMap →
      (if rx.ttl ≠ 0 then
        some (rx.serializedSize,
          m.call (Call.ScheduleInterRequest (rx.nodeList ++ [ipv4Address]) rx.target
            rx.requestId (rx.ttl - 1) e))
       else some (rx.serializedSize, m)) = some (r, n1) →
      ∃ l, Quietly l ∧ n1.m_sourceRreqMap = n.m_sourceRreqMap ∧
        ((rx.ttl = 0 ∧ n1.trace = n.trace ++ l) ∨
         (rx.ttl ≠ 0 ∧ ∃ e, n1.trace = n.trace ++ l ++
            [Call.ScheduleInterRequest (rx.nodeList ++ [ipv4Address]) rx.target rx.requestId
              (rx.ttl - 1) e])) := by
    intro m e l hm hq hs hh
    by_cases ht : rx.ttl = 0
    · simp only [ht, ne_eq, not_true_eq_false, if_false, Option.some.injEq, Prod.mk.injEq] at hh
      obtain ⟨_, rfl⟩ := hh
      exact ⟨l, hq, hs, Or.inl ⟨ht, hm⟩⟩
    · simp only [ht, ne_eq, not_false_eq_true, if_true, Option.some.injEq, Prod.mk.injEq] at hh
      obtain ⟨_, rfl⟩ := hh
      refine ⟨l, hq, hs, Or.inr ⟨ht, e, ?_⟩⟩
      rw [call_trace, hm]
  cases hr : rx.rerr with
  | none =>
    rw [hr] at h
    exact key n none [] (by simp) Quietly_nil rfl h
  | some rerr =>
    rw [hr] at h
    by_cases hb : rerr.errorSrc = rx.srcAddress ∧ rerr.unreachNode = ipv4Address
    · simp only [hb, and_self, if_true] at h
      exact key n none [] (by simp) Quietly_nil rfl h
    · simp only [hb, if_false] at h
      exact key (n.call (Call.DeleteAllRoutesIncludeLink rerr.errorSrc rerr.unreachNode
          ipv4Address)) (some (rerr.errorSrc, rerr.unreachNode, rerr.errorDst, rerr.salvage))
        [Call.DeleteAllRoutesIncludeLink rerr.errorSrc rerr.unreachNode ipv4Address]
        rfl (Quietly_cons _ _ rfl Quietly_nil) rfl h
theorem processRreq_target_calls (cache : CacheAnswers) (rx : RreqReceived)
    (ipv4Address source : Ipv4Address) (protocol : Nat) (n n1 : Node) (r : Nat)
    (h : processRreq.target cache rx ipv4Address source protocol n = some (r, n1)) :
    ∃ route nextHop l, n1.trace = n.trace ++ [Call.SetRoute nextHop ipv4Address,
        Call.ScheduleInitialReply route none nextHop] ++ l ∧ Quietly l ∧
      n1.m_sourceRreqMap = n.m_sourceRreqMap := by
  unfold processRreq.target at h
  simp only [] at h
  split at h
  · exact absurd h (by simp)
  · rename_i finalRoute nextHop _
    split at h
    · rename_i reversed dst _ _
      split at h
      · obtain ⟨c, hc, hq⟩ := addToCache_calls cache reversed reversed ipv4Address
          { (({ n with m_finalRoute := finalRoute }.call (Call.SetRoute nextHop ipv4Address)).call
              (Call.ScheduleInitialReply finalRoute none nextHop)) with m_finalRoute := reversed }
        rw [hc] at h
        split at h
        · split at h
          · exact absurd h (by simp)
          · rename_i n6 hu
            simp only [Option.some.injEq, Prod.mk.injEq] at h
            obtain ⟨_, rfl⟩ := h
            obtain ⟨l, hl, hql, hs⟩ := processRreq_useRoute_calls _ _ _ _ _ _ _ hu
            refine ⟨finalRoute, nextHop, c :: l, ?_, Quietly_cons _ _ hq hql, ?_⟩
            · rw [hl]
              simp [Node.call]
            · rw [hs]
              rfl
          · rename_i n6 hu
            simp only [Option.some.injEq, Prod.mk.injEq] at h
            obtain ⟨_, rfl⟩ := h
            obtain ⟨l, hl, hql, hs⟩ := processRreq_useRoute_calls _ _ _ _ _ _ _ hu
            refine ⟨finalRoute, nextHop, c :: l, ?_, Quietly_cons _ _ hq hql, ?_⟩
            · rw [hl]
              simp [Node.call]
            · rw [hs]
              rfl
        · simp only [Option.some.injEq, Prod.mk.injEq] at h
          obtain ⟨_, rfl⟩ := h
          exact ⟨finalRoute, nextHop, [c], by simp [Node.call], Quietly_cons _ _ hq Quietly_nil,
            rfl⟩
      · simp only [Option.some.injEq, Prod.mk.injEq] at h
        obtain ⟨_, rfl⟩ := h
        exact ⟨finalRoute, nextHop, [], by simp [Node.call], Quietly_nil, rfl⟩
    · simp only [Option.some.injEq, Prod.mk.injEq] at h
      obtain ⟨_, rfl⟩ := h
      exact ⟨finalRoute, nextHop, [], by simp [Node.call], Quietly_nil, rfl⟩
    · exact absurd h (by simp)
theorem processRreq_cached_calls (cache : CacheAnswers) (rx : RreqReceived)
    (ip : List Ipv4Address) (ipv4Address : Ipv4Address) (protocol : Nat) (n n1 : Node) (r : Nat)
    (h : processRreq.cached cache rx ip ipv4Address protocol n = some (r, n1)) :
    ∃ l, Quietly l ∧ n1.m_sourceRreqMap = n.m_sourceRreqMap ∧
      (n1.trace = n.trace ++ l ∨
       ∃ nextHop hops, n1.trace = n.trace ++ l ++ [Call.SetRoute nextHop ipv4Address,
          Call.ScheduleCachedReply (rx.nodeList ++ ip) nextHop hops]) := by
  unfold processRreq.cached at h
  simp only [] at h
  split at h
  · exact absurd h (by simp)
  · simp only [Option.some.injEq, Prod.mk.injEq] at h
    obtain ⟨_, rfl⟩ := h
    exact ⟨[], Quietly_nil, rfl, Or.inl (by simp)⟩
  · split at h
    · exact absurd h (by simp)
    · rename_i saved _
      split at h
      · exact absurd h (by simp)
      · rename_i dst _
        obtain ⟨c, hc, hq⟩ := addToCache_calls cache saved saved ipv4Address
          { n with m_finalRoute := rx.nodeList ++ ip }
        rw [hc] at h
        split at h
        · split at h
          · exact absurd h (by simp)
          · rename_i n3 hu
            simp only [Option.some.injEq, Prod.mk.injEq] at h
            obtain ⟨_, rfl⟩ := h
            obtain ⟨l, hl, hql, hs⟩ := processRreq_useRoute_calls _ _ _ _ _ _ _ hu
            refine ⟨c :: l, Quietly_cons _ _ hq hql, ?_, Or.inl ?_⟩
            · rw [hs]
              rfl
            · rw [hl]
              simp [Node.call]
          · rename_i n3 hu
            obtain ⟨l, hl, hql, hs⟩ := processRreq_useRoute_calls _ _ _ _ _ _ _ hu
            split at h
            · exact absurd h (by simp)
            · rename_i nextHop _
              simp only [Option.some.injEq, Prod.mk.injEq] at h
              obtain ⟨_, rfl⟩ := h
              refine ⟨c :: l, Quietly_cons _ _ hq hql, ?_,
                Or.inr ⟨nextHop, (rx.nodeList ++ ip).length % 2 ^ 16, ?_⟩⟩
              · show n3.m_sourceRreqMap = n.m_sourceRreqMap
                rw [hs]
                rfl
              · rw [call_trace, call_trace, hl]
                simp [Node.call]
        · simp only [Option.some.injEq, Prod.mk.injEq] at h
          obtain ⟨_, rfl⟩ := h
          exact ⟨[c], Quietly_cons _ _ hq Quietly_nil, rfl, Or.inl (by simp [Node.call])⟩
/-- The calls of one run of `processRreq`, and what it leaves in the table of
received requests. -/
theorem processRreq_calls (mainAddress : Ipv4Address) (cache : CacheAnswers) (rx : RreqReceived)
    (ipv4Address source : Ipv4Address) (protocol : Nat) (n n1 : Node) (r : Nat)
    (h : processRreq mainAddress cache rx ipv4Address source protocol n = some (r, n1)) :
    (∃ l, n1.trace = n.trace ++ l ∧
      RreqCalls mainAddress cache rx ipv4Address n.blackHole l) ∧
    ((source = ipv4Address ∨ rx.numberAddress ≥ 255 ∨ rx.length % 2 ≠ 0) ∨
      ∃ sourceAddress, rx.nodeList.head? = some sourceAddress ∧
        (rx.ttl ≠ 0 → (sourceAddress, rx.target, rx.requestId) ∈ n1.m_sourceRreqMap)) := by
  unfold processRreq at h
  by_cases h1 : source = ipv4Address
  · rw [if_pos h1] at h
    simp only [Option.some.injEq, Prod.mk.injEq] at h
    obtain ⟨_, rfl⟩ := h
    exact ⟨⟨[Call.Drop], rfl, RreqCalls.drop⟩, Or.inl (Or.inl h1)⟩
  · by_cases h2 : rx.numberAddress ≥ 255
    · rw [if_neg h1, if_pos h2] at h
      simp only [Option.some.injEq, Prod.mk.injEq] at h
      obtain ⟨_, rfl⟩ := h
      exact ⟨⟨[Call.Drop], rfl, RreqCalls.drop⟩, Or.inl (Or.inr (Or.inl h2))⟩
    · by_cases h3 : rx.length % 2 ≠ 0
      · rw [if_neg h1, if_neg h2, if_pos h3] at h
        simp only [Option.some.injEq, Prod.mk.injEq] at h
        obtain ⟨_, rfl⟩ := h
        exact ⟨⟨[Call.Drop], rfl, RreqCalls.drop⟩, Or.inl (Or.inr (Or.inr h3))⟩
      · rw [if_neg h1, if_neg h2, if_neg h3] at h
        cases hh : rx.nodeList.head? with
        | none =>
          rw [hh] at h
          exact absurd h (by simp)
        | some sourceAddress =>
          rw [hh] at h
          simp only [] at h
          have hrec : rx.ttl ≠ 0 → (sourceAddress, rx.target, rx.requestId) ∈
              (if rx.ttl ≠ 0 then
                DsrRreqTable.FindSourceEntry n.m_sourceRreqMap sourceAddress rx.target
                  rx.requestId
              else (false, n.m_sourceRreqMap)).2 := by
            intro ht
            rw [if_pos ht]
            unfold DsrRreqTable.FindSourceEntry
            split
            · assumption
            · simp
          generalize (if rx.ttl ≠ 0 then
                DsrRreqTable.FindSourceEntry n.m_sourceRreqMap sourceAddress rx.target
                  rx.requestId
              else (false, n.m_sourceRreqMap)) = found at h hrec
          by_cases hf : found.1 = true
          · rw [if_pos hf] at h
            simp only [Option.some.injEq, Prod.mk.injEq] at h
            obtain ⟨_, rfl⟩ := h
            exact ⟨⟨[Call.Drop], rfl, RreqCalls.drop⟩, Or.inr ⟨sourceAddress, rfl, hrec⟩⟩
          · rw [if_neg hf] at h
            by_cases hd : CheckDuplicates ipv4Address rx.nodeList = true
            · rw [if_pos hd] at h
              simp only [Option.some.injEq, Prod.mk.injEq] at h
              obtain ⟨_, rfl⟩ := h
              exact ⟨⟨[Call.Drop], rfl, RreqCalls.drop⟩, Or.inr ⟨sourceAddress, rfl, hrec⟩⟩
            · rw [if_neg hd] at h
              by_cases hb : n.blackHole = true
              · rw [if_pos hb] at h
                obtain ⟨nh, ht, hs⟩ := processRreq_fabricate_calls _ _ _ _ _ _ h
                refine ⟨⟨_, ht, RreqCalls.fabricated nh hb⟩, Or.inr ⟨sourceAddress, rfl, ?_⟩⟩
                rw [hs]
                exact hrec
              · rw [if_neg hb] at h
                have hb2 : n.blackHole = false := by simpa using hb
                by_cases htg : rx.target = ipv4Address
                · rw [if_pos htg] at h
                  obtain ⟨route, nh, l, ht, hq, hs⟩ := processRreq_target_calls _ _ _ _ _ _ _ _ h
                  refine ⟨⟨_, ?_, RreqCalls.target route nh l hb2 htg hq⟩,
                    Or.inr ⟨sourceAddress, rfl, ?_⟩⟩
                  · rw [ht]
                    simp
                  · rw [hs]
                    exact hrec
                · rw [if_neg htg] at h
                  by_cases hc : cache.toPrev.isSome = true ∧
                      IfDuplicates (cache.toPrev.getD []) rx.nodeList = false
                  · rw [if_pos hc] at h
                    obtain ⟨hc1, hc2⟩ := hc
                    obtain ⟨C, hC⟩ := Option.isSome_iff_exists.mp hc1
                    have hip : cache.toPrev.getD [] = C := by rw [hC]; rfl
                    rw [hip] at h hc2
                    obtain ⟨l, hq, hs, ht⟩ := processRreq_cached_calls _ _ _ _ _ _ _ _ h
                    refine ⟨?_, Or.inr ⟨sourceAddress, rfl, ?_⟩⟩
                    · rcases ht with ht | ⟨nh, hops, ht⟩
                      · exact ⟨l, ht, RreqCalls.cachedFailed C l hb2 hC hc2 hq⟩
                      · exact ⟨_, by rw [ht, List.append_assoc],
                          RreqCalls.cached C l nh hops hb2 hC hc2 hq⟩
                    · rw [hs]
                      exact hrec
                  · rw [if_neg hc] at h
                    obtain ⟨l, hq, hs, ht⟩ := processRreq_forward_calls _ _ _ _ _ _ h
                    refine ⟨?_, Or.inr ⟨sourceAddress, rfl, ?_⟩⟩
                    · rcases ht with ⟨ht0, ht⟩ | ⟨ht0, e, ht⟩
                      · exact ⟨l, ht, RreqCalls.notForwarded l hb2 ht0 hq⟩
                      · exact ⟨_, by rw [ht, List.append_assoc],
                          RreqCalls.forwarded l e hb2 ht0 hq⟩
                    · rw [hs]
                      exact hrec
/-! ### C14: duplicate route requests -/

theorem Quietly_not_answer (l : List Call) (h : Quietly l) (c : Call) (hc : c ∈ l)
    (ha : c.isAnswer = true) : False := by
  rw [h c hc] at ha
  exact Bool.noConfusion ha

theorem answers_append (a b : List Call) : answers (a ++ b) = answers a + answers b := by
  simp [answers, List.countP_append]

/-- One run of `processRreq` sends at most one reply or forwarded request. -/
theorem RreqCalls_answers (mainAddress : Ipv4Address) (cache : CacheAnswers) (rx : RreqReceived)
    (ipv4Address : Ipv4Address) (b : Bool) (l : List Call)
    (h : RreqCalls mainAddress cache rx ipv4Address b l) : answers l ≤ 1 := by
  cases h with
  | drop => simp [answers, Call.isAnswer]
  | fabricated nextHop hb => simp [answers, Call.isAnswer]
  | target route nextHop l hb ht hq =>
    rw [answers_append, Quietly_answers l hq]
    simp [answers, Call.isAnswer]
  | cachedFailed C l hb hc hd hq =>
    rw [Quietly_answers l hq]
    omega
  | cached C l nextHop hops hb hc hd hq =>
    rw [answers_append, Quietly_answers l hq]
    simp [answers, Call.isAnswer]
  | notForwarded l hb ht hq =>
    rw [Quietly_answers l hq]
    omega
  | forwarded l e hb ht hq =>
    rw [answers_append, Quietly_answers l hq]
    simp [answers, Call.isAnswer]

/-- With TTL 0 nothing is forwarded. -/
theorem RreqCalls_no_forward (mainAddress : Ipv4Address) (cache : CacheAnswers)
    (rx : RreqReceived) (ipv4Address : Ipv4Address) (b : Bool) (l : List Call)
    (h : RreqCalls mainAddress cache rx ipv4Address b l) (ht0 : rx.ttl = 0) (c : Call)
    (hc : c ∈ l) : c.isForward = false := by
  have hquiet : ∀ l2 : List Call, Quietly l2 → c ∈ l2 → c.isForward = false := by
    intro l2 hq hm
    have := hq c hm
    cases c <;> simp_all [Call.isAnswer, Call.isForward]
  cases h with
  | drop =>
    simp only [List.mem_singleton] at hc
    subst hc
    rfl
  | fabricated nextHop hb =>
    simp only [List.mem_cons, List.mem_singleton, List.not_mem_nil, or_false] at hc
    rcases hc with rfl | rfl <;> rfl
  | target route nextHop l hb ht hq =>
    rcases List.mem_append.mp hc with h1 | h1
    · simp only [List.mem_cons, List.mem_singleton, List.not_mem_nil, or_false] at h1
      rcases h1 with rfl | rfl <;> rfl
    · exact hquiet l hq h1
  | cachedFailed C l hb hc2 hd hq => exact hquiet l hq hc
  | cached C l nextHop hops hb hc2 hd hq =>
    rcases List.mem_append.mp hc with h1 | h1
    · exact hquiet l hq h1
    · simp only [List.mem_cons, List.mem_singleton, List.not_mem_nil, or_false] at h1
      rcases h1 with rfl | rfl <;> rfl
  | notForwarded l hb ht hq => exact hquiet l hq hc
  | forwarded l e hb ht hq => exact absurd ht0 ht

/-- A request already recorded, or one that fails the first checks, is dropped
whatever the state and the route cache. -/
theorem processRreq_duplicate (mainAddress : Ipv4Address) (cache : CacheAnswers)
    (rx : RreqReceived) (ipv4Address source : Ipv4Address) (protocol : Nat) (n : Node)
    (hrec : (source = ipv4Address ∨ rx.numberAddress ≥ 255 ∨ rx.length % 2 ≠ 0) ∨
      ∃ sourceAddress, rx.nodeList.head? = some sourceAddress ∧
        (sourceAddress, rx.target, rx.requestId) ∈ n.m_sourceRreqMap)
    (ht : rx.ttl ≠ 0) :
    processRreq mainAddress cache rx ipv4Address source protocol n = some (0, n.call Call.Drop) := by
  unfold processRreq
  by_cases h1 : source = ipv4Address
  · rw [if_pos h1]
  · rw [if_neg h1]
    by_cases h2 : rx.numberAddress ≥ 255
    · rw [if_pos h2]
    · rw [if_neg h2]
      by_cases h3 : rx.length % 2 ≠ 0
      · rw [if_pos h3]
      · rw [if_neg h3]
        rcases hrec with (h | h | h) | ⟨sa, hsa, hmem⟩
        · exact absurd h h1
        · exact absurd h h2
        · exact absurd h h3
        · rw [hsa]
          simp only [ne_eq, ht, not_false_eq_true, if_true, DsrRreqTable.FindSourceEntry, hmem]

/-- C14 as stated fails for TTL 0: the non-propagating request of `S` for the
target `D`, delivered twice to `D`, is answered twice. -/
theorem duplicate_request_with_ttl_zero_answered_twice :
    exampleRreqZeroTtl.ttl = 0 ∧
    (processRreq 3 exampleCacheAtD exampleRreqZeroTtl 3 1 17 Node.init).map
        (fun r => answers r.2.trace) = some 1 ∧
    ((processRreq 3 exampleCacheAtD exampleRreqZeroTtl 3 1 17 Node.init).bind
        (fun r => processRreq 3 exampleCacheAtD exampleRreqZeroTtl 3 1 17 r.2)).map
        (fun r => answers r.2.trace) = some 2 := by
  decide

/-- C14, amended.  One delivery of a route request to `processRreq` produces at
most one forwarded request or route reply.  For a request with TTL other than 0,
delivering the identical request again, whatever the route cache then answers,
produces nothing: it is dropped, so both deliveries together produce what the
first produced.  A request with TTL 0 is never forwarded (and not recorded). -/
theorem duplicate_requests_dropped (mainAddress : Ipv4Address) (cache cache2 : CacheAnswers)
    (rx : RreqReceived) (ipv4Address source : Ipv4Address) (protocol : Nat) (n n1 : Node)
    (r : Nat)
    (h : processRreq mainAddress cache rx ipv4Address source protocol n = some (r, n1)) :
    answers (n.since n1) ≤ 1 ∧
    (rx.ttl ≠ 0 →
      processRreq mainAddress cache2 rx ipv4Address source protocol n1 =
        some (0, n1.call Call.Drop) ∧
      answers (n.since (n1.call Call.Drop)) = answers (n.since n1)) ∧
    (rx.ttl = 0 → ∀ c, c ∈ n.since n1 → c.isForward = false) := by
  obtain ⟨⟨l, hl, hcalls⟩, hrec⟩ := processRreq_calls _ _ _ _ _ _ _ _ _ h
  rw [since_append n n1 l hl]
  refine ⟨RreqCalls_answers _ _ _ _ _ _ hcalls, fun ht => ⟨?_, ?_⟩,
    fun ht c hc => RreqCalls_no_forward _ _ _ _ _ _ hcalls ht c hc⟩
  · refine processRreq_duplicate _ _ _ _ _ _ _ ?_ ht
    rcases hrec with h0 | ⟨sa, hsa, hmem⟩
    · exact Or.inl h0
    · exact Or.inr ⟨sa, hsa, hmem ht⟩
  · rw [since_append n (n1.call Call.Drop) (l ++ [Call.Drop])
      (by rw [call_trace, hl, List.append_assoc]), answers_append]
    simp [answers, Call.isAnswer]

/-- Witness of C14 amended: the propagating request of `S` for `D`, delivered
twice to `D`. -/
theorem duplicate_requests_dropped_witness :
    processRreq 3 exampleCacheAtD exampleRreq 3 1 17
        ((processRreq 3 exampleCacheAtD exampleRreq 3 1 17 Node.init).getD (0, Node.init)).2 =
      some (0, ((processRreq 3 exampleCacheAtD exampleRreq 3 1 17 Node.init).getD
        (0, Node.init)).2.call Call.Drop) :=
  ((duplicate_requests_dropped 3 exampleCacheAtD exampleCacheAtD exampleRreq 3 1 17 Node.init
    ((processRreq 3 exampleCacheAtD exampleRreq 3 1 17 Node.init).getD (0, Node.init)).2
    12 rfl).2.1 (by decide)).1

/-! ### C16: replies from the route cache -/

theorem IfDuplicates_false_iff (C P : List Ipv4Address) :
    IfDuplicates C P = false ↔ ∀ a, a ∈ P → a ∉ C := by
  unfold IfDuplicates
  rw [Bool.eq_false_iff]
  simp only [ne_eq, List.any_eq_true, decide_eq_true_eq, not_exists, not_and]
  constructor
  · intro h a ha hc
    exact h a hc a ha rfl
  · intro h i hi j hj hij
    subst hij
    exact h i hj hi

/-- A reply from the route cache is sent only in the branch that found a cached
route sharing no address with the path so far, and carries the path followed by
that route. -/
theorem RreqCalls_cached (mainAddress : Ipv4Address) (cache : CacheAnswers) (rx : RreqReceived)
    (ipv4Address : Ipv4Address) (b : Bool) (l : List Call)
    (h : RreqCalls mainAddress cache rx ipv4Address b l) (route : List Ipv4Address)
    (nextHop : Ipv4Address) (hops : Nat)
    (hc : Call.ScheduleCachedReply route nextHop hops ∈ l) :
    ∃ C, cache.toPrev = some C ∧ IfDuplicates C rx.nodeList = false ∧
      route = rx.nodeList ++ C := by
  have hquiet : ∀ l2 : List Call, Quietly l2 →
      Call.ScheduleCachedReply route nextHop hops ∈ l2 → False :=
    fun l2 hq hm => Quietly_not_answer l2 hq _ hm rfl
  cases h with
  | drop => simp at hc
  | fabricated nh hb => simp at hc
  | target rt nh l2 hb ht hq =>
    rcases List.mem_append.mp hc with h1 | h1
    · simp at h1
    · exact (hquiet l2 hq h1).elim
  | cachedFailed C l2 hb hc2 hd hq => exact (hquiet l hq hc).elim
  | cached C l2 nh hp hb hc2 hd hq =>
    rcases List.mem_append.mp hc with h1 | h1
    · exact (hquiet l2 hq h1).elim
    · simp only [List.mem_cons, List.mem_singleton, List.not_mem_nil, or_false,
        Call.ScheduleCachedReply.injEq, false_or] at h1
      rcases h1 with h1 | h1
      · exact Call.noConfusion h1
      · exact ⟨C, hc2, hd, h1.1⟩
  | notForwarded l2 hb ht hq => exact (hquiet l hq hc).elim
  | forwarded l2 e hb ht hq =>
    rcases List.mem_append.mp hc with h1 | h1
    · exact (hquiet l2 hq h1).elim
    · simp at h1

/-- C16. Cached replies are loop-free.  Whenever `processRreq` sends a reply
from its route cache (`ScheduleCachedReply`), the cache holds a route `C` to the
target that shares no address with the path so far `P`, and the route placed in
the reply is exactly `P` followed by `C`; so if neither `P` nor `C` repeats an
address, the route of the reply repeats none.  When `P` and `C` share an address
no reply from the cache is sent. -/
theorem cached_reply_loop_free (mainAddress : Ipv4Address) (cache : CacheAnswers)
    (rx : RreqReceived) (ipv4Address source : Ipv4Address) (protocol : Nat) (n n1 : Node)
    (r : Nat)
    (h : processRreq mainAddress cache rx ipv4Address source protocol n = some (r, n1)) :
    (∀ route nextHop hops, Call.ScheduleCachedReply route nextHop hops ∈ n.since n1 →
      ∃ C, cache.toPrev = some C ∧ (∀ a, a ∈ rx.nodeList → a ∉ C) ∧
        route = rx.nodeList ++ C ∧ (rx.nodeList.Nodup → C.Nodup → route.Nodup)) ∧
    (∀ C a, cache.toPrev = some C → a ∈ rx.nodeList → a ∈ C →
      ∀ route nextHop hops, Call.ScheduleCachedReply route nextHop hops ∉ n.since n1) := by
  obtain ⟨⟨l, hl, hcalls⟩, _⟩ := processRreq_calls _ _ _ _ _ _ _ _ _ h
  rw [since_append n n1 l hl]
  have key : ∀ route nextHop hops, Call.ScheduleCachedReply route nextHop hops ∈ l →
      ∃ C, cache.toPrev = some C ∧ (∀ a, a ∈ rx.nodeList → a ∉ C) ∧
        route = rx.nodeList ++ C ∧ (rx.nodeList.Nodup → C.Nodup → route.Nodup) := by
    intro route nextHop hops hc
    obtain ⟨C, hC, hd, hr⟩ := RreqCalls_cached _ _ _ _ _ _ hcalls route nextHop hops hc
    have hdis := (IfDuplicates_false_iff C rx.nodeList).mp hd
    refine ⟨C, hC, hdis, hr, fun hP hCn => ?_⟩
    rw [hr]
    exact List.Nodup.append hP hCn (fun a ha hc => hdis a ha hc)
  refine ⟨key, fun C a hC ha hCa route nextHop hops hc => ?_⟩
  obtain ⟨C2, hC2, hdis, _, _⟩ := key route nextHop hops hc
  rw [hC] at hC2
  have e := Option.some.inj hC2
  subst e
  exact hdis a ha hCa

/-- Witness of C16: `I = 2` holds the route `[I, D]` and receives the request of
`S` for `D` with the path `[S]`; it replies with `[S, I, D]`. -/
theorem cached_reply_loop_free_witness :
    ∃ C, exampleCacheAtI.toPrev = some C ∧ (∀ a, a ∈ exampleRreq.nodeList → a ∉ C) ∧
      [1, 2, 3] = exampleRreq.nodeList ++ C ∧
      (exampleRreq.nodeList.Nodup → C.Nodup → [1, 2, 3].Nodup) :=
  (cached_reply_loop_free 2 exampleCacheAtI exampleRreq 2 1 17 Node.init
    ((processRreq 2 exampleCacheAtI exampleRreq 2 1 17 Node.init).getD (0, Node.init)).2 12
    rfl).1 [1, 2, 3] 1 3 (by decide)

/-! ### C20: the attacker path -/

/-- The fabricated reply is sent only by a node whose `blackHole` flag is set. -/
theorem RreqCalls_fabricated (mainAddress : Ipv4Address) (cache : CacheAnswers)
    (rx : RreqReceived) (ipv4Address : Ipv4Address) (b : Bool) (l : List Call)
    (h : RreqCalls mainAddress cache rx ipv4Address b l) (route : List Ipv4Address)
    (nextHop : Ipv4Address)
    (hc : Call.ScheduleInitialReply route (some 1) nextHop ∈ l) :
    b = true ∧ route = rx.nodeList ++ [mainAddress, rx.target] := by
  have hquiet : ∀ l2 : List Call, Quietly l2 →
      Call.ScheduleInitialReply route (some 1) nextHop ∈ l2 → False :=
    fun l2 hq hm => Quietly_not_answer l2 hq _ hm rfl
  cases h with
  | drop => simp at hc
  | fabricated nh hb =>
    simp only [List.mem_cons, List.mem_singleton, List.not_mem_nil, or_false,
      Call.ScheduleInitialReply.injEq, false_or] at hc
    rcases hc with hc | hc
    · exact Call.noConfusion hc
    · exact ⟨hb, hc.1⟩
  | target rt nh l2 hb ht hq =>
    rcases List.mem_append.mp hc with h1 | h1
    · simp at h1
    · exact (hquiet l2 hq h1).elim
  | cachedFailed C l2 hb hc2 hd hq => exact (hquiet l hq hc).elim
  | cached C l2 nh hp hb hc2 hd hq =>
    rcases List.mem_append.mp hc with h1 | h1
    · exact (hquiet l2 hq h1).elim
    · simp at h1
  | notForwarded l2 hb ht hq => exact (hquiet l hq hc).elim
  | forwarded l2 e hb ht hq =>
    rcases List.mem_append.mp hc with h1 | h1
    · exact (hquiet l2 hq h1).elim
    · simp at h1

/-- C20 as stated fails: `Start` takes no configuration, and it makes the node
with id 12 (and the one with id 18) an attacker and enables `blackattack` on
every node. -/
theorem start_makes_node_12_an_attacker :
    (Start 12 Node.init).map Node.blackHole = some true ∧
    (Start 18 Node.init).map Node.blackHole = some true ∧
    (Start 0 Node.init).map Node.blackattack = some true ∧
    Node.init.blackHole = false ∧ Node.init.blackattack = false := by
  decide

/-- C20, amended.  `processRreq` sends a reply marked with `SetAck (1)` only when
the node's `blackHole` flag is set, and the node list of that reply is the path
so far followed by this node and the target.  `Start` has no configuration
input: by the constant `count = 2` compiled into it, it always returns, sets
`blackHole` for the nodes with id 12 and 18, leaves the flag of every other node
as it was, and sets `blackattack` on every node. -/
theorem attacker_path_set_by_start (mainAddress : Ipv4Address) (cache : CacheAnswers)
    (rx : RreqReceived) (ipv4Address source : Ipv4Address) (protocol : Nat) (n : Node)
    (nodeId : Nat) :
    (∀ r n1 route nextHop,
      processRreq mainAddress cache rx ipv4Address source protocol n = some (r, n1) →
      Call.ScheduleInitialReply route (some 1) nextHop ∈ n.since n1 →
      n.blackHole = true ∧ route = rx.nodeList ++ [mainAddress, rx.target]) ∧
    (∃ n1, Start nodeId n = some n1 ∧ n1.blackattack = true ∧
      n1.blackHole = (if nodeId = 12 ∨ nodeId = 18 then true else n.blackHole)) := by
  refine ⟨fun r n1 route nextHop h hc => ?_, ?_⟩
  · obtain ⟨⟨l, hl, hcalls⟩, _⟩ := processRreq_calls _ _ _ _ _ _ _ _ _ h
    rw [since_append n n1 l hl] at hc
    exact RreqCalls_fabricated _ _ _ _ _ _ hcalls route nextHop hc
  · unfold Start Start.blackholeOption
    by_cases hid : nodeId = 12 ∨ nodeId = 18
    · exact ⟨_, rfl, rfl, by simp [hid]⟩
    · exact ⟨_, rfl, rfl, by simp [hid]⟩

/-- Witness of C20 amended: the attacker `I = 2` answers the request of `S` for
`D` with the fabricated route `[S, I, D]`. -/
theorem attacker_path_set_by_start_witness :
    exampleAttacker.blackHole = true ∧ [1, 2, 3] = exampleRreq.nodeList ++ [2, exampleRreq.target] :=
  (attacker_path_set_by_start 2 exampleCacheAtI exampleRreq 2 1 17 exampleAttacker 12).1 0
    ((processRreq 2 exampleCacheAtI exampleRreq 2 1 17 exampleAttacker).getD (0, Node.init)).2
    [1, 2, 3] 1 rfl (by decide)

/-! ### C15: the routes `ProcessRrep` hands to the route cache -/

/-- C15 fails on the code.  At the final recipient `1` the reply `[1, 2, 1]`
is shortened by `RemoveDuplicates` to `[1]`, passes the only check made there
(`nodeList.size () == 0`), and the one-address list is handed to
`AddRoute_Link`; with a path cache it is handed to `AddRoute`.  At the
intermediate node `2` the reply `[1, 2, 3, 2, 4]` is not cleaned: the path cache
is handed `[2, 3, 2, 4]`, the link cache the whole list, both with `2` twice. -/
theorem ProcessRrep_hands_short_or_looping_route :
    (ProcessRrep exampleCacheAtD exampleRrepLoop 1 2 17 Node.init).map (fun r => r.2.trace)
      = some [Call.AddRoute_Link [1] 1, Call.SetRoute 1 1,
          Call.SendPacketFromBuffer (freshSourceRoute [1]) 1 17] ∧
    (ProcessRrep examplePathCache exampleRrepLoop 1 2 17 Node.init).map (fun r => r.2.trace)
      = some [Call.AddRoute [1], Call.SetRoute 1 1,
          Call.SendPacketFromBuffer (freshSourceRoute [1]) 1 17] ∧
    (ProcessRrep examplePathCache exampleRrepTwice 2 4 17 Node.init).map (fun r => r.2.trace)
      = some [Call.AddRoute [2, 3, 2, 4], Call.SetRoute 3 2,
          Call.SendReply [1, 2, 3, 2, 4] 3] ∧
    (ProcessRrep exampleCacheAtD exampleRrepTwice 2 4 17 Node.init).map (fun r => r.2.trace)
      = some [Call.AddRoute_Link [1, 2, 3, 2, 4] 2, Call.SetRoute 3 2,
          Call.SendReply [1, 2, 3, 2, 4] 3] ∧
    [1].length < 2 ∧ [2, 3, 2, 4].count 2 = 2 := by
  decide

/-! ### C18: the black list in `Send` -/

/-- C18 fails on the code.  With `2` in the black list and detection enabled,
`Send` finds the cached route `[1, 2, 3]`: the check `checkBlackList` fails, one
counter is raised and one lowered, and the packet is buffered and sent to the
next hop `2` with the source route `[1, 2, 3]`. -/
theorem Send_uses_route_through_blacklisted_node :
    2 ∈ exampleBlackListed.m_blackList ∧
    checkBlackList exampleBlackListed exampleBlackListed.m_blackList [1, 2, 3] = false ∧
    (Send.blackListCheck [1, 2, 3] exampleBlackListed).blackfindcount = 1 ∧
    (Send.blackListCheck [1, 2, 3] exampleBlackListed).dsrcount = 0 ∧
    (Send exampleConfig (some [1, 2, 3]) false 1 7 1 3 17 State.init).map State.trace
      = some [Event.UseExtends [1, 2, 3], Event.SchedulePassivePacketRetry exampleEntry,
          Event.SendPacket exampleEntry.packet 1 2 17] ∧
    (Send exampleConfig (some [1, 2, 3]) false 1 7 1 3 17 State.init).map State.m_maintainBuffer
      = some [exampleEntry] ∧
    exampleEntry.packet.sourceRoute.nodesAddress = [1, 2, 3] := by
  decide
/-! ### C17: the black list in `Receive` -/

theorem RemoveDuplicates_loop_ne_nil (i : Ipv4Address) (vec : List Ipv4Address) :
    RemoveDuplicates.loop i vec ≠ [] := by
  cases vec with
  | nil => simp [RemoveDuplicates.loop]
  | cons j rest =>
    unfold RemoveDuplicates.loop
    split <;> simp

theorem RemoveDuplicates_ne_nil (vec : List Ipv4Address) (h : vec ≠ []) :
    RemoveDuplicates vec ≠ [] := by
  obtain ⟨init, last, rfl⟩ : ∃ init last, vec = init ++ [last] :=
    ⟨vec.dropLast, vec.getLast h, (List.dropLast_append_getLast h).symm⟩
  unfold RemoveDuplicates
  rw [List.foldl_append]
  exact RemoveDuplicates_loop_ne_nil _ _

theorem checkBlackList_eq_false (n : Node) (blacklist nodeList : List Ipv4Address) :
    checkBlackList n blacklist nodeList = false ↔ ∃ a, a ∈ nodeList ∧ a ∈ n.m_blackList := by
  unfold checkBlackList
  simp [List.any_eq_true]

/-- C17 as stated fails: a blacklisted reply delivered to a node that has had no
cache miss in `Send` is passed to `ProcessRrep` and its route enters the route
cache; so is the reply packet that was discarded once, when it is delivered
again. -/
theorem blacklisted_reply_accepted :
    2 ∈ exampleBlackListed.m_blackList ∧ 2 ∈ exampleRrep.nodeList ∧
    exampleRrep.nodeList.head? = some 1 ∧
    (Receive.rrep exampleCacheAtD exampleRrep 1 3 17 exampleBlackListed).map Node.trace
      = some [Call.AddRoute_Link [1, 2, 3] 1, Call.SetRoute 2 1,
          Call.SendPacketFromBuffer (freshSourceRoute [1, 2, 3]) 2 17] ∧
    (Receive.rrep exampleCacheAtD exampleRrep 1 3 17 exampleBlackListedMiss).map Node.trace
      = some [Call.Drop] ∧
    ((Receive.rrep exampleCacheAtD exampleRrep 1 3 17 exampleBlackListedMiss).bind
        (Receive.rrep exampleCacheAtD exampleRrep 1 3 17)).map Node.trace
      = some [Call.Drop, Call.AddRoute_Link [1, 2, 3] 1, Call.SetRoute 2 1,
          Call.SendPacketFromBuffer (freshSourceRoute [1, 2, 3]) 2 17] := by
  decide

/-- C17, amended.  A route reply whose node list starts with this node is
discarded by `Receive` without being passed to `ProcessRrep` exactly when
detection is enabled (`blackattack`), the node list as shortened by
`RemoveDuplicates` contains a blacklisted address, the node has had a cache miss
in `Send` (`control`), and the uid of the packet differs from `rrepid`, the uid
of the reply discarded last.  Then the only call made is the drop, `rrepid`
becomes the uid of the packet and `fakerrep` is raised by one.  In every other
case the reply is passed to `ProcessRrep`. -/
theorem blacklisted_reply_rejected (cache : CacheAnswers) (rx : RrepReceived)
    (mainAddress source : Ipv4Address) (protocol : Nat) (n : Node)
    (hfront : rx.nodeList.head? = some mainAddress) :
    (n.blackattack = true → (∃ a, a ∈ RemoveDuplicates rx.nodeList ∧ a ∈ n.m_blackList) →
      n.control = true → rx.uid ≠ n.rrepid →
      ∃ n1, Receive.rrep cache rx mainAddress source protocol n = some n1 ∧
        n.since n1 = [Call.Drop] ∧ n1.rrepid = rx.uid ∧ n1.fakerrep = n.fakerrep + 1 ∧
        n1.m_blackList = n.m_blackList) ∧
    (¬ (n.blackattack = true ∧ (∃ a, a ∈ RemoveDuplicates rx.nodeList ∧ a ∈ n.m_blackList) ∧
        n.control = true ∧ rx.uid ≠ n.rrepid) →
      Receive.rrep cache rx mainAddress source protocol n =
        (ProcessRrep cache rx mainAddress source protocol
          (if rx.ack = 1 then { n with realreceivefake := n.realreceivefake + 1 } else n)).map
          (fun r => Receive.discard r.1 r.2)) := by
  have hne : rx.nodeList ≠ [] := by
    intro h
    rw [h] at hfront
    simp at hfront
  have hlen : (RemoveDuplicates rx.nodeList).length ≠ 0 := by
    intro h
    exact RemoveDuplicates_ne_nil _ hne (List.length_eq_zero.mp h)
  constructor
  · intro hb hex hc hu
    have hcheck : Receive.checkRrep rx n =
        (1, { (if rx.ack = 1 then { n with realreceivefake := n.realreceivefake + 1 } else n)
              with rrepid := rx.uid }) := by
      unfold Receive.checkRrep
      simp only [hlen, if_false]
      rw [if_pos]
      refine ⟨?_, ?_, ?_⟩
      · rw [if_pos]
        · rw [checkBlackList_eq_false]
          obtain ⟨a, ha, hbl⟩ := hex
          refine ⟨a, ha, ?_⟩
          by_cases hack : rx.ack = 1
          · simpa [hack] using hbl
          · simpa [hack] using hbl
        · obtain ⟨a, _, hbl⟩ := hex
          by_cases hack : rx.ack = 1
          · simp only [hack, if_true]
            exact ⟨hb, by
              cases hl : n.m_blackList with
              | nil => rw [hl] at hbl; simp at hbl
              | cons x xs => rfl⟩
          · simp only [hack, if_false]
            exact ⟨hb, by
              cases hl : n.m_blackList with
              | nil => rw [hl] at hbl; simp at hbl
              | cons x xs => rfl⟩
      · by_cases hack : rx.ack = 1
        · simpa [hack] using hc
        · simpa [hack] using hc
      · by_cases hack : rx.ack = 1
        · simpa [hack] using hu
        · simpa [hack] using hu
    unfold Receive.rrep
    simp only [hfront, if_true, hcheck]
    by_cases hack : rx.ack = 1
    · simp [hack, Receive.discard, Node.call, Node.since]
    · simp [hack, Receive.discard, Node.call, Node.since]
  · intro hnot
    have hcheck : Receive.checkRrep rx n =
        (0, (if rx.ack = 1 then { n with realreceivefake := n.realreceivefake + 1 } else n)) := by
      unfold Receive.checkRrep
      simp only [hlen, if_false]
      rw [if_neg]
      rintro ⟨hres, hc, hu⟩
      apply hnot
      have hc2 : n.control = true := by
        by_cases hack : rx.ack = 1
        · simpa [hack] using hc
        · simpa [hack] using hc
      have hu2 : rx.uid ≠ n.rrepid := by
        by_cases hack : rx.ack = 1
        · simpa [hack] using hu
        · simpa [hack] using hu
      by_cases hg : (if rx.ack = 1 then { n with realreceivefake := n.realreceivefake + 1 }
          else n).blackattack = true ∧
          (if rx.ack = 1 then { n with realreceivefake := n.realreceivefake + 1 }
          else n).m_blackList.isEmpty = false
      · rw [if_pos hg, checkBlackList_eq_false] at hres
        obtain ⟨a, ha, hbl⟩ := hres
        have hb2 : n.blackattack = true := by
          by_cases hack : rx.ack = 1
          · simpa [hack] using hg.1
          · simpa [hack] using hg.1
        have hbl2 : a ∈ n.m_blackList := by
          by_cases hack : rx.ack = 1
          · simpa [hack] using hbl
          · simpa [hack] using hbl
        exact ⟨hb2, ⟨a, ha, hbl2⟩, hc2, hu2⟩
      · rw [if_neg hg] at hres
        exact absurd hres (by decide)
    unfold Receive.rrep
    simp only [hfront, if_true, hcheck]
    cases ProcessRrep cache rx mainAddress source protocol
      (if rx.ack = 1 then { n with realreceivefake := n.realreceivefake + 1 } else n) with
    | none => simp
    | some r => simp

/-- Witness of C17 amended: after a cache miss, `S = 1` with `2` in its black
list discards the reply `[1, 2, 3]`. -/
theorem blacklisted_reply_rejected_witness :
    exampleRrep.nodeList.head? = some 1 ∧
    ∃ n1, Receive.rrep exampleCacheAtD exampleRrep 1 3 17 exampleBlackListedMiss = some n1 ∧
      exampleBlackListedMiss.since n1 = [Call.Drop] ∧ n1.rrepid = exampleRrep.uid ∧
      n1.fakerrep = exampleBlackListedMiss.fakerrep + 1 ∧
      n1.m_blackList = exampleBlackListedMiss.m_blackList :=
  ⟨rfl, (blacklisted_reply_rejected exampleCacheAtD exampleRrep 1 3 17 exampleBlackListedMiss
    rfl).1 rfl ⟨2, by decide, by decide⟩ rfl (by decide)⟩
/-! ### C19: blacklisting by `processAck` -/

theorem checkRrepDst_eq_false (a : Ipv4Address) (vec : List Ipv4Address) :
    checkRrepDst a vec = false ↔ a ∉ vec := by
  unfold checkRrepDst
  rw [Bool.eq_false_iff]
  simp only [ne_eq, List.any_eq_true, decide_eq_true_eq, List.mem_reverse, not_exists, not_and]
  constructor
  · intro h hm
    exact h a hm rfl
  · intro h x hx hax
    subst hax
    exact h hx

/-- What `handleBlackList` does to the two lists. -/
theorem handleBlackList_lists (ackPair nodeList : List Ipv4Address) (n n1 : Node)
    (h : handleBlackList ackPair nodeList n = some n1) :
    n1.m_ackPair = [] ∧ n1.blacktries = n.blacktries ∧ n1.trace = n.trace ∧
    (n1.m_blackList = n.m_blackList ∨
      ∃ back front, nodeList.getLast? = some back ∧ back ∉ ackPair ∧
        ackPair.head? = some front ∧ front ∉ n.m_blackList ∧
        n1.m_blackList = n.m_blackList ++ [front]) := by
  unfold handleBlackList at h
  cases hb : nodeList.getLast? with
  | none => rw [hb] at h; simp at h
  | some back =>
    rw [hb] at h
    simp only at h
    by_cases hres : checkRrepDst back ackPair = false
    · rw [if_pos hres] at h
      cases hf : ackPair.head? with
      | none => rw [hf] at h; simp at h
      | some front =>
        rw [hf] at h
        simp only [Option.some.injEq] at h
        by_cases hin : front ∈ n.m_blackList
        · rw [if_pos hin] at h
          subst h
          exact ⟨rfl, rfl, rfl, Or.inl rfl⟩
        · rw [if_neg hin] at h
          subst h
          exact ⟨rfl, rfl, rfl, Or.inr ⟨back, front, rfl,
            (checkRrepDst_eq_false back ackPair).mp hres, rfl, hin, rfl⟩⟩
    · rw [if_neg hres] at h
      simp only [Option.some.injEq] at h
      subst h
      exact ⟨rfl, rfl, rfl, Or.inl rfl⟩

/-- What `processAck` does to the two lists when it handles a flag-2
acknowledgment as the source of the path. -/
theorem processAck_atSource_lists (rx : AckReceived) (n n1 : Node) (r : Nat)
    (h : processAck.atSource rx n = some (r, n1)) :
    (n1.m_ackPair = [] ∨ n1.m_ackPair = recorded rx n) ∧
    (n1.m_blackList = n.m_blackList ∨
      ∃ back front, rx.nodeList.getLast? = some back ∧ rx.originalSender ≠ back ∧
        back ∉ recorded rx n ∧ (recorded rx n).head? = some front ∧
        front ∉ n.m_blackList ∧ n1.m_blackList = n.m_blackList ++ [front] ∧
        n1.m_ackPair = [] ∧ n.blacktries + 1 = (rx.nodeList.length + 2 ^ 16 - 2) % 2 ^ 16) := by
  unfold processAck.atSource at h
  cases hb : rx.nodeList.getLast? with
  | none => rw [hb] at h; simp at h
  | some back =>
    rw [hb] at h
    simp only at h
    generalize hcount : (rx.nodeList.length + 2 ^ 16 - 2) % 2 ^ 16 = count at h
    -- the node after the original sender was recorded
    have hrec : (if rx.originalSender ∈ n.m_ackPair then
          ({ n with blacktries := n.blacktries + 1 } : Node)
        else { n with blacktries := n.blacktries + 1,
                      m_ackPair := n.m_ackPair ++ [rx.originalSender] }) =
        { n with blacktries := n.blacktries + 1, m_ackPair := recorded rx n } := by
      unfold recorded
      by_cases hin : rx.originalSender ∈ n.m_ackPair
      · simp [hin]
      · simp [hin]
    rw [hrec] at h
    by_cases hc0 : count = 0
    · -- a path of two nodes: the list is cleared and nothing else happens
      subst hc0
      simp only [if_true] at h
      by_cases hs : rx.originalSender = back
      · simp only [hs, if_true, ne_eq, not_true_eq_false, if_false] at h
        split at h
        · simp only [Option.some.injEq, Prod.mk.injEq] at h
          obtain ⟨_, h⟩ := h
          subst h
          exact ⟨Or.inl rfl, Or.inl rfl⟩
        · simp only [Option.some.injEq, Prod.mk.injEq] at h
          obtain ⟨_, h⟩ := h
          subst h
          exact ⟨Or.inl rfl, Or.inl rfl⟩
      · simp only [hs, if_false] at h
        have hne : ¬ (n.blacktries + 1 = 0) := Nat.succ_ne_zero _
        rw [if_neg hne] at h
        simp only [Option.some.injEq, Prod.mk.injEq] at h
        obtain ⟨_, h⟩ := h
        subst h
        exact ⟨Or.inl rfl, Or.inl rfl⟩
    · simp only [hc0, if_false] at h
      by_cases hs : rx.originalSender = back
      · simp only [hs, if_true, ne_eq, not_true_eq_false, if_false] at h
        split at h
        · simp only [Option.some.injEq, Prod.mk.injEq] at h
          obtain ⟨_, h⟩ := h
          subst h
          exact ⟨Or.inl rfl, Or.inl rfl⟩
        · simp only [Option.some.injEq, Prod.mk.injEq] at h
          obtain ⟨_, h⟩ := h
          subst h
          exact ⟨Or.inl rfl, Or.inl rfl⟩
      · simp only [hs, if_false, ne_eq, not_false_eq_true, if_true] at h
        by_cases ht : n.blacktries + 1 = count
        · rw [if_pos ht] at h
          cases hh : handleBlackList (recorded rx n) rx.nodeList
              { n with blacktries := n.blacktries + 1, m_ackPair := recorded rx n } with
          | none => rw [hh] at h; simp at h
          | some n5 =>
            rw [hh] at h
            simp only [Option.some.injEq, Prod.mk.injEq] at h
            obtain ⟨_, h⟩ := h
            subst h
            obtain ⟨hp, _, _, hbl⟩ := handleBlackList_lists _ _ _ _ hh
            refine ⟨Or.inl hp, ?_⟩
            rcases hbl with hbl | ⟨back2, front, hb2, hnot, hfront, hnew, hbl⟩
            · exact Or.inl hbl
            · rw [hb] at hb2
              have e := Option.some.inj hb2
              subst e
              exact Or.inr ⟨back, front, rfl, hs, hnot, hfront, hnew, hbl, hp, ht⟩
        · rw [if_neg ht] at h
          simp only [Option.some.injEq, Prod.mk.injEq] at h
          obtain ⟨_, h⟩ := h
          subst h
          exact ⟨Or.inr rfl, Or.inl rfl⟩
theorem processAck_of_atSource (rx : AckReceived) (ipv4Address : Ipv4Address) (n : Node)
    (h : rx.atSource ipv4Address = true) :
    processAck rx ipv4Address n = processAck.atSource rx n := by
  unfold AckReceived.atSource at h
  simp only [decide_eq_true_eq] at h
  obtain ⟨h2, ht, hs⟩ := h
  unfold processAck
  simp [h2, ht, hs]

theorem processAck_atTarget_lists (rx : AckReceived) (ipv4Address : Ipv4Address) (n n1 : Node)
    (h : processAck.atTarget rx ipv4Address n = some n1) :
    n1.m_ackPair = n.m_ackPair ∧ n1.m_blackList = n.m_blackList := by
  unfold processAck.atTarget at h
  simp only at h
  generalize (if rx.nodeList.length = 2 then ReverseSearchNextHop ipv4Address rx.nodeList
    else ReverseSearchNextTwoHop ipv4Address rx.nodeList) = newTargetDst at h
  cases hn : ReverseSearchNextHop ipv4Address rx.nodeList with
  | none => rw [hn] at h; simp at h
  | some nexthop =>
    cases newTargetDst with
    | none => rw [hn] at h; simp at h
    | some newTarget =>
      rw [hn] at h
      simp only at h
      by_cases h1 : nexthop = noAddress
      · rw [if_pos h1] at h
        simp only [Option.some.injEq] at h
        subst h
        exact ⟨rfl, rfl⟩
      · rw [if_neg h1] at h
        by_cases h2 : newTarget ≠ noAddress
        · rw [if_pos h2] at h
          simp only [Option.some.injEq] at h
          subst h
          exact ⟨rfl, rfl⟩
        · rw [if_neg h2] at h
          simp only [Option.some.injEq] at h
          subst h
          exact ⟨rfl, rfl⟩

theorem processAck_pass_lists (rx : AckReceived) (ipv4Address : Ipv4Address) (n n1 : Node)
    (h : processAck.pass rx ipv4Address n = some n1) :
    n1.m_ackPair = n.m_ackPair ∧ n1.m_blackList = n.m_blackList := by
  unfold processAck.pass at h
  split at h
  · simp at h
  · simp only [Option.some.injEq] at h
    subst h
    exact ⟨rfl, rfl⟩

/-- An acknowledgment that is not handled as the source of the path leaves the
suspect state and the black list alone. -/
theorem processAck_other_lists (rx : AckReceived) (ipv4Address : Ipv4Address) (n n1 : Node)
    (r : Nat) (hk : rx.atSource ipv4Address = false)
    (h : processAck rx ipv4Address n = some (r, n1)) :
    n1.m_ackPair = n.m_ackPair ∧ n1.m_blackList = n.m_blackList := by
  unfold AckReceived.atSource at hk
  simp only [decide_eq_false_iff_not] at hk
  unfold processAck at h
  have hpre : ∀ m : Node, (m = (if rx.ackFlag = 1 then
      (n.call (Call.UpdateRouteEntry rx.realDst)).call
        (Call.CallCancelPacketTimer rx.ackId rx.realSrc rx.realDst) else n)) →
      m.m_ackPair = n.m_ackPair ∧ m.m_blackList = n.m_blackList := by
    intro m hm
    subst hm
    split
    · exact ⟨rfl, rfl⟩
    · exact ⟨rfl, rfl⟩
  generalize hm : (if rx.ackFlag = 1 then
      (n.call (Call.UpdateRouteEntry rx.realDst)).call
        (Call.CallCancelPacketTimer rx.ackId rx.realSrc rx.realDst) else n) = m at h
  obtain ⟨hm1, hm2⟩ := hpre m hm.symm
  simp only at h
  by_cases h2 : rx.ackFlag = 2
  · rw [if_pos h2] at h
    by_cases ht : rx.targetDst = ipv4Address
    · rw [if_pos ht] at h
      by_cases hs : rx.realSrc = ipv4Address
      · exact absurd ⟨h2, ht, hs⟩ hk
      · rw [if_neg hs] at h
        cases hr : processAck.atTarget rx ipv4Address m with
        | none => rw [hr] at h; simp at h
        | some n2 =>
          rw [hr] at h
          simp only [Option.map_some', Option.some.injEq, Prod.mk.injEq] at h
          obtain ⟨_, h⟩ := h
          subst h
          obtain ⟨a, b⟩ := processAck_atTarget_lists _ _ _ _ hr
          exact ⟨a.trans hm1, b.trans hm2⟩
    · rw [if_neg ht] at h
      cases hr : processAck.pass rx ipv4Address m with
      | none => rw [hr] at h; simp at h
      | some n2 =>
        rw [hr] at h
        simp only [Option.map_some', Option.some.injEq, Prod.mk.injEq] at h
        obtain ⟨_, h⟩ := h
        subst h
        obtain ⟨a, b⟩ := processAck_pass_lists _ _ _ _ hr
        exact ⟨a.trans hm1, b.trans hm2⟩
  · rw [if_neg h2] at h
    by_cases h3 : rx.ackFlag = 3
    · rw [if_pos h3] at h
      by_cases ht : rx.targetDst = ipv4Address
      · rw [if_pos ht] at h
        simp only [Option.some.injEq, Prod.mk.injEq] at h
        obtain ⟨_, h⟩ := h
        subst h
        exact ⟨hm1, hm2⟩
      · rw [if_neg ht] at h
        cases hr : processAck.pass rx ipv4Address m with
        | none => rw [hr] at h; simp at h
        | some n2 =>
          rw [hr] at h
          simp only [Option.map_some', Option.some.injEq, Prod.mk.injEq] at h
          obtain ⟨_, h⟩ := h
          subst h
          obtain ⟨a, b⟩ := processAck_pass_lists _ _ _ _ hr
          exact ⟨a.trans hm1, b.trans hm2⟩
    · rw [if_neg h3] at h
      simp only [Option.some.injEq, Prod.mk.injEq] at h
      obtain ⟨_, h⟩ := h
      subst h
      exact ⟨hm1, hm2⟩

theorem SuspectsOf_nil (n : Node) (h : n.m_ackPair = []) : SuspectsOf [] n := by
  unfold SuspectsOf
  rw [h]
  simp

/-- Recording the original sender keeps the suspect state in step with the
acknowledgments since the last reset. -/
theorem SuspectsOf_recorded (pending : List AckReceived) (rx : AckReceived) (n n1 : Node)
    (h : SuspectsOf pending n) (h1 : n1.m_ackPair = recorded rx n) :
    SuspectsOf (pending ++ [rx]) n1 := by
  obtain ⟨hmem, hhead⟩ := h
  unfold SuspectsOf
  rw [h1]
  constructor
  · intro a
    have hrec : a ∈ recorded rx n ↔ a ∈ n.m_ackPair ∨ a = rx.originalSender := by
      unfold recorded
      by_cases hin : rx.originalSender ∈ n.m_ackPair
      · rw [if_pos hin]
        constructor
        · exact Or.inl
        · rintro (h | h)
          · exact h
          · rw [h]; exact hin
      · rw [if_neg hin]
        simp
    rw [hrec, hmem a]
    constructor
    · rintro (⟨x, hx, he⟩ | he)
      · exact ⟨x, List.mem_append_left _ hx, he⟩
      · exact ⟨rx, by simp, he.symm⟩
    · rintro ⟨x, hx, he⟩
      rcases List.mem_append.mp hx with hx | hx
      · exact Or.inl ⟨x, hx, he⟩
      · simp only [List.mem_singleton] at hx
        subst hx
        exact Or.inr he.symm
  · cases hp : pending with
    | nil =>
      rw [hp] at hhead
      simp only [List.head?_nil, Option.map_none'] at hhead
      have hnil : n.m_ackPair = [] := by
        cases hl : n.m_ackPair with
        | nil => rfl
        | cons x xs => rw [hl] at hhead; simp at hhead
      unfold recorded
      simp [hnil]
    | cons x xs =>
      rw [hp] at hhead
      simp only [List.head?_cons, Option.map_some'] at hhead
      cases hl : n.m_ackPair with
      | nil => rw [hl] at hhead; simp at hhead
      | cons y ys =>
        rw [hl] at hhead
        simp only [List.head?_cons, Option.some.injEq] at hhead
        unfold recorded
        rw [hl]
        by_cases hin : rx.originalSender ∈ y :: ys
        · rw [if_pos hin]
          simp [hhead]
        · rw [if_neg hin]
          simp [hhead]

/-- One more acknowledgment keeps the suspect state in step. -/
theorem SuspectsOf_step (ipv4Address : Ipv4Address) (pending : List AckReceived)
    (rx : AckReceived) (n n1 : Node) (r : Nat) (h : SuspectsOf pending n)
    (hstep : processAck rx ipv4Address n = some (r, n1)) :
    SuspectsOf (if rx.atSource ipv4Address then
        (if n1.m_ackPair.isEmpty then [] else pending ++ [rx]) else pending) n1 := by
  by_cases hk : rx.atSource ipv4Address = true
  · rw [if_pos hk]
    rw [processAck_of_atSource rx ipv4Address n hk] at hstep
    obtain ⟨hp, _⟩ := processAck_atSource_lists rx n n1 r hstep
    by_cases he : n1.m_ackPair.isEmpty = true
    · rw [if_pos he]
      exact SuspectsOf_nil n1 (List.isEmpty_iff.mp he)
    · rw [if_neg he]
      rcases hp with hp | hp
      · rw [hp] at he
        exact absurd rfl he
      · exact SuspectsOf_recorded pending rx n n1 h hp
  · have hk2 : rx.atSource ipv4Address = false := by
      cases hv : rx.atSource ipv4Address with
      | true => exact absurd hv hk
      | false => rfl
    rw [hk2]
    simp only [Bool.false_eq_true, if_false]
    obtain ⟨ha, _⟩ := processAck_other_lists rx ipv4Address n n1 r hk2 hstep
    unfold SuspectsOf at h ⊢
    rw [ha]
    exact h

/-- The suspect state stays in step with the acknowledgments since its last
reset along every run of `processAck`. -/
theorem processAcks_suspects (ipv4Address : Ipv4Address) (acks : List AckReceived) :
    ∀ (st st1 : List AckReceived × Node), SuspectsOf st.1 st.2 →
      processAcks ipv4Address acks st = some st1 → SuspectsOf st1.1 st1.2 := by
  induction acks with
  | nil =>
    intro st st1 h hrun
    simp only [processAcks, Option.some.injEq] at hrun
    subst hrun
    exact h
  | cons rx rest ih =>
    intro st st1 h hrun
    unfold processAcks at hrun
    cases hstep : processAck rx ipv4Address st.2 with
    | none => rw [hstep] at hrun; simp at hrun
    | some r =>
      rw [hstep] at hrun
      simp only at hrun
      exact ih _ st1 (SuspectsOf_step ipv4Address st.1 rx st.2 r.2 r.1 h hstep) hrun

/-- C19 as stated fails in its last part: the source `1` of the path
`[1, 2, 3, 4]` receives the acknowledgment of `3` before that of the first hop
`2`, none from the destination `4`, and blacklists `3`, not the first hop. -/
theorem blacklisted_address_is_not_first_hop :
    ((processAck exampleAckFrom3 1 Node.init).bind
        (fun r => processAck exampleAckFrom2 1 r.2)).map (fun r => r.2.m_blackList)
      = some [3] ∧
    exampleAckFrom2.nodeList = [1, 2, 3, 4] ∧ exampleAckFrom3.nodeList = [1, 2, 3, 4] ∧
    exampleAckFrom2.nodeList[1]? = some 2 := by
  decide

/-- C19, amended.  Along every run of `processAck` from a state with an empty
suspect list, an acknowledgment adds an address to the black list only if it is
a flag-2 acknowledgment handled as the source of the path, and none of the
acknowledgments handled so since the suspect list was last reset, this one
included, has the final destination of its path as original sender.  The address
added is the original sender of the oldest of these acknowledgments; the
suspect list is reset in the same step. -/
theorem blacklist_only_without_destination_report (ipv4Address : Ipv4Address)
    (acks pending : List AckReceived) (n0 n n1 : Node) (rx : AckReceived) (r : Nat)
    (a : Ipv4Address) (h0 : n0.m_ackPair = [])
    (hrun : processAcks ipv4Address acks ([], n0) = some (pending, n))
    (hstep : processAck rx ipv4Address n = some (r, n1))
    (hnew : a ∈ n1.m_blackList) (hold : a ∉ n.m_blackList) :
    rx.atSource ipv4Address = true ∧
    (∃ dst, rx.nodeList.getLast? = some dst ∧
      ∀ x, x ∈ pending ++ [rx] → x.originalSender ≠ dst) ∧
    (pending ++ [rx]).head?.map AckReceived.originalSender = some a ∧
    n1.m_blackList = n.m_blackList ++ [a] ∧ n1.m_ackPair = [] := by
  have hinv : SuspectsOf pending n :=
    processAcks_suspects ipv4Address acks ([], n0) (pending, n) (SuspectsOf_nil n0 h0) hrun
  have hk : rx.atSource ipv4Address = true := by
    cases hv : rx.atSource ipv4Address with
    | true => rfl
    | false =>
      obtain ⟨_, hb⟩ := processAck_other_lists rx ipv4Address n n1 r hv hstep
      rw [hb] at hnew
      exact absurd hnew hold
  rw [processAck_of_atSource rx ipv4Address n hk] at hstep
  obtain ⟨_, hbl⟩ := processAck_atSource_lists rx n n1 r hstep
  rcases hbl with hbl | ⟨back, front, hb, hs, hnot, hfront, hfresh, hbl, hp, _⟩
  · rw [hbl] at hnew
    exact absurd hnew hold
  · have hrecd : SuspectsOf (pending ++ [rx]) { n with m_ackPair := recorded rx n } :=
      SuspectsOf_recorded pending rx n _ hinv rfl
    obtain ⟨hmem, hhead⟩ := hrecd
    simp only at hmem hhead
    have ha : a = front := by
      rw [hbl] at hnew
      rcases List.mem_append.mp hnew with h | h
      · exact absurd h hold
      · simpa using h
    subst ha
    refine ⟨hk, ⟨back, hb, fun x hx he => hnot ((hmem back).mpr ⟨x, hx, he⟩)⟩, ?_, hbl, hp⟩
    rw [← hhead, hfront]

/-- Witness of C19 amended: the run of the counterexample, in which `3` is the
original sender of the oldest acknowledgment since the reset. -/
theorem blacklist_only_without_destination_report_witness :
    exampleAckFrom2.atSource 1 = true ∧
    (∃ dst, exampleAckFrom2.nodeList.getLast? = some dst ∧
      ∀ x, x ∈ [exampleAckFrom3] ++ [exampleAckFrom2] → x.originalSender ≠ dst) ∧
    ([exampleAckFrom3] ++ [exampleAckFrom2]).head?.map AckReceived.originalSender = some 3 ∧
    ((processAck exampleAckFrom2 1
        ((processAcks 1 [exampleAckFrom3] ([], Node.init)).getD ([], Node.init)).2).getD
        (0, Node.init)).2.m_blackList = [] ++ [3] ∧
    ((processAck exampleAckFrom2 1
        ((processAcks 1 [exampleAckFrom3] ([], Node.init)).getD ([], Node.init)).2).getD
        (0, Node.init)).2.m_ackPair = [] :=
  blacklist_only_without_destination_report 1 [exampleAckFrom3] [exampleAckFrom3] Node.init
    ((processAcks 1 [exampleAckFrom3] ([], Node.init)).getD ([], Node.init)).2
    ((processAck exampleAckFrom2 1
        ((processAcks 1 [exampleAckFrom3] ([], Node.init)).getD ([], Node.init)).2).getD
        (0, Node.init)).2 exampleAckFrom2 30 3 rfl rfl rfl (by decide) (by decide)

/-! ### The routes `ProcessRrep` hands to the route cache: what holds -/

theorem RemoveDuplicates_loop_mem (i x : Ipv4Address) (vec : List Ipv4Address)
    (h : x ∈ RemoveDuplicates.loop i vec) : x ∈ vec ∨ x = i := by
  induction vec with
  | nil =>
    simp only [RemoveDuplicates.loop, List.mem_singleton] at h
    exact Or.inr h
  | cons j rest ih =>
    unfold RemoveDuplicates.loop at h
    by_cases hij : i = j
    · rw [if_pos hij] at h
      simp only [List.mem_singleton] at h
      exact Or.inl (by rw [h]; exact List.mem_cons_self _ _)
    · rw [if_neg hij] at h
      rcases List.mem_cons.mp h with h | h
      · exact Or.inl (by rw [h]; exact List.mem_cons_self _ _)
      · rcases ih h with h | h
        · exact Or.inl (List.mem_cons_of_mem _ h)
        · exact Or.inr h

theorem RemoveDuplicates_loop_nodup (i : Ipv4Address) (vec : List Ipv4Address)
    (h : vec.Nodup) : (RemoveDuplicates.loop i vec).Nodup := by
  induction vec with
  | nil => simp [RemoveDuplicates.loop]
  | cons j rest ih =>
    unfold RemoveDuplicates.loop
    by_cases hij : i = j
    · rw [if_pos hij]
      simp
    · rw [if_neg hij]
      obtain ⟨hj, hrest⟩ := List.nodup_cons.mp h
      refine List.nodup_cons.mpr ⟨fun hm => ?_, ih hrest⟩
      rcases RemoveDuplicates_loop_mem i j rest hm with h1 | h1
      · exact hj h1
      · exact hij h1.symm

/-- The vector left by `RemoveDuplicates` holds no address twice. -/
theorem RemoveDuplicates_nodup (vec : List Ipv4Address) : (RemoveDuplicates vec).Nodup := by
  unfold RemoveDuplicates
  have key : ∀ (l acc : List Ipv4Address), acc.Nodup →
      (l.foldl (fun acc i => RemoveDuplicates.loop i acc) acc).Nodup := by
    intro l
    induction l with
    | nil => intro acc h; exact h
    | cons x xs ih =>
      intro acc h
      exact ih _ (RemoveDuplicates_loop_nodup x acc h)
  exact key vec [] List.nodup_nil

theorem CutRoute_length_le (ipv4Address : Ipv4Address) (nodeList : List Ipv4Address) :
    (CutRoute ipv4Address nodeList).length ≤ nodeList.length := by
  induction nodeList with
  | nil => simp [CutRoute]
  | cons x rest ih =>
    unfold CutRoute
    split
    · exact Nat.le_refl _
    · exact Nat.le_trans ih (Nat.le_succ _)

/-- What does hold of the routes `ProcessRrep` hands to the route cache.  At
the final recipient the list handed over is the node list as left by
`RemoveDuplicates`: it holds no address twice, but may hold this node alone.
At an intermediate node a list is handed over only when the route cut at this
node has two addresses or more; the path cache gets the cut route, the link
cache the whole node list. -/
theorem ProcessRrep_cache_calls (cache : CacheAnswers) (rx : RrepReceived)
    (ipv4Address source : Ipv4Address) (protocol : Nat) (n n1 : Node) (r : Nat)
    (h : ProcessRrep cache rx ipv4Address source protocol n = some (r, n1))
    (route : List Ipv4Address) :
    (Call.AddRoute route ∈ n.since n1 →
      (rx.nodeList.head? = some ipv4Address ∧ route = RemoveDuplicates rx.nodeList ∧
        route.Nodup ∧ route ≠ []) ∨
      (rx.nodeList.head? ≠ some ipv4Address ∧ route = CutRoute ipv4Address rx.nodeList ∧
        2 ≤ route.length)) ∧
    (∀ node, Call.AddRoute_Link route node ∈ n.since n1 →
      node = ipv4Address ∧
      ((rx.nodeList.head? = some ipv4Address ∧ route = RemoveDuplicates rx.nodeList ∧
        route.Nodup ∧ route ≠ []) ∨
      (rx.nodeList.head? ≠ some ipv4Address ∧ route = rx.nodeList ∧ 2 ≤ route.length))) := by
  unfold ProcessRrep at h
  cases hh : rx.nodeList.head? with
  | none => rw [hh] at h; simp at h
  | some targetAddress =>
    rw [hh] at h
    simp only at h
    have hne : rx.nodeList ≠ [] := by
      intro h0
      rw [h0] at hh
      simp at hh
    by_cases ht : targetAddress = ipv4Address
    · -- the final recipient
      rw [if_pos ht] at h
      subst ht
      have hgood : RemoveDuplicates rx.nodeList = RemoveDuplicates rx.nodeList ∧
          (RemoveDuplicates rx.nodeList).Nodup ∧ RemoveDuplicates rx.nodeList ≠ [] :=
        ⟨rfl, RemoveDuplicates_nodup _, RemoveDuplicates_ne_nil _ hne⟩
      have hlen : (RemoveDuplicates rx.nodeList).length ≠ 0 := fun h0 =>
        hgood.2.2 (List.length_eq_zero.mp h0)
      -- every call made is the cache insertion or no cache insertion at all
      have hcalls : ∃ l, n1.trace = n.trace ++ l ∧
          (∀ rt, Call.AddRoute rt ∈ l → rt = RemoveDuplicates rx.nodeList) ∧
          (∀ rt nd, Call.AddRoute_Link rt nd ∈ l →
            rt = RemoveDuplicates rx.nodeList ∧ nd = targetAddress) := by
        unfold ProcessRrep.arrived at h
        simp only [hlen, if_false] at h
        cases hl : (RemoveDuplicates rx.nodeList).getLast? with
        | none => rw [hl] at h; simp at h
        | some dst =>
          cases hf : (RemoveDuplicates rx.nodeList).head? with
          | none => rw [hl, hf] at h; simp at h
          | some front =>
            rw [hl, hf] at h
            simp only at h
            by_cases hfr : front ≠ targetAddress
            · rw [if_pos hfr] at h; simp at h
            · rw [if_neg hfr] at h
              have hadd : ∃ c, addToCache cache (RemoveDuplicates rx.nodeList)
                    (RemoveDuplicates rx.nodeList) targetAddress n = n.call c ∧
                  (∀ rt, c = Call.AddRoute rt → rt = RemoveDuplicates rx.nodeList) ∧
                  (∀ rt nd, c = Call.AddRoute_Link rt nd →
                    rt = RemoveDuplicates rx.nodeList ∧ nd = targetAddress) := by
                unfold addToCache
                split
                · refine ⟨_, rfl, fun rt e => Call.noConfusion e, fun rt nd e => ?_⟩
                  simp only [Call.AddRoute_Link.injEq] at e
                  exact ⟨e.1.symm, e.2.symm⟩
                · refine ⟨_, rfl, fun rt e => ?_, fun rt nd e => Call.noConfusion e⟩
                  simp only [Call.AddRoute.injEq] at e
                  exact e.symm
              obtain ⟨c, hc, hc1, hc2⟩ := hadd
              rw [hc] at h
              by_cases ha : cache.addRoute = true
              · rw [if_pos ha] at h
                cases hs : SearchNextHop targetAddress (RemoveDuplicates rx.nodeList) with
                | none => rw [hs] at h; simp at h
                | some nextHop =>
                  rw [hs] at h
                  simp only at h
                  by_cases hz : nextHop = noAddress
                  · rw [if_pos hz] at h
                    simp only [Option.some.injEq, Prod.mk.injEq] at h
                    obtain ⟨_, h⟩ := h
                    subst h
                    refine ⟨[c, Call.PacketNewRoute targetAddress dst protocol], ?_, ?_, ?_⟩
                    · simp [call_trace]
                    · intro rt hm
                      simp only [List.mem_cons, List.mem_singleton, List.not_mem_nil,
                        or_false] at hm
                      rcases hm with hm | hm
                      · exact hc1 rt hm.symm
                      · exact Call.noConfusion hm
                    · intro rt nd hm
                      simp only [List.mem_cons, List.mem_singleton, List.not_mem_nil,
                        or_false] at hm
                      rcases hm with hm | hm
                      · exact hc2 rt nd hm.symm
                      · exact Call.noConfusion hm
                  · rw [if_neg hz] at h
                    simp only [Option.some.injEq, Prod.mk.injEq] at h
                    obtain ⟨_, h⟩ := h
                    subst h
                    refine ⟨[c, Call.SetRoute nextHop targetAddress,
                      Call.SendPacketFromBuffer (freshSourceRoute (RemoveDuplicates rx.nodeList))
                        nextHop protocol], ?_, ?_, ?_⟩
                    · simp [call_trace, CancelRreqTimer_trace]
                    · intro rt hm
                      simp only [List.mem_cons, List.mem_singleton, List.not_mem_nil,
                        or_false] at hm
                      rcases hm with hm | hm | hm
                      · exact hc1 rt hm.symm
                      · exact Call.noConfusion hm
                      · exact Call.noConfusion hm
                    · intro rt nd hm
                      simp only [List.mem_cons, List.mem_singleton, List.not_mem_nil,
                        or_false] at hm
                      rcases hm with hm | hm | hm
                      · exact hc2 rt nd hm.symm
                      · exact Call.noConfusion hm
                      · exact Call.noConfusion hm
              · rw [if_neg ha] at h
                simp only [Option.some.injEq, Prod.mk.injEq] at h
                obtain ⟨_, h⟩ := h
                subst h
                refine ⟨[c], rfl, ?_, ?_⟩
                · intro rt hm
                  simp only [List.mem_singleton] at hm
                  exact hc1 rt hm.symm
                · intro rt nd hm
                  simp only [List.mem_singleton] at hm
                  exact hc2 rt nd hm.symm
      obtain ⟨l, hl, h1, h2⟩ := hcalls
      rw [since_append n n1 l hl]
      refine ⟨fun hm => Or.inl ⟨rfl, ?_⟩, fun node hm => ⟨(h2 _ _ hm).2, Or.inl ⟨rfl, ?_⟩⟩⟩
      · rw [h1 route hm]
        exact hgood
      · rw [(h2 _ _ hm).1]
        exact hgood
    · -- an intermediate node
      rw [if_neg ht] at h
      have hhead : some targetAddress ≠ some ipv4Address := fun e => ht (Option.some.inj e)
      have hcalls : ∃ l, n1.trace = n.trace ++ l ∧
          (∀ rt, Call.AddRoute rt ∈ l →
            rt = CutRoute ipv4Address rx.nodeList ∧ 2 ≤ rt.length) ∧
          (∀ rt nd, Call.AddRoute_Link rt nd ∈ l →
            rt = rx.nodeList ∧ nd = ipv4Address ∧
              2 ≤ (CutRoute ipv4Address rx.nodeList).length) := by
        unfold ProcessRrep.relay at h
        by_cases hm : (rx.length + 254) % 256 % 2 ≠ 0
        · rw [if_pos hm] at h
          simp only [Option.some.injEq, Prod.mk.injEq] at h
          obtain ⟨_, h⟩ := h
          subst h
          refine ⟨[Call.Drop], rfl, fun rt hx => ?_, fun rt nd hx => ?_⟩
          · simp at hx
          · simp at hx
        · rw [if_neg hm] at h
          simp only at h
          -- the node after the cache insertion
          have hmid : ∃ l0, (if (CutRoute ipv4Address rx.nodeList).length ≥ 2 then
                match (CutRoute ipv4Address rx.nodeList).getLast? with
                | none => n
                | some dst =>
                  if cache.addRoute = true then
                    CancelRreqTimer dst true (addToCache cache rx.nodeList
                      (CutRoute ipv4Address rx.nodeList) ipv4Address n)
                  else addToCache cache rx.nodeList (CutRoute ipv4Address rx.nodeList)
                    ipv4Address n
              else n).trace = n.trace ++ l0 ∧
              (∀ rt, Call.AddRoute rt ∈ l0 →
                rt = CutRoute ipv4Address rx.nodeList ∧ 2 ≤ rt.length) ∧
              (∀ rt nd, Call.AddRoute_Link rt nd ∈ l0 →
                rt = rx.nodeList ∧ nd = ipv4Address ∧
                  2 ≤ (CutRoute ipv4Address rx.nodeList).length) := by
            by_cases h2 : (CutRoute ipv4Address rx.nodeList).length ≥ 2
            · rw [if_pos h2]
              have hadd : ∃ c, addToCache cache rx.nodeList
                    (CutRoute ipv4Address rx.nodeList) ipv4Address n = n.call c ∧
                  (∀ rt, c = Call.AddRoute rt → rt = CutRoute ipv4Address rx.nodeList) ∧
                  (∀ rt nd, c = Call.AddRoute_Link rt nd →
                    rt = rx.nodeList ∧ nd = ipv4Address) := by
                unfold addToCache
                split
                · refine ⟨_, rfl, fun rt e => Call.noConfusion e, fun rt nd e => ?_⟩
                  simp only [Call.AddRoute_Link.injEq] at e
                  exact ⟨e.1.symm, e.2.symm⟩
                · refine ⟨_, rfl, fun rt e => ?_, fun rt nd e => Call.noConfusion e⟩
                  simp only [Call.AddRoute.injEq] at e
                  exact e.symm
              obtain ⟨c, hc, hc1, hc2⟩ := hadd
              cases hl : (CutRoute ipv4Address rx.nodeList).getLast? with
              | none =>
                exact ⟨[], by simp, fun rt hx => by simp at hx, fun rt nd hx => by simp at hx⟩
              | some dst =>
                simp only
                rw [hc]
                refine ⟨[c], ?_, fun rt hx => ?_, fun rt nd hx => ?_⟩
                · split
                  · rw [CancelRreqTimer_trace]
                    rfl
                  · rfl
                · simp only [List.mem_singleton] at hx
                  have e := hc1 rt hx.symm
                  rw [e]
                  exact ⟨rfl, h2⟩
                · simp only [List.mem_singleton] at hx
                  exact ⟨(hc2 rt nd hx.symm).1, (hc2 rt nd hx.symm).2, h2⟩
            · rw [if_neg h2]
              exact ⟨[], by simp, fun rt hx => by simp at hx, fun rt nd hx => by simp at hx⟩
          obtain ⟨l0, hl0, ha, hb⟩ := hmid
          cases hr : ReverseSearchNextHop ipv4Address rx.nodeList with
          | none => rw [hr] at h; simp at h
          | some nextHop =>
            cases hg : rx.nodeList.getLast? with
            | none => rw [hr, hg] at h; simp at h
            | some back =>
              rw [hr, hg] at h
              simp only at h
              by_cases hbs : back ≠ source
              · rw [if_pos hbs] at h; simp at h
              · rw [if_neg hbs] at h
                simp only [Option.some.injEq, Prod.mk.injEq] at h
                obtain ⟨_, h⟩ := h
                subst h
                refine ⟨l0 ++ [Call.SetRoute nextHop ipv4Address,
                  Call.SendReply rx.nodeList nextHop], ?_, fun rt hx => ?_, fun rt nd hx => ?_⟩
                · simp only [call_trace]
                  rw [← List.append_assoc n.trace, ← hl0, List.append_assoc]
                  rfl
                · rcases List.mem_append.mp hx with hx | hx
                  · exact ha rt hx
                  · simp at hx
                · rcases List.mem_append.mp hx with hx | hx
                  · exact hb rt nd hx
                  · simp at hx
      obtain ⟨l, hl, h1, h2⟩ := hcalls
      rw [since_append n n1 l hl]
      refine ⟨fun hm => Or.inr ⟨hhead, h1 route hm⟩, fun node hm => ?_⟩
      obtain ⟨e1, e2, e3⟩ := h2 route node hm
      refine ⟨e2, Or.inr ⟨hhead, e1, ?_⟩⟩
      rw [e1]
      exact Nat.le_trans e3 (CutRoute_length_le _ _)

/-! ### The dispatcher: `PriorityScheduler` -/

theorem Egress_since_append (e e1 : Egress) (l : List Dispatch)
    (h : e1.trace = e.trace ++ l) : e.since e1 = l := by
  unfold Egress.since
  rw [h, List.drop_left]

theorem lookups_append (l l2 : List Dispatch) : lookups (l ++ l2) = lookups l ++ lookups l2 := by
  unfold lookups
  rw [List.filterMap_append]

theorem dequeued_append (l l2 : List Dispatch) :
    dequeued (l ++ l2) = dequeued l ++ dequeued l2 := by
  unfold dequeued
  rw [List.filterMap_append]

theorem sentDown_append (l l2 : List Dispatch) :
    sentDown (l ++ l2) = sentDown l ++ sentDown l2 := by
  unfold sentDown
  rw [List.filterMap_append]

theorem set_same (qs : List (List DsrNetworkQueueEntry)) (i : Nat)
    (q : List DsrNetworkQueueEntry) (hq : qs[i]? = some q) : qs.set i q = qs := by
  induction qs generalizing i with
  | nil => simp
  | cons x xs ih =>
    cases i with
    | zero =>
      simp only [List.getElem?_cons_zero, Option.some.injEq] at hq
      subst hq
      rfl
    | succ j =>
      simp only [List.getElem?_cons_succ] at hq
      simp only [List.set_cons_succ, ih j hq]

theorem sum_length_set_le (qs : List (List DsrNetworkQueueEntry)) (i : Nat)
    (q r : List DsrNetworkQueueEntry) (hq : qs[i]? = some q) (hr : r.length ≤ q.length) :
    ((qs.set i r).map List.length).sum ≤ (qs.map List.length).sum := by
  induction qs generalizing i with
  | nil => simp
  | cons x xs ih =>
    cases i with
    | zero =>
      simp only [List.getElem?_cons_zero, Option.some.injEq] at hq
      subst hq
      simp only [List.set_cons_zero, List.map_cons, List.sum_cons]
      omega
    | succ j =>
      simp only [List.getElem?_cons_succ] at hq
      simp only [List.set_cons_succ, List.map_cons, List.sum_cons]
      have := ih j hq
      omega

/-- What `IncreaseRetransTimer` leaves alone. -/
theorem IncreaseRetransTimer_queues (cfg : EgressConfig) (e e1 : Egress)
    (h : IncreaseRetransTimer cfg e = some e1) :
    e1.m_priorityQueue = e.m_priorityQueue ∧ e1.trace = e.trace := by
  unfold IncreaseRetransTimer at h
  dsimp only at h
  split at h
  · simp at h
  · simp only [Option.some.injEq] at h
    subst h
    exact ⟨rfl, rfl⟩

/-- With a queue for the data packets `IncreaseRetransTimer` returns. -/
theorem IncreaseRetransTimer_returns (cfg : EgressConfig) (e : Egress)
    (h : 2 ≤ e.m_priorityQueue.length) : ∃ e1, IncreaseRetransTimer cfg e = some e1 := by
  unfold IncreaseRetransTimer
  dsimp only
  have h1 : GetPriority DsrMessageType.DSR_DATA_PACKET < e.m_priorityQueue.length := by
    have : GetPriority DsrMessageType.DSR_DATA_PACKET = 1 := rfl
    omega
  rw [List.getElem?_eq_getElem h1]
  exact ⟨_, rfl⟩

/-- One iteration of the loop: the queue `i` is looked up, and when it is not
empty its oldest entry is taken and handed to `SendRealDown`; no other queue
changes. -/
theorem PriorityScheduler_body_spec (cfg : EgressConfig) (i : Nat) (e : Egress)
    (hi : i < e.m_priorityQueue.length)
    (hN : 2 ≤ e.m_priorityQueue.length ∨ totalQueueSize e ≤ 5) :
    ∃ e1 l, PriorityScheduler.body cfg i e = some e1 ∧ e1.trace = e.trace ++ l ∧
      e1.m_priorityQueue = e.m_priorityQueue.set i (e.m_priorityQueue.getD i []).tail ∧
      lookups l = [i] ∧
      sentDown l = (e.m_priorityQueue.getD i []).head?.toList ∧
      dequeued l = (if (e.m_priorityQueue.getD i []).isEmpty = true then [] else [i]) ∧
      totalQueueSize e1 ≤ totalQueueSize e := by
  have hget : e.m_priorityQueue[i]? = some (e.m_priorityQueue.getD i []) := by
    rw [List.getD_eq_getElem?_getD, List.getElem?_eq_getElem hi]
    rfl
  unfold PriorityScheduler.body
  simp only [Egress.emit]
  rw [hget]
  cases hq : e.m_priorityQueue.getD i [] with
  | nil =>
    refine ⟨_, [Dispatch.find i], rfl, rfl, ?_, rfl, rfl, rfl, Nat.le_refl _⟩
    rw [hq] at hget
    exact (set_same _ i [] hget).symm
  | cons newEntry rest =>
    simp only [DsrNetworkQueue.Dequeue, List.tail_cons, List.head?_cons, Option.toList_some,
      Option.map_some']
    rw [hq] at hget
    have htot : (((e.m_priorityQueue.set i rest).map List.length).sum) ≤
        (e.m_priorityQueue.map List.length).sum :=
      sum_length_set_le _ i (newEntry :: rest) rest hget (by simp)
    have htotal : ∀ tr, totalQueueSize (Egress.mk e.m_priorityQueue e.m_addressForwardTimer tr) =
        totalQueueSize e := fun _ => rfl
    rw [htotal]
    by_cases h5 : totalQueueSize e > 5
    · rw [if_pos h5]
      have h2 : 2 ≤ e.m_priorityQueue.length := by
        rcases hN with h | h
        · exact h
        · omega
      obtain ⟨e1, he1⟩ := IncreaseRetransTimer_returns cfg
        (Egress.mk e.m_priorityQueue e.m_addressForwardTimer
          (e.trace ++ [Dispatch.find i] ++ [Dispatch.IncreaseRetransTimer])) h2
      obtain ⟨hq1, ht1⟩ := IncreaseRetransTimer_queues cfg _ e1 he1
      rw [he1]
      refine ⟨_, [Dispatch.find i, Dispatch.IncreaseRetransTimer, Dispatch.Dequeue i newEntry,
        Dispatch.SendRealDown newEntry, Dispatch.SchedulePriorityScheduler i false],
        rfl, ?_, ?_, rfl, rfl, rfl, ?_⟩
      · simp [ht1]
      · simp [hq1]
      · simp only [totalQueueSize, hq1]
        exact htot
    · rw [if_neg h5]
      refine ⟨_, [Dispatch.find i, Dispatch.Dequeue i newEntry,
        Dispatch.SendRealDown newEntry, Dispatch.SchedulePriorityScheduler i false],
        rfl, ?_, rfl, rfl, rfl, rfl, ?_⟩
      · simp
      · simp only [totalQueueSize]
        exact htot
theorem getD_set_queue (qs : List (List DsrNetworkQueueEntry)) (i j : Nat)
    (r : List DsrNetworkQueueEntry) (hi : i < qs.length) :
    (qs.set i r).getD j [] = if j = i then r else qs.getD j [] := by
  rw [List.getD_eq_getElem?_getD, List.getD_eq_getElem?_getD]
  by_cases hji : j = i
  · subst hji
    rw [if_pos rfl, List.getElem?_set_self hi]
    rfl
  · rw [if_neg hji, List.getElem?_set_ne (fun h => hji h.symm)]

/-- The loop of the dispatcher: it looks up the queues of `visits` in that
order, takes the oldest entry of each one that is not empty and hands these to
`SendRealDown` in that order. -/
theorem PriorityScheduler_loop_spec (cfg : EgressConfig) (continueWithFirst : Bool) :
    ∀ (k i : Nat) (e : Egress),
      (∀ j, j ∈ PriorityScheduler.visits cfg continueWithFirst k i →
        j < e.m_priorityQueue.length) →
      (PriorityScheduler.visits cfg continueWithFirst k i).Nodup →
      (2 ≤ e.m_priorityQueue.length ∨ totalQueueSize e ≤ 5) →
      ∃ e1 l, PriorityScheduler.loop cfg continueWithFirst k i e = some e1 ∧
        e1.trace = e.trace ++ l ∧
        e1.m_priorityQueue.length = e.m_priorityQueue.length ∧
        lookups l = PriorityScheduler.visits cfg continueWithFirst k i ∧
        sentDown l = (PriorityScheduler.visits cfg continueWithFirst k i).filterMap
          (fun j => (e.m_priorityQueue.getD j []).head?) ∧
        dequeued l = (PriorityScheduler.visits cfg continueWithFirst k i).filter
          (fun j => !(e.m_priorityQueue.getD j []).isEmpty) ∧
        (∀ j, e1.m_priorityQueue.getD j [] =
          if j ∈ PriorityScheduler.visits cfg continueWithFirst k i then
            (e.m_priorityQueue.getD j []).tail
          else e.m_priorityQueue.getD j []) := by
  intro k
  induction k with
  | zero =>
    intro i e _ _ _
    refine ⟨e, [], rfl, by simp, rfl, rfl, rfl, rfl, fun j => ?_⟩
    simp [PriorityScheduler.visits]
  | succ k ih =>
    intro i e hv hnd hN
    simp only [PriorityScheduler.visits] at hv hnd ⊢
    have hi : i < e.m_priorityQueue.length := hv i (List.mem_cons_self _ _)
    obtain ⟨hnot, hnd2⟩ := List.nodup_cons.mp hnd
    obtain ⟨e1, l1, hb, ht1, hq1, hl1, hs1, hd1, htot⟩ :=
      PriorityScheduler_body_spec cfg i e hi hN
    have hlen1 : e1.m_priorityQueue.length = e.m_priorityQueue.length := by
      rw [hq1, List.length_set]
    have hN1 : 2 ≤ e1.m_priorityQueue.length ∨ totalQueueSize e1 ≤ 5 := by
      rcases hN with h | h
      · exact Or.inl (by omega)
      · exact Or.inr (by omega)
    obtain ⟨e2, l2, hloop, ht2, hlen2, hl2, hs2, hd2, hq2⟩ :=
      ih (PriorityScheduler.next cfg continueWithFirst i) e1
        (fun j hj => by rw [hlen1]; exact hv j (List.mem_cons_of_mem _ hj)) hnd2 hN1
    have hsame : ∀ j, j ∈ PriorityScheduler.visits cfg continueWithFirst k
        (PriorityScheduler.next cfg continueWithFirst i) →
        e1.m_priorityQueue.getD j [] = e.m_priorityQueue.getD j [] := by
      intro j hj
      have hji : j ≠ i := fun h => hnot (h ▸ hj)
      rw [hq1, getD_set_queue _ i j _ hi, if_neg hji]
    refine ⟨e2, l1 ++ l2, ?_, ?_, by omega, ?_, ?_, ?_, fun j => ?_⟩
    · simp only [PriorityScheduler.loop, hb]
      exact hloop
    · rw [ht2, ht1, List.append_assoc]
    · rw [lookups_append, hl1, hl2]
      rfl
    · rw [sentDown_append, hs1, hs2, List.filterMap_cons]
      have hcongr : List.filterMap (fun j => (e1.m_priorityQueue.getD j []).head?)
          (PriorityScheduler.visits cfg continueWithFirst k
            (PriorityScheduler.next cfg continueWithFirst i)) =
          List.filterMap (fun j => (e.m_priorityQueue.getD j []).head?)
          (PriorityScheduler.visits cfg continueWithFirst k
            (PriorityScheduler.next cfg continueWithFirst i)) := by
        apply List.filterMap_congr
        intro j hj
        rw [hsame j hj]
      rw [hcongr]
      cases (e.m_priorityQueue.getD i []).head? with
      | none => rfl
      | some x => rfl
    · rw [dequeued_append, hd1, hd2, List.filter_cons]
      have hcongr : List.filter (fun j => !(e1.m_priorityQueue.getD j []).isEmpty)
          (PriorityScheduler.visits cfg continueWithFirst k
            (PriorityScheduler.next cfg continueWithFirst i)) =
          List.filter (fun j => !(e.m_priorityQueue.getD j []).isEmpty)
          (PriorityScheduler.visits cfg continueWithFirst k
            (PriorityScheduler.next cfg continueWithFirst i)) := by
        apply List.filter_congr
        intro j hj
        rw [hsame j hj]
      rw [hcongr]
      cases hempty : (e.m_priorityQueue.getD i []).isEmpty with
      | true => simp
      | false => simp
    · rw [hq2 j]
      by_cases hji : j = i
      · subst hji
        rw [if_neg hnot, if_pos (List.mem_cons_self _ _), hq1, getD_set_queue _ j j _ hi,
          if_pos rfl]
      · have hiff : (j ∈ i :: PriorityScheduler.visits cfg continueWithFirst k
            (PriorityScheduler.next cfg continueWithFirst i)) ↔
            j ∈ PriorityScheduler.visits cfg continueWithFirst k
              (PriorityScheduler.next cfg continueWithFirst i) := by
          simp [hji]
        have hj1 : e1.m_priorityQueue.getD j [] = e.m_priorityQueue.getD j [] := by
          rw [hq1, getD_set_queue _ i j _ hi, if_neg hji]
        rw [hj1]
        by_cases hm : j ∈ PriorityScheduler.visits cfg continueWithFirst k
            (PriorityScheduler.next cfg continueWithFirst i)
        · rw [if_pos hm, if_pos (hiff.mpr hm)]
        · rw [if_neg hm, if_neg (fun h => hm (hiff.mp h))]

/-- Without `continueWithFirst` the loop walks upwards from `i`. -/
theorem visits_upwards (cfg : EgressConfig) :
    ∀ (k i : Nat), PriorityScheduler.visits cfg false k i = List.range' i k := by
  intro k
  induction k with
  | zero => intro i; rfl
  | succ k ih =>
    intro i
    simp only [PriorityScheduler.visits, PriorityScheduler.next, Bool.false_eq_true, and_false,
      if_false, ih, List.range'_succ]

/-- With `continueWithFirst` the loop walks round the queues from `i`. -/
theorem visits_round (cfg : EgressConfig) :
    ∀ (k i : Nat), i < cfg.m_numPriorityQueues →
      PriorityScheduler.visits cfg true k i =
        (List.range k).map (fun t => (i + t) % cfg.m_numPriorityQueues) := by
  intro k
  induction k with
  | zero => intro i _; rfl
  | succ k ih =>
    intro i hi
    have hnext : PriorityScheduler.next cfg true i = (i + 1) % cfg.m_numPriorityQueues := by
      unfold PriorityScheduler.next
      by_cases hlast : i = cfg.m_numPriorityQueues - 1
      · rw [if_pos ⟨hlast, rfl⟩]
        have : i + 1 = cfg.m_numPriorityQueues := by omega
        rw [this, Nat.mod_self]
      · rw [if_neg (fun h => hlast h.1)]
        exact (Nat.mod_eq_of_lt (by omega)).symm
    have hlt : PriorityScheduler.next cfg true i < cfg.m_numPriorityQueues := by
      rw [hnext]
      exact Nat.mod_lt _ (by omega)
    simp only [PriorityScheduler.visits]
    rw [ih _ hlt, List.range_succ_eq_map, List.map_cons, List.map_map]
    congr 1
    · simp [Nat.mod_eq_of_lt hi]
    · apply List.map_congr_left
      intro t _
      simp only [Function.comp, hnext]
      rw [Nat.mod_add_mod]
      congr 1
      omega

theorem visits_round_lt (cfg : EgressConfig) (k i j : Nat) (hi : i < cfg.m_numPriorityQueues)
    (hj : j ∈ PriorityScheduler.visits cfg true k i) : j < cfg.m_numPriorityQueues := by
  rw [visits_round cfg k i hi] at hj
  obtain ⟨t, _, rfl⟩ := List.mem_map.mp hj
  exact Nat.mod_lt _ (by omega)

theorem visits_round_nodup (cfg : EgressConfig) (k i : Nat) (hi : i < cfg.m_numPriorityQueues)
    (hk : k ≤ cfg.m_numPriorityQueues) : (PriorityScheduler.visits cfg true k i).Nodup := by
  rw [visits_round cfg k i hi]
  refine List.Nodup.map_on ?_ (List.nodup_range k)
  intro a ha b hb hab
  have ha2 : a < cfg.m_numPriorityQueues := Nat.lt_of_lt_of_le (List.mem_range.mp ha) hk
  have hb2 : b < cfg.m_numPriorityQueues := Nat.lt_of_lt_of_le (List.mem_range.mp hb) hk
  have hmod : a ≡ b [MOD cfg.m_numPriorityQueues] := Nat.ModEq.add_left_cancel' i hab
  have := Nat.ModEq.eq_of_lt_of_lt hmod ha2 hb2
  exact this
/-! ### C21: where the dispatch starts -/

/-- C21 as stated fails: with a control packet and a data packet queued,
`Scheduler (1)` (the call `SendPacket` makes after queueing a data packet)
looks up queue 1 first and hands the data packet to `SendRealDown` before the
control packet. -/
theorem scheduler_sends_data_before_control :
    (Scheduler exampleEgressConfig 1 exampleBothQueued).map (fun e => lookups e.trace)
      = some [1, 0] ∧
    (Scheduler exampleEgressConfig 1 exampleBothQueued).map (fun e => sentDown e.trace)
      = some [exampleData, exampleControl] ∧
    exampleBothQueued.m_priorityQueue = [[exampleControl], [exampleData]] := by
  decide

theorem range_two_le (N : Nat) (h : 2 ≤ N) : List.range N = 0 :: 1 :: List.range' 2 (N - 2) := by
  obtain ⟨n, rfl⟩ : ∃ n, N = n + 2 := ⟨N - 2, by omega⟩
  rw [List.range_eq_range', List.range'_succ, List.range'_succ]
  simp

/-- C21, amended.  With `N ≥ 2` queues and `p < N`, `Scheduler (p)` looks the
queues up in round-robin order beginning with queue `p` (then `p + 1`, …,
`N - 1`, `0`, …, `p - 1`), each once; it takes the oldest packet of every queue
that is not empty, one from each, and hands these to `SendRealDown` in that
order.  So the control packet goes before the data packet when the dispatch
starts at the control queue (`p = 0`). -/
theorem dispatch_starts_at_given_priority (cfg : EgressConfig) (p : Nat) (e : Egress)
    (hlen : e.m_priorityQueue.length = cfg.m_numPriorityQueues)
    (hN : 2 ≤ cfg.m_numPriorityQueues) (hp : p < cfg.m_numPriorityQueues) :
    ∃ e1, Scheduler cfg p e = some e1 ∧
      lookups (e.since e1) =
        (List.range cfg.m_numPriorityQueues).map (fun t => (p + t) % cfg.m_numPriorityQueues) ∧
      sentDown (e.since e1) =
        ((List.range cfg.m_numPriorityQueues).map
          (fun t => (p + t) % cfg.m_numPriorityQueues)).filterMap
          (fun j => (e.m_priorityQueue.getD j []).head?) ∧
      (∀ j, e1.m_priorityQueue.getD j [] = (e.m_priorityQueue.getD j []).tail) ∧
      (p = 0 → ∀ c d, (e.m_priorityQueue.getD 0 []).head? = some c →
        (e.m_priorityQueue.getD 1 []).head? = some d →
        ∃ rest, sentDown (e.since e1) = c :: d :: rest) := by
  have hv : ∀ j, j ∈ PriorityScheduler.visits cfg true cfg.m_numPriorityQueues p →
      j < e.m_priorityQueue.length := fun j hj => by
    rw [hlen]
    exact visits_round_lt cfg _ p j hp hj
  obtain ⟨e1, l, hrun, ht, _, hl, hs, _, hq⟩ :=
    PriorityScheduler_loop_spec cfg true cfg.m_numPriorityQueues p e hv
      (visits_round_nodup cfg _ p hp (Nat.le_refl _)) (Or.inl (by omega))
  rw [visits_round cfg _ p hp] at hl hs hq
  refine ⟨e1, ?_, ?_, ?_, fun j => ?_, ?_⟩
  · simp only [Scheduler, PriorityScheduler, if_true, Nat.sub_zero]
    exact hrun
  · rw [Egress_since_append e e1 l ht]
    exact hl
  · rw [Egress_since_append e e1 l ht]
    exact hs
  · rw [hq j]
    by_cases hj : j < cfg.m_numPriorityQueues
    · rw [if_pos]
      refine List.mem_map.mpr ⟨(j + cfg.m_numPriorityQueues - p) % cfg.m_numPriorityQueues,
        List.mem_range.mpr (Nat.mod_lt _ (by omega)), ?_⟩
      rw [Nat.add_mod_mod]
      have : p + (j + cfg.m_numPriorityQueues - p) = j + cfg.m_numPriorityQueues := by omega
      rw [this, Nat.add_mod_right, Nat.mod_eq_of_lt hj]
    · have hnil : e.m_priorityQueue.getD j [] = [] := by
        rw [List.getD_eq_getElem?_getD, List.getElem?_eq_none (by omega)]
        rfl
      rw [hnil]
      simp
  · intro hp0 c d hc hd
    subst hp0
    rw [Egress_since_append e e1 l ht, hs]
    have hmap : (List.range cfg.m_numPriorityQueues).map
        (fun t => (0 + t) % cfg.m_numPriorityQueues) = List.range cfg.m_numPriorityQueues := by
      conv_rhs => rw [← List.map_id (List.range cfg.m_numPriorityQueues)]
      apply List.map_congr_left
      intro t ht
      simp [Nat.mod_eq_of_lt (List.mem_range.mp ht)]
    rw [hmap, range_two_le _ hN]
    simp only [List.filterMap_cons, hc, hd]
    exact ⟨_, rfl⟩

/-- Witness of C21 amended: with both queues holding one packet, `Scheduler (0)`
sends the control packet first. -/
theorem dispatch_starts_at_given_priority_witness :
    ∃ e1, Scheduler exampleEgressConfig 0 exampleBothQueued = some e1 ∧
      lookups (exampleBothQueued.since e1) =
        (List.range exampleEgressConfig.m_numPriorityQueues).map
          (fun t => (0 + t) % exampleEgressConfig.m_numPriorityQueues) ∧
      sentDown (exampleBothQueued.since e1) =
        ((List.range exampleEgressConfig.m_numPriorityQueues).map
          (fun t => (0 + t) % exampleEgressConfig.m_numPriorityQueues)).filterMap
          (fun j => (exampleBothQueued.m_priorityQueue.getD j []).head?) ∧
      (∀ j, e1.m_priorityQueue.getD j [] = (exampleBothQueued.m_priorityQueue.getD j []).tail) ∧
      (0 = 0 → ∀ c d, (exampleBothQueued.m_priorityQueue.getD 0 []).head? = some c →
        (exampleBothQueued.m_priorityQueue.getD 1 []).head? = some d →
        ∃ rest, sentDown (exampleBothQueued.since e1) = c :: d :: rest) :=
  dispatch_starts_at_given_priority exampleEgressConfig 0 exampleBothQueued rfl (by decide)
    (by decide)

/-! ### The loop of the dispatcher on any state -/

/-- The loop of `PriorityScheduler` on any state with `N` queues, when there are
two queues or more, or at most 5 packets queued: with `p < N` the call returns
after `N` loop iterations (`N - p` without `continueWithFirst`); the indices it
looks up are all smaller than `N`; no queue is looked up twice; and no queue
loses more than one packet. -/
theorem PriorityScheduler_bounded (cfg : EgressConfig) (p : Nat) (continueWithFirst : Bool)
    (e : Egress) (hlen : e.m_priorityQueue.length = cfg.m_numPriorityQueues)
    (hp : p < cfg.m_numPriorityQueues)
    (hN : 2 ≤ cfg.m_numPriorityQueues ∨ totalQueueSize e ≤ 5) :
    ∃ e1, PriorityScheduler cfg p continueWithFirst e = some e1 ∧
      (lookups (e.since e1)).length =
        (if continueWithFirst = true then cfg.m_numPriorityQueues
         else cfg.m_numPriorityQueues - p) ∧
      (lookups (e.since e1)).length ≤ cfg.m_numPriorityQueues ∧
      (∀ i, i ∈ lookups (e.since e1) → i < cfg.m_numPriorityQueues) ∧
      (lookups (e.since e1)).Nodup ∧
      (dequeued (e.since e1)).Nodup ∧
      (∀ i, i ∈ dequeued (e.since e1) → i ∈ lookups (e.since e1)) ∧
      (∀ i, (e.m_priorityQueue.getD i []).length ≤ (e1.m_priorityQueue.getD i []).length + 1) := by
  have key : ∀ k, (∀ j, j ∈ PriorityScheduler.visits cfg continueWithFirst k p →
        j < cfg.m_numPriorityQueues) →
      (PriorityScheduler.visits cfg continueWithFirst k p).Nodup →
      (PriorityScheduler.visits cfg continueWithFirst k p).length = k →
      k ≤ cfg.m_numPriorityQueues →
      ∃ e1, PriorityScheduler.loop cfg continueWithFirst k p e = some e1 ∧
        (lookups (e.since e1)).length = k ∧
        (lookups (e.since e1)).length ≤ cfg.m_numPriorityQueues ∧
        (∀ i, i ∈ lookups (e.since e1) → i < cfg.m_numPriorityQueues) ∧
        (lookups (e.since e1)).Nodup ∧
        (dequeued (e.since e1)).Nodup ∧
        (∀ i, i ∈ dequeued (e.since e1) → i ∈ lookups (e.since e1)) ∧
        (∀ i, (e.m_priorityQueue.getD i []).length ≤
          (e1.m_priorityQueue.getD i []).length + 1) := by
    intro k hv hnd hlenk hk
    obtain ⟨e1, l, hrun, ht, _, hl, _, hd, hq⟩ :=
      PriorityScheduler_loop_spec cfg continueWithFirst k p e
        (fun j hj => by rw [hlen]; exact hv j hj) hnd (by rw [hlen]; exact hN)
    refine ⟨e1, hrun, ?_⟩
    rw [Egress_since_append e e1 l ht, hl, hd]
    refine ⟨hlenk, by omega, hv, hnd, hnd.filter _, fun i hi =>
      (List.mem_filter.mp hi).1, fun i => ?_⟩
    rw [hq i]
    split
    · rw [List.length_tail]
      omega
    · omega
  cases continueWithFirst with
  | true =>
    simp only [PriorityScheduler, if_true, Nat.sub_zero]
    refine key cfg.m_numPriorityQueues (fun j hj => visits_round_lt cfg _ p j hp hj)
      (visits_round_nodup cfg _ p hp (Nat.le_refl _)) ?_ (Nat.le_refl _)
    rw [visits_round cfg _ p hp]
    simp
  | false =>
    simp only [PriorityScheduler, Bool.false_eq_true, if_false]
    refine key (cfg.m_numPriorityQueues - p) (fun j hj => ?_) ?_ ?_ (Nat.sub_le _ _)
    · rw [visits_upwards] at hj
      have := (List.mem_range'_1.mp hj).2
      omega
    · rw [visits_upwards]
      exact List.nodup_range' _ _
    · rw [visits_upwards]
      simp

/-! ### The states in which the dispatcher is called -/

theorem replicate_set_getD (N p j : Nat) (q : List DsrNetworkQueueEntry) (hp : p < N) :
    ((List.replicate N ([] : List DsrNetworkQueueEntry)).set p q).getD j [] =
      if j = p then q else [] := by
  rw [getD_set_queue _ p j q (by simpa using hp)]
  by_cases h : j = p
  · rw [if_pos h, if_pos h]
  · rw [if_neg h, if_neg h, List.getD_eq_getElem?_getD]
    by_cases hj : j < N
    · simp [List.getElem?_replicate, hj]
    · simp [List.getElem?_replicate, hj]

theorem queues_eq_replicate (qs : List (List DsrNetworkQueueEntry)) (N : Nat)
    (hlen : qs.length = N) (h : ∀ j, qs.getD j [] = []) : qs = List.replicate N [] := by
  apply List.ext_getElem
  · simp [hlen]
  · intro n h1 h2
    have := h n
    rw [List.getD_eq_getElem?_getD, List.getElem?_eq_getElem h1] at this
    simpa using this

theorem totalQueueSize_replicate (N : Nat) (t : NetworkKey → Option Timer) (tr : List Dispatch) :
    totalQueueSize (Egress.mk (List.replicate N []) t tr) = 0 := by
  unfold totalQueueSize
  induction N with
  | zero => rfl
  | succ n ih =>
    simp only [List.replicate_succ, List.map_cons, List.sum_cons, List.length_nil, Nat.zero_add]
    exact ih

theorem sum_length_set_replicate (N p : Nat) (q : List DsrNetworkQueueEntry) (hp : p < N) :
    ((((List.replicate N ([] : List DsrNetworkQueueEntry)).set p q)).map List.length).sum =
      q.length := by
  induction N generalizing p with
  | zero => omega
  | succ n ih =>
    cases p with
    | zero =>
      simp only [List.replicate_succ, List.set_cons_zero, List.map_cons, List.sum_cons]
      have := totalQueueSize_replicate n (fun _ => none) []
      unfold totalQueueSize at this
      simp only at this
      omega
    | succ p =>
      simp only [List.replicate_succ, List.set_cons_succ, List.map_cons, List.sum_cons,
        List.length_nil, Nat.zero_add]
      exact ih p (by omega)

/-- With `continueWithFirst` a full round from `p` visits every queue. -/
theorem visits_round_all (cfg : EgressConfig) (p j : Nat) (hp : p < cfg.m_numPriorityQueues)
    (hj : j < cfg.m_numPriorityQueues) :
    j ∈ PriorityScheduler.visits cfg true cfg.m_numPriorityQueues p := by
  rw [visits_round cfg _ p hp, List.mem_map]
  by_cases h : p ≤ j
  · refine ⟨j - p, List.mem_range.mpr (by omega), ?_⟩
    have : p + (j - p) = j := by omega
    rw [this, Nat.mod_eq_of_lt hj]
  · refine ⟨j + cfg.m_numPriorityQueues - p, List.mem_range.mpr (by omega), ?_⟩
    have : p + (j + cfg.m_numPriorityQueues - p) = j + cfg.m_numPriorityQueues := by omega
    rw [this, Nat.add_mod_right, Nat.mod_eq_of_lt hj]

/-- The loop of the dispatcher over empty queues takes nothing. -/
theorem PriorityScheduler_loop_empty (cfg : EgressConfig) (continueWithFirst : Bool) :
    ∀ (k i : Nat) (e e1 : Egress),
      (∀ (j : Nat) (q : List DsrNetworkQueueEntry), e.m_priorityQueue[j]? = some q → q = []) →
      PriorityScheduler.loop cfg continueWithFirst k i e = some e1 →
      e1.m_priorityQueue = e.m_priorityQueue := by
  intro k
  induction k with
  | zero =>
    intro i e e1 _ h
    simp only [PriorityScheduler.loop, Option.some.injEq] at h
    subst h
    rfl
  | succ k ih =>
    intro i e e1 hempty h
    simp only [PriorityScheduler.loop] at h
    cases hb : PriorityScheduler.body cfg i e with
    | none => simp [hb] at h
    | some e0 =>
      rw [hb] at h
      have h0 : e0.m_priorityQueue = e.m_priorityQueue := by
        unfold PriorityScheduler.body at hb
        simp only [Egress.emit] at hb
        cases hq : e.m_priorityQueue[i]? with
        | none => simp [hq] at hb
        | some q =>
          rw [hq] at hb
          have hnil := hempty i q hq
          subst hnil
          simp only [DsrNetworkQueue.Dequeue, Option.some.injEq] at hb
          subst hb
          rfl
      rw [ih _ e0 e1 (by rw [h0]; exact hempty) h, h0]

theorem replicate_getElem?_nil (N j : Nat) (q : List DsrNetworkQueueEntry)
    (h : (List.replicate N ([] : List DsrNetworkQueueEntry))[j]? = some q) : q = [] := by
  rw [List.getElem?_replicate] at h
  split at h
  · exact (Option.some.inj h).symm
  · simp at h

/-- Between two events every queue is empty: whatever was queued has been handed
to `SendRealDown` by the `Scheduler` call that followed the enqueue. -/
theorem Idle_queues (cfg : EgressConfig) (m_maxNetworkSize : Nat) (e : Egress)
    (h : Idle cfg m_maxNetworkSize e) :
    e.m_priorityQueue = Start.priorityQueues cfg.m_numPriorityQueues := by
  induction h with
  | start timers => rfl
  | timers e timers _ ih => exact ih
  | scheduled e e1 i _ hrun ih =>
    simp only [PriorityScheduler] at hrun
    rw [PriorityScheduler_loop_empty cfg false _ _ e e1 ?_ hrun, ih]
    intro j q hq
    rw [ih] at hq
    exact replicate_getElem?_nil _ j q hq
  | queued e e1 messageType newEntry _ hrun ih =>
    unfold queueAndSchedule at hrun
    simp only at hrun
    cases hq : e.m_priorityQueue[GetPriority messageType]? with
    | none => simp [hq] at hrun
    | some q =>
      rw [hq] at hrun
      simp only at hrun
      have hqnil : q = [] := by
        rw [ih] at hq
        exact replicate_getElem?_nil _ _ q hq
      subst hqnil
      have hp : GetPriority messageType < cfg.m_numPriorityQueues := by
        have := (List.getElem?_eq_some.mp hq).1
        rw [ih] at this
        simpa [Start.priorityQueues] using this
      unfold DsrNetworkQueue.Enqueue at hrun
      by_cases hadm : ([] : List DsrNetworkQueueEntry).length < m_maxNetworkSize
      · rw [if_pos hadm] at hrun
        simp only [if_true, List.nil_append] at hrun
        unfold Scheduler PriorityScheduler at hrun
        simp only [if_true, Nat.sub_zero] at hrun
        rw [ih] at hrun
        have hlen0 : ((Start.priorityQueues cfg.m_numPriorityQueues).set
            (GetPriority messageType) [newEntry]).length = cfg.m_numPriorityQueues := by
          simp [Start.priorityQueues]
        obtain ⟨e2, l, hrun2, _, hlen2, _, _, _, hq2⟩ :=
          PriorityScheduler_loop_spec cfg true cfg.m_numPriorityQueues (GetPriority messageType)
            (Egress.mk ((Start.priorityQueues cfg.m_numPriorityQueues).set
              (GetPriority messageType) [newEntry]) e.m_addressForwardTimer e.trace)
            (fun j hj => by
              rw [hlen0]
              exact visits_round_lt cfg _ _ j hp hj)
            (visits_round_nodup cfg _ _ hp (Nat.le_refl _))
            (Or.inr (by
              unfold totalQueueSize
              simp only [Start.priorityQueues]
              rw [sum_length_set_replicate _ _ _ hp]
              simp))
        rw [hrun2] at hrun
        have heq : e2 = e1 := Option.some.inj hrun
        subst heq
        apply queues_eq_replicate _ _ (by rw [hlen2]; exact hlen0)
        intro j
        rw [hq2 j]
        simp only [Start.priorityQueues]
        rw [replicate_set_getD _ _ j _ hp]
        by_cases hj : j < cfg.m_numPriorityQueues
        · rw [if_pos (visits_round_all cfg _ j hp hj)]
          split <;> rfl
        · have hjp : j ≠ GetPriority messageType := by omega
          rw [if_neg hjp]
          split <;> rfl
      · rw [if_neg hadm] at hrun
        simp only [Bool.false_eq_true, if_false, Option.some.injEq] at hrun
        subst hrun
        exact ih

/-- In every state in which `PriorityScheduler` is called there are the queues
`Start` made, and at most one packet is queued. -/
theorem Called_queues (cfg : EgressConfig) (m_maxNetworkSize : Nat) (e : Egress)
    (h : Called cfg m_maxNetworkSize e) :
    e.m_priorityQueue.length = cfg.m_numPriorityQueues ∧ totalQueueSize e ≤ 1 := by
  cases h with
  | scheduled _ hidle =>
    have hq := Idle_queues cfg m_maxNetworkSize e hidle
    unfold totalQueueSize
    rw [hq]
    have := totalQueueSize_replicate cfg.m_numPriorityQueues (fun _ => none) []
    unfold totalQueueSize at this
    simp only at this
    simp only [Start.priorityQueues]
    exact ⟨by simp, by omega⟩
  | admitted e0 messageType newEntry q hidle hq hadm =>
    have hqs := Idle_queues cfg m_maxNetworkSize e0 hidle
    have hqnil : q = [] := by
      rw [hqs] at hq
      exact replicate_getElem?_nil _ _ q hq
    subst hqnil
    have hp : GetPriority messageType < cfg.m_numPriorityQueues := by
      have := (List.getElem?_eq_some.mp hq).1
      rw [hqs] at this
      simpa [Start.priorityQueues] using this
    unfold totalQueueSize
    simp only [hqs, Start.priorityQueues]
    rw [sum_length_set_replicate _ _ _ hp]
    refine ⟨by simp, ?_⟩
    unfold DsrNetworkQueue.Enqueue
    split <;> simp

/-- Each place that queues a packet either finds the queue full and changes
nothing, or calls `Scheduler` in a state of `Called`. -/
theorem queueAndSchedule_calls (cfg : EgressConfig) (m_maxNetworkSize : Nat)
    (messageType : DsrMessageType) (newEntry : DsrNetworkQueueEntry) (e e1 : Egress)
    (hidle : Idle cfg m_maxNetworkSize e)
    (h : queueAndSchedule cfg m_maxNetworkSize messageType newEntry e = some e1) :
    e1 = e ∨ ∃ e0, Called cfg m_maxNetworkSize e0 ∧
      Scheduler cfg (GetPriority messageType) e0 = some e1 := by
  unfold queueAndSchedule at h
  simp only at h
  cases hq : e.m_priorityQueue[GetPriority messageType]? with
  | none => simp [hq] at h
  | some q =>
    rw [hq] at h
    simp only at h
    by_cases hadm : (DsrNetworkQueue.Enqueue m_maxNetworkSize q newEntry).1 = true
    · rw [if_pos hadm] at h
      exact Or.inr ⟨_, Called.admitted e messageType newEntry q hidle hq hadm, h⟩
    · rw [if_neg hadm] at h
      exact Or.inl (Option.some.inj h).symm

/-- With a queue for the message type, the place that queues a packet returns. -/
theorem queueAndSchedule_returns (cfg : EgressConfig) (m_maxNetworkSize : Nat)
    (messageType : DsrMessageType) (newEntry : DsrNetworkQueueEntry) (e : Egress)
    (hidle : Idle cfg m_maxNetworkSize e)
    (hp : GetPriority messageType < cfg.m_numPriorityQueues) :
    ∃ e1, queueAndSchedule cfg m_maxNetworkSize messageType newEntry e = some e1 := by
  have hqs := Idle_queues cfg m_maxNetworkSize e hidle
  have hq : e.m_priorityQueue[GetPriority messageType]? = some [] := by
    rw [hqs]
    simp [Start.priorityQueues, List.getElem?_replicate, hp]
  unfold queueAndSchedule
  simp only [hq]
  by_cases hadm : (DsrNetworkQueue.Enqueue m_maxNetworkSize [] newEntry).1 = true
  · rw [if_pos hadm]
    obtain ⟨hlen, htot⟩ := Called_queues cfg m_maxNetworkSize _
      (Called.admitted e messageType newEntry [] hidle hq hadm)
    obtain ⟨e1, hrun, _⟩ := PriorityScheduler_bounded cfg (GetPriority messageType) true _
      hlen hp (Or.inr (by omega))
    exact ⟨e1, hrun⟩
  · rw [if_neg hadm]
    exact ⟨e, rfl⟩

/-! ### C29: the loop of the dispatcher -/

/-- C29.  For every number of queues `N ≥ 1`, every priority `p < N` and both
values of `continueWithFirst`, a call of `PriorityScheduler (p,
continueWithFirst)` in a state in which the program calls it returns after `N`
loop iterations (`N - p` without `continueWithFirst`), so at most `N`; the
indices it looks up are all smaller than `N`, so every lookup succeeds; no queue
is looked up twice; and no queue loses more than one packet. -/
theorem dispatcher_loop_bounded (cfg : EgressConfig) (m_maxNetworkSize : Nat) (p : Nat)
    (continueWithFirst : Bool) (e : Egress) (hcall : Called cfg m_maxNetworkSize e)
    (hp : p < cfg.m_numPriorityQueues) :
    ∃ e1, PriorityScheduler cfg p continueWithFirst e = some e1 ∧
      (lookups (e.since e1)).length =
        (if continueWithFirst = true then cfg.m_numPriorityQueues
         else cfg.m_numPriorityQueues - p) ∧
      (lookups (e.since e1)).length ≤ cfg.m_numPriorityQueues ∧
      (∀ i, i ∈ lookups (e.since e1) → i < cfg.m_numPriorityQueues) ∧
      (lookups (e.since e1)).Nodup ∧
      (dequeued (e.since e1)).Nodup ∧
      (∀ i, i ∈ dequeued (e.since e1) → i ∈ lookups (e.since e1)) ∧
      (∀ i, (e.m_priorityQueue.getD i []).length ≤ (e1.m_priorityQueue.getD i []).length + 1) := by
  obtain ⟨hlen, htot⟩ := Called_queues cfg m_maxNetworkSize e hcall
  exact PriorityScheduler_bounded cfg p continueWithFirst e hlen hp (Or.inr (by omega))

/-- Witness of C29: a single queue (`N = 1`), which has just admitted a control
packet; `Scheduler (0)` runs the loop once. -/
theorem dispatcher_loop_bounded_witness :
    ∃ e1, PriorityScheduler exampleOneQueueConfig 0 true exampleControlAdmitted = some e1 ∧
      (lookups (exampleControlAdmitted.since e1)).length =
        (if true = true then exampleOneQueueConfig.m_numPriorityQueues
         else exampleOneQueueConfig.m_numPriorityQueues - 0) ∧
      (lookups (exampleControlAdmitted.since e1)).length ≤
        exampleOneQueueConfig.m_numPriorityQueues ∧
      (∀ i, i ∈ lookups (exampleControlAdmitted.since e1) →
        i < exampleOneQueueConfig.m_numPriorityQueues) ∧
      (lookups (exampleControlAdmitted.since e1)).Nodup ∧
      (dequeued (exampleControlAdmitted.since e1)).Nodup ∧
      (∀ i, i ∈ dequeued (exampleControlAdmitted.since e1) →
        i ∈ lookups (exampleControlAdmitted.since e1)) ∧
      (∀ i, (exampleControlAdmitted.m_priorityQueue.getD i []).length ≤
        (e1.m_priorityQueue.getD i []).length + 1) :=
  dispatcher_loop_bounded exampleOneQueueConfig 400 0 true exampleControlAdmitted
    (Called.admitted (Egress.mk (Start.priorityQueues 1) (fun _ => none) [])
      DsrMessageType.DSR_CONTROL_PACKET exampleControl [] (Idle.start _) rfl rfl)
    (by decide)

/-! ### C22: the congestion backoff -/

/-- What `CancelPacketTimerNextHop` does for the maintenance-buffer entry it
removes for the unreachable next hop: exactly one unreachable route error is
issued; its unreachable node is that next hop, its original destination the
destination of the packet, its salvage count the one carried by the packet.
With a second address `nodeList[1]` in the packet's source route, the error
destination is the source of the buffered packet when the salvage count is 0,
and `nodeList[1]` when it is not. -/
theorem CancelPacketTimerNextHop_route_error (nextHop : Ipv4Address) (protocol : Nat)
    (s : State) (entry : DsrMaintainBuffEntry) (buf : List DsrMaintainBuffEntry)
    (address1 : Ipv4Address)
    (hd : DsrMaintainBuffer.Dequeue s.m_maintainBuffer nextHop = some (entry, buf))
    (h1 : entry.packet.sourceRoute.nodesAddress[1]? = some address1) :
    entry.nextHop = nextHop ∧ entry ∈ s.m_maintainBuffer ∧
    (∃ l errorDst, (CancelPacketTimerNextHop nextHop protocol s).trace = s.trace ++ l ∧
      routeErrors l = [Event.SendUnreachError nextHop (some errorDst) entry.dst
        entry.packet.sourceRoute.salvage protocol] ∧
      (entry.packet.sourceRoute.salvage = 0 → errorDst = entry.src) ∧
      (entry.packet.sourceRoute.salvage ≠ 0 → errorDst = address1)) := by
  have hfind : s.m_maintainBuffer.find? (fun i => decide (i.nextHop = nextHop)) = some entry := by
    unfold DsrMaintainBuffer.Dequeue at hd
    split at hd
    · simp at hd
    · rename_i e he
      simp only [Option.some.injEq, Prod.mk.injEq] at hd
      rw [he, hd.1]
  refine ⟨by simpa using List.find?_some hfind, List.mem_of_find?_eq_some hfind, ?_⟩
  unfold CancelPacketTimerNextHop
  simp only [State.emit]
  rw [hd]
  simp only
  unfold CancelPacketTimerNextHop.withEntry
  simp only [State.emit, CancelPacketAllTimer_trace]
  have herr : ∃ errorDst, CancelPacketTimerNextHop.errorDst entry = some errorDst ∧
      (entry.packet.sourceRoute.salvage = 0 → errorDst = entry.src) ∧
      (entry.packet.sourceRoute.salvage ≠ 0 → errorDst = address1) := by
    unfold CancelPacketTimerNextHop.errorDst
    rw [h1]
    by_cases h0 : entry.packet.sourceRoute.salvage = 0
    · exact ⟨entry.src, by simp [h0], fun _ => rfl, fun h => absurd h0 h⟩
    · exact ⟨address1, by simp [h0], fun h => absurd h h0, fun _ => rfl⟩
  obtain ⟨errorDst, he, h0, hs⟩ := herr
  rw [he]
  split
  · exact ⟨[Event.CancelPacketTimerNextHop nextHop,
      Event.SendUnreachError nextHop (some errorDst) entry.dst
        entry.packet.sourceRoute.salvage protocol,
      Event.SalvagePacket entry.packet entry.src entry.dst protocol,
      Event.ScheduleCancelPacketTimerNextHop nextHop protocol],
      errorDst, by simp, rfl, h0, hs⟩
  · exact ⟨[Event.CancelPacketTimerNextHop nextHop,
      Event.SendUnreachError nextHop (some errorDst) entry.dst
        entry.packet.sourceRoute.salvage protocol,
      Event.SalvagePacket entry.packet entry.src entry.dst protocol],
      errorDst, by simp, rfl, h0, hs⟩

/-- C23 at a forwarding node.  Node `5` receives the packet that `4` salvaged
along `[4, 5, 6, 7]`, and `processSr` hands it to `ForwardPacket` with the first
address of the route, `4`, as the source; the entry is buffered for the next
hop `6` with that source.  When the link to `6` is given up, the one route
error issued names `6` as unreachable and is addressed to `nodeList[1] = 5`,
the forwarding node itself: not to the source `4` of the buffered packet, the
"first address in the route" of the comment at lines 2394-2397. -/
theorem route_error_of_salvaged_packet_to_second_address :
    processSr false exampleSalvagedAt5 5 7 false =
      some (SrOutcome.ForwardPacket exampleSalvagedRoute 4 6 7) ∧
    exampleSalvagedForwarded.m_maintainBuffer = [exampleSalvagedEntry] ∧
    exampleSalvagedEntry.src = 4 ∧ exampleSalvagedEntry.nextHop = 6 ∧
    exampleSalvagedEntry.packet.sourceRoute.salvage = 1 ∧
    exampleSalvagedEntry.packet.sourceRoute.nodesAddress.head? = some 4 ∧
    exampleConfigAt5.m_mainAddress = 5 ∧
    routeErrors exampleSalvagedRun.trace = [Event.SendUnreachError 6 (some 5) 7 1 17] := by
  decide

/-! ### C27: `RemoveDuplicates` is loop erasure -/

theorem RemoveDuplicates_loop_head (i : Ipv4Address) (vec : List Ipv4Address) (h : vec ≠ []) :
    (RemoveDuplicates.loop i vec).head? = vec.head? := by
  cases vec with
  | nil => exact absurd rfl h
  | cons j rest =>
    unfold RemoveDuplicates.loop
    split <;> rfl

theorem RemoveDuplicates_loop_last (i : Ipv4Address) (vec : List Ipv4Address) :
    (RemoveDuplicates.loop i vec).getLast? = some i := by
  induction vec with
  | nil => rfl
  | cons j rest ih =>
    unfold RemoveDuplicates.loop
    by_cases hij : i = j
    · rw [if_pos hij, hij]
      rfl
    · rw [if_neg hij]
      cases hl : RemoveDuplicates.loop i rest with
      | nil => exact absurd hl (RemoveDuplicates_loop_ne_nil i rest)
      | cons y ys =>
        rw [hl] at ih
        rw [List.getLast?_cons_cons]
        exact ih

theorem RemoveDuplicates_foldl_head (xs : List Ipv4Address) :
    ∀ acc : List Ipv4Address, acc ≠ [] →
      (xs.foldl (fun acc i => RemoveDuplicates.loop i acc) acc).head? = acc.head? := by
  induction xs with
  | nil => intro acc _; rfl
  | cons x xs ih =>
    intro acc h
    rw [List.foldl_cons, ih _ (RemoveDuplicates_loop_ne_nil x acc),
      RemoveDuplicates_loop_head x acc h]

/-- C27. `RemoveDuplicates` is loop erasure: for a non-empty address list the
result holds no address twice and has the first element and the last element of
the list it was given. -/
theorem RemoveDuplicates_loop_erasure (v : List Ipv4Address) (h : v ≠ []) :
    (RemoveDuplicates v).Nodup ∧ (RemoveDuplicates v).head? = v.head? ∧
    (RemoveDuplicates v).getLast? = v.getLast? ∧ RemoveDuplicates v ≠ [] := by
  refine ⟨RemoveDuplicates_nodup v, ?_, ?_, RemoveDuplicates_ne_nil v h⟩
  · cases v with
    | nil => exact absurd rfl h
    | cons x xs =>
      unfold RemoveDuplicates
      rw [List.foldl_cons]
      exact RemoveDuplicates_foldl_head xs _ (RemoveDuplicates_loop_ne_nil x [])
  · obtain ⟨init, last, rfl⟩ : ∃ init last, v = init ++ [last] :=
      ⟨v.dropLast, v.getLast h, (List.dropLast_append_getLast h).symm⟩
    unfold RemoveDuplicates
    rw [List.foldl_append]
    simp only [List.foldl_cons, List.foldl_nil]
    rw [RemoveDuplicates_loop_last]
    simp

/-- Witness of C27: the reply `[1, 2, 3, 2, 4]` is shortened to `[1, 2, 4]`. -/
theorem RemoveDuplicates_loop_erasure_witness :
    (RemoveDuplicates [1, 2, 3, 2, 4]).Nodup ∧
    (RemoveDuplicates [1, 2, 3, 2, 4]).head? = [1, 2, 3, 2, 4].head? ∧
    (RemoveDuplicates [1, 2, 3, 2, 4]).getLast? = [1, 2, 3, 2, 4].getLast? ∧
    RemoveDuplicates [1, 2, 3, 2, 4] ≠ [] :=
  RemoveDuplicates_loop_erasure [1, 2, 3, 2, 4] (by decide)
/-! ### C30: the two next-hop computations of `processSr` -/

/-- C30. The two next-hop computations in `processSr` agree.  On a route with
no repeated address, of `N ≥ 3` addresses with the address count of the header
equal to `N` (a `uint8_t`, so `N < 256`), at the intermediate node of index `i`
(`1 ≤ i ≤ N - 2`) receiving segments-left `N - 1 - i`: the index
`numberAddress - segsLeft` is `i + 1` and in range, the address read there is
the one `SearchNextHop` returns for this node, and it is the address the packet
is forwarded to unless it is the sentinel `0.0.0.0` or a multicast address. -/
theorem next_hop_computations_agree (rx : SrReceived) (self : Ipv4Address) (i : Nat)
    (destAddress realSrc target : Ipv4Address)
    (hnd : rx.nodeList.Nodup) (hN : 3 ≤ rx.nodeList.length)
    (hcnt : rx.numberAddress = rx.nodeList.length) (h8 : rx.numberAddress < 2 ^ 8)
    (hi1 : 1 ≤ i) (hi2 : i + 2 ≤ rx.nodeList.length) (hself : rx.nodeList[i]? = some self)
    (hseg : rx.segsLeft = rx.nodeList.length - 1 - i) :
    (rx.numberAddress - rx.segsLeft) % 2 ^ 8 = i + 1 ∧
    (rx.numberAddress - rx.segsLeft) % 2 ^ 8 < rx.nodeList.length ∧
    ∃ a, rx.nodeList[(rx.numberAddress - rx.segsLeft) % 2 ^ 8]? = some a ∧
      rx.nodeList[i + 1]? = some a ∧
      SearchNextHop self rx.nodeList = some a ∧
      processSr.forward rx self destAddress realSrc target =
        some (if a = noAddress then SrOutcome.PacketNewRoute realSrc target
          else if IsMulticast a = true ∨ IsMulticast destAddress = true then
            SrOutcome.multicastDrop
          else SrOutcome.ForwardPacket
            { nodesAddress := rx.nodeList, segmentsLeft := (rx.segsLeft + 2 ^ 8 - 1) % 2 ^ 8,
              salvage := rx.salvage, ackFlag := rx.ackFlag } realSrc a target) := by
  have hidx : (rx.numberAddress - rx.segsLeft) % 2 ^ 8 = i + 1 := by
    have h1 : rx.numberAddress - rx.segsLeft = i + 1 := by omega
    rw [h1]
    exact Nat.mod_eq_of_lt (by omega)
  have hlt : i + 1 < rx.nodeList.length := by omega
  have hnext : rx.nodeList[i + 1]? = some (rx.nodeList.get ⟨i + 1, hlt⟩) := by
    rw [List.get_eq_getElem]
    exact List.getElem?_eq_getElem hlt
  have hsearch : SearchNextHop self rx.nodeList = some (rx.nodeList.get ⟨i + 1, hlt⟩) := by
    rw [SearchNextHop_of_nodup rx.nodeList i self (by omega) hnd hself hlt]
    exact hnext
  have hne : self ≠ rx.nodeList.get ⟨i + 1, hlt⟩ := by
    intro e
    have h1 : rx.nodeList[i + 1]? = some self := by rw [hnext, ← e]
    have := List.getElem?_inj (by omega) hnd (hself.trans h1.symm)
    omega
  refine ⟨hidx, by rw [hidx]; exact hlt, rx.nodeList.get ⟨i + 1, hlt⟩, by rw [hidx]; exact hnext,
    hnext, hsearch, ?_⟩
  unfold processSr.forward
  simp only [hidx, hnext, hsearch]
  by_cases h0 : rx.nodeList.get ⟨i + 1, hlt⟩ = noAddress
  · rw [if_pos h0, if_pos h0]
  · rw [if_neg h0, if_neg h0, if_neg hne]
    by_cases hm : IsMulticast (rx.nodeList.get ⟨i + 1, hlt⟩) = true ∨
        IsMulticast destAddress = true
    · rw [if_pos hm, if_pos hm]
    · rw [if_neg hm, if_neg hm]

/-- Witness of C30: node `2` on the route `[1, 2, 3]` with segments-left 1. -/
theorem next_hop_computations_agree_witness :
    (exampleAtI.numberAddress - exampleAtI.segsLeft) % 2 ^ 8 = 1 + 1 ∧
    (exampleAtI.numberAddress - exampleAtI.segsLeft) % 2 ^ 8 < exampleAtI.nodeList.length ∧
    ∃ a, exampleAtI.nodeList[(exampleAtI.numberAddress - exampleAtI.segsLeft) % 2 ^ 8]? = some a ∧
      exampleAtI.nodeList[1 + 1]? = some a ∧
      SearchNextHop 2 exampleAtI.nodeList = some a ∧
      processSr.forward exampleAtI 2 2 1 3 =
        some (if a = noAddress then SrOutcome.PacketNewRoute 1 3
          else if IsMulticast a = true ∨ IsMulticast 2 = true then
            SrOutcome.multicastDrop
          else SrOutcome.ForwardPacket
            { nodesAddress := exampleAtI.nodeList,
              segmentsLeft := (exampleAtI.segsLeft + 2 ^ 8 - 1) % 2 ^ 8,
              salvage := exampleAtI.salvage, ackFlag := exampleAtI.ackFlag } 1 a 3) :=
  next_hop_computations_agree exampleAtI 2 1 2 1 3 (by decide) (by decide) rfl (by decide)
    (by decide) (by decide) rfl rfl

/-! ### C24: the route of the gratuitous reply -/

theorem SendGratuitousReply_before_append (x : Ipv4Address) (rest : List Ipv4Address) :
    ∀ pre : List Ipv4Address, x ∉ pre →
      SendGratuitousReply.before x (pre ++ x :: rest) = pre := by
  intro pre
  induction pre with
  | nil => intro _; simp [SendGratuitousReply.before]
  | cons y ys ih =>
    intro h
    have hy : y ≠ x := fun e => h (e ▸ List.mem_cons_self _ _)
    have hys : x ∉ ys := fun hm => h (List.mem_cons_of_mem _ hm)
    simp [SendGratuitousReply.before, hy, ih hys]

theorem CutRoute_append (x : Ipv4Address) (rest : List Ipv4Address) :
    ∀ pre : List Ipv4Address, x ∉ pre → CutRoute x (pre ++ x :: rest) = x :: rest := by
  intro pre
  induction pre with
  | nil => intro _; simp [CutRoute]
  | cons y ys ih =>
    intro h
    have hy : y ≠ x := fun e => h (e ▸ List.mem_cons_self _ _)
    have hys : x ∉ ys := fun hm => h (List.mem_cons_of_mem _ hm)
    simp [CutRoute, hy, ih hys]

theorem getLast?_append_cons (b : Ipv4Address) (post : List Ipv4Address) :
    ∀ A : List Ipv4Address, (A ++ b :: post).getLast? = (b :: post).getLast? := by
  intro A
  induction A with
  | nil => rfl
  | cons a A ih =>
    cases hA : A ++ b :: post with
    | nil => simp at hA
    | cons y ys =>
      rw [List.cons_append, hA, List.getLast?_cons_cons, ← hA]
      exact ih

/-- C24 as stated fails: node `3` overhears a packet with the source route
`[1, 2, 3, 4]` sent to `2`, whose IP source address `9` is not on the route;
the route placed in the gratuitous reply is `[1, 2, 3, 4, 9, 3, 4]`, longer than
the overheard route and with `3` and `4` twice. -/
theorem gratuitous_reply_longer_route :
    ContainAddressAfter 3 2 [1, 2, 3, 4] = true ∧
    (processSr.shorten 3 false [1, 2, 3, 4] 3 9 2 Node.init).trace
      = [Call.SetRoute 9 3, Call.SendReply [1, 2, 3, 4, 9, 3, 4] 9] ∧
    [1, 2, 3, 4].length < [1, 2, 3, 4, 9, 3, 4].length ∧
    [1, 2, 3, 4, 9, 3, 4].count 3 = 2 := by
  decide

/-- C24, amended.  For an overheard source route with no repeated address in
which the IP source address of the overheard packet comes before this node, the
route `SendGratuitousReply` places in the reply is the overheard route with the
addresses between that source address and this node cut out: it has the first
and the last address of the overheard route, is not longer, and holds no
address twice.  `processSr` sends no other reply for an overheard packet, and
this one only when `ContainAddressAfter` holds for this node and no such reply
is on record. -/
theorem gratuitous_reply_shorter (mainAddress srcAddress destAddress : Ipv4Address)
    (findAndUpdate : Bool) (pre mid post nodeList : List Ipv4Address) (n : Node)
    (hnd : nodeList.Nodup)
    (hl : nodeList = pre ++ srcAddress :: (mid ++ mainAddress :: post)) :
    SendGratuitousReply.route mainAddress srcAddress nodeList =
      pre ++ srcAddress :: mainAddress :: post ∧
    (SendGratuitousReply.route mainAddress srcAddress nodeList).head? = nodeList.head? ∧
    (SendGratuitousReply.route mainAddress srcAddress nodeList).getLast? = nodeList.getLast? ∧
    (SendGratuitousReply.route mainAddress srcAddress nodeList).length ≤ nodeList.length ∧
    (SendGratuitousReply.route mainAddress srcAddress nodeList).Nodup ∧
    (∀ route nextHop, Call.SendReply route nextHop ∈
        n.since (processSr.shorten mainAddress findAndUpdate nodeList mainAddress srcAddress
          destAddress n) →
      route = SendGratuitousReply.route mainAddress srcAddress nodeList ∧
      nextHop = srcAddress ∧ ContainAddressAfter mainAddress destAddress nodeList = true ∧
      findAndUpdate = false) := by
  have hsrc : srcAddress ∉ pre := by
    rw [hl] at hnd
    have := (List.nodup_append.mp hnd).2.2
    intro hm
    exact this hm (List.mem_cons_self _ _)
  have hl2 : nodeList = (pre ++ srcAddress :: mid) ++ mainAddress :: post := by
    rw [hl]
    simp
  have hmain : mainAddress ∉ pre ++ srcAddress :: mid := by
    rw [hl2] at hnd
    have := (List.nodup_append.mp hnd).2.2
    intro hm
    exact this hm (List.mem_cons_self _ _)
  have hroute : SendGratuitousReply.route mainAddress srcAddress nodeList =
      pre ++ srcAddress :: mainAddress :: post := by
    unfold SendGratuitousReply.route
    rw [show SendGratuitousReply.before srcAddress nodeList = pre from by
        rw [hl]; exact SendGratuitousReply_before_append _ _ pre hsrc,
      show CutRoute mainAddress nodeList = mainAddress :: post from by
        rw [hl2]; exact CutRoute_append _ _ _ hmain]
    simp
  have hsub : List.Sublist (pre ++ srcAddress :: mainAddress :: post) nodeList := by
    rw [hl]
    exact List.Sublist.append (List.Sublist.refl pre)
      (List.Sublist.cons₂ srcAddress (List.sublist_append_right mid (mainAddress :: post)))
  refine ⟨hroute, ?_, ?_, ?_, ?_, ?_⟩
  · rw [hroute, hl]
    cases pre <;> rfl
  · rw [hroute, hl2]
    rw [show pre ++ srcAddress :: mainAddress :: post =
      (pre ++ [srcAddress]) ++ mainAddress :: post from by simp]
    rw [getLast?_append_cons, getLast?_append_cons]
  · rw [hroute]
    exact hsub.length_le
  · rw [hroute]
    exact hnd.sublist hsub
  · intro route nextHop hm
    unfold processSr.shorten at hm
    by_cases hc : ContainAddressAfter mainAddress destAddress nodeList = true
    · rw [if_pos hc] at hm
      unfold SendGratuitousReply at hm
      by_cases hf : findAndUpdate = false
      · rw [if_pos hf] at hm
        simp only [Node.since, Node.call, List.drop_left, List.append_assoc, List.mem_append,
          List.mem_singleton, List.mem_cons, List.not_mem_nil, or_false] at hm
        rcases hm with hm | hm
        · exact Call.noConfusion hm
        · simp only [Call.SendReply.injEq] at hm
          exact ⟨hm.1, hm.2, hc, hf⟩
      · rw [if_neg hf] at hm
        simp [Node.since] at hm
    · rw [if_neg hc] at hm
      simp [Node.since] at hm

/-- Witness of C24 amended: node `3` overhears the packet of `1` along
`[1, 2, 3, 4]` on its way to `2` and replies with `[1, 3, 4]`. -/
theorem gratuitous_reply_shorter_witness :
    SendGratuitousReply.route 3 1 [1, 2, 3, 4] = [] ++ 1 :: 3 :: [4] ∧
    (SendGratuitousReply.route 3 1 [1, 2, 3, 4]).head? = [1, 2, 3, 4].head? ∧
    (SendGratuitousReply.route 3 1 [1, 2, 3, 4]).getLast? = [1, 2, 3, 4].getLast? ∧
    (SendGratuitousReply.route 3 1 [1, 2, 3, 4]).length ≤ [1, 2, 3, 4].length ∧
    (SendGratuitousReply.route 3 1 [1, 2, 3, 4]).Nodup ∧
    (∀ route nextHop, Call.SendReply route nextHop ∈
        Node.init.since (processSr.shorten 3 false [1, 2, 3, 4] 3 1 2 Node.init) →
      route = SendGratuitousReply.route 3 1 [1, 2, 3, 4] ∧
      nextHop = 1 ∧ ContainAddressAfter 3 2 [1, 2, 3, 4] = true ∧ false = false) :=
  gratuitous_reply_shorter 3 1 2 false [] [2] [4] [1, 2, 3, 4] Node.init (by decide) rfl
/-! ### C25: a malformed source route is acknowledged before it is dropped -/

/-- C25 fails on the code.  Node `2` receives, not promiscuously, a source
route option with three addresses and segments-left 5: `processSr` ends in
"Malformed header. Drop!", but before that it has set the route to the previous
hop `1` and sent it the flag-1 acknowledgment of the packet. -/
theorem malformed_source_route_is_acknowledged :
    exampleMalformed.segsLeft > exampleMalformed.numberAddress ∧
    processSr false exampleMalformed 2 3 false = some SrOutcome.malformedDrop ∧
    (processSr.acknowledge false 2 7 exampleMalformed 2 Node.init).map (fun r => (r.1, r.2.trace))
      = some (true, [Call.SetRoute 1 2, Call.SendAck 7 1 1 3 [1, 2, 3] 1 1 2]) := by
  decide

/-- What holds of C25: a source route option whose segments-left exceeds its
address count, received non-promiscuously by a node that is not a black hole,
is never delivered or forwarded: if `processSr` returns, it drops the packet as
malformed; and the acknowledgment with flag 1 has been sent whenever the
acknowledgment step returns. -/
theorem malformed_source_route_outcome (rx : SrReceived) (ipv4Address destAddress : Ipv4Address)
    (hm : rx.segsLeft > rx.numberAddress) :
    (∀ o, processSr false rx ipv4Address destAddress false = some o →
      o = SrOutcome.malformedDrop) ∧
    (∀ mainAddress uid n b n1,
      processSr.acknowledge false mainAddress uid rx ipv4Address n = some (b, n1) →
      ∃ ackAddress realSrc realDestination,
        Call.SendAck (uid % 2 ^ 16) ackAddress realSrc realDestination rx.nodeList 1 ackAddress
          mainAddress ∈ n.since n1) := by
  constructor
  · intro o h
    unfold processSr at h
    split at h
    · simp only [Bool.false_eq_true, if_false] at h
      split at h
      · simp at h
      · have h0 : rx.segsLeft ≠ 0 := by omega
        split_ifs at h
        all_goals exact (Option.some.inj h).symm
    · simp at h
  · intro mainAddress uid n b n1 h
    unfold processSr.acknowledge at h
    simp only [Bool.false_eq_true, if_false] at h
    split at h
    · rename_i realSrc realDestination ackAddress _ _ _
      refine ⟨ackAddress, realSrc, realDestination, ?_⟩
      have hmem : ∀ m : Node, (∃ l, m.trace = n.trace ++ Call.SetRoute ackAddress ipv4Address ::
          Call.SendAck (uid % 2 ^ 16) ackAddress realSrc realDestination rx.nodeList 1 ackAddress
            mainAddress :: l) →
          Call.SendAck (uid % 2 ^ 16) ackAddress realSrc realDestination rx.nodeList 1 ackAddress
            mainAddress ∈ n.since m := by
        rintro m ⟨l, hl⟩
        unfold Node.since
        rw [hl, List.drop_left]
        simp
      split at h
      · simp at h
      · rename_i n4 hn3
        have h4 : ∃ l, n4.trace = n.trace ++ Call.SetRoute ackAddress ipv4Address ::
            Call.SendAck (uid % 2 ^ 16) ackAddress realSrc realDestination rx.nodeList 1 ackAddress
              mainAddress :: l := by
          split at hn3
          · split at hn3
            · simp at hn3
            · split at hn3
              · simp only [Option.some.injEq] at hn3
                subst hn3
                exact ⟨_, by simp [Node.call]; rfl⟩
              · simp only [Option.some.injEq] at hn3
                subst hn3
                exact ⟨[], by simp [Node.call]⟩
          · simp only [Option.some.injEq] at hn3
            subst hn3
            exact ⟨[], by simp [Node.call]⟩
        obtain ⟨l, hl⟩ := h4
        split at h
        · simp only [Option.some.injEq, Prod.mk.injEq] at h
          obtain ⟨_, h⟩ := h
          subst h
          exact hmem _ ⟨l ++ [Call.SetRoute ackAddress ipv4Address,
            Call.SendAck (uid % 2 ^ 16) ackAddress realSrc realDestination rx.nodeList rx.ackFlag
              realSrc ipv4Address], by simp [Node.call, hl]⟩
        · simp only [Option.some.injEq, Prod.mk.injEq] at h
          obtain ⟨_, h⟩ := h
          subst h
          exact hmem _ ⟨l, hl⟩
    · simp at h

/-! ### C28: the two-hop lookup at the first hop -/

theorem ReverseSearchNextTwoHop_loop_index (L : List Ipv4Address) (hnd : L.Nodup) :
    ∀ (k : Nat) (a : Ipv4Address), L[k]? = some a →
      ReverseSearchNextTwoHop.loop a L = L[k + 2]? := by
  induction L with
  | nil => intro k a h; simp at h
  | cons x rest ih =>
    intro k a h
    rw [List.nodup_cons] at hnd
    cases k with
    | zero =>
      simp only [List.getElem?_cons_zero, Option.some.injEq] at h
      subst h
      simp [ReverseSearchNextTwoHop.loop]
    | succ j =>
      simp only [List.getElem?_cons_succ] at h
      have hmem : a ∈ rest := List.getElem?_mem h
      have hx : a ≠ x := fun e => hnd.1 (e ▸ hmem)
      simp [ReverseSearchNextTwoHop.loop, hx, ih hnd.2 j a h]

/-- What holds of C28: on a route with no repeated address and more than two
addresses, the two-hop lookup of the node at index `i` reads the address at
index `i - 2` when `i ≥ 2`, and reads before the start of the list when `i` is 0
or 1. -/
theorem ReverseSearchNextTwoHop_index (vec : List Ipv4Address) (hnd : vec.Nodup)
    (hlen : 2 < vec.length) (i : Nat) (a : Ipv4Address) (hi : vec[i]? = some a) :
    ReverseSearchNextTwoHop a vec = if 2 ≤ i then vec[i - 2]? else none := by
  have hilt : i < vec.length := by
    by_contra hc
    rw [List.getElem?_eq_none (by omega)] at hi
    simp at hi
  unfold ReverseSearchNextTwoHop
  rw [if_pos hlen]
  have hrev : vec.reverse[vec.length - 1 - i]? = some a := by
    rw [List.getElem?_reverse (by omega)]
    have : vec.length - 1 - (vec.length - 1 - i) = i := by omega
    rw [this]
    exact hi
  rw [ReverseSearchNextTwoHop_loop_index vec.reverse (List.nodup_reverse.mpr hnd) _ a hrev]
  by_cases h2 : 2 ≤ i
  · rw [if_pos h2, List.getElem?_reverse (by omega)]
    congr 1
    omega
  · rw [if_neg h2]
    exact List.getElem?_eq_none (by rw [List.length_reverse]; omega)

/-- C28 fails on the code at the first hop.  For the node `2` at index 1 of the
route `[1, 2, 3]` the two-hop lookup that `processSr` makes for a data packet
with acknowledgment flag 2 reads before the start of the node list; so does the
lookup `processAck` makes at the node `2` of the route `[1, 2, 3, 4]` for the
flag-2 acknowledgment that the destination `4` addressed to it.  The node at
index 2 reads index 0. -/
theorem two_hop_lookup_before_start_at_first_hop :
    [1, 2, 3][1]? = some 2 ∧ ReverseSearchNextTwoHop 2 [1, 2, 3] = none ∧
    exampleRetransmitted.ackFlag = 2 ∧ exampleRetransmitted.nodeList = [1, 2, 3] ∧
    (processSr.acknowledge false 2 7 exampleRetransmitted 2 Node.init).isSome = false ∧
    processSr false exampleRetransmitted 2 3 false = none ∧
    exampleAckFrom4.targetDst = 2 ∧ exampleAckFrom4.realSrc ≠ 2 ∧
    ReverseSearchNextTwoHop 2 exampleAckFrom4.nodeList = none ∧
    (processAck exampleAckFrom4 2 Node.init).isSome = false ∧
    ReverseSearchNextTwoHop 3 [1, 2, 3] = some 1 := by
  decide

/-! ### C26: the round trip of the source route option -/

/-- Whatever the length byte, a receiver reserves room for at most 63
addresses. -/
theorem numberAddressOf_le (lengthByte : Nat) (h : lengthByte < 2 ^ 8) :
    numberAddressOf lengthByte ≤ 63 := by
  unfold numberAddressOf
  omega

/-- C26 as stated fails from 64 addresses on: the length of an option carrying
64 addresses does not fit the length byte (it reads 2), the receiver computes
the address count 0 from it and obtains no address. -/
theorem source_route_of_64_addresses_not_recovered :
    exampleLongOption.nodesAddress.length = 64 ∧
    (DsrOptionSRHeader.Serialize exampleLongOption).length = 2 ∧
    numberAddressOf (DsrOptionSRHeader.Serialize exampleLongOption).length = 0 ∧
    (processSr.removeHeader (DsrOptionSRHeader.Serialize exampleLongOption)).map
      SrOption.nodesAddress = some [] ∧
    processSr.removeHeader (DsrOptionSRHeader.Serialize exampleLongOption)
      ≠ some exampleLongOption := by
  decide

/-- C26, amended.  For every address count `k` with `0 ≤ k ≤ 63`, a source
route option carrying `k` addresses round-trips: the receiver recovers the
address count `k` from the one-byte length field as `(length - 2) / 4` and
obtains the same address list, segments-left, salvage, acknowledgment flag, send
count and time stamp. -/
theorem source_route_round_trip (h : SrOption) (hk : h.nodesAddress.length ≤ 63)
    (hseg : h.segmentsLeft < 2 ^ 8) (hsal : h.salvage < 2 ^ 8) (hack : h.ackFlag < 2 ^ 16)
    (htime : h.time < 2 ^ 64) :
    numberAddressOf (DsrOptionSRHeader.Serialize h).length = h.nodesAddress.length ∧
    processSr.removeHeader (DsrOptionSRHeader.Serialize h) = some h := by
  have hlen : numberAddressOf (DsrOptionSRHeader.Serialize h).length = h.nodesAddress.length := by
    unfold numberAddressOf DsrOptionSRHeader.Serialize
    simp only
    omega
  refine ⟨hlen, ?_⟩
  unfold processSr.removeHeader
  rw [hlen]
  unfold DsrOptionSRHeader.Deserialize DsrOptionSRHeader.Serialize
  simp only [Nat.lt_irrefl, if_false, List.take_length, Nat.mod_eq_of_lt hseg,
    Nat.mod_eq_of_lt hsal, Nat.mod_eq_of_lt hack, Nat.mod_eq_of_lt htime]

/-- Witness of C26 amended: the option of scenario A. -/
theorem source_route_round_trip_witness :
    numberAddressOf (DsrOptionSRHeader.Serialize exampleOption).length =
      exampleOption.nodesAddress.length ∧
    processSr.removeHeader (DsrOptionSRHeader.Serialize exampleOption) = some exampleOption :=
  source_route_round_trip exampleOption (by decide) (by decide) (by decide) (by decide)
    (by decide)

end Dsr
